import Mathlib

/-!
# SDK-85 emulator: CPU core, bus and peripherals

A shallow embedding of the C sources (`i8085.c`, `mem.c`, `i8155.c`, `i8279.c`, `main.c`)
and the properties of the emulator proved over it.

Conventions of the embedding:

* `uint8_t`, `uint16_t`, `uint64_t` are naturals below `2^8`, `2^16`, `2^64`; every operation
  computes on the underlying naturals (or integers, where C's `int` arithmetic can go negative)
  and reduces explicitly modulo `2^w` when the value is stored.
* The one-bit bit-fields of the flag and interrupt-mask unions are booleans; the byte views `f`
  and `im` of the unions are the packed bytes (`cy`/`m55` in bit 0, in declaration order).
* An array access whose index lies outside the array has no defined behaviour in C; the
  embedding returns `none` there, so every operation that reaches the bus is `Option`-valued.
-/

namespace SDK85

/-! ## Machine integers -/

abbrev uint8_t := Fin 256
abbrev uint16_t := Fin 65536
abbrev uint64_t := Fin 18446744073709551616

/-- Conversion of a natural to `uint8_t`: reduction modulo `2^8`. -/
def u8 (n : Nat) : uint8_t := ⟨n % 256, Nat.mod_lt _ (by decide)⟩

/-- Conversion of a natural to `uint16_t`: reduction modulo `2^16`. -/
def u16 (n : Nat) : uint16_t := ⟨n % 65536, Nat.mod_lt _ (by decide)⟩

/-- Conversion of a natural to `uint64_t`: reduction modulo `2^64`. -/
def u64 (n : Nat) : uint64_t := ⟨n % 18446744073709551616, Nat.mod_lt _ (by decide)⟩

/-- Conversion of a C `int` to `uint8_t`: reduction modulo `2^8`. -/
def u8i (z : Int) : uint8_t := ⟨(z % 256).toNat, by omega⟩

/-- Conversion of a C `int` to `uint16_t`: reduction modulo `2^16`. -/
def u16i (z : Int) : uint16_t := ⟨(z % 65536).toNat, by omega⟩

/-- Assignment of an integer to a one-bit unsigned bit-field: the low bit is kept. -/
def bit1 (z : Int) : Bool := decide (z % 2 = 1)

/-- The integer value (0 or 1) of a one-bit bit-field. -/
def b2n (b : Bool) : Nat := if b then 1 else 0

/-! ## CPU state (`i8085.h`) -/

/-- The `flag` view of the flag union: eight one-bit fields, `cy` first (bit 0). -/
structure flag_t where
  cy : Bool
  x1 : Bool
  p : Bool
  x2 : Bool
  ac : Bool
  x3 : Bool
  z : Bool
  s : Bool
deriving DecidableEq, Repr

/-- The `mask` view of the interrupt-mask union: eight one-bit fields, `m55` first (bit 0). -/
structure mask_t where
  m55 : Bool
  m65 : Bool
  m75 : Bool
  ie : Bool
  i55 : Bool
  i65 : Bool
  i75 : Bool
  sid : Bool
deriving DecidableEq, Repr

/-- The byte view `f` of the flag union. -/
def flag_t.f (x : flag_t) : uint8_t :=
  u8 (b2n x.cy + 2 * b2n x.x1 + 4 * b2n x.p + 8 * b2n x.x2 + 16 * b2n x.ac
    + 32 * b2n x.x3 + 64 * b2n x.z + 128 * b2n x.s)

/-- Writing the byte view `f` of the flag union sets all eight bit-fields. -/
def flag_t.of_f (v : uint8_t) : flag_t :=
  { cy := v.val % 2 = 1, x1 := v.val / 2 % 2 = 1, p := v.val / 4 % 2 = 1,
    x2 := v.val / 8 % 2 = 1, ac := v.val / 16 % 2 = 1, x3 := v.val / 32 % 2 = 1,
    z := v.val / 64 % 2 = 1, s := v.val / 128 % 2 = 1 }

/-- The byte view `im` of the interrupt-mask union. -/
def mask_t.im (x : mask_t) : uint8_t :=
  u8 (b2n x.m55 + 2 * b2n x.m65 + 4 * b2n x.m75 + 8 * b2n x.ie + 16 * b2n x.i55
    + 32 * b2n x.i65 + 64 * b2n x.i75 + 128 * b2n x.sid)

/-- The register file `i8085_t`. The pairs `bc`, `de`, `hl` of the unions are the views
`i8085_t.bc`, `i8085_t.de`, `i8085_t.hl` below (low byte first in memory). The pointer `io`
is kept in `machine_t`. -/
structure i8085_t where
  pc : uint16_t
  sp : uint16_t
  a : uint8_t
  flag : flag_t
  mask : mask_t
  c : uint8_t
  b : uint8_t
  e : uint8_t
  d : uint8_t
  l : uint8_t
  h : uint8_t
  sod : Bool
  halt : Bool
  cycles : uint64_t
deriving DecidableEq, Repr

/-- The 16-bit view `bc` of the `b`/`c` union. -/
def i8085_t.bc (cpu : i8085_t) : uint16_t := u16 (cpu.b.val * 256 + cpu.c.val)

/-- The 16-bit view `de` of the `d`/`e` union. -/
def i8085_t.de (cpu : i8085_t) : uint16_t := u16 (cpu.d.val * 256 + cpu.e.val)

/-- The 16-bit view `hl` of the `h`/`l` union. -/
def i8085_t.hl (cpu : i8085_t) : uint16_t := u16 (cpu.h.val * 256 + cpu.l.val)

/-- Assignment to the 16-bit view `bc`. -/
def i8085_t.set_bc (cpu : i8085_t) (v : uint16_t) : i8085_t :=
  { cpu with b := u8 (v.val / 256), c := u8 v.val }

/-- Assignment to the 16-bit view `de`. -/
def i8085_t.set_de (cpu : i8085_t) (v : uint16_t) : i8085_t :=
  { cpu with d := u8 (v.val / 256), e := u8 v.val }

/-- Assignment to the 16-bit view `hl`. -/
def i8085_t.set_hl (cpu : i8085_t) (v : uint16_t) : i8085_t :=
  { cpu with h := u8 (v.val / 256), l := u8 v.val }

/-! ## Arithmetic and logic helpers (`i8085.c`) -/

/-- Function `parity_even`: folds the byte by xor and returns the complement of the low bit. -/
def parity_even (value : uint8_t) : Bool :=
  let v1 := value.val ^^^ (value.val >>> 4)
  let v2 := v1 ^^^ (v1 >>> 2)
  let v3 := v2 ^^^ (v2 >>> 1)
  decide (v3 % 2 = 0)

/-- Function `i8085_add`. -/
def i8085_add (cpu : i8085_t) (value : uint8_t) : i8085_t :=
  let result : uint16_t := u16 (cpu.a.val + value.val)
  let ac := bit1 (((cpu.a.val &&& 0xF) + (value.val &&& 0xF)) >>> 4 : Nat)
  let p := ((cpu.a.val &&& 0x80) == (value.val &&& 0x80)) &&
           ((value.val &&& 0x80) != (result.val &&& 0x80))
  let cy := bit1 (result.val >>> 8 : Nat)
  let a := u8 result.val
  { cpu with a := a
             flag := { cpu.flag with ac := ac, p := p, cy := cy,
                                     s := bit1 (a.val >>> 7 : Nat), z := a.val == 0 } }

/-- Function `i8085_adc`. -/
def i8085_adc (cpu : i8085_t) (value : uint8_t) : i8085_t :=
  let result : uint16_t := u16 (cpu.a.val + value.val + b2n cpu.flag.cy)
  let ac := bit1 ((((cpu.a.val &&& 0xF) + (value.val &&& 0xF)) + b2n cpu.flag.cy) >>> 4 : Nat)
  let p := ((cpu.a.val &&& 0x80) == (value.val &&& 0x80)) &&
           ((value.val &&& 0x80) != (result.val &&& 0x80))
  let cy := bit1 (result.val >>> 8 : Nat)
  let a := u8 result.val
  { cpu with a := a
             flag := { cpu.flag with ac := ac, p := p, cy := cy,
                                     s := bit1 (a.val >>> 7 : Nat), z := a.val == 0 } }

/-- Function `i8085_sub`: `a - value` is computed in `int` and converted to `uint16_t`; the shift of
the (possibly negative) nibble difference is arithmetic. -/
def i8085_sub (cpu : i8085_t) (value : uint8_t) : i8085_t :=
  let result : uint16_t := u16i ((cpu.a.val : Int) - value.val)
  let ac := bit1 ((((cpu.a.val &&& 0xF : Nat) : Int) - ((value.val &&& 0xF : Nat) : Int)) / 16)
  let p := ((cpu.a.val &&& 0x80) != (value.val &&& 0x80)) &&
           ((value.val &&& 0x80) == (result.val &&& 0x80))
  let cy := bit1 (result.val >>> 8 : Nat)
  let a := u8 result.val
  { cpu with a := a
             flag := { cpu.flag with ac := ac, p := p, cy := cy,
                                     s := bit1 (a.val >>> 7 : Nat), z := a.val == 0 } }

/-- Function `i8085_sbb`. -/
def i8085_sbb (cpu : i8085_t) (value : uint8_t) : i8085_t :=
  let result : uint16_t := u16i ((cpu.a.val : Int) - value.val - b2n cpu.flag.cy)
  let ac := bit1 (((((cpu.a.val &&& 0xF : Nat) : Int) - ((value.val &&& 0xF : Nat) : Int))
                    - b2n cpu.flag.cy) / 16)
  let p := ((cpu.a.val &&& 0x80) != (value.val &&& 0x80)) &&
           ((value.val &&& 0x80) == (result.val &&& 0x80))
  let cy := bit1 (result.val >>> 8 : Nat)
  let a := u8 result.val
  { cpu with a := a
             flag := { cpu.flag with ac := ac, p := p, cy := cy,
                                     s := bit1 (a.val >>> 7 : Nat), z := a.val == 0 } }

/-- Function `i8085_ana`. -/
def i8085_ana (cpu : i8085_t) (value : uint8_t) : i8085_t :=
  let a := u8 (cpu.a.val &&& value.val)
  { cpu with a := a
             flag := { cpu.flag with s := bit1 (a.val >>> 7 : Nat), z := a.val == 0, ac := true,
                                     p := parity_even a, cy := false } }

/-- Function `i8085_xra`. -/
def i8085_xra (cpu : i8085_t) (value : uint8_t) : i8085_t :=
  let a := u8 (cpu.a.val ^^^ value.val)
  { cpu with a := a
             flag := { cpu.flag with s := bit1 (a.val >>> 7 : Nat), z := a.val == 0, ac := false,
                                     p := parity_even a, cy := false } }

/-- Function `i8085_ora`. -/
def i8085_ora (cpu : i8085_t) (value : uint8_t) : i8085_t :=
  let a := u8 (cpu.a.val ||| value.val)
  { cpu with a := a
             flag := { cpu.flag with s := bit1 (a.val >>> 7 : Nat), z := a.val == 0, ac := false,
                                     p := parity_even a, cy := false } }

/-- Function `i8085_cmp`: as `i8085_sub`, but `a` is kept and `s`, `z` are taken from the 16-bit
`result`. -/
def i8085_cmp (cpu : i8085_t) (value : uint8_t) : i8085_t :=
  let result : uint16_t := u16i ((cpu.a.val : Int) - value.val)
  let ac := bit1 ((((cpu.a.val &&& 0xF : Nat) : Int) - ((value.val &&& 0xF : Nat) : Int)) / 16)
  let p := ((cpu.a.val &&& 0x80) != (value.val &&& 0x80)) &&
           ((value.val &&& 0x80) == (result.val &&& 0x80))
  let cy := bit1 (result.val >>> 8 : Nat)
  { cpu with flag := { cpu.flag with ac := ac, p := p, cy := cy,
                                     s := bit1 (result.val >>> 7 : Nat), z := result.val == 0 } }

/-- Function `i8085_inr`: returns the incremented value together with the updated flags. -/
def i8085_inr (cpu : i8085_t) (value : uint8_t) : uint8_t × i8085_t :=
  let value := u8 (value.val + 1)
  (value,
   { cpu with flag := { cpu.flag with z := value.val == 0, s := bit1 (value.val >>> 7 : Nat),
                                      p := ((value.val : Int) - 1) == 0x7F,
                                      ac := (value.val &&& 0xF) == 0 } })

/-- Function `i8085_dcr`: returns the decremented value together with the updated flags. -/
def i8085_dcr (cpu : i8085_t) (value : uint8_t) : uint8_t × i8085_t :=
  let value := u8i ((value.val : Int) - 1)
  (value,
   { cpu with flag := { cpu.flag with z := value.val == 0, s := bit1 (value.val >>> 7 : Nat),
                                      p := (value.val + 1) == 0x80,
                                      ac := ((value.val + 1) &&& 0xF) == 0 } })

/-! ## 8279 keyboard/display controller (`i8279.h`, `i8279.c`)

Only the register model reached over the bus is embedded; the curses drawing done by
`i8279_update` has no effect on the state and is left out. -/

abbrev I8279_DISPLAY_RAM_MAX : Nat := 16

/-- C `unsigned int` (32 bits). -/
abbrev c_uint := Fin 4294967296

/-- Conversion of a natural to `unsigned int`: reduction modulo `2^32`. -/
def u32 (n : Nat) : c_uint := ⟨n % 4294967296, Nat.mod_lt _ (by decide)⟩

structure i8279_t where
  keyboard_fifo : uint8_t
  status_word : uint8_t
  display_ram : Fin I8279_DISPLAY_RAM_MAX → uint8_t
  display_ram_index : c_uint
  display_ram_limit : c_uint
  auto_increment : Bool

/-- `i8279_display_data_write`; `none` when `display_ram_index` is outside the array. -/
def i8279_display_data_write (i8279 : i8279_t) (value : uint8_t) : Option i8279_t :=
  if h : i8279.display_ram_index.val < I8279_DISPLAY_RAM_MAX then
    let d1 : i8279_t :=
      { i8279 with display_ram := fun i =>
          if i = ⟨i8279.display_ram_index.val, h⟩ then value else i8279.display_ram i }
    if d1.auto_increment then
      let d2 : i8279_t := { d1 with display_ram_index := u32 (d1.display_ram_index.val + 1) }
      if d2.display_ram_index.val ≥ d2.display_ram_limit.val then
        some { d2 with display_ram_index := 0 }
      else some d2
    else some d1
  else none

/-- Function `i8279_command_word_write`. -/
def i8279_command_word_write (i8279 : i8279_t) (value : uint8_t) : i8279_t :=
  match (value.val >>> 5) &&& 0b111 with
  | 0b000 =>
    if (value.val >>> 3) &&& 1 = 0 then { i8279 with display_ram_limit := 8 }
    else { i8279 with display_ram_limit := 16 }
  | 0b100 =>
    { i8279 with auto_increment := decide ((value.val >>> 4) &&& 1 = 1),
                 display_ram_index := u32 (value.val &&& 0b1111) }
  | 0b110 =>
    if (value.val >>> 2) &&& 0b11 = 0b11 then { i8279 with display_ram := fun _ => 0xFF }
    else i8279
  | _ => i8279

/-! ## Bus (`mem.h`, `mem.c`) -/

abbrev MEM_ROM_MAX : Nat := 0x1000
abbrev MEM_RAM_MAX : Nat := 0x100
abbrev MEM_I8279_KEYBOARD_FIFO : Nat := 0x1800
abbrev MEM_I8279_DISPLAY_DATA : Nat := 0x1800
abbrev MEM_I8279_STATUS : Nat := 0x1900
abbrev MEM_I8279_COMMAND : Nat := 0x1900

/-- The functions of type `mem_read_hook_t` in the program; a hook slot holds one of them
or `NULL` (`none`). -/
inductive mem_read_hook_t where
  | i8279_read_hook
deriving DecidableEq, Repr

/-- The functions of type `mem_write_hook_t` in the program. -/
inductive mem_write_hook_t where
  | i8279_write_hook
deriving DecidableEq, Repr

/-- The bus state `mem_t`. The cookie `i8279` is the controller it points to, or `none` for
`NULL`. -/
structure mem_t where
  rom : Fin MEM_ROM_MAX → uint8_t
  ram : Fin MEM_RAM_MAX → uint8_t
  exp : Fin MEM_RAM_MAX → uint8_t
  i8279_read : Option mem_read_hook_t
  i8279_write : Option mem_write_hook_t
  i8279 : Option i8279_t

/-- Function `i8279_read_hook`: the returned byte and the controller after the call. -/
def i8279_read_hook (i8279 : i8279_t) (address : uint16_t) : uint8_t × i8279_t :=
  if address.val = MEM_I8279_KEYBOARD_FIFO then
    (i8279.keyboard_fifo, { i8279 with status_word := 0x00 })
  else if address.val = MEM_I8279_STATUS then
    (i8279.status_word, i8279)
  else (0, i8279)

/-- Function `i8279_write_hook`. -/
def i8279_write_hook (i8279 : i8279_t) (address : uint16_t) (value : uint8_t) :
    Option i8279_t :=
  if address.val = MEM_I8279_DISPLAY_DATA then i8279_display_data_write i8279 value
  else if address.val = MEM_I8279_COMMAND then some (i8279_command_word_write i8279 value)
  else some i8279

/-- Call through a read hook slot. -/
def mem_read_hook_t.call : mem_read_hook_t → i8279_t → uint16_t → uint8_t × i8279_t
  | .i8279_read_hook => SDK85.i8279_read_hook

/-- Call through a write hook slot. -/
def mem_write_hook_t.call : mem_write_hook_t → i8279_t → uint16_t → uint8_t → Option i8279_t
  | .i8279_write_hook => SDK85.i8279_write_hook

/-- Function `mem_init`. -/
def mem_init (mem : mem_t) : mem_t :=
  { mem with rom := fun _ => 0xFF, ram := fun _ => 0x00,
             i8279_read := none, i8279_write := none, i8279 := none }

/-- Function `mem_read`: the byte read and the bus state after the read (a read of the keyboard FIFO
through the hook changes the controller). The result is `none` when `address - 0x1000` is
not an index of `ram`. -/
def mem_read (mem : mem_t) (address : uint16_t) : Option (uint8_t × mem_t) :=
  if h : address.val < 0x1000 then
    some (mem.rom ⟨address.val, h⟩, mem)
  else
    if address.val = MEM_I8279_KEYBOARD_FIFO ∨ address.val = MEM_I8279_STATUS then
      match mem.i8279_read, mem.i8279 with
      | some hook, some i8279 =>
        some ((hook.call i8279 address).1, { mem with i8279 := some (hook.call i8279 address).2 })
      | _, _ => some (0xFF, mem)
    else
      if h2 : address.val - 0x1000 < MEM_RAM_MAX then
        some (mem.ram ⟨address.val - 0x1000, h2⟩, mem)
      else none

/-- Function `mem_write`: the bus state after the write. The result is `none` when `address - 0x1000`
is not an index of `ram` (or the controller indexes its display RAM out of range). -/
def mem_write (mem : mem_t) (address : uint16_t) (value : uint8_t) : Option mem_t :=
  if address.val ≥ 0x1000 then
    if address.val = MEM_I8279_DISPLAY_DATA ∨ address.val = MEM_I8279_COMMAND then
      match mem.i8279_write, mem.i8279 with
      | some hook, some i8279 =>
        (hook.call i8279 address value).map fun i8279' => { mem with i8279 := some i8279' }
      | _, _ => some mem
    else
      if h2 : address.val - 0x1000 < MEM_RAM_MAX then
        some { mem with ram := fun i =>
                 if i = ⟨address.val - 0x1000, h2⟩ then value else mem.ram i }
      else none
  else some mem

/-! ## 8155 timer (`i8155.h`, `i8155.c`) -/

abbrev I8155_COMMAND : Nat := 0x20
abbrev I8155_TIMER_LOW : Nat := 0x24
abbrev I8155_TIMER_HIGH : Nat := 0x25

structure i8155_t where
  catchup_cycles : uint64_t
  timer : uint16_t
  timer_running : Bool
  trap : Bool
deriving DecidableEq, Repr

/-- Function `i8155_write`. -/
def i8155_write (i8155 : i8155_t) (port : uint8_t) (value : uint8_t) : i8155_t :=
  if port.val = I8155_COMMAND then
    if value.val >>> 6 = 0b01 then { i8155 with timer_running := false }
    else if value.val >>> 6 = 0b11 then { i8155 with timer_running := true }
    else i8155
  else if port.val = I8155_TIMER_LOW then
    let t1 : uint16_t := u16 (i8155.timer.val &&& 0xFF00)
    { i8155 with timer := u16 (t1.val ||| value.val) }
  else if port.val = I8155_TIMER_HIGH then
    let t1 : uint16_t := u16 (i8155.timer.val &&& 0x00FF)
    { i8155 with timer := u16 (t1.val ||| ((value.val <<< 8) &&& 0x3F)) }
  else i8155

/-! ## I/O ports (`io.h`) -/

/-- The functions of the read-hook type of `io.h` in the program: there is none. -/
inductive io_read_func_t where

/-- The functions of the write-hook type of `io.h` in the program. The cookie registered
with `i8155_write` is always the timer of the machine. -/
inductive io_write_func_t where
  | i8155_write
deriving DecidableEq, Repr

/-- The port table `io_t`: per port a read hook and a write hook, `none` for an unbound
slot. -/
structure io_t where
  read : uint8_t → Option io_read_func_t
  write : uint8_t → Option io_write_func_t

/-! ## The machine

`main.c` keeps the CPU, the bus, the port table and the timer as module-level singletons
and reports a panic through `debugger_break` and `panic_msg`; the handlers reach the port
table through `cpu->io`. The record below gathers them. -/

structure machine_t where
  cpu : i8085_t
  mem : mem_t
  io : io_t
  i8155 : i8155_t
  debugger_break : Bool
  /-- The opcode formatted into `panic_msg`; `none` for the empty message. -/
  panic_msg : Option uint8_t

/-- The call `panic("Panic! Unhandled opcode: 0x%02X\n", opcode)` of `main.c`. -/
def panic (s : machine_t) (opcode : uint8_t) : machine_t :=
  { s with panic_msg := some opcode, debugger_break := true }

/-- Modelled from the spec: `io_read` of `io.c`, which is not among the sources. `IN`
dispatches through the port table; an unbound port reads `0xFF`. -/
def io_read (s : machine_t) (port : uint8_t) : uint8_t × machine_t :=
  match s.io.read port with
  | none => (0xFF, s)
  | some f => nomatch f

/-- Modelled from the spec: `io_write` of `io.c`, which is not among the sources. `OUT`
dispatches through the port table; a write to an unbound port is dropped. -/
def io_write (s : machine_t) (port : uint8_t) (value : uint8_t) : machine_t :=
  match s.io.write port with
  | none => s
  | some .i8155_write => { s with i8155 := i8155_write s.i8155 port value }

/-- The call `mem_read(mem, address)` made by the CPU. -/
def machine_t.read (s : machine_t) (address : uint16_t) : Option (uint8_t × machine_t) :=
  match mem_read s.mem address with
  | some (v, mem) => some (v, { s with mem := mem })
  | none => none

/-- The call `mem_write(mem, address, value)` made by the CPU. -/
def machine_t.write (s : machine_t) (address : uint16_t) (value : uint8_t) :
    Option machine_t :=
  match mem_write s.mem address value with
  | some mem => some { s with mem := mem }
  | none => none

/-- The expression `mem_read(mem, cpu->pc++)`. -/
def machine_t.read_pc_inc (s : machine_t) : Option (uint8_t × machine_t) :=
  match s.read s.cpu.pc with
  | some (v, s1) => some (v, { s1 with cpu := { s1.cpu with pc := u16 (s1.cpu.pc.val + 1) } })
  | none => none

/-- The expression `mem_read(mem, cpu->sp++)`. -/
def machine_t.read_sp_inc (s : machine_t) : Option (uint8_t × machine_t) :=
  match s.read s.cpu.sp with
  | some (v, s1) => some (v, { s1 with cpu := { s1.cpu with sp := u16 (s1.cpu.sp.val + 1) } })
  | none => none

/-- The statement `mem_write(mem, --cpu->sp, value)`. -/
def machine_t.write_dec_sp (s : machine_t) (value : uint8_t) : Option machine_t :=
  let s1 : machine_t := { s with cpu := { s.cpu with sp := u16i ((s.cpu.sp.val : Int) - 1) } }
  s1.write s1.cpu.sp value

/-- A `mem_read(mem, address)` evaluated as an argument of `i8085_trace`. The trace ring
buffer itself is not part of the state; the bus read is. -/
def machine_t.trace_read (s : machine_t) (address : uint16_t) : Option machine_t :=
  match s.read address with
  | some (_, s1) => some s1
  | none => none

/-! ## Opcode handlers (`i8085.c`)

A handler takes the machine after the opcode fetch and returns the machine after the
instruction, or `none` when a bus access of the instruction falls outside the arrays. -/

/-- Handler `op_aci`. -/
def op_aci (s : machine_t) : Option machine_t := do
  let s ← s.trace_read s.cpu.pc
  let (v, s) ← s.read_pc_inc
  let s : machine_t := { s with cpu := i8085_adc s.cpu v }
  pure s

/-- Handler `op_adc_a`. -/
def op_adc_a (s : machine_t) : Option machine_t := do
  let s : machine_t := { s with cpu := i8085_adc s.cpu s.cpu.a }
  pure s

/-- Handler `op_adc_b`. -/
def op_adc_b (s : machine_t) : Option machine_t := do
  let s : machine_t := { s with cpu := i8085_adc s.cpu s.cpu.b }
  pure s

/-- Handler `op_adc_c`. -/
def op_adc_c (s : machine_t) : Option machine_t := do
  let s : machine_t := { s with cpu := i8085_adc s.cpu s.cpu.c }
  pure s

/-- Handler `op_adc_d`. -/
def op_adc_d (s : machine_t) : Option machine_t := do
  let s : machine_t := { s with cpu := i8085_adc s.cpu s.cpu.d }
  pure s

/-- Handler `op_adc_e`. -/
def op_adc_e (s : machine_t) : Option machine_t := do
  let s : machine_t := { s with cpu := i8085_adc s.cpu s.cpu.e }
  pure s

/-- Handler `op_adc_h`. -/
def op_adc_h (s : machine_t) : Option machine_t := do
  let s : machine_t := { s with cpu := i8085_adc s.cpu s.cpu.h }
  pure s

/-- Handler `op_adc_l`. -/
def op_adc_l (s : machine_t) : Option machine_t := do
  let s : machine_t := { s with cpu := i8085_adc s.cpu s.cpu.l }
  pure s

/-- Handler `op_adc_m`. -/
def op_adc_m (s : machine_t) : Option machine_t := do
  let address : uint16_t := u16 s.cpu.l.val
  let address : uint16_t := u16 (address.val + s.cpu.h.val * 0x100)
  let (v, s) ← s.read address
  let s : machine_t := { s with cpu := i8085_adc s.cpu v }
  pure s

/-- Handler `op_add_a`. -/
def op_add_a (s : machine_t) : Option machine_t := do
  let s : machine_t := { s with cpu := i8085_add s.cpu s.cpu.a }
  pure s

/-- Handler `op_add_b`. -/
def op_add_b (s : machine_t) : Option machine_t := do
  let s : machine_t := { s with cpu := i8085_add s.cpu s.cpu.b }
  pure s

/-- Handler `op_add_c`. -/
def op_add_c (s : machine_t) : Option machine_t := do
  let s : machine_t := { s with cpu := i8085_add s.cpu s.cpu.c }
  pure s

/-- Handler `op_add_d`. -/
def op_add_d (s : machine_t) : Option machine_t := do
  let s : machine_t := { s with cpu := i8085_add s.cpu s.cpu.d }
  pure s

/-- Handler `op_add_e`. -/
def op_add_e (s : machine_t) : Option machine_t := do
  let s : machine_t := { s with cpu := i8085_add s.cpu s.cpu.e }
  pure s

/-- Handler `op_add_h`. -/
def op_add_h (s : machine_t) : Option machine_t := do
  let s : machine_t := { s with cpu := i8085_add s.cpu s.cpu.h }
  pure s

/-- Handler `op_add_l`. -/
def op_add_l (s : machine_t) : Option machine_t := do
  let s : machine_t := { s with cpu := i8085_add s.cpu s.cpu.l }
  pure s

/-- Handler `op_add_m`. -/
def op_add_m (s : machine_t) : Option machine_t := do
  let address : uint16_t := u16 s.cpu.l.val
  let address : uint16_t := u16 (address.val + s.cpu.h.val * 0x100)
  let (v, s) ← s.read address
  let s : machine_t := { s with cpu := i8085_add s.cpu v }
  pure s

/-- Handler `op_adi`. -/
def op_adi (s : machine_t) : Option machine_t := do
  let s ← s.trace_read s.cpu.pc
  let (v, s) ← s.read_pc_inc
  let s : machine_t := { s with cpu := i8085_add s.cpu v }
  pure s

/-- Handler `op_ana_a`. -/
def op_ana_a (s : machine_t) : Option machine_t := do
  let s : machine_t := { s with cpu := i8085_ana s.cpu s.cpu.a }
  pure s

/-- Handler `op_ana_b`. -/
def op_ana_b (s : machine_t) : Option machine_t := do
  let s : machine_t := { s with cpu := i8085_ana s.cpu s.cpu.b }
  pure s

/-- Handler `op_ana_c`. -/
def op_ana_c (s : machine_t) : Option machine_t := do
  let s : machine_t := { s with cpu := i8085_ana s.cpu s.cpu.c }
  pure s

/-- Handler `op_ana_d`. -/
def op_ana_d (s : machine_t) : Option machine_t := do
  let s : machine_t := { s with cpu := i8085_ana s.cpu s.cpu.d }
  pure s

/-- Handler `op_ana_e`. -/
def op_ana_e (s : machine_t) : Option machine_t := do
  let s : machine_t := { s with cpu := i8085_ana s.cpu s.cpu.e }
  pure s

/-- Handler `op_ana_h`. -/
def op_ana_h (s : machine_t) : Option machine_t := do
  let s : machine_t := { s with cpu := i8085_ana s.cpu s.cpu.h }
  pure s

/-- Handler `op_ana_l`. -/
def op_ana_l (s : machine_t) : Option machine_t := do
  let s : machine_t := { s with cpu := i8085_ana s.cpu s.cpu.l }
  pure s

/-- Handler `op_ana_m`. -/
def op_ana_m (s : machine_t) : Option machine_t := do
  let address : uint16_t := u16 s.cpu.l.val
  let address : uint16_t := u16 (address.val + s.cpu.h.val * 0x100)
  let (v, s) ← s.read address
  let s : machine_t := { s with cpu := i8085_ana s.cpu v }
  pure s

/-- Handler `op_ani`. -/
def op_ani (s : machine_t) : Option machine_t := do
  let s ← s.trace_read s.cpu.pc
  let (v, s) ← s.read_pc_inc
  let s : machine_t := { s with cpu := i8085_ana s.cpu v }
  pure s

/-- Handler `op_call`. -/
def op_call (s : machine_t) : Option machine_t := do
  let s ← s.trace_read (u16 (s.cpu.pc.val + 1))
  let s ← s.trace_read s.cpu.pc
  let (v, s) ← s.read_pc_inc
  let address : uint16_t := u16 v.val
  let (v, s) ← s.read_pc_inc
  let address : uint16_t := u16 (address.val + v.val * 0x100)
  let s ← s.write_dec_sp (u8 (s.cpu.pc.val / 0x100))
  let s ← s.write_dec_sp (u8 (s.cpu.pc.val % 0x100))
  let s : machine_t := { s with cpu := { s.cpu with pc := address } }
  pure s

/-- Handler `op_cc`. -/
def op_cc (s : machine_t) : Option machine_t := do
  let s ← s.trace_read (u16 (s.cpu.pc.val + 1))
  let s ← s.trace_read s.cpu.pc
  let (v, s) ← s.read_pc_inc
  let address : uint16_t := u16 v.val
  let (v, s) ← s.read_pc_inc
  let address : uint16_t := u16 (address.val + v.val * 0x100)
  let s : machine_t ←
    if s.cpu.flag.cy = true then do
      let s ← s.write_dec_sp (u8 (s.cpu.pc.val / 0x100))
      let s ← s.write_dec_sp (u8 (s.cpu.pc.val % 0x100))
      let s : machine_t := { s with cpu := { s.cpu with pc := address } }
      let s : machine_t := { s with cpu := { s.cpu with cycles := u64 (s.cpu.cycles.val + 9) } }
      pure s
    else do
      pure s
  pure s

/-- Handler `op_cm`. -/
def op_cm (s : machine_t) : Option machine_t := do
  let s ← s.trace_read (u16 (s.cpu.pc.val + 1))
  let s ← s.trace_read s.cpu.pc
  let (v, s) ← s.read_pc_inc
  let address : uint16_t := u16 v.val
  let (v, s) ← s.read_pc_inc
  let address : uint16_t := u16 (address.val + v.val * 0x100)
  let s : machine_t ←
    if s.cpu.flag.s = true then do
      let s ← s.write_dec_sp (u8 (s.cpu.pc.val / 0x100))
      let s ← s.write_dec_sp (u8 (s.cpu.pc.val % 0x100))
      let s : machine_t := { s with cpu := { s.cpu with pc := address } }
      let s : machine_t := { s with cpu := { s.cpu with cycles := u64 (s.cpu.cycles.val + 9) } }
      pure s
    else do
      pure s
  pure s

/-- Handler `op_cma`. -/
def op_cma (s : machine_t) : Option machine_t := do
  let s : machine_t := { s with cpu := { s.cpu with a := u8 (255 - s.cpu.a.val) } }
  pure s

/-- Handler `op_cmc`. -/
def op_cmc (s : machine_t) : Option machine_t := do
  let s : machine_t := { s with cpu := { s.cpu with flag := { s.cpu.flag with cy := !s.cpu.flag.cy } } }
  pure s

/-- Handler `op_cmp_a`. -/
def op_cmp_a (s : machine_t) : Option machine_t := do
  let s : machine_t := { s with cpu := i8085_cmp s.cpu s.cpu.a }
  pure s

/-- Handler `op_cmp_b`. -/
def op_cmp_b (s : machine_t) : Option machine_t := do
  let s : machine_t := { s with cpu := i8085_cmp s.cpu s.cpu.b }
  pure s

/-- Handler `op_cmp_c`. -/
def op_cmp_c (s : machine_t) : Option machine_t := do
  let s : machine_t := { s with cpu := i8085_cmp s.cpu s.cpu.c }
  pure s

/-- Handler `op_cmp_d`. -/
def op_cmp_d (s : machine_t) : Option machine_t := do
  let s : machine_t := { s with cpu := i8085_cmp s.cpu s.cpu.d }
  pure s

/-- Handler `op_cmp_e`. -/
def op_cmp_e (s : machine_t) : Option machine_t := do
  let s : machine_t := { s with cpu := i8085_cmp s.cpu s.cpu.e }
  pure s

/-- Handler `op_cmp_h`. -/
def op_cmp_h (s : machine_t) : Option machine_t := do
  let s : machine_t := { s with cpu := i8085_cmp s.cpu s.cpu.h }
  pure s

/-- Handler `op_cmp_l`. -/
def op_cmp_l (s : machine_t) : Option machine_t := do
  let s : machine_t := { s with cpu := i8085_cmp s.cpu s.cpu.l }
  pure s

/-- Handler `op_cmp_m`. -/
def op_cmp_m (s : machine_t) : Option machine_t := do
  let address : uint16_t := u16 s.cpu.l.val
  let address : uint16_t := u16 (address.val + s.cpu.h.val * 0x100)
  let (v, s) ← s.read address
  let s : machine_t := { s with cpu := i8085_cmp s.cpu v }
  pure s

/-- Handler `op_cnc`. -/
def op_cnc (s : machine_t) : Option machine_t := do
  let s ← s.trace_read (u16 (s.cpu.pc.val + 1))
  let s ← s.trace_read s.cpu.pc
  let (v, s) ← s.read_pc_inc
  let address : uint16_t := u16 v.val
  let (v, s) ← s.read_pc_inc
  let address : uint16_t := u16 (address.val + v.val * 0x100)
  let s : machine_t ←
    if s.cpu.flag.cy = false then do
      let s ← s.write_dec_sp (u8 (s.cpu.pc.val / 0x100))
      let s ← s.write_dec_sp (u8 (s.cpu.pc.val % 0x100))
      let s : machine_t := { s with cpu := { s.cpu with pc := address } }
      let s : machine_t := { s with cpu := { s.cpu with cycles := u64 (s.cpu.cycles.val + 9) } }
      pure s
    else do
      pure s
  pure s

/-- Handler `op_cnz`. -/
def op_cnz (s : machine_t) : Option machine_t := do
  let s ← s.trace_read (u16 (s.cpu.pc.val + 1))
  let s ← s.trace_read s.cpu.pc
  let (v, s) ← s.read_pc_inc
  let address : uint16_t := u16 v.val
  let (v, s) ← s.read_pc_inc
  let address : uint16_t := u16 (address.val + v.val * 0x100)
  let s : machine_t ←
    if s.cpu.flag.z = false then do
      let s ← s.write_dec_sp (u8 (s.cpu.pc.val / 0x100))
      let s ← s.write_dec_sp (u8 (s.cpu.pc.val % 0x100))
      let s : machine_t := { s with cpu := { s.cpu with pc := address } }
      let s : machine_t := { s with cpu := { s.cpu with cycles := u64 (s.cpu.cycles.val + 9) } }
      pure s
    else do
      pure s
  pure s

/-- Handler `op_cp`. -/
def op_cp (s : machine_t) : Option machine_t := do
  let s ← s.trace_read (u16 (s.cpu.pc.val + 1))
  let s ← s.trace_read s.cpu.pc
  let (v, s) ← s.read_pc_inc
  let address : uint16_t := u16 v.val
  let (v, s) ← s.read_pc_inc
  let address : uint16_t := u16 (address.val + v.val * 0x100)
  let s : machine_t ←
    if s.cpu.flag.s = false then do
      let s ← s.write_dec_sp (u8 (s.cpu.pc.val / 0x100))
      let s ← s.write_dec_sp (u8 (s.cpu.pc.val % 0x100))
      let s : machine_t := { s with cpu := { s.cpu with pc := address } }
      let s : machine_t := { s with cpu := { s.cpu with cycles := u64 (s.cpu.cycles.val + 9) } }
      pure s
    else do
      pure s
  pure s

/-- Handler `op_cpe`. -/
def op_cpe (s : machine_t) : Option machine_t := do
  let s ← s.trace_read (u16 (s.cpu.pc.val + 1))
  let s ← s.trace_read s.cpu.pc
  let (v, s) ← s.read_pc_inc
  let address : uint16_t := u16 v.val
  let (v, s) ← s.read_pc_inc
  let address : uint16_t := u16 (address.val + v.val * 0x100)
  let s : machine_t ←
    if s.cpu.flag.p = true then do
      let s ← s.write_dec_sp (u8 (s.cpu.pc.val / 0x100))
      let s ← s.write_dec_sp (u8 (s.cpu.pc.val % 0x100))
      let s : machine_t := { s with cpu := { s.cpu with pc := address } }
      let s : machine_t := { s with cpu := { s.cpu with cycles := u64 (s.cpu.cycles.val + 9) } }
      pure s
    else do
      pure s
  pure s

/-- Handler `op_cpi`. -/
def op_cpi (s : machine_t) : Option machine_t := do
  let s ← s.trace_read s.cpu.pc
  let (v, s) ← s.read_pc_inc
  let s : machine_t := { s with cpu := i8085_cmp s.cpu v }
  pure s

/-- Handler `op_cpo`. -/
def op_cpo (s : machine_t) : Option machine_t := do
  let s ← s.trace_read (u16 (s.cpu.pc.val + 1))
  let s ← s.trace_read s.cpu.pc
  let (v, s) ← s.read_pc_inc
  let address : uint16_t := u16 v.val
  let (v, s) ← s.read_pc_inc
  let address : uint16_t := u16 (address.val + v.val * 0x100)
  let s : machine_t ←
    if s.cpu.flag.p = false then do
      let s ← s.write_dec_sp (u8 (s.cpu.pc.val / 0x100))
      let s ← s.write_dec_sp (u8 (s.cpu.pc.val % 0x100))
      let s : machine_t := { s with cpu := { s.cpu with pc := address } }
      let s : machine_t := { s with cpu := { s.cpu with cycles := u64 (s.cpu.cycles.val + 9) } }
      pure s
    else do
      pure s
  pure s

/-- Handler `op_cz`. -/
def op_cz (s : machine_t) : Option machine_t := do
  let s ← s.trace_read (u16 (s.cpu.pc.val + 1))
  let s ← s.trace_read s.cpu.pc
  let (v, s) ← s.read_pc_inc
  let address : uint16_t := u16 v.val
  let (v, s) ← s.read_pc_inc
  let address : uint16_t := u16 (address.val + v.val * 0x100)
  let s : machine_t ←
    if s.cpu.flag.z = true then do
      let s ← s.write_dec_sp (u8 (s.cpu.pc.val / 0x100))
      let s ← s.write_dec_sp (u8 (s.cpu.pc.val % 0x100))
      let s : machine_t := { s with cpu := { s.cpu with pc := address } }
      let s : machine_t := { s with cpu := { s.cpu with cycles := u64 (s.cpu.cycles.val + 9) } }
      pure s
    else do
      pure s
  pure s

/-- Handler `op_daa`. -/
def op_daa (s : machine_t) : Option machine_t := do
  let temp : uint8_t := s.cpu.a
  let s : machine_t ←
    if (s.cpu.a.val &&& 0x0F) > 9 ∨ s.cpu.flag.ac = true then do
      let s : machine_t := { s with cpu := { s.cpu with a := u8 (s.cpu.a.val + 0x06) } }
      let s : machine_t := { s with cpu := { s.cpu with flag := { s.cpu.flag with ac := true } } }
      pure s
    else do
      pure s
  let s : machine_t ←
    if ((temp.val >>> 4) &&& 0x0F) > 9 ∨ s.cpu.flag.cy = true then do
      let s : machine_t := { s with cpu := { s.cpu with a := u8 (s.cpu.a.val + 0x60) } }
      let s : machine_t := { s with cpu := { s.cpu with flag := { s.cpu.flag with cy := true } } }
      pure s
    else do
      pure s
  let s : machine_t := { s with cpu := { s.cpu with flag := { s.cpu.flag with p := parity_even s.cpu.a } } }
  let s : machine_t := { s with cpu := { s.cpu with flag := { s.cpu.flag with s := bit1 (s.cpu.a.val >>> 7 : Nat) } } }
  let s : machine_t := { s with cpu := { s.cpu with flag := { s.cpu.flag with z := s.cpu.a.val == 0 } } }
  pure s

/-- Handler `op_dad_b`. -/
def op_dad_b (s : machine_t) : Option machine_t := do
  let s : machine_t := { s with cpu := { s.cpu with flag := { s.cpu.flag with cy := bit1 ((s.cpu.hl.val + s.cpu.bc.val) >>> 16 : Nat) } } }
  let s : machine_t := { s with cpu := s.cpu.set_hl (u16 (s.cpu.hl.val + s.cpu.bc.val)) }
  pure s

/-- Handler `op_dad_d`. -/
def op_dad_d (s : machine_t) : Option machine_t := do
  let s : machine_t := { s with cpu := { s.cpu with flag := { s.cpu.flag with cy := bit1 ((s.cpu.hl.val + s.cpu.de.val) >>> 16 : Nat) } } }
  let s : machine_t := { s with cpu := s.cpu.set_hl (u16 (s.cpu.hl.val + s.cpu.de.val)) }
  pure s

/-- Handler `op_dad_h`. -/
def op_dad_h (s : machine_t) : Option machine_t := do
  let s : machine_t := { s with cpu := { s.cpu with flag := { s.cpu.flag with cy := bit1 ((s.cpu.hl.val + s.cpu.hl.val) >>> 16 : Nat) } } }
  let s : machine_t := { s with cpu := s.cpu.set_hl (u16 (s.cpu.hl.val + s.cpu.hl.val)) }
  pure s

/-- Handler `op_dad_sp`. -/
def op_dad_sp (s : machine_t) : Option machine_t := do
  let s : machine_t := { s with cpu := { s.cpu with flag := { s.cpu.flag with cy := bit1 ((s.cpu.hl.val + s.cpu.sp.val) >>> 16 : Nat) } } }
  let s : machine_t := { s with cpu := s.cpu.set_hl (u16 (s.cpu.hl.val + s.cpu.sp.val)) }
  pure s

/-- Handler `op_dcr_a`. -/
def op_dcr_a (s : machine_t) : Option machine_t := do
  let r := i8085_dcr s.cpu s.cpu.a
  let s : machine_t := { s with cpu := { r.2 with a := r.1 } }
  pure s

/-- Handler `op_dcr_b`. -/
def op_dcr_b (s : machine_t) : Option machine_t := do
  let r := i8085_dcr s.cpu s.cpu.b
  let s : machine_t := { s with cpu := { r.2 with b := r.1 } }
  pure s

/-- Handler `op_dcr_c`. -/
def op_dcr_c (s : machine_t) : Option machine_t := do
  let r := i8085_dcr s.cpu s.cpu.c
  let s : machine_t := { s with cpu := { r.2 with c := r.1 } }
  pure s

/-- Handler `op_dcr_d`. -/
def op_dcr_d (s : machine_t) : Option machine_t := do
  let r := i8085_dcr s.cpu s.cpu.d
  let s : machine_t := { s with cpu := { r.2 with d := r.1 } }
  pure s

/-- Handler `op_dcr_e`. -/
def op_dcr_e (s : machine_t) : Option machine_t := do
  let r := i8085_dcr s.cpu s.cpu.e
  let s : machine_t := { s with cpu := { r.2 with e := r.1 } }
  pure s

/-- Handler `op_dcr_h`. -/
def op_dcr_h (s : machine_t) : Option machine_t := do
  let r := i8085_dcr s.cpu s.cpu.h
  let s : machine_t := { s with cpu := { r.2 with h := r.1 } }
  pure s

/-- Handler `op_dcr_l`. -/
def op_dcr_l (s : machine_t) : Option machine_t := do
  let r := i8085_dcr s.cpu s.cpu.l
  let s : machine_t := { s with cpu := { r.2 with l := r.1 } }
  pure s

/-- Handler `op_dcr_m`. -/
def op_dcr_m (s : machine_t) : Option machine_t := do
  let address : uint16_t := u16 s.cpu.l.val
  let address : uint16_t := u16 (address.val + s.cpu.h.val * 0x100)
  let (v, s) ← s.read address
  let r := i8085_dcr s.cpu v
  let s : machine_t := { s with cpu := r.2 }
  let s ← s.write address r.1
  pure s

/-- Handler `op_dcx_b`. -/
def op_dcx_b (s : machine_t) : Option machine_t := do
  let s : machine_t := { s with cpu := s.cpu.set_bc (u16i ((s.cpu.bc.val : Int) - 1)) }
  pure s

/-- Handler `op_dcx_d`. -/
def op_dcx_d (s : machine_t) : Option machine_t := do
  let s : machine_t := { s with cpu := s.cpu.set_de (u16i ((s.cpu.de.val : Int) - 1)) }
  pure s

/-- Handler `op_dcx_h`. -/
def op_dcx_h (s : machine_t) : Option machine_t := do
  let s : machine_t := { s with cpu := s.cpu.set_hl (u16i ((s.cpu.hl.val : Int) - 1)) }
  pure s

/-- Handler `op_dcx_sp`. -/
def op_dcx_sp (s : machine_t) : Option machine_t := do
  let s : machine_t := { s with cpu := { s.cpu with sp := u16i ((s.cpu.sp.val : Int) - 1) } }
  pure s

/-- Handler `op_di`. -/
def op_di (s : machine_t) : Option machine_t := do
  let s : machine_t := { s with cpu := { s.cpu with mask := { s.cpu.mask with ie := false } } }
  pure s

/-- Handler `op_ei`. -/
def op_ei (s : machine_t) : Option machine_t := do
  let s : machine_t := { s with cpu := { s.cpu with mask := { s.cpu.mask with ie := true } } }
  pure s

/-- Handler `op_hlt`. -/
def op_hlt (s : machine_t) : Option machine_t := do
  let s : machine_t := { s with cpu := { s.cpu with halt := true } }
  pure s

/-- Handler `op_in`. -/
def op_in (s : machine_t) : Option machine_t := do
  let s ← s.trace_read s.cpu.pc
  let (port, s) ← s.read_pc_inc
  let r := io_read s port
  let s : machine_t := r.2
  let s : machine_t := { s with cpu := { s.cpu with a := r.1 } }
  pure s

/-- Handler `op_inr_a`. -/
def op_inr_a (s : machine_t) : Option machine_t := do
  let r := i8085_inr s.cpu s.cpu.a
  let s : machine_t := { s with cpu := { r.2 with a := r.1 } }
  pure s

/-- Handler `op_inr_b`. -/
def op_inr_b (s : machine_t) : Option machine_t := do
  let r := i8085_inr s.cpu s.cpu.b
  let s : machine_t := { s with cpu := { r.2 with b := r.1 } }
  pure s

/-- Handler `op_inr_c`. -/
def op_inr_c (s : machine_t) : Option machine_t := do
  let r := i8085_inr s.cpu s.cpu.c
  let s : machine_t := { s with cpu := { r.2 with c := r.1 } }
  pure s

/-- Handler `op_inr_d`. -/
def op_inr_d (s : machine_t) : Option machine_t := do
  let r := i8085_inr s.cpu s.cpu.d
  let s : machine_t := { s with cpu := { r.2 with d := r.1 } }
  pure s

/-- Handler `op_inr_e`. -/
def op_inr_e (s : machine_t) : Option machine_t := do
  let r := i8085_inr s.cpu s.cpu.e
  let s : machine_t := { s with cpu := { r.2 with e := r.1 } }
  pure s

/-- Handler `op_inr_h`. -/
def op_inr_h (s : machine_t) : Option machine_t := do
  let r := i8085_inr s.cpu s.cpu.h
  let s : machine_t := { s with cpu := { r.2 with h := r.1 } }
  pure s

/-- Handler `op_inr_l`. -/
def op_inr_l (s : machine_t) : Option machine_t := do
  let r := i8085_inr s.cpu s.cpu.l
  let s : machine_t := { s with cpu := { r.2 with l := r.1 } }
  pure s

/-- Handler `op_inr_m`. -/
def op_inr_m (s : machine_t) : Option machine_t := do
  let address : uint16_t := u16 s.cpu.l.val
  let address : uint16_t := u16 (address.val + s.cpu.h.val * 0x100)
  let (v, s) ← s.read address
  let r := i8085_inr s.cpu v
  let s : machine_t := { s with cpu := r.2 }
  let s ← s.write address r.1
  pure s

/-- Handler `op_inx_b`. -/
def op_inx_b (s : machine_t) : Option machine_t := do
  let s : machine_t := { s with cpu := s.cpu.set_bc (u16 (s.cpu.bc.val + 1)) }
  pure s

/-- Handler `op_inx_d`. -/
def op_inx_d (s : machine_t) : Option machine_t := do
  let s : machine_t := { s with cpu := s.cpu.set_de (u16 (s.cpu.de.val + 1)) }
  pure s

/-- Handler `op_inx_h`. -/
def op_inx_h (s : machine_t) : Option machine_t := do
  let s : machine_t := { s with cpu := s.cpu.set_hl (u16 (s.cpu.hl.val + 1)) }
  pure s

/-- Handler `op_inx_sp`. -/
def op_inx_sp (s : machine_t) : Option machine_t := do
  let s : machine_t := { s with cpu := { s.cpu with sp := u16 (s.cpu.sp.val + 1) } }
  pure s

/-- Handler `op_jc`. -/
def op_jc (s : machine_t) : Option machine_t := do
  let s ← s.trace_read (u16 (s.cpu.pc.val + 1))
  let s ← s.trace_read s.cpu.pc
  let (v, s) ← s.read_pc_inc
  let address : uint16_t := u16 v.val
  let (v, s) ← s.read_pc_inc
  let address : uint16_t := u16 (address.val + v.val * 0x100)
  let s : machine_t ←
    if s.cpu.flag.cy = true then do
      let s : machine_t := { s with cpu := { s.cpu with pc := address } }
      let s : machine_t := { s with cpu := { s.cpu with cycles := u64 (s.cpu.cycles.val + 3) } }
      pure s
    else do
      pure s
  pure s

/-- Handler `op_jm`. -/
def op_jm (s : machine_t) : Option machine_t := do
  let s ← s.trace_read (u16 (s.cpu.pc.val + 1))
  let s ← s.trace_read s.cpu.pc
  let (v, s) ← s.read_pc_inc
  let address : uint16_t := u16 v.val
  let (v, s) ← s.read_pc_inc
  let address : uint16_t := u16 (address.val + v.val * 0x100)
  let s : machine_t ←
    if s.cpu.flag.s = true then do
      let s : machine_t := { s with cpu := { s.cpu with pc := address } }
      let s : machine_t := { s with cpu := { s.cpu with cycles := u64 (s.cpu.cycles.val + 3) } }
      pure s
    else do
      pure s
  pure s

/-- Handler `op_jmp`. -/
def op_jmp (s : machine_t) : Option machine_t := do
  let s ← s.trace_read (u16 (s.cpu.pc.val + 1))
  let s ← s.trace_read s.cpu.pc
  let (v, s) ← s.read_pc_inc
  let address : uint16_t := u16 v.val
  let (v, s) ← s.read_pc_inc
  let address : uint16_t := u16 (address.val + v.val * 0x100)
  let s : machine_t := { s with cpu := { s.cpu with pc := address } }
  pure s

/-- Handler `op_jnc`. -/
def op_jnc (s : machine_t) : Option machine_t := do
  let s ← s.trace_read (u16 (s.cpu.pc.val + 1))
  let s ← s.trace_read s.cpu.pc
  let (v, s) ← s.read_pc_inc
  let address : uint16_t := u16 v.val
  let (v, s) ← s.read_pc_inc
  let address : uint16_t := u16 (address.val + v.val * 0x100)
  let s : machine_t ←
    if s.cpu.flag.cy = false then do
      let s : machine_t := { s with cpu := { s.cpu with pc := address } }
      let s : machine_t := { s with cpu := { s.cpu with cycles := u64 (s.cpu.cycles.val + 3) } }
      pure s
    else do
      pure s
  pure s

/-- Handler `op_jnz`. -/
def op_jnz (s : machine_t) : Option machine_t := do
  let s ← s.trace_read (u16 (s.cpu.pc.val + 1))
  let s ← s.trace_read s.cpu.pc
  let (v, s) ← s.read_pc_inc
  let address : uint16_t := u16 v.val
  let (v, s) ← s.read_pc_inc
  let address : uint16_t := u16 (address.val + v.val * 0x100)
  let s : machine_t ←
    if s.cpu.flag.z = false then do
      let s : machine_t := { s with cpu := { s.cpu with pc := address } }
      let s : machine_t := { s with cpu := { s.cpu with cycles := u64 (s.cpu.cycles.val + 3) } }
      pure s
    else do
      pure s
  pure s

/-- Handler `op_jp`. -/
def op_jp (s : machine_t) : Option machine_t := do
  let s ← s.trace_read (u16 (s.cpu.pc.val + 1))
  let s ← s.trace_read s.cpu.pc
  let (v, s) ← s.read_pc_inc
  let address : uint16_t := u16 v.val
  let (v, s) ← s.read_pc_inc
  let address : uint16_t := u16 (address.val + v.val * 0x100)
  let s : machine_t ←
    if s.cpu.flag.s = false then do
      let s : machine_t := { s with cpu := { s.cpu with pc := address } }
      let s : machine_t := { s with cpu := { s.cpu with cycles := u64 (s.cpu.cycles.val + 3) } }
      pure s
    else do
      pure s
  pure s

/-- Handler `op_jpe`. -/
def op_jpe (s : machine_t) : Option machine_t := do
  let s ← s.trace_read (u16 (s.cpu.pc.val + 1))
  let s ← s.trace_read s.cpu.pc
  let (v, s) ← s.read_pc_inc
  let address : uint16_t := u16 v.val
  let (v, s) ← s.read_pc_inc
  let address : uint16_t := u16 (address.val + v.val * 0x100)
  let s : machine_t ←
    if s.cpu.flag.p = true then do
      let s : machine_t := { s with cpu := { s.cpu with pc := address } }
      let s : machine_t := { s with cpu := { s.cpu with cycles := u64 (s.cpu.cycles.val + 3) } }
      pure s
    else do
      pure s
  pure s

/-- Handler `op_jpo`. -/
def op_jpo (s : machine_t) : Option machine_t := do
  let s ← s.trace_read (u16 (s.cpu.pc.val + 1))
  let s ← s.trace_read s.cpu.pc
  let (v, s) ← s.read_pc_inc
  let address : uint16_t := u16 v.val
  let (v, s) ← s.read_pc_inc
  let address : uint16_t := u16 (address.val + v.val * 0x100)
  let s : machine_t ←
    if s.cpu.flag.p = false then do
      let s : machine_t := { s with cpu := { s.cpu with pc := address } }
      let s : machine_t := { s with cpu := { s.cpu with cycles := u64 (s.cpu.cycles.val + 3) } }
      pure s
    else do
      pure s
  pure s

/-- Handler `op_jz`. -/
def op_jz (s : machine_t) : Option machine_t := do
  let s ← s.trace_read (u16 (s.cpu.pc.val + 1))
  let s ← s.trace_read s.cpu.pc
  let (v, s) ← s.read_pc_inc
  let address : uint16_t := u16 v.val
  let (v, s) ← s.read_pc_inc
  let address : uint16_t := u16 (address.val + v.val * 0x100)
  let s : machine_t ←
    if s.cpu.flag.z = true then do
      let s : machine_t := { s with cpu := { s.cpu with pc := address } }
      let s : machine_t := { s with cpu := { s.cpu with cycles := u64 (s.cpu.cycles.val + 3) } }
      pure s
    else do
      pure s
  pure s

/-- Handler `op_lda`. -/
def op_lda (s : machine_t) : Option machine_t := do
  let s ← s.trace_read (u16 (s.cpu.pc.val + 1))
  let s ← s.trace_read s.cpu.pc
  let (v, s) ← s.read_pc_inc
  let address : uint16_t := u16 v.val
  let (v, s) ← s.read_pc_inc
  let address : uint16_t := u16 (address.val + v.val * 0x100)
  let (v, s) ← s.read address
  let s : machine_t := { s with cpu := { s.cpu with a := v } }
  pure s

/-- Handler `op_ldax_b`. -/
def op_ldax_b (s : machine_t) : Option machine_t := do
  let address : uint16_t := u16 s.cpu.c.val
  let address : uint16_t := u16 (address.val + s.cpu.b.val * 0x100)
  let (v, s) ← s.read address
  let s : machine_t := { s with cpu := { s.cpu with a := v } }
  pure s

/-- Handler `op_ldax_d`. -/
def op_ldax_d (s : machine_t) : Option machine_t := do
  let address : uint16_t := u16 s.cpu.e.val
  let address : uint16_t := u16 (address.val + s.cpu.d.val * 0x100)
  let (v, s) ← s.read address
  let s : machine_t := { s with cpu := { s.cpu with a := v } }
  pure s

/-- Handler `op_lhld`. -/
def op_lhld (s : machine_t) : Option machine_t := do
  let (v, s) ← s.read_pc_inc
  let address : uint16_t := u16 v.val
  let (v, s) ← s.read_pc_inc
  let address : uint16_t := u16 (address.val + v.val * 0x100)
  let (v, s) ← s.read address
  let s : machine_t := { s with cpu := { s.cpu with l := v } }
  let (v, s) ← s.read (u16 (address.val + 1))
  let s : machine_t := { s with cpu := { s.cpu with h := v } }
  pure s

/-- Handler `op_lxi_b`. -/
def op_lxi_b (s : machine_t) : Option machine_t := do
  let s ← s.trace_read (u16 (s.cpu.pc.val + 1))
  let s ← s.trace_read s.cpu.pc
  let (v, s) ← s.read_pc_inc
  let s : machine_t := { s with cpu := { s.cpu with c := v } }
  let (v, s) ← s.read_pc_inc
  let s : machine_t := { s with cpu := { s.cpu with b := v } }
  pure s

/-- Handler `op_lxi_d`. -/
def op_lxi_d (s : machine_t) : Option machine_t := do
  let s ← s.trace_read (u16 (s.cpu.pc.val + 1))
  let s ← s.trace_read s.cpu.pc
  let (v, s) ← s.read_pc_inc
  let s : machine_t := { s with cpu := { s.cpu with e := v } }
  let (v, s) ← s.read_pc_inc
  let s : machine_t := { s with cpu := { s.cpu with d := v } }
  pure s

/-- Handler `op_lxi_h`. -/
def op_lxi_h (s : machine_t) : Option machine_t := do
  let s ← s.trace_read (u16 (s.cpu.pc.val + 1))
  let s ← s.trace_read s.cpu.pc
  let (v, s) ← s.read_pc_inc
  let s : machine_t := { s with cpu := { s.cpu with l := v } }
  let (v, s) ← s.read_pc_inc
  let s : machine_t := { s with cpu := { s.cpu with h := v } }
  pure s

/-- Handler `op_lxi_sp`. -/
def op_lxi_sp (s : machine_t) : Option machine_t := do
  let s ← s.trace_read (u16 (s.cpu.pc.val + 1))
  let s ← s.trace_read s.cpu.pc
  let (v, s) ← s.read_pc_inc
  let s : machine_t := { s with cpu := { s.cpu with sp := u16 v.val } }
  let (v, s) ← s.read_pc_inc
  let s : machine_t := { s with cpu := { s.cpu with sp := u16 (s.cpu.sp.val + v.val * 0x100) } }
  pure s

/-- Handler `op_mov_a_a`. -/
def op_mov_a_a (s : machine_t) : Option machine_t := do
  let s : machine_t := { s with cpu := { s.cpu with a := s.cpu.a } }
  pure s

/-- Handler `op_mov_a_b`. -/
def op_mov_a_b (s : machine_t) : Option machine_t := do
  let s : machine_t := { s with cpu := { s.cpu with a := s.cpu.b } }
  pure s

/-- Handler `op_mov_a_c`. -/
def op_mov_a_c (s : machine_t) : Option machine_t := do
  let s : machine_t := { s with cpu := { s.cpu with a := s.cpu.c } }
  pure s

/-- Handler `op_mov_a_d`. -/
def op_mov_a_d (s : machine_t) : Option machine_t := do
  let s : machine_t := { s with cpu := { s.cpu with a := s.cpu.d } }
  pure s

/-- Handler `op_mov_a_e`. -/
def op_mov_a_e (s : machine_t) : Option machine_t := do
  let s : machine_t := { s with cpu := { s.cpu with a := s.cpu.e } }
  pure s

/-- Handler `op_mov_a_h`. -/
def op_mov_a_h (s : machine_t) : Option machine_t := do
  let s : machine_t := { s with cpu := { s.cpu with a := s.cpu.h } }
  pure s

/-- Handler `op_mov_a_l`. -/
def op_mov_a_l (s : machine_t) : Option machine_t := do
  let s : machine_t := { s with cpu := { s.cpu with a := s.cpu.l } }
  pure s

/-- Handler `op_mov_a_m`. -/
def op_mov_a_m (s : machine_t) : Option machine_t := do
  let address : uint16_t := u16 s.cpu.l.val
  let address : uint16_t := u16 (address.val + s.cpu.h.val * 0x100)
  let (v, s) ← s.read address
  let s : machine_t := { s with cpu := { s.cpu with a := v } }
  pure s

/-- Handler `op_mov_b_a`. -/
def op_mov_b_a (s : machine_t) : Option machine_t := do
  let s : machine_t := { s with cpu := { s.cpu with b := s.cpu.a } }
  pure s

/-- Handler `op_mov_b_b`. -/
def op_mov_b_b (s : machine_t) : Option machine_t := do
  let s : machine_t := { s with cpu := { s.cpu with b := s.cpu.b } }
  pure s

/-- Handler `op_mov_b_c`. -/
def op_mov_b_c (s : machine_t) : Option machine_t := do
  let s : machine_t := { s with cpu := { s.cpu with b := s.cpu.c } }
  pure s

/-- Handler `op_mov_b_d`. -/
def op_mov_b_d (s : machine_t) : Option machine_t := do
  let s : machine_t := { s with cpu := { s.cpu with b := s.cpu.d } }
  pure s

/-- Handler `op_mov_b_e`. -/
def op_mov_b_e (s : machine_t) : Option machine_t := do
  let s : machine_t := { s with cpu := { s.cpu with b := s.cpu.e } }
  pure s

/-- Handler `op_mov_b_h`. -/
def op_mov_b_h (s : machine_t) : Option machine_t := do
  let s : machine_t := { s with cpu := { s.cpu with b := s.cpu.h } }
  pure s

/-- Handler `op_mov_b_l`. -/
def op_mov_b_l (s : machine_t) : Option machine_t := do
  let s : machine_t := { s with cpu := { s.cpu with b := s.cpu.l } }
  pure s

/-- Handler `op_mov_b_m`. -/
def op_mov_b_m (s : machine_t) : Option machine_t := do
  let address : uint16_t := u16 s.cpu.l.val
  let address : uint16_t := u16 (address.val + s.cpu.h.val * 0x100)
  let (v, s) ← s.read address
  let s : machine_t := { s with cpu := { s.cpu with b := v } }
  pure s

/-- Handler `op_mov_c_a`. -/
def op_mov_c_a (s : machine_t) : Option machine_t := do
  let s : machine_t := { s with cpu := { s.cpu with c := s.cpu.a } }
  pure s

/-- Handler `op_mov_c_b`. -/
def op_mov_c_b (s : machine_t) : Option machine_t := do
  let s : machine_t := { s with cpu := { s.cpu with c := s.cpu.b } }
  pure s

/-- Handler `op_mov_c_c`. -/
def op_mov_c_c (s : machine_t) : Option machine_t := do
  let s : machine_t := { s with cpu := { s.cpu with c := s.cpu.c } }
  pure s

/-- Handler `op_mov_c_d`. -/
def op_mov_c_d (s : machine_t) : Option machine_t := do
  let s : machine_t := { s with cpu := { s.cpu with c := s.cpu.d } }
  pure s

/-- Handler `op_mov_c_e`. -/
def op_mov_c_e (s : machine_t) : Option machine_t := do
  let s : machine_t := { s with cpu := { s.cpu with c := s.cpu.e } }
  pure s

/-- Handler `op_mov_c_h`. -/
def op_mov_c_h (s : machine_t) : Option machine_t := do
  let s : machine_t := { s with cpu := { s.cpu with c := s.cpu.h } }
  pure s

/-- Handler `op_mov_c_l`. -/
def op_mov_c_l (s : machine_t) : Option machine_t := do
  let s : machine_t := { s with cpu := { s.cpu with c := s.cpu.l } }
  pure s

/-- Handler `op_mov_c_m`. -/
def op_mov_c_m (s : machine_t) : Option machine_t := do
  let address : uint16_t := u16 s.cpu.l.val
  let address : uint16_t := u16 (address.val + s.cpu.h.val * 0x100)
  let (v, s) ← s.read address
  let s : machine_t := { s with cpu := { s.cpu with c := v } }
  pure s

/-- Handler `op_mov_d_a`. -/
def op_mov_d_a (s : machine_t) : Option machine_t := do
  let s : machine_t := { s with cpu := { s.cpu with d := s.cpu.a } }
  pure s

/-- Handler `op_mov_d_b`. -/
def op_mov_d_b (s : machine_t) : Option machine_t := do
  let s : machine_t := { s with cpu := { s.cpu with d := s.cpu.b } }
  pure s

/-- Handler `op_mov_d_c`. -/
def op_mov_d_c (s : machine_t) : Option machine_t := do
  let s : machine_t := { s with cpu := { s.cpu with d := s.cpu.c } }
  pure s

/-- Handler `op_mov_d_d`. -/
def op_mov_d_d (s : machine_t) : Option machine_t := do
  let s : machine_t := { s with cpu := { s.cpu with d := s.cpu.d } }
  pure s

/-- Handler `op_mov_d_e`. -/
def op_mov_d_e (s : machine_t) : Option machine_t := do
  let s : machine_t := { s with cpu := { s.cpu with d := s.cpu.e } }
  pure s

/-- Handler `op_mov_d_h`. -/
def op_mov_d_h (s : machine_t) : Option machine_t := do
  let s : machine_t := { s with cpu := { s.cpu with d := s.cpu.h } }
  pure s

/-- Handler `op_mov_d_l`. -/
def op_mov_d_l (s : machine_t) : Option machine_t := do
  let s : machine_t := { s with cpu := { s.cpu with d := s.cpu.l } }
  pure s

/-- Handler `op_mov_d_m`. -/
def op_mov_d_m (s : machine_t) : Option machine_t := do
  let address : uint16_t := u16 s.cpu.l.val
  let address : uint16_t := u16 (address.val + s.cpu.h.val * 0x100)
  let (v, s) ← s.read address
  let s : machine_t := { s with cpu := { s.cpu with d := v } }
  pure s

/-- Handler `op_mov_e_a`. -/
def op_mov_e_a (s : machine_t) : Option machine_t := do
  let s : machine_t := { s with cpu := { s.cpu with e := s.cpu.a } }
  pure s

/-- Handler `op_mov_e_b`. -/
def op_mov_e_b (s : machine_t) : Option machine_t := do
  let s : machine_t := { s with cpu := { s.cpu with e := s.cpu.b } }
  pure s

/-- Handler `op_mov_e_c`. -/
def op_mov_e_c (s : machine_t) : Option machine_t := do
  let s : machine_t := { s with cpu := { s.cpu with e := s.cpu.c } }
  pure s

/-- Handler `op_mov_e_d`. -/
def op_mov_e_d (s : machine_t) : Option machine_t := do
  let s : machine_t := { s with cpu := { s.cpu with e := s.cpu.d } }
  pure s

/-- Handler `op_mov_e_e`. -/
def op_mov_e_e (s : machine_t) : Option machine_t := do
  let s : machine_t := { s with cpu := { s.cpu with e := s.cpu.e } }
  pure s

/-- Handler `op_mov_e_h`. -/
def op_mov_e_h (s : machine_t) : Option machine_t := do
  let s : machine_t := { s with cpu := { s.cpu with e := s.cpu.h } }
  pure s

/-- Handler `op_mov_e_l`. -/
def op_mov_e_l (s : machine_t) : Option machine_t := do
  let s : machine_t := { s with cpu := { s.cpu with e := s.cpu.l } }
  pure s

/-- Handler `op_mov_e_m`. -/
def op_mov_e_m (s : machine_t) : Option machine_t := do
  let address : uint16_t := u16 s.cpu.l.val
  let address : uint16_t := u16 (address.val + s.cpu.h.val * 0x100)
  let (v, s) ← s.read address
  let s : machine_t := { s with cpu := { s.cpu with e := v } }
  pure s

/-- Handler `op_mov_h_a`. -/
def op_mov_h_a (s : machine_t) : Option machine_t := do
  let s : machine_t := { s with cpu := { s.cpu with h := s.cpu.a } }
  pure s

/-- Handler `op_mov_h_b`. -/
def op_mov_h_b (s : machine_t) : Option machine_t := do
  let s : machine_t := { s with cpu := { s.cpu with h := s.cpu.b } }
  pure s

/-- Handler `op_mov_h_c`. -/
def op_mov_h_c (s : machine_t) : Option machine_t := do
  let s : machine_t := { s with cpu := { s.cpu with h := s.cpu.c } }
  pure s

/-- Handler `op_mov_h_d`. -/
def op_mov_h_d (s : machine_t) : Option machine_t := do
  let s : machine_t := { s with cpu := { s.cpu with h := s.cpu.d } }
  pure s

/-- Handler `op_mov_h_e`. -/
def op_mov_h_e (s : machine_t) : Option machine_t := do
  let s : machine_t := { s with cpu := { s.cpu with h := s.cpu.e } }
  pure s

/-- Handler `op_mov_h_h`. -/
def op_mov_h_h (s : machine_t) : Option machine_t := do
  let s : machine_t := { s with cpu := { s.cpu with h := s.cpu.h } }
  pure s

/-- Handler `op_mov_h_l`. -/
def op_mov_h_l (s : machine_t) : Option machine_t := do
  let s : machine_t := { s with cpu := { s.cpu with h := s.cpu.l } }
  pure s

/-- Handler `op_mov_h_m`. -/
def op_mov_h_m (s : machine_t) : Option machine_t := do
  let address : uint16_t := u16 s.cpu.l.val
  let address : uint16_t := u16 (address.val + s.cpu.h.val * 0x100)
  let (v, s) ← s.read address
  let s : machine_t := { s with cpu := { s.cpu with h := v } }
  pure s

/-- Handler `op_mov_l_a`. -/
def op_mov_l_a (s : machine_t) : Option machine_t := do
  let s : machine_t := { s with cpu := { s.cpu with l := s.cpu.a } }
  pure s

/-- Handler `op_mov_l_b`. -/
def op_mov_l_b (s : machine_t) : Option machine_t := do
  let s : machine_t := { s with cpu := { s.cpu with l := s.cpu.b } }
  pure s

/-- Handler `op_mov_l_c`. -/
def op_mov_l_c (s : machine_t) : Option machine_t := do
  let s : machine_t := { s with cpu := { s.cpu with l := s.cpu.c } }
  pure s

/-- Handler `op_mov_l_d`. -/
def op_mov_l_d (s : machine_t) : Option machine_t := do
  let s : machine_t := { s with cpu := { s.cpu with l := s.cpu.d } }
  pure s

/-- Handler `op_mov_l_e`. -/
def op_mov_l_e (s : machine_t) : Option machine_t := do
  let s : machine_t := { s with cpu := { s.cpu with l := s.cpu.e } }
  pure s

/-- Handler `op_mov_l_h`. -/
def op_mov_l_h (s : machine_t) : Option machine_t := do
  let s : machine_t := { s with cpu := { s.cpu with l := s.cpu.h } }
  pure s

/-- Handler `op_mov_l_l`. -/
def op_mov_l_l (s : machine_t) : Option machine_t := do
  let s : machine_t := { s with cpu := { s.cpu with l := s.cpu.l } }
  pure s

/-- Handler `op_mov_l_m`. -/
def op_mov_l_m (s : machine_t) : Option machine_t := do
  let address : uint16_t := u16 s.cpu.l.val
  let address : uint16_t := u16 (address.val + s.cpu.h.val * 0x100)
  let (v, s) ← s.read address
  let s : machine_t := { s with cpu := { s.cpu with l := v } }
  pure s

/-- Handler `op_mov_m_a`. -/
def op_mov_m_a (s : machine_t) : Option machine_t := do
  let address : uint16_t := u16 s.cpu.l.val
  let address : uint16_t := u16 (address.val + s.cpu.h.val * 0x100)
  let s ← s.write address s.cpu.a
  pure s

/-- Handler `op_mov_m_b`. -/
def op_mov_m_b (s : machine_t) : Option machine_t := do
  let address : uint16_t := u16 s.cpu.l.val
  let address : uint16_t := u16 (address.val + s.cpu.h.val * 0x100)
  let s ← s.write address s.cpu.b
  pure s

/-- Handler `op_mov_m_c`. -/
def op_mov_m_c (s : machine_t) : Option machine_t := do
  let address : uint16_t := u16 s.cpu.l.val
  let address : uint16_t := u16 (address.val + s.cpu.h.val * 0x100)
  let s ← s.write address s.cpu.c
  pure s

/-- Handler `op_mov_m_d`. -/
def op_mov_m_d (s : machine_t) : Option machine_t := do
  let address : uint16_t := u16 s.cpu.l.val
  let address : uint16_t := u16 (address.val + s.cpu.h.val * 0x100)
  let s ← s.write address s.cpu.d
  pure s

/-- Handler `op_mov_m_e`. -/
def op_mov_m_e (s : machine_t) : Option machine_t := do
  let address : uint16_t := u16 s.cpu.l.val
  let address : uint16_t := u16 (address.val + s.cpu.h.val * 0x100)
  let s ← s.write address s.cpu.e
  pure s

/-- Handler `op_mov_m_h`. -/
def op_mov_m_h (s : machine_t) : Option machine_t := do
  let address : uint16_t := u16 s.cpu.l.val
  let address : uint16_t := u16 (address.val + s.cpu.h.val * 0x100)
  let s ← s.write address s.cpu.h
  pure s

/-- Handler `op_mov_m_l`. -/
def op_mov_m_l (s : machine_t) : Option machine_t := do
  let address : uint16_t := u16 s.cpu.l.val
  let address : uint16_t := u16 (address.val + s.cpu.h.val * 0x100)
  let s ← s.write address s.cpu.l
  pure s

/-- Handler `op_mvi_a`. -/
def op_mvi_a (s : machine_t) : Option machine_t := do
  let s ← s.trace_read s.cpu.pc
  let (v, s) ← s.read_pc_inc
  let s : machine_t := { s with cpu := { s.cpu with a := v } }
  pure s

/-- Handler `op_mvi_b`. -/
def op_mvi_b (s : machine_t) : Option machine_t := do
  let s ← s.trace_read s.cpu.pc
  let (v, s) ← s.read_pc_inc
  let s : machine_t := { s with cpu := { s.cpu with b := v } }
  pure s

/-- Handler `op_mvi_c`. -/
def op_mvi_c (s : machine_t) : Option machine_t := do
  let s ← s.trace_read s.cpu.pc
  let (v, s) ← s.read_pc_inc
  let s : machine_t := { s with cpu := { s.cpu with c := v } }
  pure s

/-- Handler `op_mvi_d`. -/
def op_mvi_d (s : machine_t) : Option machine_t := do
  let s ← s.trace_read s.cpu.pc
  let (v, s) ← s.read_pc_inc
  let s : machine_t := { s with cpu := { s.cpu with d := v } }
  pure s

/-- Handler `op_mvi_e`. -/
def op_mvi_e (s : machine_t) : Option machine_t := do
  let s ← s.trace_read s.cpu.pc
  let (v, s) ← s.read_pc_inc
  let s : machine_t := { s with cpu := { s.cpu with e := v } }
  pure s

/-- Handler `op_mvi_h`. -/
def op_mvi_h (s : machine_t) : Option machine_t := do
  let s ← s.trace_read s.cpu.pc
  let (v, s) ← s.read_pc_inc
  let s : machine_t := { s with cpu := { s.cpu with h := v } }
  pure s

/-- Handler `op_mvi_l`. -/
def op_mvi_l (s : machine_t) : Option machine_t := do
  let s ← s.trace_read s.cpu.pc
  let (v, s) ← s.read_pc_inc
  let s : machine_t := { s with cpu := { s.cpu with l := v } }
  pure s

/-- Handler `op_mvi_m`. -/
def op_mvi_m (s : machine_t) : Option machine_t := do
  let s ← s.trace_read s.cpu.pc
  let address : uint16_t := u16 s.cpu.l.val
  let address : uint16_t := u16 (address.val + s.cpu.h.val * 0x100)
  let (v, s) ← s.read_pc_inc
  let s ← s.write address v
  pure s

/-- Handler `op_nop`. -/
def op_nop (s : machine_t) : Option machine_t := do
  pure s

/-- Handler `op_ora_a`. -/
def op_ora_a (s : machine_t) : Option machine_t := do
  let s : machine_t := { s with cpu := i8085_ora s.cpu s.cpu.a }
  pure s

/-- Handler `op_ora_b`. -/
def op_ora_b (s : machine_t) : Option machine_t := do
  let s : machine_t := { s with cpu := i8085_ora s.cpu s.cpu.b }
  pure s

/-- Handler `op_ora_c`. -/
def op_ora_c (s : machine_t) : Option machine_t := do
  let s : machine_t := { s with cpu := i8085_ora s.cpu s.cpu.c }
  pure s

/-- Handler `op_ora_d`. -/
def op_ora_d (s : machine_t) : Option machine_t := do
  let s : machine_t := { s with cpu := i8085_ora s.cpu s.cpu.d }
  pure s

/-- Handler `op_ora_e`. -/
def op_ora_e (s : machine_t) : Option machine_t := do
  let s : machine_t := { s with cpu := i8085_ora s.cpu s.cpu.e }
  pure s

/-- Handler `op_ora_h`. -/
def op_ora_h (s : machine_t) : Option machine_t := do
  let s : machine_t := { s with cpu := i8085_ora s.cpu s.cpu.h }
  pure s

/-- Handler `op_ora_l`. -/
def op_ora_l (s : machine_t) : Option machine_t := do
  let s : machine_t := { s with cpu := i8085_ora s.cpu s.cpu.l }
  pure s

/-- Handler `op_ora_m`. -/
def op_ora_m (s : machine_t) : Option machine_t := do
  let address : uint16_t := u16 s.cpu.l.val
  let address : uint16_t := u16 (address.val + s.cpu.h.val * 0x100)
  let (v, s) ← s.read address
  let s : machine_t := { s with cpu := i8085_ora s.cpu v }
  pure s

/-- Handler `op_ori`. -/
def op_ori (s : machine_t) : Option machine_t := do
  let s ← s.trace_read s.cpu.pc
  let (v, s) ← s.read_pc_inc
  let s : machine_t := { s with cpu := i8085_ora s.cpu v }
  pure s

/-- Handler `op_out`. -/
def op_out (s : machine_t) : Option machine_t := do
  let s ← s.trace_read s.cpu.pc
  let (port, s) ← s.read_pc_inc
  let s : machine_t := io_write s port s.cpu.a
  pure s

/-- Handler `op_pchl`. -/
def op_pchl (s : machine_t) : Option machine_t := do
  let s : machine_t := { s with cpu := { s.cpu with pc := u16 s.cpu.l.val } }
  let s : machine_t := { s with cpu := { s.cpu with pc := u16 (s.cpu.pc.val + s.cpu.h.val * 0x100) } }
  pure s

/-- Handler `op_pop_b`. -/
def op_pop_b (s : machine_t) : Option machine_t := do
  let (v, s) ← s.read_sp_inc
  let s : machine_t := { s with cpu := { s.cpu with c := v } }
  let (v, s) ← s.read_sp_inc
  let s : machine_t := { s with cpu := { s.cpu with b := v } }
  pure s

/-- Handler `op_pop_d`. -/
def op_pop_d (s : machine_t) : Option machine_t := do
  let (v, s) ← s.read_sp_inc
  let s : machine_t := { s with cpu := { s.cpu with e := v } }
  let (v, s) ← s.read_sp_inc
  let s : machine_t := { s with cpu := { s.cpu with d := v } }
  pure s

/-- Handler `op_pop_h`. -/
def op_pop_h (s : machine_t) : Option machine_t := do
  let (v, s) ← s.read_sp_inc
  let s : machine_t := { s with cpu := { s.cpu with l := v } }
  let (v, s) ← s.read_sp_inc
  let s : machine_t := { s with cpu := { s.cpu with h := v } }
  pure s

/-- Handler `op_pop_psw`. -/
def op_pop_psw (s : machine_t) : Option machine_t := do
  let (v, s) ← s.read_sp_inc
  let s : machine_t := { s with cpu := { s.cpu with flag := flag_t.of_f v } }
  let (v, s) ← s.read_sp_inc
  let s : machine_t := { s with cpu := { s.cpu with a := v } }
  pure s

/-- Handler `op_push_b`. -/
def op_push_b (s : machine_t) : Option machine_t := do
  let s ← s.write_dec_sp s.cpu.b
  let s ← s.write_dec_sp s.cpu.c
  pure s

/-- Handler `op_push_d`. -/
def op_push_d (s : machine_t) : Option machine_t := do
  let s ← s.write_dec_sp s.cpu.d
  let s ← s.write_dec_sp s.cpu.e
  pure s

/-- Handler `op_push_h`. -/
def op_push_h (s : machine_t) : Option machine_t := do
  let s ← s.write_dec_sp s.cpu.h
  let s ← s.write_dec_sp s.cpu.l
  pure s

/-- Handler `op_push_psw`. -/
def op_push_psw (s : machine_t) : Option machine_t := do
  let s ← s.write_dec_sp s.cpu.a
  let s ← s.write_dec_sp s.cpu.flag.f
  pure s

/-- Handler `op_ral`. -/
def op_ral (s : machine_t) : Option machine_t := do
  let s : machine_t ←
    if s.cpu.flag.cy = true then do
      let s : machine_t := { s with cpu := { s.cpu with flag := { s.cpu.flag with cy := bit1 (s.cpu.a.val >>> 7 : Nat) } } }
      let s : machine_t := { s with cpu := { s.cpu with a := u8 (s.cpu.a.val <<< 1) } }
      let s : machine_t := { s with cpu := { s.cpu with a := u8 (s.cpu.a.val ||| 0x01) } }
      pure s
    else do
      let s : machine_t := { s with cpu := { s.cpu with flag := { s.cpu.flag with cy := bit1 (s.cpu.a.val >>> 7 : Nat) } } }
      let s : machine_t := { s with cpu := { s.cpu with a := u8 (s.cpu.a.val <<< 1) } }
      pure s
  pure s

/-- Handler `op_rar`. -/
def op_rar (s : machine_t) : Option machine_t := do
  let s : machine_t ←
    if s.cpu.flag.cy = true then do
      let s : machine_t := { s with cpu := { s.cpu with flag := { s.cpu.flag with cy := bit1 (s.cpu.a.val &&& 1 : Nat) } } }
      let s : machine_t := { s with cpu := { s.cpu with a := u8 (s.cpu.a.val >>> 1) } }
      let s : machine_t := { s with cpu := { s.cpu with a := u8 (s.cpu.a.val ||| 0x80) } }
      pure s
    else do
      let s : machine_t := { s with cpu := { s.cpu with flag := { s.cpu.flag with cy := bit1 (s.cpu.a.val &&& 1 : Nat) } } }
      let s : machine_t := { s with cpu := { s.cpu with a := u8 (s.cpu.a.val >>> 1) } }
      pure s
  pure s

/-- Handler `op_rc`. -/
def op_rc (s : machine_t) : Option machine_t := do
  let s : machine_t ←
    if s.cpu.flag.cy = true then do
      let (v, s) ← s.read_sp_inc
      let s : machine_t := { s with cpu := { s.cpu with pc := u16 v.val } }
      let (v, s) ← s.read_sp_inc
      let s : machine_t := { s with cpu := { s.cpu with pc := u16 (s.cpu.pc.val + v.val * 0x100) } }
      let s : machine_t := { s with cpu := { s.cpu with cycles := u64 (s.cpu.cycles.val + 6) } }
      pure s
    else do
      pure s
  pure s

/-- Handler `op_ret`. -/
def op_ret (s : machine_t) : Option machine_t := do
  let (v, s) ← s.read_sp_inc
  let s : machine_t := { s with cpu := { s.cpu with pc := u16 v.val } }
  let (v, s) ← s.read_sp_inc
  let s : machine_t := { s with cpu := { s.cpu with pc := u16 (s.cpu.pc.val + v.val * 0x100) } }
  pure s

/-- Handler `op_rim`. -/
def op_rim (s : machine_t) : Option machine_t := do
  let s : machine_t := { s with cpu := { s.cpu with a := s.cpu.mask.im } }
  pure s

/-- Handler `op_rlc`. -/
def op_rlc (s : machine_t) : Option machine_t := do
  let s : machine_t := { s with cpu := { s.cpu with flag := { s.cpu.flag with cy := bit1 (s.cpu.a.val >>> 7 : Nat) } } }
  let s : machine_t ←
    if s.cpu.flag.cy = true then do
      let s : machine_t := { s with cpu := { s.cpu with a := u8 (s.cpu.a.val <<< 1) } }
      let s : machine_t := { s with cpu := { s.cpu with a := u8 (s.cpu.a.val ||| 0x01) } }
      pure s
    else do
      let s : machine_t := { s with cpu := { s.cpu with a := u8 (s.cpu.a.val <<< 1) } }
      pure s
  pure s

/-- Handler `op_rm`. -/
def op_rm (s : machine_t) : Option machine_t := do
  let s : machine_t ←
    if s.cpu.flag.s = true then do
      let (v, s) ← s.read_sp_inc
      let s : machine_t := { s with cpu := { s.cpu with pc := u16 v.val } }
      let (v, s) ← s.read_sp_inc
      let s : machine_t := { s with cpu := { s.cpu with pc := u16 (s.cpu.pc.val + v.val * 0x100) } }
      let s : machine_t := { s with cpu := { s.cpu with cycles := u64 (s.cpu.cycles.val + 6) } }
      pure s
    else do
      pure s
  pure s

/-- Handler `op_rnc`. -/
def op_rnc (s : machine_t) : Option machine_t := do
  let s : machine_t ←
    if s.cpu.flag.cy = false then do
      let (v, s) ← s.read_sp_inc
      let s : machine_t := { s with cpu := { s.cpu with pc := u16 v.val } }
      let (v, s) ← s.read_sp_inc
      let s : machine_t := { s with cpu := { s.cpu with pc := u16 (s.cpu.pc.val + v.val * 0x100) } }
      let s : machine_t := { s with cpu := { s.cpu with cycles := u64 (s.cpu.cycles.val + 6) } }
      pure s
    else do
      pure s
  pure s

/-- Handler `op_rnz`. -/
def op_rnz (s : machine_t) : Option machine_t := do
  let s : machine_t ←
    if s.cpu.flag.z = false then do
      let (v, s) ← s.read_sp_inc
      let s : machine_t := { s with cpu := { s.cpu with pc := u16 v.val } }
      let (v, s) ← s.read_sp_inc
      let s : machine_t := { s with cpu := { s.cpu with pc := u16 (s.cpu.pc.val + v.val * 0x100) } }
      let s : machine_t := { s with cpu := { s.cpu with cycles := u64 (s.cpu.cycles.val + 6) } }
      pure s
    else do
      pure s
  pure s

/-- Handler `op_rp`. -/
def op_rp (s : machine_t) : Option machine_t := do
  let s : machine_t ←
    if s.cpu.flag.s = false then do
      let (v, s) ← s.read_sp_inc
      let s : machine_t := { s with cpu := { s.cpu with pc := u16 v.val } }
      let (v, s) ← s.read_sp_inc
      let s : machine_t := { s with cpu := { s.cpu with pc := u16 (s.cpu.pc.val + v.val * 0x100) } }
      let s : machine_t := { s with cpu := { s.cpu with cycles := u64 (s.cpu.cycles.val + 6) } }
      pure s
    else do
      pure s
  pure s

/-- Handler `op_rpe`. -/
def op_rpe (s : machine_t) : Option machine_t := do
  let s : machine_t ←
    if s.cpu.flag.p = true then do
      let (v, s) ← s.read_sp_inc
      let s : machine_t := { s with cpu := { s.cpu with pc := u16 v.val } }
      let (v, s) ← s.read_sp_inc
      let s : machine_t := { s with cpu := { s.cpu with pc := u16 (s.cpu.pc.val + v.val * 0x100) } }
      let s : machine_t := { s with cpu := { s.cpu with cycles := u64 (s.cpu.cycles.val + 6) } }
      pure s
    else do
      pure s
  pure s

/-- Handler `op_rpo`. -/
def op_rpo (s : machine_t) : Option machine_t := do
  let s : machine_t ←
    if s.cpu.flag.p = false then do
      let (v, s) ← s.read_sp_inc
      let s : machine_t := { s with cpu := { s.cpu with pc := u16 v.val } }
      let (v, s) ← s.read_sp_inc
      let s : machine_t := { s with cpu := { s.cpu with pc := u16 (s.cpu.pc.val + v.val * 0x100) } }
      let s : machine_t := { s with cpu := { s.cpu with cycles := u64 (s.cpu.cycles.val + 6) } }
      pure s
    else do
      pure s
  pure s

/-- Handler `op_rrc`. -/
def op_rrc (s : machine_t) : Option machine_t := do
  let s : machine_t := { s with cpu := { s.cpu with flag := { s.cpu.flag with cy := bit1 (s.cpu.a.val &&& 1 : Nat) } } }
  let s : machine_t ←
    if s.cpu.flag.cy = true then do
      let s : machine_t := { s with cpu := { s.cpu with a := u8 (s.cpu.a.val >>> 1) } }
      let s : machine_t := { s with cpu := { s.cpu with a := u8 (s.cpu.a.val ||| 0x80) } }
      pure s
    else do
      let s : machine_t := { s with cpu := { s.cpu with a := u8 (s.cpu.a.val >>> 1) } }
      pure s
  pure s

/-- Handler `op_rst_0`. -/
def op_rst_0 (s : machine_t) : Option machine_t := do
  let s ← s.write_dec_sp (u8 (s.cpu.pc.val / 0x100))
  let s ← s.write_dec_sp (u8 (s.cpu.pc.val % 0x100))
  let s : machine_t := { s with cpu := { s.cpu with pc := u16 (0 * 8) } }
  pure s

/-- Handler `op_rst_1`. -/
def op_rst_1 (s : machine_t) : Option machine_t := do
  let s ← s.write_dec_sp (u8 (s.cpu.pc.val / 0x100))
  let s ← s.write_dec_sp (u8 (s.cpu.pc.val % 0x100))
  let s : machine_t := { s with cpu := { s.cpu with pc := u16 (1 * 8) } }
  pure s

/-- Handler `op_rst_2`. -/
def op_rst_2 (s : machine_t) : Option machine_t := do
  let s ← s.write_dec_sp (u8 (s.cpu.pc.val / 0x100))
  let s ← s.write_dec_sp (u8 (s.cpu.pc.val % 0x100))
  let s : machine_t := { s with cpu := { s.cpu with pc := u16 (2 * 8) } }
  pure s

/-- Handler `op_rst_3`. -/
def op_rst_3 (s : machine_t) : Option machine_t := do
  let s ← s.write_dec_sp (u8 (s.cpu.pc.val / 0x100))
  let s ← s.write_dec_sp (u8 (s.cpu.pc.val % 0x100))
  let s : machine_t := { s with cpu := { s.cpu with pc := u16 (3 * 8) } }
  pure s

/-- Handler `op_rst_4`. -/
def op_rst_4 (s : machine_t) : Option machine_t := do
  let s ← s.write_dec_sp (u8 (s.cpu.pc.val / 0x100))
  let s ← s.write_dec_sp (u8 (s.cpu.pc.val % 0x100))
  let s : machine_t := { s with cpu := { s.cpu with pc := u16 (4 * 8) } }
  pure s

/-- Handler `op_rst_5`. -/
def op_rst_5 (s : machine_t) : Option machine_t := do
  let s ← s.write_dec_sp (u8 (s.cpu.pc.val / 0x100))
  let s ← s.write_dec_sp (u8 (s.cpu.pc.val % 0x100))
  let s : machine_t := { s with cpu := { s.cpu with pc := u16 (5 * 8) } }
  pure s

/-- Handler `op_rst_6`. -/
def op_rst_6 (s : machine_t) : Option machine_t := do
  let s ← s.write_dec_sp (u8 (s.cpu.pc.val / 0x100))
  let s ← s.write_dec_sp (u8 (s.cpu.pc.val % 0x100))
  let s : machine_t := { s with cpu := { s.cpu with pc := u16 (6 * 8) } }
  pure s

/-- Handler `op_rst_7`. -/
def op_rst_7 (s : machine_t) : Option machine_t := do
  let s ← s.write_dec_sp (u8 (s.cpu.pc.val / 0x100))
  let s ← s.write_dec_sp (u8 (s.cpu.pc.val % 0x100))
  let s : machine_t := { s with cpu := { s.cpu with pc := u16 (7 * 8) } }
  pure s

/-- Handler `op_rz`. -/
def op_rz (s : machine_t) : Option machine_t := do
  let s : machine_t ←
    if s.cpu.flag.z = true then do
      let (v, s) ← s.read_sp_inc
      let s : machine_t := { s with cpu := { s.cpu with pc := u16 v.val } }
      let (v, s) ← s.read_sp_inc
      let s : machine_t := { s with cpu := { s.cpu with pc := u16 (s.cpu.pc.val + v.val * 0x100) } }
      let s : machine_t := { s with cpu := { s.cpu with cycles := u64 (s.cpu.cycles.val + 6) } }
      pure s
    else do
      pure s
  pure s

/-- Handler `op_sbb_a`. -/
def op_sbb_a (s : machine_t) : Option machine_t := do
  let s : machine_t := { s with cpu := i8085_sbb s.cpu s.cpu.a }
  pure s

/-- Handler `op_sbb_b`. -/
def op_sbb_b (s : machine_t) : Option machine_t := do
  let s : machine_t := { s with cpu := i8085_sbb s.cpu s.cpu.b }
  pure s

/-- Handler `op_sbb_c`. -/
def op_sbb_c (s : machine_t) : Option machine_t := do
  let s : machine_t := { s with cpu := i8085_sbb s.cpu s.cpu.c }
  pure s

/-- Handler `op_sbb_d`. -/
def op_sbb_d (s : machine_t) : Option machine_t := do
  let s : machine_t := { s with cpu := i8085_sbb s.cpu s.cpu.d }
  pure s

/-- Handler `op_sbb_e`. -/
def op_sbb_e (s : machine_t) : Option machine_t := do
  let s : machine_t := { s with cpu := i8085_sbb s.cpu s.cpu.e }
  pure s

/-- Handler `op_sbb_h`. -/
def op_sbb_h (s : machine_t) : Option machine_t := do
  let s : machine_t := { s with cpu := i8085_sbb s.cpu s.cpu.h }
  pure s

/-- Handler `op_sbb_l`. -/
def op_sbb_l (s : machine_t) : Option machine_t := do
  let s : machine_t := { s with cpu := i8085_sbb s.cpu s.cpu.l }
  pure s

/-- Handler `op_sbb_m`. -/
def op_sbb_m (s : machine_t) : Option machine_t := do
  let address : uint16_t := u16 s.cpu.l.val
  let address : uint16_t := u16 (address.val + s.cpu.h.val * 0x100)
  let (v, s) ← s.read address
  let s : machine_t := { s with cpu := i8085_sbb s.cpu v }
  pure s

/-- Handler `op_sbi`. -/
def op_sbi (s : machine_t) : Option machine_t := do
  let s ← s.trace_read s.cpu.pc
  let (v, s) ← s.read_pc_inc
  let s : machine_t := { s with cpu := i8085_sbb s.cpu v }
  pure s

/-- Handler `op_shld`. -/
def op_shld (s : machine_t) : Option machine_t := do
  let s ← s.trace_read (u16 (s.cpu.pc.val + 1))
  let s ← s.trace_read s.cpu.pc
  let (v, s) ← s.read_pc_inc
  let address : uint16_t := u16 v.val
  let (v, s) ← s.read_pc_inc
  let address : uint16_t := u16 (address.val + v.val * 0x100)
  let s ← s.write address s.cpu.l
  let s ← s.write (u16 (address.val + 1)) s.cpu.h
  pure s

/-- Handler `op_sim`. -/
def op_sim (s : machine_t) : Option machine_t := do
  let s : machine_t ←
    if (s.cpu.a.val >>> 3) &&& 1 = 1 then do
      let s : machine_t := { s with cpu := { s.cpu with mask := { s.cpu.mask with m55 := bit1 (s.cpu.a.val &&& 1 : Nat) } } }
      let s : machine_t := { s with cpu := { s.cpu with mask := { s.cpu.mask with m65 := bit1 ((s.cpu.a.val >>> 1) &&& 1 : Nat) } } }
      let s : machine_t := { s with cpu := { s.cpu with mask := { s.cpu.mask with m75 := bit1 ((s.cpu.a.val >>> 2) &&& 1 : Nat) } } }
      pure s
    else do
      pure s
  let s : machine_t ←
    if (s.cpu.a.val >>> 6) &&& 1 = 1 then do
      let s : machine_t := { s with cpu := { s.cpu with sod := decide ((s.cpu.a.val >>> 7) &&& 1 ≠ 0) } }
      pure s
    else do
      pure s
  pure s

/-- Handler `op_sphl`. -/
def op_sphl (s : machine_t) : Option machine_t := do
  let s : machine_t := { s with cpu := { s.cpu with sp := s.cpu.hl } }
  pure s

/-- Handler `op_sta`. -/
def op_sta (s : machine_t) : Option machine_t := do
  let s ← s.trace_read (u16 (s.cpu.pc.val + 1))
  let s ← s.trace_read s.cpu.pc
  let (v, s) ← s.read_pc_inc
  let address : uint16_t := u16 v.val
  let (v, s) ← s.read_pc_inc
  let address : uint16_t := u16 (address.val + v.val * 0x100)
  let s ← s.write address s.cpu.a
  pure s

/-- Handler `op_stax_b`. -/
def op_stax_b (s : machine_t) : Option machine_t := do
  let address : uint16_t := u16 s.cpu.c.val
  let address : uint16_t := u16 (address.val + s.cpu.b.val * 0x100)
  let s ← s.write address s.cpu.a
  pure s

/-- Handler `op_stax_d`. -/
def op_stax_d (s : machine_t) : Option machine_t := do
  let address : uint16_t := u16 s.cpu.e.val
  let address : uint16_t := u16 (address.val + s.cpu.d.val * 0x100)
  let s ← s.write address s.cpu.a
  pure s

/-- Handler `op_stc`. -/
def op_stc (s : machine_t) : Option machine_t := do
  let s : machine_t := { s with cpu := { s.cpu with flag := { s.cpu.flag with cy := true } } }
  pure s

/-- Handler `op_sub_a`. -/
def op_sub_a (s : machine_t) : Option machine_t := do
  let s : machine_t := { s with cpu := i8085_sub s.cpu s.cpu.a }
  pure s

/-- Handler `op_sub_b`. -/
def op_sub_b (s : machine_t) : Option machine_t := do
  let s : machine_t := { s with cpu := i8085_sub s.cpu s.cpu.b }
  pure s

/-- Handler `op_sub_c`. -/
def op_sub_c (s : machine_t) : Option machine_t := do
  let s : machine_t := { s with cpu := i8085_sub s.cpu s.cpu.c }
  pure s

/-- Handler `op_sub_d`. -/
def op_sub_d (s : machine_t) : Option machine_t := do
  let s : machine_t := { s with cpu := i8085_sub s.cpu s.cpu.d }
  pure s

/-- Handler `op_sub_e`. -/
def op_sub_e (s : machine_t) : Option machine_t := do
  let s : machine_t := { s with cpu := i8085_sub s.cpu s.cpu.e }
  pure s

/-- Handler `op_sub_h`. -/
def op_sub_h (s : machine_t) : Option machine_t := do
  let s : machine_t := { s with cpu := i8085_sub s.cpu s.cpu.h }
  pure s

/-- Handler `op_sub_l`. -/
def op_sub_l (s : machine_t) : Option machine_t := do
  let s : machine_t := { s with cpu := i8085_sub s.cpu s.cpu.l }
  pure s

/-- Handler `op_sub_m`. -/
def op_sub_m (s : machine_t) : Option machine_t := do
  let address : uint16_t := u16 s.cpu.l.val
  let address : uint16_t := u16 (address.val + s.cpu.h.val * 0x100)
  let (v, s) ← s.read address
  let s : machine_t := { s with cpu := i8085_sub s.cpu v }
  pure s

/-- Handler `op_sui`. -/
def op_sui (s : machine_t) : Option machine_t := do
  let s ← s.trace_read s.cpu.pc
  let (v, s) ← s.read_pc_inc
  let s : machine_t := { s with cpu := i8085_sub s.cpu v }
  pure s

/-- Handler `op_xchg`. -/
def op_xchg (s : machine_t) : Option machine_t := do
  let temp : uint16_t := s.cpu.hl
  let s : machine_t := { s with cpu := s.cpu.set_hl s.cpu.de }
  let s : machine_t := { s with cpu := s.cpu.set_de temp }
  pure s

/-- Handler `op_xra_a`. -/
def op_xra_a (s : machine_t) : Option machine_t := do
  let s : machine_t := { s with cpu := i8085_xra s.cpu s.cpu.a }
  pure s

/-- Handler `op_xra_b`. -/
def op_xra_b (s : machine_t) : Option machine_t := do
  let s : machine_t := { s with cpu := i8085_xra s.cpu s.cpu.b }
  pure s

/-- Handler `op_xra_c`. -/
def op_xra_c (s : machine_t) : Option machine_t := do
  let s : machine_t := { s with cpu := i8085_xra s.cpu s.cpu.c }
  pure s

/-- Handler `op_xra_d`. -/
def op_xra_d (s : machine_t) : Option machine_t := do
  let s : machine_t := { s with cpu := i8085_xra s.cpu s.cpu.d }
  pure s

/-- Handler `op_xra_e`. -/
def op_xra_e (s : machine_t) : Option machine_t := do
  let s : machine_t := { s with cpu := i8085_xra s.cpu s.cpu.e }
  pure s

/-- Handler `op_xra_h`. -/
def op_xra_h (s : machine_t) : Option machine_t := do
  let s : machine_t := { s with cpu := i8085_xra s.cpu s.cpu.h }
  pure s

/-- Handler `op_xra_l`. -/
def op_xra_l (s : machine_t) : Option machine_t := do
  let s : machine_t := { s with cpu := i8085_xra s.cpu s.cpu.l }
  pure s

/-- Handler `op_xra_m`. -/
def op_xra_m (s : machine_t) : Option machine_t := do
  let address : uint16_t := u16 s.cpu.l.val
  let address : uint16_t := u16 (address.val + s.cpu.h.val * 0x100)
  let (v, s) ← s.read address
  let s : machine_t := { s with cpu := i8085_xra s.cpu v }
  pure s

/-- Handler `op_xri`. -/
def op_xri (s : machine_t) : Option machine_t := do
  let s ← s.trace_read s.cpu.pc
  let (v, s) ← s.read_pc_inc
  let s : machine_t := { s with cpu := i8085_xra s.cpu v }
  pure s

/-- Handler `op_xthl`. -/
def op_xthl (s : machine_t) : Option machine_t := do
  let temp : uint16_t := s.cpu.hl
  let (v, s) ← s.read s.cpu.sp
  let s : machine_t := { s with cpu := { s.cpu with l := v } }
  let (v, s) ← s.read (u16 (s.cpu.sp.val + 1))
  let s : machine_t := { s with cpu := { s.cpu with h := v } }
  let s ← s.write s.cpu.sp (u8 (temp.val % 0x100))
  let s ← s.write (u16 (s.cpu.sp.val + 1)) (u8 (temp.val / 0x100))
  pure s

/-- Handler `op_none`. -/
def op_none (s : machine_t) : Option machine_t := do
  let (opcode, s) ← s.read (u16i ((s.cpu.pc.val : Int) - 1))
  let s : machine_t := panic s opcode
  pure s

/-- The functions of type `i8085_operation_func_t` in the program, by name: an entry of
the dispatch table holds one of them. -/
inductive i8085_operation_func_t where
  | op_aci
  | op_adc_a
  | op_adc_b
  | op_adc_c
  | op_adc_d
  | op_adc_e
  | op_adc_h
  | op_adc_l
  | op_adc_m
  | op_add_a
  | op_add_b
  | op_add_c
  | op_add_d
  | op_add_e
  | op_add_h
  | op_add_l
  | op_add_m
  | op_adi
  | op_ana_a
  | op_ana_b
  | op_ana_c
  | op_ana_d
  | op_ana_e
  | op_ana_h
  | op_ana_l
  | op_ana_m
  | op_ani
  | op_call
  | op_cc
  | op_cm
  | op_cma
  | op_cmc
  | op_cmp_a
  | op_cmp_b
  | op_cmp_c
  | op_cmp_d
  | op_cmp_e
  | op_cmp_h
  | op_cmp_l
  | op_cmp_m
  | op_cnc
  | op_cnz
  | op_cp
  | op_cpe
  | op_cpi
  | op_cpo
  | op_cz
  | op_daa
  | op_dad_b
  | op_dad_d
  | op_dad_h
  | op_dad_sp
  | op_dcr_a
  | op_dcr_b
  | op_dcr_c
  | op_dcr_d
  | op_dcr_e
  | op_dcr_h
  | op_dcr_l
  | op_dcr_m
  | op_dcx_b
  | op_dcx_d
  | op_dcx_h
  | op_dcx_sp
  | op_di
  | op_ei
  | op_hlt
  | op_in
  | op_inr_a
  | op_inr_b
  | op_inr_c
  | op_inr_d
  | op_inr_e
  | op_inr_h
  | op_inr_l
  | op_inr_m
  | op_inx_b
  | op_inx_d
  | op_inx_h
  | op_inx_sp
  | op_jc
  | op_jm
  | op_jmp
  | op_jnc
  | op_jnz
  | op_jp
  | op_jpe
  | op_jpo
  | op_jz
  | op_lda
  | op_ldax_b
  | op_ldax_d
  | op_lhld
  | op_lxi_b
  | op_lxi_d
  | op_lxi_h
  | op_lxi_sp
  | op_mov_a_a
  | op_mov_a_b
  | op_mov_a_c
  | op_mov_a_d
  | op_mov_a_e
  | op_mov_a_h
  | op_mov_a_l
  | op_mov_a_m
  | op_mov_b_a
  | op_mov_b_b
  | op_mov_b_c
  | op_mov_b_d
  | op_mov_b_e
  | op_mov_b_h
  | op_mov_b_l
  | op_mov_b_m
  | op_mov_c_a
  | op_mov_c_b
  | op_mov_c_c
  | op_mov_c_d
  | op_mov_c_e
  | op_mov_c_h
  | op_mov_c_l
  | op_mov_c_m
  | op_mov_d_a
  | op_mov_d_b
  | op_mov_d_c
  | op_mov_d_d
  | op_mov_d_e
  | op_mov_d_h
  | op_mov_d_l
  | op_mov_d_m
  | op_mov_e_a
  | op_mov_e_b
  | op_mov_e_c
  | op_mov_e_d
  | op_mov_e_e
  | op_mov_e_h
  | op_mov_e_l
  | op_mov_e_m
  | op_mov_h_a
  | op_mov_h_b
  | op_mov_h_c
  | op_mov_h_d
  | op_mov_h_e
  | op_mov_h_h
  | op_mov_h_l
  | op_mov_h_m
  | op_mov_l_a
  | op_mov_l_b
  | op_mov_l_c
  | op_mov_l_d
  | op_mov_l_e
  | op_mov_l_h
  | op_mov_l_l
  | op_mov_l_m
  | op_mov_m_a
  | op_mov_m_b
  | op_mov_m_c
  | op_mov_m_d
  | op_mov_m_e
  | op_mov_m_h
  | op_mov_m_l
  | op_mvi_a
  | op_mvi_b
  | op_mvi_c
  | op_mvi_d
  | op_mvi_e
  | op_mvi_h
  | op_mvi_l
  | op_mvi_m
  | op_nop
  | op_ora_a
  | op_ora_b
  | op_ora_c
  | op_ora_d
  | op_ora_e
  | op_ora_h
  | op_ora_l
  | op_ora_m
  | op_ori
  | op_out
  | op_pchl
  | op_pop_b
  | op_pop_d
  | op_pop_h
  | op_pop_psw
  | op_push_b
  | op_push_d
  | op_push_h
  | op_push_psw
  | op_ral
  | op_rar
  | op_rc
  | op_ret
  | op_rim
  | op_rlc
  | op_rm
  | op_rnc
  | op_rnz
  | op_rp
  | op_rpe
  | op_rpo
  | op_rrc
  | op_rst_0
  | op_rst_1
  | op_rst_2
  | op_rst_3
  | op_rst_4
  | op_rst_5
  | op_rst_6
  | op_rst_7
  | op_rz
  | op_sbb_a
  | op_sbb_b
  | op_sbb_c
  | op_sbb_d
  | op_sbb_e
  | op_sbb_h
  | op_sbb_l
  | op_sbb_m
  | op_sbi
  | op_shld
  | op_sim
  | op_sphl
  | op_sta
  | op_stax_b
  | op_stax_d
  | op_stc
  | op_sub_a
  | op_sub_b
  | op_sub_c
  | op_sub_d
  | op_sub_e
  | op_sub_h
  | op_sub_l
  | op_sub_m
  | op_sui
  | op_xchg
  | op_xra_a
  | op_xra_b
  | op_xra_c
  | op_xra_d
  | op_xra_e
  | op_xra_h
  | op_xra_l
  | op_xra_m
  | op_xri
  | op_xthl
  | op_none
deriving DecidableEq, Repr

/-- Call through a handler pointer. -/
def i8085_operation_func_t.call : i8085_operation_func_t → machine_t → Option machine_t
  | .op_aci => SDK85.op_aci
  | .op_adc_a => SDK85.op_adc_a
  | .op_adc_b => SDK85.op_adc_b
  | .op_adc_c => SDK85.op_adc_c
  | .op_adc_d => SDK85.op_adc_d
  | .op_adc_e => SDK85.op_adc_e
  | .op_adc_h => SDK85.op_adc_h
  | .op_adc_l => SDK85.op_adc_l
  | .op_adc_m => SDK85.op_adc_m
  | .op_add_a => SDK85.op_add_a
  | .op_add_b => SDK85.op_add_b
  | .op_add_c => SDK85.op_add_c
  | .op_add_d => SDK85.op_add_d
  | .op_add_e => SDK85.op_add_e
  | .op_add_h => SDK85.op_add_h
  | .op_add_l => SDK85.op_add_l
  | .op_add_m => SDK85.op_add_m
  | .op_adi => SDK85.op_adi
  | .op_ana_a => SDK85.op_ana_a
  | .op_ana_b => SDK85.op_ana_b
  | .op_ana_c => SDK85.op_ana_c
  | .op_ana_d => SDK85.op_ana_d
  | .op_ana_e => SDK85.op_ana_e
  | .op_ana_h => SDK85.op_ana_h
  | .op_ana_l => SDK85.op_ana_l
  | .op_ana_m => SDK85.op_ana_m
  | .op_ani => SDK85.op_ani
  | .op_call => SDK85.op_call
  | .op_cc => SDK85.op_cc
  | .op_cm => SDK85.op_cm
  | .op_cma => SDK85.op_cma
  | .op_cmc => SDK85.op_cmc
  | .op_cmp_a => SDK85.op_cmp_a
  | .op_cmp_b => SDK85.op_cmp_b
  | .op_cmp_c => SDK85.op_cmp_c
  | .op_cmp_d => SDK85.op_cmp_d
  | .op_cmp_e => SDK85.op_cmp_e
  | .op_cmp_h => SDK85.op_cmp_h
  | .op_cmp_l => SDK85.op_cmp_l
  | .op_cmp_m => SDK85.op_cmp_m
  | .op_cnc => SDK85.op_cnc
  | .op_cnz => SDK85.op_cnz
  | .op_cp => SDK85.op_cp
  | .op_cpe => SDK85.op_cpe
  | .op_cpi => SDK85.op_cpi
  | .op_cpo => SDK85.op_cpo
  | .op_cz => SDK85.op_cz
  | .op_daa => SDK85.op_daa
  | .op_dad_b => SDK85.op_dad_b
  | .op_dad_d => SDK85.op_dad_d
  | .op_dad_h => SDK85.op_dad_h
  | .op_dad_sp => SDK85.op_dad_sp
  | .op_dcr_a => SDK85.op_dcr_a
  | .op_dcr_b => SDK85.op_dcr_b
  | .op_dcr_c => SDK85.op_dcr_c
  | .op_dcr_d => SDK85.op_dcr_d
  | .op_dcr_e => SDK85.op_dcr_e
  | .op_dcr_h => SDK85.op_dcr_h
  | .op_dcr_l => SDK85.op_dcr_l
  | .op_dcr_m => SDK85.op_dcr_m
  | .op_dcx_b => SDK85.op_dcx_b
  | .op_dcx_d => SDK85.op_dcx_d
  | .op_dcx_h => SDK85.op_dcx_h
  | .op_dcx_sp => SDK85.op_dcx_sp
  | .op_di => SDK85.op_di
  | .op_ei => SDK85.op_ei
  | .op_hlt => SDK85.op_hlt
  | .op_in => SDK85.op_in
  | .op_inr_a => SDK85.op_inr_a
  | .op_inr_b => SDK85.op_inr_b
  | .op_inr_c => SDK85.op_inr_c
  | .op_inr_d => SDK85.op_inr_d
  | .op_inr_e => SDK85.op_inr_e
  | .op_inr_h => SDK85.op_inr_h
  | .op_inr_l => SDK85.op_inr_l
  | .op_inr_m => SDK85.op_inr_m
  | .op_inx_b => SDK85.op_inx_b
  | .op_inx_d => SDK85.op_inx_d
  | .op_inx_h => SDK85.op_inx_h
  | .op_inx_sp => SDK85.op_inx_sp
  | .op_jc => SDK85.op_jc
  | .op_jm => SDK85.op_jm
  | .op_jmp => SDK85.op_jmp
  | .op_jnc => SDK85.op_jnc
  | .op_jnz => SDK85.op_jnz
  | .op_jp => SDK85.op_jp
  | .op_jpe => SDK85.op_jpe
  | .op_jpo => SDK85.op_jpo
  | .op_jz => SDK85.op_jz
  | .op_lda => SDK85.op_lda
  | .op_ldax_b => SDK85.op_ldax_b
  | .op_ldax_d => SDK85.op_ldax_d
  | .op_lhld => SDK85.op_lhld
  | .op_lxi_b => SDK85.op_lxi_b
  | .op_lxi_d => SDK85.op_lxi_d
  | .op_lxi_h => SDK85.op_lxi_h
  | .op_lxi_sp => SDK85.op_lxi_sp
  | .op_mov_a_a => SDK85.op_mov_a_a
  | .op_mov_a_b => SDK85.op_mov_a_b
  | .op_mov_a_c => SDK85.op_mov_a_c
  | .op_mov_a_d => SDK85.op_mov_a_d
  | .op_mov_a_e => SDK85.op_mov_a_e
  | .op_mov_a_h => SDK85.op_mov_a_h
  | .op_mov_a_l => SDK85.op_mov_a_l
  | .op_mov_a_m => SDK85.op_mov_a_m
  | .op_mov_b_a => SDK85.op_mov_b_a
  | .op_mov_b_b => SDK85.op_mov_b_b
  | .op_mov_b_c => SDK85.op_mov_b_c
  | .op_mov_b_d => SDK85.op_mov_b_d
  | .op_mov_b_e => SDK85.op_mov_b_e
  | .op_mov_b_h => SDK85.op_mov_b_h
  | .op_mov_b_l => SDK85.op_mov_b_l
  | .op_mov_b_m => SDK85.op_mov_b_m
  | .op_mov_c_a => SDK85.op_mov_c_a
  | .op_mov_c_b => SDK85.op_mov_c_b
  | .op_mov_c_c => SDK85.op_mov_c_c
  | .op_mov_c_d => SDK85.op_mov_c_d
  | .op_mov_c_e => SDK85.op_mov_c_e
  | .op_mov_c_h => SDK85.op_mov_c_h
  | .op_mov_c_l => SDK85.op_mov_c_l
  | .op_mov_c_m => SDK85.op_mov_c_m
  | .op_mov_d_a => SDK85.op_mov_d_a
  | .op_mov_d_b => SDK85.op_mov_d_b
  | .op_mov_d_c => SDK85.op_mov_d_c
  | .op_mov_d_d => SDK85.op_mov_d_d
  | .op_mov_d_e => SDK85.op_mov_d_e
  | .op_mov_d_h => SDK85.op_mov_d_h
  | .op_mov_d_l => SDK85.op_mov_d_l
  | .op_mov_d_m => SDK85.op_mov_d_m
  | .op_mov_e_a => SDK85.op_mov_e_a
  | .op_mov_e_b => SDK85.op_mov_e_b
  | .op_mov_e_c => SDK85.op_mov_e_c
  | .op_mov_e_d => SDK85.op_mov_e_d
  | .op_mov_e_e => SDK85.op_mov_e_e
  | .op_mov_e_h => SDK85.op_mov_e_h
  | .op_mov_e_l => SDK85.op_mov_e_l
  | .op_mov_e_m => SDK85.op_mov_e_m
  | .op_mov_h_a => SDK85.op_mov_h_a
  | .op_mov_h_b => SDK85.op_mov_h_b
  | .op_mov_h_c => SDK85.op_mov_h_c
  | .op_mov_h_d => SDK85.op_mov_h_d
  | .op_mov_h_e => SDK85.op_mov_h_e
  | .op_mov_h_h => SDK85.op_mov_h_h
  | .op_mov_h_l => SDK85.op_mov_h_l
  | .op_mov_h_m => SDK85.op_mov_h_m
  | .op_mov_l_a => SDK85.op_mov_l_a
  | .op_mov_l_b => SDK85.op_mov_l_b
  | .op_mov_l_c => SDK85.op_mov_l_c
  | .op_mov_l_d => SDK85.op_mov_l_d
  | .op_mov_l_e => SDK85.op_mov_l_e
  | .op_mov_l_h => SDK85.op_mov_l_h
  | .op_mov_l_l => SDK85.op_mov_l_l
  | .op_mov_l_m => SDK85.op_mov_l_m
  | .op_mov_m_a => SDK85.op_mov_m_a
  | .op_mov_m_b => SDK85.op_mov_m_b
  | .op_mov_m_c => SDK85.op_mov_m_c
  | .op_mov_m_d => SDK85.op_mov_m_d
  | .op_mov_m_e => SDK85.op_mov_m_e
  | .op_mov_m_h => SDK85.op_mov_m_h
  | .op_mov_m_l => SDK85.op_mov_m_l
  | .op_mvi_a => SDK85.op_mvi_a
  | .op_mvi_b => SDK85.op_mvi_b
  | .op_mvi_c => SDK85.op_mvi_c
  | .op_mvi_d => SDK85.op_mvi_d
  | .op_mvi_e => SDK85.op_mvi_e
  | .op_mvi_h => SDK85.op_mvi_h
  | .op_mvi_l => SDK85.op_mvi_l
  | .op_mvi_m => SDK85.op_mvi_m
  | .op_nop => SDK85.op_nop
  | .op_ora_a => SDK85.op_ora_a
  | .op_ora_b => SDK85.op_ora_b
  | .op_ora_c => SDK85.op_ora_c
  | .op_ora_d => SDK85.op_ora_d
  | .op_ora_e => SDK85.op_ora_e
  | .op_ora_h => SDK85.op_ora_h
  | .op_ora_l => SDK85.op_ora_l
  | .op_ora_m => SDK85.op_ora_m
  | .op_ori => SDK85.op_ori
  | .op_out => SDK85.op_out
  | .op_pchl => SDK85.op_pchl
  | .op_pop_b => SDK85.op_pop_b
  | .op_pop_d => SDK85.op_pop_d
  | .op_pop_h => SDK85.op_pop_h
  | .op_pop_psw => SDK85.op_pop_psw
  | .op_push_b => SDK85.op_push_b
  | .op_push_d => SDK85.op_push_d
  | .op_push_h => SDK85.op_push_h
  | .op_push_psw => SDK85.op_push_psw
  | .op_ral => SDK85.op_ral
  | .op_rar => SDK85.op_rar
  | .op_rc => SDK85.op_rc
  | .op_ret => SDK85.op_ret
  | .op_rim => SDK85.op_rim
  | .op_rlc => SDK85.op_rlc
  | .op_rm => SDK85.op_rm
  | .op_rnc => SDK85.op_rnc
  | .op_rnz => SDK85.op_rnz
  | .op_rp => SDK85.op_rp
  | .op_rpe => SDK85.op_rpe
  | .op_rpo => SDK85.op_rpo
  | .op_rrc => SDK85.op_rrc
  | .op_rst_0 => SDK85.op_rst_0
  | .op_rst_1 => SDK85.op_rst_1
  | .op_rst_2 => SDK85.op_rst_2
  | .op_rst_3 => SDK85.op_rst_3
  | .op_rst_4 => SDK85.op_rst_4
  | .op_rst_5 => SDK85.op_rst_5
  | .op_rst_6 => SDK85.op_rst_6
  | .op_rst_7 => SDK85.op_rst_7
  | .op_rz => SDK85.op_rz
  | .op_sbb_a => SDK85.op_sbb_a
  | .op_sbb_b => SDK85.op_sbb_b
  | .op_sbb_c => SDK85.op_sbb_c
  | .op_sbb_d => SDK85.op_sbb_d
  | .op_sbb_e => SDK85.op_sbb_e
  | .op_sbb_h => SDK85.op_sbb_h
  | .op_sbb_l => SDK85.op_sbb_l
  | .op_sbb_m => SDK85.op_sbb_m
  | .op_sbi => SDK85.op_sbi
  | .op_shld => SDK85.op_shld
  | .op_sim => SDK85.op_sim
  | .op_sphl => SDK85.op_sphl
  | .op_sta => SDK85.op_sta
  | .op_stax_b => SDK85.op_stax_b
  | .op_stax_d => SDK85.op_stax_d
  | .op_stc => SDK85.op_stc
  | .op_sub_a => SDK85.op_sub_a
  | .op_sub_b => SDK85.op_sub_b
  | .op_sub_c => SDK85.op_sub_c
  | .op_sub_d => SDK85.op_sub_d
  | .op_sub_e => SDK85.op_sub_e
  | .op_sub_h => SDK85.op_sub_h
  | .op_sub_l => SDK85.op_sub_l
  | .op_sub_m => SDK85.op_sub_m
  | .op_sui => SDK85.op_sui
  | .op_xchg => SDK85.op_xchg
  | .op_xra_a => SDK85.op_xra_a
  | .op_xra_b => SDK85.op_xra_b
  | .op_xra_c => SDK85.op_xra_c
  | .op_xra_d => SDK85.op_xra_d
  | .op_xra_e => SDK85.op_xra_e
  | .op_xra_h => SDK85.op_xra_h
  | .op_xra_l => SDK85.op_xra_l
  | .op_xra_m => SDK85.op_xra_m
  | .op_xri => SDK85.op_xri
  | .op_xthl => SDK85.op_xthl
  | .op_none => SDK85.op_none

abbrev UINT8_MAX : Nat := 255

/-- The dispatch table `opcode_function`. -/
def opcode_function : List i8085_operation_func_t := [
  i8085_operation_func_t.op_nop, i8085_operation_func_t.op_lxi_b, i8085_operation_func_t.op_stax_b, i8085_operation_func_t.op_inx_b,  -- 0x00 -> 0x03
  i8085_operation_func_t.op_inr_b, i8085_operation_func_t.op_dcr_b, i8085_operation_func_t.op_mvi_b, i8085_operation_func_t.op_rlc,  -- 0x04 -> 0x07
  i8085_operation_func_t.op_none, i8085_operation_func_t.op_dad_b, i8085_operation_func_t.op_ldax_b, i8085_operation_func_t.op_dcx_b,  -- 0x08 -> 0x0B
  i8085_operation_func_t.op_inr_c, i8085_operation_func_t.op_dcr_c, i8085_operation_func_t.op_mvi_c, i8085_operation_func_t.op_rrc,  -- 0x0C -> 0x0F
  i8085_operation_func_t.op_none, i8085_operation_func_t.op_lxi_d, i8085_operation_func_t.op_stax_d, i8085_operation_func_t.op_inx_d,  -- 0x10 -> 0x13
  i8085_operation_func_t.op_inr_d, i8085_operation_func_t.op_dcr_d, i8085_operation_func_t.op_mvi_d, i8085_operation_func_t.op_ral,  -- 0x14 -> 0x17
  i8085_operation_func_t.op_none, i8085_operation_func_t.op_dad_d, i8085_operation_func_t.op_ldax_d, i8085_operation_func_t.op_dcx_d,  -- 0x18 -> 0x1B
  i8085_operation_func_t.op_inr_e, i8085_operation_func_t.op_dcr_e, i8085_operation_func_t.op_mvi_e, i8085_operation_func_t.op_rar,  -- 0x1C -> 0x1F
  i8085_operation_func_t.op_rim, i8085_operation_func_t.op_lxi_h, i8085_operation_func_t.op_shld, i8085_operation_func_t.op_inx_h,  -- 0x20 -> 0x23
  i8085_operation_func_t.op_inr_h, i8085_operation_func_t.op_dcr_h, i8085_operation_func_t.op_mvi_h, i8085_operation_func_t.op_daa,  -- 0x24 -> 0x27
  i8085_operation_func_t.op_none, i8085_operation_func_t.op_dad_h, i8085_operation_func_t.op_lhld, i8085_operation_func_t.op_dcx_h,  -- 0x28 -> 0x2B
  i8085_operation_func_t.op_inr_l, i8085_operation_func_t.op_dcr_l, i8085_operation_func_t.op_mvi_l, i8085_operation_func_t.op_cma,  -- 0x2C -> 0x2F
  i8085_operation_func_t.op_sim, i8085_operation_func_t.op_lxi_sp, i8085_operation_func_t.op_sta, i8085_operation_func_t.op_inx_sp,  -- 0x30 -> 0x33
  i8085_operation_func_t.op_inr_m, i8085_operation_func_t.op_dcr_m, i8085_operation_func_t.op_mvi_m, i8085_operation_func_t.op_stc,  -- 0x34 -> 0x37
  i8085_operation_func_t.op_none, i8085_operation_func_t.op_dad_sp, i8085_operation_func_t.op_lda, i8085_operation_func_t.op_dcx_sp,  -- 0x38 -> 0x3B
  i8085_operation_func_t.op_inr_a, i8085_operation_func_t.op_dcr_a, i8085_operation_func_t.op_mvi_a, i8085_operation_func_t.op_cmc,  -- 0x3C -> 0x3F
  i8085_operation_func_t.op_mov_b_b, i8085_operation_func_t.op_mov_b_c, i8085_operation_func_t.op_mov_b_d, i8085_operation_func_t.op_mov_b_e,  -- 0x40 -> 0x43
  i8085_operation_func_t.op_mov_b_h, i8085_operation_func_t.op_mov_b_l, i8085_operation_func_t.op_mov_b_m, i8085_operation_func_t.op_mov_b_a,  -- 0x44 -> 0x47
  i8085_operation_func_t.op_mov_c_b, i8085_operation_func_t.op_mov_c_c, i8085_operation_func_t.op_mov_c_d, i8085_operation_func_t.op_mov_c_e,  -- 0x48 -> 0x4B
  i8085_operation_func_t.op_mov_c_h, i8085_operation_func_t.op_mov_c_l, i8085_operation_func_t.op_mov_c_m, i8085_operation_func_t.op_mov_c_a,  -- 0x4C -> 0x4F
  i8085_operation_func_t.op_mov_d_b, i8085_operation_func_t.op_mov_d_c, i8085_operation_func_t.op_mov_d_d, i8085_operation_func_t.op_mov_d_e,  -- 0x50 -> 0x53
  i8085_operation_func_t.op_mov_d_h, i8085_operation_func_t.op_mov_d_l, i8085_operation_func_t.op_mov_d_m, i8085_operation_func_t.op_mov_d_a,  -- 0x54 -> 0x57
  i8085_operation_func_t.op_mov_e_b, i8085_operation_func_t.op_mov_e_c, i8085_operation_func_t.op_mov_e_d, i8085_operation_func_t.op_mov_e_e,  -- 0x58 -> 0x5B
  i8085_operation_func_t.op_mov_e_h, i8085_operation_func_t.op_mov_e_l, i8085_operation_func_t.op_mov_e_m, i8085_operation_func_t.op_mov_e_a,  -- 0x5C -> 0x5F
  i8085_operation_func_t.op_mov_h_b, i8085_operation_func_t.op_mov_h_c, i8085_operation_func_t.op_mov_h_d, i8085_operation_func_t.op_mov_h_e,  -- 0x60 -> 0x63
  i8085_operation_func_t.op_mov_h_h, i8085_operation_func_t.op_mov_h_l, i8085_operation_func_t.op_mov_h_m, i8085_operation_func_t.op_mov_h_a,  -- 0x64 -> 0x67
  i8085_operation_func_t.op_mov_l_b, i8085_operation_func_t.op_mov_l_c, i8085_operation_func_t.op_mov_l_d, i8085_operation_func_t.op_mov_l_e,  -- 0x68 -> 0x6B
  i8085_operation_func_t.op_mov_l_h, i8085_operation_func_t.op_mov_l_l, i8085_operation_func_t.op_mov_l_m, i8085_operation_func_t.op_mov_l_a,  -- 0x6C -> 0x6F
  i8085_operation_func_t.op_mov_m_b, i8085_operation_func_t.op_mov_m_c, i8085_operation_func_t.op_mov_m_d, i8085_operation_func_t.op_mov_m_e,  -- 0x70 -> 0x73
  i8085_operation_func_t.op_mov_m_h, i8085_operation_func_t.op_mov_m_l, i8085_operation_func_t.op_hlt, i8085_operation_func_t.op_mov_m_a,  -- 0x74 -> 0x77
  i8085_operation_func_t.op_mov_a_b, i8085_operation_func_t.op_mov_a_c, i8085_operation_func_t.op_mov_a_d, i8085_operation_func_t.op_mov_a_e,  -- 0x78 -> 0x7B
  i8085_operation_func_t.op_mov_a_h, i8085_operation_func_t.op_mov_a_l, i8085_operation_func_t.op_mov_a_m, i8085_operation_func_t.op_mov_a_a,  -- 0x7C -> 0x7F
  i8085_operation_func_t.op_add_b, i8085_operation_func_t.op_add_c, i8085_operation_func_t.op_add_d, i8085_operation_func_t.op_add_e,  -- 0x80 -> 0x83
  i8085_operation_func_t.op_add_h, i8085_operation_func_t.op_add_l, i8085_operation_func_t.op_add_m, i8085_operation_func_t.op_add_a,  -- 0x84 -> 0x87
  i8085_operation_func_t.op_adc_b, i8085_operation_func_t.op_adc_c, i8085_operation_func_t.op_adc_d, i8085_operation_func_t.op_adc_e,  -- 0x88 -> 0x8B
  i8085_operation_func_t.op_adc_h, i8085_operation_func_t.op_adc_l, i8085_operation_func_t.op_adc_m, i8085_operation_func_t.op_adc_a,  -- 0x8C -> 0x8F
  i8085_operation_func_t.op_sub_b, i8085_operation_func_t.op_sub_c, i8085_operation_func_t.op_sub_d, i8085_operation_func_t.op_sub_e,  -- 0x90 -> 0x93
  i8085_operation_func_t.op_sub_h, i8085_operation_func_t.op_sub_l, i8085_operation_func_t.op_sub_m, i8085_operation_func_t.op_sub_a,  -- 0x94 -> 0x97
  i8085_operation_func_t.op_sbb_b, i8085_operation_func_t.op_sbb_c, i8085_operation_func_t.op_sbb_d, i8085_operation_func_t.op_sbb_e,  -- 0x98 -> 0x9B
  i8085_operation_func_t.op_sbb_h, i8085_operation_func_t.op_sbb_l, i8085_operation_func_t.op_sbb_m, i8085_operation_func_t.op_sbb_a,  -- 0x9C -> 0x9F
  i8085_operation_func_t.op_ana_b, i8085_operation_func_t.op_ana_c, i8085_operation_func_t.op_ana_d, i8085_operation_func_t.op_ana_e,  -- 0xA0 -> 0xA3
  i8085_operation_func_t.op_ana_h, i8085_operation_func_t.op_ana_l, i8085_operation_func_t.op_ana_m, i8085_operation_func_t.op_ana_a,  -- 0xA4 -> 0xA7
  i8085_operation_func_t.op_xra_b, i8085_operation_func_t.op_xra_c, i8085_operation_func_t.op_xra_d, i8085_operation_func_t.op_xra_e,  -- 0xA8 -> 0xAB
  i8085_operation_func_t.op_xra_h, i8085_operation_func_t.op_xra_l, i8085_operation_func_t.op_xra_m, i8085_operation_func_t.op_xra_a,  -- 0xAC -> 0xAF
  i8085_operation_func_t.op_ora_b, i8085_operation_func_t.op_ora_c, i8085_operation_func_t.op_ora_d, i8085_operation_func_t.op_ora_e,  -- 0xB0 -> 0xB3
  i8085_operation_func_t.op_ora_h, i8085_operation_func_t.op_ora_l, i8085_operation_func_t.op_ora_m, i8085_operation_func_t.op_ora_a,  -- 0xB4 -> 0xB7
  i8085_operation_func_t.op_cmp_b, i8085_operation_func_t.op_cmp_c, i8085_operation_func_t.op_cmp_d, i8085_operation_func_t.op_cmp_e,  -- 0xB8 -> 0xBB
  i8085_operation_func_t.op_cmp_h, i8085_operation_func_t.op_cmp_l, i8085_operation_func_t.op_cmp_m, i8085_operation_func_t.op_cmp_a,  -- 0xBC -> 0xBF
  i8085_operation_func_t.op_rnz, i8085_operation_func_t.op_pop_b, i8085_operation_func_t.op_jnz, i8085_operation_func_t.op_jmp,  -- 0xC0 -> 0xC3
  i8085_operation_func_t.op_cnz, i8085_operation_func_t.op_push_b, i8085_operation_func_t.op_adi, i8085_operation_func_t.op_rst_0,  -- 0xC4 -> 0xC7
  i8085_operation_func_t.op_rz, i8085_operation_func_t.op_ret, i8085_operation_func_t.op_jz, i8085_operation_func_t.op_none,  -- 0xC8 -> 0xCB
  i8085_operation_func_t.op_cz, i8085_operation_func_t.op_call, i8085_operation_func_t.op_aci, i8085_operation_func_t.op_rst_1,  -- 0xCC -> 0xCF
  i8085_operation_func_t.op_rnc, i8085_operation_func_t.op_pop_d, i8085_operation_func_t.op_jnc, i8085_operation_func_t.op_out,  -- 0xD0 -> 0xD3
  i8085_operation_func_t.op_cnc, i8085_operation_func_t.op_push_d, i8085_operation_func_t.op_sui, i8085_operation_func_t.op_rst_2,  -- 0xD4 -> 0xD7
  i8085_operation_func_t.op_rc, i8085_operation_func_t.op_none, i8085_operation_func_t.op_jc, i8085_operation_func_t.op_in,  -- 0xD8 -> 0xDB
  i8085_operation_func_t.op_cc, i8085_operation_func_t.op_none, i8085_operation_func_t.op_sbi, i8085_operation_func_t.op_rst_3,  -- 0xDC -> 0xDF
  i8085_operation_func_t.op_rpo, i8085_operation_func_t.op_pop_h, i8085_operation_func_t.op_jpo, i8085_operation_func_t.op_xthl,  -- 0xE0 -> 0xE3
  i8085_operation_func_t.op_cpo, i8085_operation_func_t.op_push_h, i8085_operation_func_t.op_ani, i8085_operation_func_t.op_rst_4,  -- 0xE4 -> 0xE7
  i8085_operation_func_t.op_rpe, i8085_operation_func_t.op_pchl, i8085_operation_func_t.op_jpe, i8085_operation_func_t.op_xchg,  -- 0xE8 -> 0xEB
  i8085_operation_func_t.op_cpe, i8085_operation_func_t.op_none, i8085_operation_func_t.op_xri, i8085_operation_func_t.op_rst_5,  -- 0xEC -> 0xEF
  i8085_operation_func_t.op_rp, i8085_operation_func_t.op_pop_psw, i8085_operation_func_t.op_jp, i8085_operation_func_t.op_di,  -- 0xF0 -> 0xF3
  i8085_operation_func_t.op_cp, i8085_operation_func_t.op_push_psw, i8085_operation_func_t.op_ori, i8085_operation_func_t.op_rst_6,  -- 0xF4 -> 0xF7
  i8085_operation_func_t.op_rm, i8085_operation_func_t.op_sphl, i8085_operation_func_t.op_jm, i8085_operation_func_t.op_ei,  -- 0xF8 -> 0xFB
  i8085_operation_func_t.op_cm, i8085_operation_func_t.op_none, i8085_operation_func_t.op_cpi, i8085_operation_func_t.op_rst_7   -- 0xFC -> 0xFF
]

/-- The table `opcode_cycles` ("states" per opcode). -/
def opcode_cycles : List uint8_t := [
  -- -0 -1 -2 -3 -4 -5 -6 -7 -8 -9 -A -B -C -D -E -F
   4,10, 7, 6, 4, 4, 7, 4, 0,10, 7, 6, 4, 4, 7, 4,  -- 0x0-
   0,10, 7, 6, 4, 4, 7, 4, 0,10, 7, 6, 4, 4, 7, 4,  -- 0x1-
   4,10,16, 6, 4, 4, 7, 4, 0,10,16, 6, 4, 4, 7, 4,  -- 0x2-
   4,10,13, 6,10,10,10, 4, 0,10,13, 6, 4, 4, 7, 4,  -- 0x3-
   4, 4, 4, 4, 4, 4, 7, 4, 4, 4, 4, 4, 4, 4, 7, 4,  -- 0x4-
   4, 4, 4, 4, 4, 4, 7, 4, 4, 4, 4, 4, 4, 4, 7, 4,  -- 0x5-
   4, 4, 4, 4, 4, 4, 7, 4, 4, 4, 4, 4, 4, 4, 7, 4,  -- 0x6-
   7, 7, 7, 7, 7, 7, 5, 7, 4, 4, 4, 4, 4, 4, 7, 4,  -- 0x7-
   4, 4, 4, 4, 4, 4, 7, 4, 4, 4, 4, 4, 4, 4, 7, 4,  -- 0x8-
   4, 4, 4, 4, 4, 4, 7, 4, 4, 4, 4, 4, 4, 4, 7, 4,  -- 0x9-
   4, 4, 4, 4, 4, 4, 7, 4, 4, 4, 4, 4, 4, 4, 7, 4,  -- 0xA-
   4, 4, 4, 4, 4, 4, 7, 4, 4, 4, 4, 4, 4, 4, 7, 4,  -- 0xB-
   6,10, 7,10, 9,12, 7,12, 6,10, 7, 0, 9,18, 7,12,  -- 0xC-
   6,10, 7,10, 9,12, 7,12, 6, 0, 7,10, 9, 0, 7,12,  -- 0xD-
   6,10, 7,16, 9,12, 7,12, 6, 6, 7, 4, 9, 0, 7,12,  -- 0xE-
   6,10, 7, 4, 9,12, 7,12, 6, 6, 7, 4, 9, 0, 7,12   -- 0xF-
]

set_option maxRecDepth 4096 in
/-- The expression `opcode_function[opcode]`. -/
def opcode_function_at (opcode : uint8_t) : i8085_operation_func_t :=
  opcode_function.get ⟨opcode.val, Nat.lt_of_lt_of_eq opcode.isLt (by rfl)⟩

set_option maxRecDepth 4096 in
/-- The expression `opcode_cycles[opcode]`. -/
def opcode_cycles_at (opcode : uint8_t) : uint8_t :=
  opcode_cycles.get ⟨opcode.val, Nat.lt_of_lt_of_eq opcode.isLt (by rfl)⟩

/-! ## CPU entry points (`i8085.c`) -/

/-- Function `i8085_init`: the register file after `memset(cpu, 0, sizeof(i8085_t))`. -/
def i8085_init : i8085_t :=
  { pc := 0, sp := 0, a := 0,
    flag := ⟨false, false, false, false, false, false, false, false⟩,
    mask := ⟨false, false, false, false, false, false, false, false⟩,
    c := 0, b := 0, e := 0, d := 0, l := 0, h := 0, sod := false, halt := false, cycles := 0 }

/-- Function `i8085_reset`. -/
def i8085_reset (cpu : i8085_t) : i8085_t :=
  { cpu with pc := 0x0000, sp := 0x20BE }

/-- Function `i8085_execute`. -/
def i8085_execute (s : machine_t) : Option machine_t :=
  if s.cpu.halt = true then some s
  else do
    let (opcode, s) ← s.read_pc_inc
    let s : machine_t :=
      { s with cpu := { s.cpu with cycles := u64 (s.cpu.cycles.val + (opcode_cycles_at opcode).val) } }
    (opcode_function_at opcode).call s

/-- Function `i8085_trap`. -/
def i8085_trap (s : machine_t) : Option machine_t := do
  let s ← s.write_dec_sp (u8 (s.cpu.pc.val / 0x100))
  let s ← s.write_dec_sp (u8 (s.cpu.pc.val % 0x100))
  let s : machine_t := { s with cpu := { s.cpu with pc := 0x0024 } }
  let s : machine_t := { s with cpu := { s.cpu with halt := false } }
  pure s

/-- Function `i8085_rst_55`. -/
def i8085_rst_55 (s : machine_t) : Option machine_t :=
  if s.cpu.mask.ie = false ∨ s.cpu.mask.m55 = true then some s
  else do
    let s ← s.write_dec_sp (u8 (s.cpu.pc.val / 0x100))
    let s ← s.write_dec_sp (u8 (s.cpu.pc.val % 0x100))
    let s : machine_t := { s with cpu := { s.cpu with pc := 0x002C } }
    let s : machine_t := { s with cpu := { s.cpu with halt := false } }
    pure s

/-- Function `i8085_rst_65`. -/
def i8085_rst_65 (s : machine_t) : Option machine_t :=
  if s.cpu.mask.ie = false ∨ s.cpu.mask.m65 = true then some s
  else do
    let s ← s.write_dec_sp (u8 (s.cpu.pc.val / 0x100))
    let s ← s.write_dec_sp (u8 (s.cpu.pc.val % 0x100))
    let s : machine_t := { s with cpu := { s.cpu with pc := 0x0034 } }
    let s : machine_t := { s with cpu := { s.cpu with halt := false } }
    pure s

/-- Function `i8085_rst_75`. -/
def i8085_rst_75 (s : machine_t) : Option machine_t :=
  if s.cpu.mask.ie = false ∨ s.cpu.mask.m75 = true then some s
  else do
    let s ← s.write_dec_sp (u8 (s.cpu.pc.val / 0x100))
    let s ← s.write_dec_sp (u8 (s.cpu.pc.val % 0x100))
    let s : machine_t := { s with cpu := { s.cpu with pc := 0x003C } }
    let s : machine_t := { s with cpu := { s.cpu with halt := false } }
    pure s

/-! ## Vocabulary of the statements -/

/-- An address of the RAM range `0x1000..0x10FF`. -/
def in_ram (a : uint16_t) : Prop := 0x1000 ≤ a.val ∧ a.val ≤ 0x10FF

instance (a : uint16_t) : Decidable (in_ram a) := by unfold in_ram; infer_instance

/-- The index into `ram` of an address of the RAM range: `address - 0x1000`. -/
def ram_index (a : uint16_t) : Fin MEM_RAM_MAX :=
  ⟨(a.val - 0x1000) % MEM_RAM_MAX, Nat.mod_lt _ (by decide)⟩

/-! ## Concrete states -/

/-- A bus with `0xFF` in ROM, zeroes in RAM and no hook bound (the state after `mem_init`). -/
def mem_blank : mem_t :=
  { rom := fun _ => 0xFF, ram := fun _ => 0x00, exp := fun _ => 0x00,
    i8279_read := none, i8279_write := none, i8279 := none }

/-- The zero-initialised timer. -/
def i8155_blank : i8155_t :=
  { catchup_cycles := 0, timer := 0, timer_running := false, trap := false }

/-- A port table with no hook bound. -/
def io_blank : io_t := { read := fun _ => none, write := fun _ => none }

/-- The machine built from a register file and a bus, with no port hook and no panic. -/
def machine_of (cpu : i8085_t) (mem : mem_t) : machine_t :=
  { cpu := cpu, mem := mem, io := io_blank, i8155 := i8155_blank,
    debugger_break := false, panic_msg := none }

/-- A halted machine. -/
def machine_halted : machine_t := machine_of { i8085_init with halt := true } mem_blank

/-- A machine whose stack pointer is just above the RAM, so that the next two pushes land
in `0x10FF` and `0x10FE`. -/
def machine_stack : machine_t :=
  machine_of { i8085_init with sp := 0x1100, a := 0x12, b := 0x34, c := 0x56 } mem_blank

/-- The defined single-byte opcodes that do not access memory beyond their own fetch. -/
def single_byte_no_memory_opcodes : List Nat := [
  -- MOV r1,r2 (neither operand is M)
  0x40, 0x41, 0x42, 0x43, 0x44, 0x45, 0x47, 0x48, 0x49, 0x4A, 0x4B, 0x4C, 0x4D, 0x4F,
  0x50, 0x51, 0x52, 0x53, 0x54, 0x55, 0x57, 0x58, 0x59, 0x5A, 0x5B, 0x5C, 0x5D, 0x5F,
  0x60, 0x61, 0x62, 0x63, 0x64, 0x65, 0x67, 0x68, 0x69, 0x6A, 0x6B, 0x6C, 0x6D, 0x6F,
  0x78, 0x79, 0x7A, 0x7B, 0x7C, 0x7D, 0x7F,
  -- ADD, ADC, SUB, SBB, ANA, XRA, ORA, CMP with a register operand
  0x80, 0x81, 0x82, 0x83, 0x84, 0x85, 0x87, 0x88, 0x89, 0x8A, 0x8B, 0x8C, 0x8D, 0x8F,
  0x90, 0x91, 0x92, 0x93, 0x94, 0x95, 0x97, 0x98, 0x99, 0x9A, 0x9B, 0x9C, 0x9D, 0x9F,
  0xA0, 0xA1, 0xA2, 0xA3, 0xA4, 0xA5, 0xA7, 0xA8, 0xA9, 0xAA, 0xAB, 0xAC, 0xAD, 0xAF,
  0xB0, 0xB1, 0xB2, 0xB3, 0xB4, 0xB5, 0xB7, 0xB8, 0xB9, 0xBA, 0xBB, 0xBC, 0xBD, 0xBF,
  -- INR r, DCR r
  0x04, 0x0C, 0x14, 0x1C, 0x24, 0x2C, 0x3C, 0x05, 0x0D, 0x15, 0x1D, 0x25, 0x2D, 0x3D,
  -- INX, DCX, DAD
  0x03, 0x13, 0x23, 0x33, 0x0B, 0x1B, 0x2B, 0x3B, 0x09, 0x19, 0x29, 0x39,
  -- RLC, RRC, RAL, RAR, DAA, CMA, STC, CMC
  0x07, 0x0F, 0x17, 0x1F, 0x27, 0x2F, 0x37, 0x3F,
  -- NOP, HLT, EI, DI, RIM, SIM, XCHG, SPHL, PCHL
  0x00, 0x76, 0xFB, 0xF3, 0x20, 0x30, 0xEB, 0xF9, 0xE9]

/-- The handlers of the opcodes of `single_byte_no_memory_opcodes`. -/
def i8085_operation_func_t.no_memory : i8085_operation_func_t → Bool
  | .op_mov_b_b | .op_mov_b_c | .op_mov_b_d | .op_mov_b_e | .op_mov_b_h | .op_mov_b_l
  | .op_mov_b_a | .op_mov_c_b | .op_mov_c_c | .op_mov_c_d | .op_mov_c_e | .op_mov_c_h
  | .op_mov_c_l | .op_mov_c_a | .op_mov_d_b | .op_mov_d_c | .op_mov_d_d | .op_mov_d_e
  | .op_mov_d_h | .op_mov_d_l | .op_mov_d_a | .op_mov_e_b | .op_mov_e_c | .op_mov_e_d
  | .op_mov_e_e | .op_mov_e_h | .op_mov_e_l | .op_mov_e_a | .op_mov_h_b | .op_mov_h_c
  | .op_mov_h_d | .op_mov_h_e | .op_mov_h_h | .op_mov_h_l | .op_mov_h_a | .op_mov_l_b
  | .op_mov_l_c | .op_mov_l_d | .op_mov_l_e | .op_mov_l_h | .op_mov_l_l | .op_mov_l_a
  | .op_mov_a_b | .op_mov_a_c | .op_mov_a_d | .op_mov_a_e | .op_mov_a_h | .op_mov_a_l
  | .op_mov_a_a | .op_add_b | .op_add_c | .op_add_d | .op_add_e | .op_add_h | .op_add_l
  | .op_add_a | .op_adc_b | .op_adc_c | .op_adc_d | .op_adc_e | .op_adc_h | .op_adc_l
  | .op_adc_a | .op_sub_b | .op_sub_c | .op_sub_d | .op_sub_e | .op_sub_h | .op_sub_l
  | .op_sub_a | .op_sbb_b | .op_sbb_c | .op_sbb_d | .op_sbb_e | .op_sbb_h | .op_sbb_l
  | .op_sbb_a | .op_ana_b | .op_ana_c | .op_ana_d | .op_ana_e | .op_ana_h | .op_ana_l
  | .op_ana_a | .op_xra_b | .op_xra_c | .op_xra_d | .op_xra_e | .op_xra_h | .op_xra_l
  | .op_xra_a | .op_ora_b | .op_ora_c | .op_ora_d | .op_ora_e | .op_ora_h | .op_ora_l
  | .op_ora_a | .op_cmp_b | .op_cmp_c | .op_cmp_d | .op_cmp_e | .op_cmp_h | .op_cmp_l
  | .op_cmp_a | .op_inr_b | .op_inr_c | .op_inr_d | .op_inr_e | .op_inr_h | .op_inr_l
  | .op_inr_a | .op_dcr_b | .op_dcr_c | .op_dcr_d | .op_dcr_e | .op_dcr_h | .op_dcr_l
  | .op_dcr_a | .op_inx_b | .op_inx_d | .op_inx_h | .op_inx_sp | .op_dcx_b | .op_dcx_d
  | .op_dcx_h | .op_dcx_sp | .op_dad_b | .op_dad_d | .op_dad_h | .op_dad_sp | .op_rlc | .op_rrc
  | .op_ral | .op_rar | .op_daa | .op_cma | .op_stc | .op_cmc | .op_nop | .op_hlt | .op_ei
  | .op_di | .op_rim | .op_sim | .op_xchg | .op_sphl | .op_pchl => true
  | _ => false

/-- A bus as after `mem_init` whose ROM starts with the given bytes (`0xFF` elsewhere). -/
def mem_with_rom (bytes : List uint8_t) : mem_t :=
  { mem_blank with rom := fun i => bytes.getD i.val 0xFF }

/-- A machine about to execute `INR A` (`0x3C`) at address 0. -/
def machine_inr_a : machine_t := machine_of i8085_init (mem_with_rom [0x3C])

/-- The opcodes without an instruction. -/
def undefined_opcodes : List Nat := [0x08, 0x10, 0x18, 0x28, 0x38, 0xCB, 0xD9, 0xDD, 0xED, 0xFD]

/-- A machine about to execute the undefined opcode `0x08` at address 0. -/
def machine_undefined : machine_t := machine_of i8085_init (mem_with_rom [0x08])

/-- An address of ROM or RAM (`0x0000..0x10FF`): the bus access stays inside the arrays. -/
def in_rom_or_ram (a : uint16_t) : Prop := a.val < 0x1100

instance (a : uint16_t) : Decidable (in_rom_or_ram a) := by unfold in_rom_or_ram; infer_instance

/-- The condition tested by a conditional `CALL`, `JMP` or `RET`, selected by bits 5..3 of
the opcode: `NZ`, `Z`, `NC`, `C`, `PO`, `PE`, `P`, `M`. -/
def condition_holds (op : uint8_t) (f : flag_t) : Bool :=
  match (op.val / 8) % 8 with
  | 0 => !f.z
  | 1 => f.z
  | 2 => !f.cy
  | 3 => f.cy
  | 4 => !f.p
  | 5 => f.p
  | 6 => !f.s
  | _ => f.s

/-- The conditional calls `CNZ, CZ, CNC, CC, CPO, CPE, CP, CM`. -/
def conditional_call_opcodes : List Nat := [0xC4, 0xCC, 0xD4, 0xDC, 0xE4, 0xEC, 0xF4, 0xFC]

/-- The conditional jumps `JNZ, JZ, JNC, JC, JPO, JPE, JP, JM`. -/
def conditional_jmp_opcodes : List Nat := [0xC2, 0xCA, 0xD2, 0xDA, 0xE2, 0xEA, 0xF2, 0xFA]

/-- The conditional returns `RNZ, RZ, RNC, RC, RPO, RPE, RP, RM`. -/
def conditional_ret_opcodes : List Nat := [0xC0, 0xC8, 0xD0, 0xD8, 0xE0, 0xE8, 0xF0, 0xF8]
/-- A machine about to execute `JC 0x0010` (`DA 10 00`) at address 0 with `CY` clear. -/
def machine_jc : machine_t := machine_of i8085_init (mem_with_rom [0xDA, 0x10, 0x00])

/-- A machine about to execute `HLT` (`0x76`) at address 0, with the stack pointer just
above the RAM and `IE` and all masks set. -/
def machine_hlt : machine_t :=
  machine_of
    { i8085_init with
      sp := 0x1100
      mask := { i8085_init.mask with ie := true, m55 := true, m65 := true, m75 := true } }
    (mem_with_rom [0x76])

/-- Pushing `PC` and jumping to `vector`, as the interrupt entries do: the high byte of `PC`
written over the bus to `SP-1`, the low byte to `SP-2`, then `SP := SP-2`, `PC := vector`
and `halt := false`. -/
def push_pc_jump (s : machine_t) (vector : uint16_t) : Option machine_t :=
  (mem_write s.mem (u16i ((s.cpu.sp.val : Int) - 1)) (u8 (s.cpu.pc.val / 0x100))).bind
    fun m1 =>
      (mem_write m1 (u16i ((s.cpu.sp.val : Int) - 2)) (u8 (s.cpu.pc.val % 0x100))).bind
        fun m2 =>
          some { s with
                 mem := m2
                 cpu := { s.cpu with
                          sp := u16i ((s.cpu.sp.val : Int) - 2)
                          pc := vector
                          halt := false } }

/-- The three maskable interrupt entries. -/
inductive maskable_entry_t where
  | rst_55
  | rst_65
  | rst_75
  deriving DecidableEq, Repr

/-- The entry function of a maskable interrupt. -/
def maskable_entry_t.call : maskable_entry_t → machine_t → Option machine_t
  | .rst_55 => i8085_rst_55
  | .rst_65 => i8085_rst_65
  | .rst_75 => i8085_rst_75

/-- The mask bit of a maskable interrupt: `M5.5`, `M6.5`, `M7.5`. -/
def maskable_entry_t.mask_bit : maskable_entry_t → mask_t → Bool
  | .rst_55 => fun m => m.m55
  | .rst_65 => fun m => m.m65
  | .rst_75 => fun m => m.m75

/-- The vector of a maskable interrupt. -/
def maskable_entry_t.vector : maskable_entry_t → uint16_t
  | .rst_55 => 0x002C
  | .rst_65 => 0x0034
  | .rst_75 => 0x003C

/-- A machine with `IE` set and no interrupt masked, `PC = 0x0123`, the stack pointer just
above the RAM. -/
def machine_irq : machine_t :=
  machine_of
    { i8085_init with
      pc := 0x0123
      sp := 0x1100
      mask := { i8085_init.mask with ie := true } }
    mem_blank

/-- The machine `machine_irq` with `IE` clear. -/
def machine_irq_off : machine_t :=
  { machine_irq with
    cpu := { machine_irq.cpu with mask := { machine_irq.cpu.mask with ie := false } } }

/-- The call `i8085_reset(&cpu)` of `main.c` on the machine: the function receives the
register file and nothing else. -/
def machine_t.reset (s : machine_t) : machine_t := { s with cpu := i8085_reset s.cpu }

/-- The sign bit (bit 7) of a byte. -/
def sign_bit (x : uint8_t) : Bool := decide (128 ≤ x.val)

/-- The number of 1 bits of a byte. -/
def count_ones (x : uint8_t) : Nat := ((List.range 8).filter (fun i => x.val.testBit i)).length

/-- A machine about to execute `ADC A` (`0x8F`) at address 0 with `A = 0xFF` and `CY = 1`. -/
def machine_adc_a : machine_t :=
  machine_of { i8085_init with a := 0xFF, flag := { i8085_init.flag with cy := true } }
    (mem_with_rom [0x8F])

/-- A register file with `A = 0x80` and all flags clear. -/
def cpu_a80 : i8085_t := { i8085_init with a := 0x80 }

/-- A machine whose `HL` points at the first RAM byte, `0x1000`. -/
def machine_hl_ram : machine_t := machine_of { i8085_init with h := 0x10, l := 0x00 } mem_blank

/-- The decimal adjustment in the words of the specification: `t = A`; if `(A & 0xF) > 9` or
`AC = 1` then `A := A + 0x06 mod 256` and `AC := 1`; then if `(t >> 4) > 9` or `CY = 1` then
`A := A + 0x60 mod 256` and `CY := 1`; finally `Z`, `S` and even-parity `P` are set from the
resulting `A`. -/
def daa_spec (cpu : i8085_t) : i8085_t :=
  let t := cpu.a
  let low : Bool := decide ((cpu.a.val &&& 0xF) > 9) || cpu.flag.ac
  let a1 : uint8_t := if low then u8 (cpu.a.val + 0x06) else cpu.a
  let ac1 : Bool := if low then true else cpu.flag.ac
  let high : Bool := decide ((t.val >>> 4) > 9) || cpu.flag.cy
  let a2 : uint8_t := if high then u8 (a1.val + 0x60) else a1
  let cy1 : Bool := if high then true else cpu.flag.cy
  { cpu with
    a := a2
    flag := { cpu.flag with
              ac := ac1, cy := cy1, z := decide (a2 = 0), s := sign_bit a2,
              p := decide (count_ones a2 % 2 = 0) } }

/-- A machine about to execute `DAA` (`0x27`) at address 0 with `A = 0x9B` and all flags
clear. -/
def machine_daa : machine_t := machine_of { i8085_init with a := 0x9B } (mem_with_rom [0x27])

/-- A machine about to execute `DAA` (`0x27`) at address 0 with `A = 0x00` and `AC`, `CY`
set. -/
def machine_daa_flags : machine_t :=
  machine_of { i8085_init with flag := { i8085_init.flag with ac := true, cy := true } }
    (mem_with_rom [0x27])

/-- A machine with `A = 0x48` (bits 3 and 6 set, bits 0..2 and 7 clear), all masks set and
`sod` set. -/
def machine_sim : machine_t :=
  machine_of
    { i8085_init with
      a := 0x48
      sod := true
      mask := { i8085_init.mask with m55 := true, m65 := true, m75 := true } }
    mem_blank

/-- The loop of `i8155_execute`, run for at most `n` rounds. Every round that does not return
increments `catchup_cycles`, so `cpu->cycles - catchup_cycles` rounds are all the loop can
make; `i8155_execute` runs it with exactly that bound. -/
def i8155_execute_loop : Nat → i8155_t → i8085_t → Bool × i8155_t
  | 0, i8155, _ => (false, i8155)
  | n + 1, i8155, cpu =>
    if cpu.cycles.val > i8155.catchup_cycles.val then
      if i8155.timer_running = true then
        if i8155.timer.val > 0 then
          let i8155 : i8155_t := { i8155 with timer := u16i ((i8155.timer.val : Int) - 1) }
          if i8155.trap = true then (true, { i8155 with trap := false })
          else
            i8155_execute_loop n
              { i8155 with catchup_cycles := u64 (i8155.catchup_cycles.val + 1) } cpu
        else
          (false, { i8155 with timer_running := false, trap := true })
      else if i8155.trap = true then (true, { i8155 with trap := false })
      else
        i8155_execute_loop n
          { i8155 with catchup_cycles := u64 (i8155.catchup_cycles.val + 1) } cpu
    else (false, i8155)

/-- Function `i8155_execute`: the returned flag and the timer after the call. -/
def i8155_execute (i8155 : i8155_t) (cpu : i8085_t) : Bool × i8155_t :=
  i8155_execute_loop (cpu.cycles.val - i8155.catchup_cycles.val) i8155 cpu

/-- A running timer that has counted down to 0, with no trap latched. -/
def i8155_expired : i8155_t :=
  { catchup_cycles := 10, timer := 0, timer_running := true, trap := false }

/-- A register file whose cycle counter is at 14. -/
def cpu_cycles_14 : i8085_t := { i8085_init with cycles := 14 }

/-- The byte behind a ROM or RAM address. -/
def mem_byte (mem : mem_t) (a : uint16_t) : uint8_t :=
  if h : a.val < 0x1000 then mem.rom ⟨a.val, h⟩ else mem.ram (ram_index a)

/-- The machine after `n` calls of `i8085_execute`. -/
def i8085_execute_n : Nat → machine_t → Option machine_t
  | 0, s => some s
  | n + 1, s => (i8085_execute s).bind (i8085_execute_n n)

/-- The CALL/RET scenario: RAM `0x1020..0x1025 = CD 30 10 76 00 00`, RAM `0x1030 = C9`,
`PC = 0x1020`, `SP = 0x10FF`. -/
def machine_call_ret : machine_t :=
  machine_of { i8085_init with pc := 0x1020, sp := 0x10FF }
    { mem_blank with
      ram := fun i =>
        if i.val = 0x20 then 0xCD
        else if i.val = 0x21 then 0x30
        else if i.val = 0x22 then 0x10
        else if i.val = 0x23 then 0x76
        else if i.val = 0x30 then 0xC9
        else 0x00 }

/-! ## Serial line (`serial.h`, `serial.c`)

The `int` counters of `serial_t` are integers here; in a state reached from `serial_init`
they stay between 0 and 27. What `fputc` writes to `stdout` is returned by the call. -/

abbrev SERIAL_SAMPLE_LIMIT : Int := 27
abbrev SERIAL_CYCLE_CATCHUP_SKIP : Nat := 1000
abbrev SERIAL_DATA_BITS : Int := 7

inductive serial_state_t where
  | SERIAL_STATE_IDLE
  | SERIAL_STATE_START_BIT
  | SERIAL_STATE_DATA_BIT
  | SERIAL_STATE_STOP_BIT
deriving DecidableEq, Repr

structure serial_t where
  catchup_cycles : uint64_t
  output_state : serial_state_t
  output_data_bit : Int
  output_sample_no : Int
  output_samples : Int
  output_byte : uint8_t
  input_state : serial_state_t
  input_data_bit : Int
  input_sample_no : Int
  input_byte : uint8_t
deriving DecidableEq, Repr

/-- The output `switch` of `serial_execute`: the serial state after it and the byte given
to `fputc`, if any. -/
def serial_execute_output (serial : serial_t) (cpu : i8085_t) : serial_t × Option uint8_t :=
  match serial.output_state with
  | .SERIAL_STATE_IDLE =>
    if cpu.sod = true then
      ({ serial with output_sample_no := 0
                     output_state := .SERIAL_STATE_START_BIT }, none)
    else (serial, none)
  | .SERIAL_STATE_START_BIT =>
    let serial : serial_t := { serial with output_sample_no := serial.output_sample_no + 1 }
    if serial.output_sample_no ≥ SERIAL_SAMPLE_LIMIT then
      ({ serial with output_sample_no := 0
                     output_samples := 0
                     output_data_bit := 0
                     output_byte := 0
                     output_state := .SERIAL_STATE_DATA_BIT }, none)
    else (serial, none)
  | .SERIAL_STATE_DATA_BIT =>
    let serial : serial_t :=
      { serial with output_samples := serial.output_samples + (b2n cpu.sod : Int) }
    let serial : serial_t := { serial with output_sample_no := serial.output_sample_no + 1 }
    if serial.output_sample_no ≥ SERIAL_SAMPLE_LIMIT then
      let serial : serial_t :=
        if serial.output_samples < SERIAL_SAMPLE_LIMIT / 2 then
          { serial with
            output_byte :=
              u8i ((serial.output_byte.val : Int) + 2 ^ serial.output_data_bit.toNat) }
        else serial
      let serial : serial_t := { serial with output_sample_no := 0 }
      let serial : serial_t := { serial with output_samples := 0 }
      let serial : serial_t := { serial with output_data_bit := serial.output_data_bit + 1 }
      if serial.output_data_bit ≥ SERIAL_DATA_BITS then
        ({ serial with output_state := .SERIAL_STATE_STOP_BIT }, none)
      else (serial, none)
    else (serial, none)
  | .SERIAL_STATE_STOP_BIT =>
    let serial : serial_t := { serial with output_sample_no := serial.output_sample_no + 1 }
    if serial.output_sample_no ≥ SERIAL_SAMPLE_LIMIT then
      ({ serial with output_state := .SERIAL_STATE_IDLE }, some serial.output_byte)
    else (serial, none)

/-- The input `switch` of `serial_execute`. -/
def serial_execute_input (serial : serial_t) (cpu : i8085_t) : serial_t × i8085_t :=
  match serial.input_state with
  | .SERIAL_STATE_START_BIT =>
    let cpu : i8085_t := { cpu with mask := { cpu.mask with sid := false } }
    let serial : serial_t := { serial with input_sample_no := serial.input_sample_no + 1 }
    if serial.input_sample_no ≥ SERIAL_SAMPLE_LIMIT then
      ({ serial with input_sample_no := 0
                     input_data_bit := 0
                     input_state := .SERIAL_STATE_DATA_BIT }, cpu)
    else (serial, cpu)
  | .SERIAL_STATE_DATA_BIT =>
    let cpu : i8085_t :=
      { cpu with
        mask := { cpu.mask with
                  sid := decide
                    ((serial.input_byte.val >>> serial.input_data_bit.toNat) % 2 = 1) } }
    let serial : serial_t := { serial with input_sample_no := serial.input_sample_no + 1 }
    if serial.input_sample_no ≥ SERIAL_SAMPLE_LIMIT then
      let serial : serial_t := { serial with input_sample_no := 0 }
      let serial : serial_t := { serial with input_data_bit := serial.input_data_bit + 1 }
      if serial.input_data_bit ≥ SERIAL_DATA_BITS then
        ({ serial with input_state := .SERIAL_STATE_STOP_BIT }, cpu)
      else (serial, cpu)
    else (serial, cpu)
  | .SERIAL_STATE_STOP_BIT =>
    let cpu : i8085_t := { cpu with mask := { cpu.mask with sid := true } }
    let serial : serial_t := { serial with input_sample_no := serial.input_sample_no + 1 }
    if serial.input_sample_no ≥ SERIAL_SAMPLE_LIMIT then
      ({ serial with input_state := .SERIAL_STATE_IDLE }, cpu)
    else (serial, cpu)
  | .SERIAL_STATE_IDLE => (serial, cpu)

/-- Function `serial_execute`: the serial state and the register file after the call, and
the byte written to `stdout`, if any. -/
def serial_execute (serial : serial_t) (cpu : i8085_t) :
    serial_t × i8085_t × Option uint8_t :=
  if cpu.cycles.val < serial.catchup_cycles.val then (serial, cpu, none)
  else
    let serial : serial_t :=
      { serial with
        catchup_cycles := u64 (serial.catchup_cycles.val + SERIAL_CYCLE_CATCHUP_SKIP) }
    let o := serial_execute_output serial cpu
    let i := serial_execute_input o.1 cpu
    (i.1, i.2, o.2)

/-- Consecutive calls of `serial_execute`, one for each register file of the list (the CPU
runs between the calls): the serial state after them and what each call wrote. -/
def serial_run : serial_t → List i8085_t → serial_t × List (Option uint8_t)
  | serial, [] => (serial, [])
  | serial, cpu :: cpus =>
    ((serial_run (serial_execute serial cpu).1 cpus).1,
      (serial_execute serial cpu).2.2 :: (serial_run (serial_execute serial cpu).1 cpus).2)

/-- Every call of the run passes the cycle check of `serial_execute`, so every register
file of the list is sampled. -/
def serial_sampled : serial_t → List i8085_t → Prop
  | _, [] => True
  | serial, cpu :: cpus =>
    ¬ cpu.cycles.val < serial.catchup_cycles.val ∧
      serial_sampled (serial_execute serial cpu).1 cpus

/-- The number of samples of a window with `sod = 1`. -/
def sod_ones (cpus : List i8085_t) : Nat := (cpus.filter (fun cpu => cpu.sod)).length

/-- The serial state after `serial_init`. -/
def serial_init : serial_t :=
  { catchup_cycles := 0, output_state := .SERIAL_STATE_IDLE, output_data_bit := 0,
    output_sample_no := 0, output_samples := 0, output_byte := 0,
    input_state := .SERIAL_STATE_IDLE, input_data_bit := 0, input_sample_no := 0,
    input_byte := 0 }

/-- A register file with the given `sod`, its cycle counter at the largest value. -/
def cpu_sod (sod : Bool) : i8085_t :=
  { i8085_init with sod := sod, cycles := 18446744073709551615 }

/-- A window of 27 samples with `sod = 0`. -/
def serial_window_low : List i8085_t := List.replicate 27 (cpu_sod false)

/-- A window of 27 samples with `sod = 1`. -/
def serial_window_high : List i8085_t := List.replicate 27 (cpu_sod true)

/-- Following the specification's words: `reverse(v)` mirrors the eight bits of `v`, bit
`i` of the result being bit `7 - i` of `v`. -/
def reverse_bits (v : uint8_t) : uint8_t :=
  u8 (((List.range 8).map (fun i => if v.val.testBit (7 - i) then 2 ^ i else 0)).sum)

/-- The signed interpretation of a byte: `x` below 128, `x - 256` from 128 on. -/
def signed (x : uint8_t) : Int := if x.val < 128 then (x.val : Int) else (x.val : Int) - 256

/-- A value is representable as a signed byte. -/
def in_signed_range (z : Int) : Prop := -128 ≤ z ∧ z ≤ 127

instance (z : Int) : Decidable (in_signed_range z) := by unfold in_signed_range; infer_instance

/-- A running timer loaded with 5, no trap latched, synchronised at cycle 10. -/
def i8155_counting : i8155_t :=
  { catchup_cycles := 10, timer := 5, timer_running := true, trap := false }

/-- A stopped timer holding 5, no trap latched, synchronised at cycle 10. -/
def i8155_stopped : i8155_t :=
  { catchup_cycles := 10, timer := 5, timer_running := false, trap := false }

/-- A register file whose cycle counter is at 30. -/
def cpu_cycles_30 : i8085_t := { i8085_init with cycles := 30 }

/-! ## 8279: initialisation and keyboard (`i8279.c`) -/

/-- The controller after `memset(i8279, 0, sizeof(i8279_t))`. -/
def i8279_zero : i8279_t :=
  { keyboard_fifo := 0, status_word := 0, display_ram := fun _ => 0,
    display_ram_index := 0, display_ram_limit := 0, auto_increment := false }

/-- Function `i8279_init`, without the curses setup: the controller is zeroed and bound to
the bus together with its two hooks. -/
def i8279_init (mem : mem_t) : mem_t :=
  { mem with i8279 := some i8279_zero
             i8279_read := some .i8279_read_hook
             i8279_write := some .i8279_write_hook }

inductive i8279_key_t where
  | I8279_KEY_NONE
  | I8279_KEY_FIFO
  | I8279_KEY_RESET
  | I8279_KEY_VECT_INTR
  | I8279_KEY_QUIT
deriving DecidableEq, Repr

/-- The value `ERR` of curses. -/
abbrev ERR : Int := -1

/-- The value `KEY_MOUSE` of curses. -/
abbrev KEY_MOUSE : Int := 0o631

/-- What `getmouse` reports: the position, and whether `bstate` is `BUTTON1_CLICKED`. -/
structure MEVENT where
  x : Int
  y : Int
  button1_clicked : Bool
deriving DecidableEq, Repr

/-- The code of a character constant. -/
def chr (c : Char) : Int := (c.toNat : Int)

/-- Function `i8279_keyboard_poll`, given what `getch` returns and what `getmouse` would
report: the key class and the controller after the call. -/
def i8279_keyboard_poll (i8279 : i8279_t) (ch : Int) (me : MEVENT) : i8279_key_t × i8279_t :=
  if ch = ERR then (.I8279_KEY_NONE, { i8279 with keyboard_fifo := 0xFF })
  else if ch = chr '0' ∨ ch = chr '1' ∨ ch = chr '2' ∨ ch = chr '3' ∨ ch = chr '4' ∨
      ch = chr '5' ∨ ch = chr '6' ∨ ch = chr '7' ∨ ch = chr '8' ∨ ch = chr '9' then
    (.I8279_KEY_FIFO, { i8279 with keyboard_fifo := u8i (ch - 0x30), status_word := 0x01 })
  else if ch = chr 'A' ∨ ch = chr 'B' ∨ ch = chr 'C' ∨ ch = chr 'D' ∨ ch = chr 'E' ∨
      ch = chr 'F' then
    (.I8279_KEY_FIFO, { i8279 with keyboard_fifo := u8i (ch - 0x37), status_word := 0x01 })
  else if ch = chr 'a' ∨ ch = chr 'b' ∨ ch = chr 'c' ∨ ch = chr 'd' ∨ ch = chr 'e' ∨
      ch = chr 'f' then
    (.I8279_KEY_FIFO, { i8279 with keyboard_fifo := u8i (ch - 0x57), status_word := 0x01 })
  else if ch = chr '.' then
    (.I8279_KEY_FIFO, { i8279 with keyboard_fifo := 0x10, status_word := 0x01 })
  else if ch = chr ',' then
    (.I8279_KEY_FIFO, { i8279 with keyboard_fifo := 0x11, status_word := 0x01 })
  else if ch = chr 'G' ∨ ch = chr 'g' then
    (.I8279_KEY_FIFO, { i8279 with keyboard_fifo := 0x12, status_word := 0x01 })
  else if ch = chr 'M' ∨ ch = chr 'm' then
    (.I8279_KEY_FIFO, { i8279 with keyboard_fifo := 0x13, status_word := 0x01 })
  else if ch = chr 'X' ∨ ch = chr 'x' then
    (.I8279_KEY_FIFO, { i8279 with keyboard_fifo := 0x14, status_word := 0x01 })
  else if ch = chr 'S' ∨ ch = chr 's' then
    (.I8279_KEY_FIFO, { i8279 with keyboard_fifo := 0x15, status_word := 0x01 })
  else if ch = chr 'R' ∨ ch = chr 'r' then (.I8279_KEY_RESET, i8279)
  else if ch = chr 'I' ∨ ch = chr 'i' then (.I8279_KEY_VECT_INTR, i8279)
  else if ch = chr 'Q' ∨ ch = chr 'q' then (.I8279_KEY_QUIT, i8279)
  else if ch = KEY_MOUSE then
    if me.button1_clicked = false then (.I8279_KEY_NONE, i8279)
    else
      if me.x ≥ 1 ∧ me.x ≤ 6 ∧ me.y ≥ 11 ∧ me.y ≤ 12 then
        (.I8279_KEY_RESET, i8279)
      else if me.x ≥ 8 ∧ me.x ≤ 13 ∧ me.y ≥ 11 ∧ me.y ≤ 12 then
        (.I8279_KEY_VECT_INTR, i8279)
      else if me.x ≥ 15 ∧ me.x ≤ 20 ∧ me.y ≥ 11 ∧ me.y ≤ 12 then
        (.I8279_KEY_FIFO, { i8279 with keyboard_fifo := 0xC, status_word := 0x01 })
      else if me.x ≥ 22 ∧ me.x ≤ 27 ∧ me.y ≥ 11 ∧ me.y ≤ 12 then
        (.I8279_KEY_FIFO, { i8279 with keyboard_fifo := 0xD, status_word := 0x01 })
      else if me.x ≥ 29 ∧ me.x ≤ 34 ∧ me.y ≥ 11 ∧ me.y ≤ 12 then
        (.I8279_KEY_FIFO, { i8279 with keyboard_fifo := 0xE, status_word := 0x01 })
      else if me.x ≥ 36 ∧ me.x ≤ 41 ∧ me.y ≥ 11 ∧ me.y ≤ 12 then
        (.I8279_KEY_FIFO, { i8279 with keyboard_fifo := 0xF, status_word := 0x01 })
      else if me.x ≥ 1 ∧ me.x ≤ 6 ∧ me.y ≥ 14 ∧ me.y ≤ 15 then
        (.I8279_KEY_FIFO, { i8279 with keyboard_fifo := 0x15, status_word := 0x01 })
      else if me.x ≥ 8 ∧ me.x ≤ 13 ∧ me.y ≥ 14 ∧ me.y ≤ 15 then
        (.I8279_KEY_FIFO, { i8279 with keyboard_fifo := 0x12, status_word := 0x01 })
      else if me.x ≥ 15 ∧ me.x ≤ 20 ∧ me.y ≥ 14 ∧ me.y ≤ 15 then
        (.I8279_KEY_FIFO, { i8279 with keyboard_fifo := 0x8, status_word := 0x01 })
      else if me.x ≥ 22 ∧ me.x ≤ 27 ∧ me.y ≥ 14 ∧ me.y ≤ 15 then
        (.I8279_KEY_FIFO, { i8279 with keyboard_fifo := 0x9, status_word := 0x01 })
      else if me.x ≥ 29 ∧ me.x ≤ 34 ∧ me.y ≥ 14 ∧ me.y ≤ 15 then
        (.I8279_KEY_FIFO, { i8279 with keyboard_fifo := 0xA, status_word := 0x01 })
      else if me.x ≥ 36 ∧ me.x ≤ 41 ∧ me.y ≥ 14 ∧ me.y ≤ 15 then
        (.I8279_KEY_FIFO, { i8279 with keyboard_fifo := 0xB, status_word := 0x01 })
      else if me.x ≥ 1 ∧ me.x ≤ 6 ∧ me.y ≥ 17 ∧ me.y ≤ 18 then
        (.I8279_KEY_FIFO, { i8279 with keyboard_fifo := 0x13, status_word := 0x01 })
      else if me.x ≥ 8 ∧ me.x ≤ 13 ∧ me.y ≥ 17 ∧ me.y ≤ 18 then
        (.I8279_KEY_FIFO, { i8279 with keyboard_fifo := 0x14, status_word := 0x01 })
      else if me.x ≥ 15 ∧ me.x ≤ 20 ∧ me.y ≥ 17 ∧ me.y ≤ 18 then
        (.I8279_KEY_FIFO, { i8279 with keyboard_fifo := 0x4, status_word := 0x01 })
      else if me.x ≥ 22 ∧ me.x ≤ 27 ∧ me.y ≥ 17 ∧ me.y ≤ 18 then
        (.I8279_KEY_FIFO, { i8279 with keyboard_fifo := 0x5, status_word := 0x01 })
      else if me.x ≥ 29 ∧ me.x ≤ 34 ∧ me.y ≥ 17 ∧ me.y ≤ 18 then
        (.I8279_KEY_FIFO, { i8279 with keyboard_fifo := 0x6, status_word := 0x01 })
      else if me.x ≥ 36 ∧ me.x ≤ 41 ∧ me.y ≥ 17 ∧ me.y ≤ 18 then
        (.I8279_KEY_FIFO, { i8279 with keyboard_fifo := 0x7, status_word := 0x01 })
      else if me.x ≥ 1 ∧ me.x ≤ 6 ∧ me.y ≥ 20 ∧ me.y ≤ 21 then
        (.I8279_KEY_FIFO, { i8279 with keyboard_fifo := 0x11, status_word := 0x01 })
      else if me.x ≥ 8 ∧ me.x ≤ 13 ∧ me.y ≥ 20 ∧ me.y ≤ 21 then
        (.I8279_KEY_FIFO, { i8279 with keyboard_fifo := 0x10, status_word := 0x01 })
      else if me.x ≥ 15 ∧ me.x ≤ 20 ∧ me.y ≥ 20 ∧ me.y ≤ 21 then
        (.I8279_KEY_FIFO, { i8279 with keyboard_fifo := 0x0, status_word := 0x01 })
      else if me.x ≥ 22 ∧ me.x ≤ 27 ∧ me.y ≥ 20 ∧ me.y ≤ 21 then
        (.I8279_KEY_FIFO, { i8279 with keyboard_fifo := 0x1, status_word := 0x01 })
      else if me.x ≥ 29 ∧ me.x ≤ 34 ∧ me.y ≥ 20 ∧ me.y ≤ 21 then
        (.I8279_KEY_FIFO, { i8279 with keyboard_fifo := 0x2, status_word := 0x01 })
      else if me.x ≥ 36 ∧ me.x ≤ 41 ∧ me.y ≥ 20 ∧ me.y ≤ 21 then
        (.I8279_KEY_FIFO, { i8279 with keyboard_fifo := 0x3, status_word := 0x01 })
      else (.I8279_KEY_NONE, i8279)
  else (.I8279_KEY_NONE, i8279)

/-- Consecutive bus reads at the listed addresses: the bytes returned, in order, and the
bus state after the last read. -/
def mem_reads : mem_t → List uint16_t → Option (List uint8_t × mem_t)
  | mem, [] => some ([], mem)
  | mem, a :: as =>
    match mem_read mem a with
    | some (v, mem1) =>
      match mem_reads mem1 as with
      | some (vs, mem2) => some (v :: vs, mem2)
      | none => none
    | none => none

/-- Consecutive calls of `i8279_write_hook`, one for each pair of address and value. -/
def i8279_writes : i8279_t → List (uint16_t × uint8_t) → Option i8279_t
  | i8279, [] => some i8279
  | i8279, w :: ws =>
    match i8279_write_hook i8279 w.1 w.2 with
    | some i8279 => i8279_writes i8279 ws
    | none => none

/-- A bus with the controller bound, holding the key `5`. -/
def mem_key_5 : mem_t :=
  { i8279_init mem_blank with
    i8279 := some (i8279_keyboard_poll i8279_zero (chr '5') ⟨0, 0, false⟩).2 }

/-! ## Serial input (`serial.c`) -/

/-- The value `EOF` of `stdio.h`. -/
abbrev EOF : Int := -1

/-- Function `serial_input`, given what `fgetc(stdin)` returns; `none` when the program
exits on `EOF`. -/
def serial_input (serial : serial_t) (c : Int) : Option serial_t :=
  if c = EOF then none
  else
    let c : Int := if c = 0x0A then 0x0D else c
    if serial.input_state = .SERIAL_STATE_IDLE then
      some { serial with input_byte := u8i c
                         input_sample_no := 0
                         input_state := .SERIAL_STATE_START_BIT }
    else some serial

/-- Consecutive calls of `serial_execute`, one for each register file of the list: the
serial state and the register file after each call. -/
def serial_trace : serial_t → List i8085_t → List (serial_t × i8085_t)
  | _, [] => []
  | serial, cpu :: cpus =>
    ((serial_execute serial cpu).1, (serial_execute serial cpu).2.1) ::
      serial_trace (serial_execute serial cpu).1 cpus

/-- The level of the SID line during sample `j + 1` of a frame carrying the byte `c`: 0
for the 27 samples of the start bit, bit `i` of `c` for the samples of data window `i`
(`i = 0..6`), 1 for the 27 samples of the stop bit. -/
def sid_frame (c : uint8_t) (j : Nat) : Bool :=
  if j < 27 then false
  else if j < 216 then c.val.testBit (j / 27 - 1)
  else true

/-- The register files of 243 calls, each with its cycle counter at the largest value. -/
def serial_frame_cpus : List i8085_t := List.replicate 243 (cpu_sod false)

/-- Where the input side stands when `j` samples of a frame carrying `c` have been
processed: state, bit index and sample counter. -/
def input_frame_at (c : uint8_t) (j : Nat) (s : serial_t) : Prop :=
  s.input_byte = c ∧
  if j < 27 then
    s.input_state = .SERIAL_STATE_START_BIT ∧ s.input_sample_no = (j : Int)
  else if j < 216 then
    s.input_state = .SERIAL_STATE_DATA_BIT ∧ s.input_data_bit = ((j / 27 - 1 : Nat) : Int) ∧
      s.input_sample_no = ((j % 27 : Nat) : Int)
  else if j < 243 then
    s.input_state = .SERIAL_STATE_STOP_BIT ∧ s.input_sample_no = ((j % 27 : Nat) : Int)
  else s.input_state = .SERIAL_STATE_IDLE

/-! ## Bitfield decoding of the opcode

Following the specification's words: an equivalent implementation may decompose the opcode
bitfield instead of using the table of 256 function pointers. The definitions of this
section are that decomposition, to be compared with the table dispatch of the source. -/

/-- The register selected by a 3-bit field, in the order B, C, D, E, H, L, M, A (the field
value 6, the pseudo-register `M`, is not a register and is handled by the callers). -/
def decoded_register (field : Nat) (cpu : i8085_t) : uint8_t :=
  match field with
  | 0 => cpu.b
  | 1 => cpu.c
  | 2 => cpu.d
  | 3 => cpu.e
  | 4 => cpu.h
  | 5 => cpu.l
  | _ => cpu.a

/-- The address `(H<<8)|L` of the pseudo-register `M`. -/
def decoded_m_address (cpu : i8085_t) : uint16_t := u16 ((cpu.h.val <<< 8) ||| cpu.l.val)

/-- The source operand selected by a 3-bit field; `M` is read over the bus. -/
def decoded_source (field : Nat) (s : machine_t) : Option (uint8_t × machine_t) :=
  match field with
  | 6 => s.read (decoded_m_address s.cpu)
  | r => some (decoded_register r s.cpu, s)

/-- Storing a byte into the destination selected by a 3-bit field; `M` is written over the
bus. -/
def decoded_store (field : Nat) (s : machine_t) (v : uint8_t) : Option machine_t :=
  match field with
  | 0 => some { s with cpu := { s.cpu with b := v } }
  | 1 => some { s with cpu := { s.cpu with c := v } }
  | 2 => some { s with cpu := { s.cpu with d := v } }
  | 3 => some { s with cpu := { s.cpu with e := v } }
  | 4 => some { s with cpu := { s.cpu with h := v } }
  | 5 => some { s with cpu := { s.cpu with l := v } }
  | 6 => s.write (decoded_m_address s.cpu) v
  | _ => some { s with cpu := { s.cpu with a := v } }

/-- The operation selected by a 3-bit field, in the order ADD, ADC, SUB, SBB, ANA, XRA, ORA,
CMP. -/
def decoded_operation (field : Nat) (cpu : i8085_t) (v : uint8_t) : i8085_t :=
  match field with
  | 0 => i8085_add cpu v
  | 1 => i8085_adc cpu v
  | 2 => i8085_sub cpu v
  | 3 => i8085_sbb cpu v
  | 4 => i8085_ana cpu v
  | 5 => i8085_xra cpu v
  | 6 => i8085_ora cpu v
  | _ => i8085_cmp cpu v

/-- A decoded `MOV`: the source of bits 2..0 is copied into the destination of bits 5..3. -/
def decoded_mov (opcode : uint8_t) (s : machine_t) : Option machine_t := do
  let (v, s) ← decoded_source (opcode.val &&& 7) s
  decoded_store ((opcode.val >>> 3) &&& 7) s v

/-- A decoded arithmetic or logic instruction: the operation of bits 5..3 is applied to `A`
and the source of bits 2..0. -/
def decoded_alu (opcode : uint8_t) (s : machine_t) : Option machine_t := do
  let (v, s) ← decoded_source (opcode.val &&& 7) s
  pure { s with cpu := decoded_operation ((opcode.val >>> 3) &&& 7) s.cpu v }

/-- The machine after the fetch of `opcode` by `i8085_execute`: the bus after the read, `pc`
advanced, the base state count added. -/
def fetched (s : machine_t) (opcode : uint8_t) (m1 : mem_t) : machine_t :=
  { s with
    mem := m1
    cpu := { s.cpu with
             pc := u16 (s.cpu.pc.val + 1)
             cycles := u64 (s.cpu.cycles.val + (opcode_cycles_at opcode).val) } }

/-- A machine about to execute `MOV B,C` with `C = 0x5A`. -/
def machine_mov_b_c : machine_t := machine_of { i8085_init with c := 0x5A } (mem_with_rom [0x41])

/-- A machine about to execute `ADD C` with `A = 0x01` and `C = 0x5A`. -/
def machine_add_c : machine_t :=
  machine_of { i8085_init with a := 0x01, c := 0x5A } (mem_with_rom [0x81])

/-! ## Reserved flag bits -/

/-- The three reserved bits of the flag byte: bits 1, 3 and 5 of `F`. -/
def reserved_bits (cpu : i8085_t) : Bool × Bool × Bool :=
  (cpu.flag.x1, cpu.flag.x2, cpu.flag.x3)

/-- The reserved flag bits of the machine are `r`. -/
def has_reserved (r : Bool × Bool × Bool) (s : machine_t) : Prop := reserved_bits s.cpu = r

/-- Whenever the computation returns, the reserved flag bits of the result are `r`. -/
def keeps_reserved (r : Bool × Bool × Bool) (x : Option machine_t) : Prop :=
  ∀ s1, x = some s1 → has_reserved r s1

/-- The opcode the next `i8085_execute` call fetches: `none` on a halted machine or when
the fetch is not defined. -/
def fetched_opcode (s : machine_t) : Option uint8_t :=
  if s.cpu.halt = true then none else (mem_read s.mem s.cpu.pc).map (fun r => r.1)

/-- None of the next `n` calls of `i8085_execute` fetches the opcode `op`. -/
def run_avoids (op : uint8_t) : Nat → machine_t → Prop
  | 0, _ => True
  | n + 1, s =>
    fetched_opcode s ≠ some op ∧ ∀ s1, i8085_execute s = some s1 → run_avoids op n s1

/-! ## HEX loader: the byte loop of a data record (`mem.c`)

The loop `while (byte_count > 0)` of `mem_load_from_hex_file`. What `sscanf` converts at
offset `n` of `line` is given by `scan` (`none` when no conversion is made, which leaves
`data` as it is); an offset outside `char line[128]` is undefined behaviour. -/

/-- The size of the buffer `line`. -/
abbrev HEX_LINE_MAX : Int := 128

/-- The variables of the loop. -/
structure hex_loop_t where
  mem : mem_t
  byte_count : uint8_t
  address : uint16_t
  data : uint8_t
  n : Int

/-- One round of the loop body; `none` when `&line[n]` is outside the buffer. The
`continue` taken for `address >= MEM_ROM_MAX` leaves `address` and `byte_count` as they
are. -/
def hex_loop_body (scan : Int → Option uint8_t) (st : hex_loop_t) : Option hex_loop_t :=
  if st.n < 0 ∨ st.n ≥ HEX_LINE_MAX then none
  else
    let st : hex_loop_t := { st with data := (scan st.n).getD st.data }
    let st : hex_loop_t := { st with n := st.n + 2 }
    if h : st.address.val ≥ MEM_ROM_MAX then some st
    else
      let st : hex_loop_t :=
        { st with
          mem := { st.mem with
                   rom := fun i =>
                     if i = ⟨st.address.val, Nat.lt_of_not_le h⟩ then st.data
                     else st.mem.rom i } }
      let st : hex_loop_t := { st with address := u16 (st.address.val + 1) }
      let st : hex_loop_t := { st with byte_count := u8i ((st.byte_count.val : Int) - 1) }
      some st

/-- How a bounded run of the loop ends. -/
inductive hex_loop_result_t where
  | finished (st : hex_loop_t)
  | undefined
  | running (st : hex_loop_t)

/-- The loop, run for at most `fuel` rounds: `finished` when the condition
`byte_count > 0` fails, `undefined` when a round is undefined, `running` when the rounds
are used up with the condition still true. -/
def hex_loop (scan : Int → Option uint8_t) : Nat → hex_loop_t → hex_loop_result_t
  | fuel, st =>
    if st.byte_count.val > 0 then
      match fuel with
      | 0 => .running st
      | fuel + 1 =>
        match hex_loop_body scan st with
        | none => .undefined
        | some st1 => hex_loop scan fuel st1
    else .finished st

/-- The loop variables at the start of the record `:01100000AA`: one data byte for
address `0x1000`. -/
def hex_record_at_0x1000 : hex_loop_t :=
  { mem := mem_blank, byte_count := 1, address := 0x1000, data := 0, n := 9 }

/-- The loop variables at the start of the record `:020FFF00AABB`: two data bytes, the
second for address `0x1000`. -/
def hex_record_at_0x0FFF : hex_loop_t :=
  { mem := mem_blank, byte_count := 2, address := 0x0FFF, data := 0, n := 9 }

/-- The loop variables at the start of the record `:02000000AABB`. -/
def hex_record_at_0 : hex_loop_t :=
  { mem := mem_blank, byte_count := 2, address := 0x0000, data := 0, n := 9 }

/-- A scanner that converts `0xAA` at every offset. -/
def scan_AA : Int → Option uint8_t := fun _ => some 0xAA

/-! ## Theorems -/

/-! ### Arithmetic -/

theorem b2n_le_one (b : Bool) : b2n b ≤ 1 := by cases b <;> decide

/-- C1. After `ADD`, `ADC`, `SUB`, `SBB` the accumulator is the low byte of the exact
integer `A+v`, `A+v+CY`, `A-v`, `A-v-CY` (`CY` the carry before the instruction), and the
new `CY` is set exactly when that integer lies outside `0..255`. -/
theorem C1_add_adc_sub_sbb_low_byte_and_carry (cpu : i8085_t) (v : uint8_t) :
    (((i8085_add cpu v).a.val : Int) = ((cpu.a.val : Int) + v.val) % 256 ∧
      ((i8085_add cpu v).flag.cy = true ↔
        ¬ (0 ≤ (cpu.a.val : Int) + v.val ∧ (cpu.a.val : Int) + v.val ≤ 255))) ∧
    (((i8085_adc cpu v).a.val : Int) = ((cpu.a.val : Int) + v.val + b2n cpu.flag.cy) % 256 ∧
      ((i8085_adc cpu v).flag.cy = true ↔
        ¬ (0 ≤ (cpu.a.val : Int) + v.val + b2n cpu.flag.cy ∧
            (cpu.a.val : Int) + v.val + b2n cpu.flag.cy ≤ 255))) ∧
    (((i8085_sub cpu v).a.val : Int) = ((cpu.a.val : Int) - v.val) % 256 ∧
      ((i8085_sub cpu v).flag.cy = true ↔
        ¬ (0 ≤ (cpu.a.val : Int) - v.val ∧ (cpu.a.val : Int) - v.val ≤ 255))) ∧
    (((i8085_sbb cpu v).a.val : Int) = ((cpu.a.val : Int) - v.val - b2n cpu.flag.cy) % 256 ∧
      ((i8085_sbb cpu v).flag.cy = true ↔
        ¬ (0 ≤ (cpu.a.val : Int) - v.val - b2n cpu.flag.cy ∧
            (cpu.a.val : Int) - v.val - b2n cpu.flag.cy ≤ 255))) := by
  have ha := cpu.a.isLt
  have hv := v.isLt
  have hc := b2n_le_one cpu.flag.cy
  simp only [i8085_add, i8085_adc, i8085_sub, i8085_sbb, u8, u16, u16i, bit1,
    Nat.shiftRight_eq_div_pow, decide_eq_true_eq]
  refine ⟨⟨?_, ?_⟩, ⟨?_, ?_⟩, ⟨?_, ?_⟩, ⟨?_, ?_⟩⟩ <;> omega

/-! ### Bus -/

theorem ram_index_eq (a : uint16_t) (h : in_ram a) (h3 : a.val - 0x1000 < MEM_RAM_MAX) :
    (⟨a.val - 0x1000, h3⟩ : Fin MEM_RAM_MAX) = ram_index a := by
  unfold in_ram at h
  apply Fin.ext
  simp only [ram_index, MEM_RAM_MAX]
  omega

theorem mem_write_ram (mem : mem_t) (a : uint16_t) (v : uint8_t) (h : in_ram a) :
    mem_write mem a v =
      some { mem with ram := fun i => if i = ram_index a then v else mem.ram i } := by
  have h' := h
  unfold in_ram at h'
  have h1 : a.val ≥ 0x1000 := h'.1
  have h2 : ¬ (a.val = MEM_I8279_DISPLAY_DATA ∨ a.val = MEM_I8279_COMMAND) := by
    simp only [MEM_I8279_DISPLAY_DATA, MEM_I8279_COMMAND]; omega
  have h3 : a.val - 0x1000 < MEM_RAM_MAX := by simp only [MEM_RAM_MAX]; omega
  simp only [mem_write, h1, h2, h3, if_true, if_false, dite_true, ram_index_eq a h h3]

theorem mem_read_ram (mem : mem_t) (a : uint16_t) (h : in_ram a) :
    mem_read mem a = some (mem.ram (ram_index a), mem) := by
  have h' := h
  unfold in_ram at h'
  have h1 : ¬ a.val < 0x1000 := by omega
  have h2 : ¬ (a.val = MEM_I8279_KEYBOARD_FIFO ∨ a.val = MEM_I8279_STATUS) := by
    simp only [MEM_I8279_KEYBOARD_FIFO, MEM_I8279_STATUS]; omega
  have h3 : a.val - 0x1000 < MEM_RAM_MAX := by simp only [MEM_RAM_MAX]; omega
  simp only [mem_read, h1, h2, h3, if_false, dite_true, dite_false, ram_index_eq a h h3]

theorem mem_read_rom (mem : mem_t) (a : uint16_t) (h : a.val < 0x1000) :
    mem_read mem a = some (mem.rom ⟨a.val, h⟩, mem) := by
  simp only [mem_read, h, dite_true]

theorem mem_write_rom (mem : mem_t) (a : uint16_t) (v : uint8_t) (h : a.val < 0x1000) :
    mem_write mem a v = some mem := by
  have h1 : ¬ a.val ≥ 0x1000 := by omega
  simp only [mem_write, h1, if_false]

/-- The bus addresses with no device behind them: outside ROM, RAM and the two 8279
addresses. -/
theorem mem_read_unmapped (mem : mem_t) (a : uint16_t) (h1 : 0x1100 ≤ a.val)
    (h2 : a.val ≠ 0x1800) (h3 : a.val ≠ 0x1900) : mem_read mem a = none := by
  have e1 : ¬ a.val < 0x1000 := by omega
  have e2 : ¬ (a.val = MEM_I8279_KEYBOARD_FIFO ∨ a.val = MEM_I8279_STATUS) := by
    simp only [MEM_I8279_KEYBOARD_FIFO, MEM_I8279_STATUS]; omega
  have e3 : ¬ a.val - 0x1000 < MEM_RAM_MAX := by simp only [MEM_RAM_MAX]; omega
  simp only [mem_read, e1, e2, e3, if_false, dite_false]

theorem mem_write_unmapped (mem : mem_t) (a : uint16_t) (v : uint8_t) (h1 : 0x1100 ≤ a.val)
    (h2 : a.val ≠ 0x1800) (h3 : a.val ≠ 0x1900) : mem_write mem a v = none := by
  have e1 : a.val ≥ 0x1000 := by omega
  have e2 : ¬ (a.val = MEM_I8279_DISPLAY_DATA ∨ a.val = MEM_I8279_COMMAND) := by
    simp only [MEM_I8279_DISPLAY_DATA, MEM_I8279_COMMAND]; omega
  have e3 : ¬ a.val - 0x1000 < MEM_RAM_MAX := by simp only [MEM_RAM_MAX]; omega
  simp only [mem_write, e1, e2, e3, if_true, if_false, dite_false]

/-- C3. For every bus state, every address `a` of the RAM range and every byte `v`,
`mem_write(a, v)` succeeds and `mem_read(a)` performed afterwards returns `v` (and leaves
the bus as the write left it). -/
theorem C3_ram_write_then_read (mem : mem_t) (a : uint16_t) (v : uint8_t) (h : in_ram a) :
    ∃ mem1, mem_write mem a v = some mem1 ∧ mem_read mem1 a = some (v, mem1) := by
  refine ⟨_, mem_write_ram mem a v h, ?_⟩
  rw [mem_read_ram _ a h]
  simp

theorem C3_ram_write_then_read_witness :
    ∃ mem1, mem_write mem_blank 0x1080 0x5A = some mem1 ∧
      mem_read mem1 0x1080 = some (0x5A, mem1) :=
  C3_ram_write_then_read mem_blank 0x1080 0x5A (by decide)

/-- C4 (as the code behaves). At the unmapped address `0x1100` the code computes the index
`0x100` into the 256-byte array `ram`: neither `mem_read` nor `mem_write` has a defined
result there, so the read does not return `0xFF` and the write is not a no-op. -/
theorem C4_unmapped_access_indexes_ram_out_of_bounds (mem : mem_t) (v : uint8_t) :
    (0x1100 : uint16_t).val - 0x1000 = MEM_RAM_MAX ∧
    mem_read mem 0x1100 = none ∧ mem_write mem 0x1100 v = none ∧
    mem_read mem 0x1100 ≠ some (0xFF, mem) ∧ mem_write mem 0x1100 v ≠ some mem := by
  have hr := mem_read_unmapped mem 0x1100 (by decide) (by decide) (by decide)
  have hw := mem_write_unmapped mem 0x1100 v (by decide) (by decide) (by decide)
  refine ⟨by decide, hr, hw, ?_, ?_⟩
  · rw [hr]; exact Option.noConfusion
  · rw [hw]; exact Option.noConfusion

/-- C5. For every bus state, every address below `0x1000` and every byte `v`,
`mem_write(a, v)` returns the bus unchanged (ROM, RAM, hook slots and all), so `mem_read(a)`
gives the same result, the ROM byte, before and after the write. -/
theorem C5_rom_write_ignored (mem : mem_t) (a : uint16_t) (v : uint8_t)
    (h : a.val < 0x1000) :
    mem_write mem a v = some mem ∧
    (mem_write mem a v).bind (fun mem1 => mem_read mem1 a) = mem_read mem a ∧
    mem_read mem a = some (mem.rom ⟨a.val, h⟩, mem) := by
  refine ⟨mem_write_rom mem a v h, ?_, mem_read_rom mem a h⟩
  rw [mem_write_rom mem a v h]
  rfl

theorem C5_rom_write_ignored_witness :
    mem_write mem_blank 0x0024 0x5A = some mem_blank ∧
    (mem_write mem_blank 0x0024 0x5A).bind (fun mem1 => mem_read mem1 0x0024)
      = mem_read mem_blank 0x0024 ∧
    mem_read mem_blank 0x0024 = some (mem_blank.rom ⟨0x0024, by decide⟩, mem_blank) :=
  C5_rom_write_ignored mem_blank 0x0024 0x5A (by decide)

/-! ### Single steps -/

/-- C6. For every machine whose CPU has `halt` set, `i8085_execute` returns the machine
unchanged: registers, flags, interrupt mask, `sod`, `halt`, `cycles` and memory. -/
theorem C6_execute_halted_is_identity (s : machine_t) (h : s.cpu.halt = true) :
    i8085_execute s = some s := by
  simp only [i8085_execute, h, if_true]

/-! ### Stack -/

theorem flag_of_f_f (x : flag_t) : flag_t.of_f x.f = x := by
  rcases x with ⟨cy, x1, p, x2, ac, x3, z, s⟩
  cases cy <;> cases x1 <;> cases p <;> cases x2 <;> cases ac <;> cases x3 <;> cases z <;>
    cases s <;> rfl

theorem ram_index_val (a : uint16_t) : (ram_index a).val = (a.val - 0x1000) % 0x100 := rfl

theorem u16i_val (z : Int) : ((u16i z).val : Int) = z % 65536 := by
  simp only [u16i]
  omega

theorem u16_val (n : Nat) : (u16 n).val = n % 65536 := rfl

theorem u8_val (n : Nat) : (u8 n).val = n % 256 := rfl

theorem u64_val (n : Nat) : (u64 n).val = n % 18446744073709551616 := rfl

theorem write_dec_sp_ram_eq (s : machine_t) (v : uint8_t)
    (h : in_ram (u16i ((s.cpu.sp.val : Int) - 1))) :
    s.write_dec_sp v = some
      { s with
        cpu := { s.cpu with sp := u16i ((s.cpu.sp.val : Int) - 1) }
        mem := { s.mem with
                 ram := fun i =>
                   if i = ram_index (u16i ((s.cpu.sp.val : Int) - 1)) then v
                   else s.mem.ram i } } := by
  simp only [machine_t.write_dec_sp, machine_t.write, mem_write_ram _ _ _ h]

/-- The statement `mem_write(mem, --cpu->sp, v)` with the new stack pointer in RAM. -/
theorem write_dec_sp_ram (s : machine_t) (v : uint8_t)
    (h : in_ram (u16i ((s.cpu.sp.val : Int) - 1))) :
    ∃ s1, s.write_dec_sp v = some s1 ∧
      s1.cpu = { s.cpu with sp := u16i ((s.cpu.sp.val : Int) - 1) } ∧
      s1.mem.ram (ram_index (u16i ((s.cpu.sp.val : Int) - 1))) = v ∧
      (∀ i, i ≠ ram_index (u16i ((s.cpu.sp.val : Int) - 1)) → s1.mem.ram i = s.mem.ram i) ∧
      s1.mem.rom = s.mem.rom := by
  refine ⟨_, write_dec_sp_ram_eq s v h, rfl, ?_, ?_, rfl⟩
  · simp only [ite_true]
  · intro i hi
    simp only [hi, ite_false]

theorem read_sp_inc_ram_eq (s : machine_t) (h : in_ram s.cpu.sp) :
    s.read_sp_inc = some (s.mem.ram (ram_index s.cpu.sp),
      { s with cpu := { s.cpu with sp := u16 (s.cpu.sp.val + 1) } }) := by
  simp only [machine_t.read_sp_inc, machine_t.read, mem_read_ram _ _ h]

/-- The expression `mem_read(mem, cpu->sp++)` with the stack pointer in RAM. -/
theorem read_sp_inc_ram (s : machine_t) (h : in_ram s.cpu.sp) :
    ∃ s1, s.read_sp_inc = some (s.mem.ram (ram_index s.cpu.sp), s1) ∧
      s1.cpu = { s.cpu with sp := u16 (s.cpu.sp.val + 1) } ∧ s1.mem = s.mem :=
  ⟨_, read_sp_inc_ram_eq s h, rfl, rfl⟩

theorem u16i_pred_succ (x : uint16_t) : u16 ((u16i ((x.val : Int) - 1)).val + 1) = x := by
  apply Fin.ext
  have := x.isLt
  simp only [u16, u16i]
  omega

theorem ram_index_pred_ne (x : uint16_t) (hx : in_ram x)
    (hp : in_ram (u16i ((x.val : Int) - 1))) :
    ram_index x ≠ ram_index (u16i ((x.val : Int) - 1)) := by
  intro h
  have h1 := congrArg Fin.val h
  have h2 := u16i_val ((x.val : Int) - 1)
  have := x.isLt
  unfold in_ram at hx hp
  rw [ram_index_val, ram_index_val] at h1
  clear h
  omega

theorem u16i_sub_two (x : uint16_t) :
    u16i (((u16i ((x.val : Int) - 1)).val : Int) - 1) = u16i ((x.val : Int) - 2) := by
  have := x.isLt
  apply Fin.ext
  simp only [u16i]
  omega

theorem push_b_pop_b (s : machine_t)
    (h1 : in_ram (u16i ((s.cpu.sp.val : Int) - 1)))
    (h2 : in_ram (u16i ((s.cpu.sp.val : Int) - 2))) :
    ∃ s1 s2, op_push_b s = some s1 ∧ op_pop_b s1 = some s2 ∧ s2.cpu = s.cpu := by
  obtain ⟨s1, w1, c1, r1, o1, -⟩ := write_dec_sp_ram s s.cpu.b h1
  have hsp1 : s1.cpu.sp = u16i ((s.cpu.sp.val : Int) - 1) := by rw [c1]
  have h2' : in_ram (u16i ((s1.cpu.sp.val : Int) - 1)) := by
    rw [hsp1, u16i_sub_two]; exact h2
  obtain ⟨s2, w2, c2, r2, o2, -⟩ := write_dec_sp_ram s1 s1.cpu.c h2'
  have hsp2 : s2.cpu.sp = u16i ((s1.cpu.sp.val : Int) - 1) := by rw [c2]
  obtain ⟨s3, p3, c3, m3⟩ := read_sp_inc_ram s2 (by rw [hsp2]; exact h2')
  have hsp3 : s3.cpu.sp = s1.cpu.sp := by
    rw [c3]; show u16 (s2.cpu.sp.val + 1) = _; rw [hsp2]; exact u16i_pred_succ _
  obtain ⟨s4, p4, c4, m4⟩ := read_sp_inc_ram
    { s3 with cpu := { s3.cpu with c := s2.mem.ram (ram_index s2.cpu.sp) } }
    (by show in_ram s3.cpu.sp; rw [hsp3, hsp1]; exact h1)
  have hne := ram_index_pred_ne s1.cpu.sp (by rw [hsp1]; exact h1) h2'
  have q1 := o2 _ hne
  rw [hsp1, r1] at q1
  have elo : s1.cpu.c = s.cpu.c := by rw [c1]
  rw [hsp1, elo] at r2
  have hpush : op_push_b s = some s2 := by
    simp only [op_push_b, bind, Option.bind, pure, w1, w2]
  refine ⟨s2, ?_⟩
  simp only [hpush, op_pop_b, bind, Option.bind, pure, p3, p4, true_and, Option.some.injEq,
    exists_eq_left']
  rw [c4]
  simp only [m3, hsp2, hsp3, hsp1, c3, c2, c1, u16i_pred_succ, q1, r2]

theorem push_d_pop_d (s : machine_t)
    (h1 : in_ram (u16i ((s.cpu.sp.val : Int) - 1)))
    (h2 : in_ram (u16i ((s.cpu.sp.val : Int) - 2))) :
    ∃ s1 s2, op_push_d s = some s1 ∧ op_pop_d s1 = some s2 ∧ s2.cpu = s.cpu := by
  obtain ⟨s1, w1, c1, r1, o1, -⟩ := write_dec_sp_ram s s.cpu.d h1
  have hsp1 : s1.cpu.sp = u16i ((s.cpu.sp.val : Int) - 1) := by rw [c1]
  have h2' : in_ram (u16i ((s1.cpu.sp.val : Int) - 1)) := by
    rw [hsp1, u16i_sub_two]; exact h2
  obtain ⟨s2, w2, c2, r2, o2, -⟩ := write_dec_sp_ram s1 s1.cpu.e h2'
  have hsp2 : s2.cpu.sp = u16i ((s1.cpu.sp.val : Int) - 1) := by rw [c2]
  obtain ⟨s3, p3, c3, m3⟩ := read_sp_inc_ram s2 (by rw [hsp2]; exact h2')
  have hsp3 : s3.cpu.sp = s1.cpu.sp := by
    rw [c3]; show u16 (s2.cpu.sp.val + 1) = _; rw [hsp2]; exact u16i_pred_succ _
  obtain ⟨s4, p4, c4, m4⟩ := read_sp_inc_ram
    { s3 with cpu := { s3.cpu with e := s2.mem.ram (ram_index s2.cpu.sp) } }
    (by show in_ram s3.cpu.sp; rw [hsp3, hsp1]; exact h1)
  have hne := ram_index_pred_ne s1.cpu.sp (by rw [hsp1]; exact h1) h2'
  have q1 := o2 _ hne
  rw [hsp1, r1] at q1
  have elo : s1.cpu.e = s.cpu.e := by rw [c1]
  rw [hsp1, elo] at r2
  have hpush : op_push_d s = some s2 := by
    simp only [op_push_d, bind, Option.bind, pure, w1, w2]
  refine ⟨s2, ?_⟩
  simp only [hpush, op_pop_d, bind, Option.bind, pure, p3, p4, true_and, Option.some.injEq,
    exists_eq_left']
  rw [c4]
  simp only [m3, hsp2, hsp3, hsp1, c3, c2, c1, u16i_pred_succ, q1, r2]

theorem push_h_pop_h (s : machine_t)
    (h1 : in_ram (u16i ((s.cpu.sp.val : Int) - 1)))
    (h2 : in_ram (u16i ((s.cpu.sp.val : Int) - 2))) :
    ∃ s1 s2, op_push_h s = some s1 ∧ op_pop_h s1 = some s2 ∧ s2.cpu = s.cpu := by
  obtain ⟨s1, w1, c1, r1, o1, -⟩ := write_dec_sp_ram s s.cpu.h h1
  have hsp1 : s1.cpu.sp = u16i ((s.cpu.sp.val : Int) - 1) := by rw [c1]
  have h2' : in_ram (u16i ((s1.cpu.sp.val : Int) - 1)) := by
    rw [hsp1, u16i_sub_two]; exact h2
  obtain ⟨s2, w2, c2, r2, o2, -⟩ := write_dec_sp_ram s1 s1.cpu.l h2'
  have hsp2 : s2.cpu.sp = u16i ((s1.cpu.sp.val : Int) - 1) := by rw [c2]
  obtain ⟨s3, p3, c3, m3⟩ := read_sp_inc_ram s2 (by rw [hsp2]; exact h2')
  have hsp3 : s3.cpu.sp = s1.cpu.sp := by
    rw [c3]; show u16 (s2.cpu.sp.val + 1) = _; rw [hsp2]; exact u16i_pred_succ _
  obtain ⟨s4, p4, c4, m4⟩ := read_sp_inc_ram
    { s3 with cpu := { s3.cpu with l := s2.mem.ram (ram_index s2.cpu.sp) } }
    (by show in_ram s3.cpu.sp; rw [hsp3, hsp1]; exact h1)
  have hne := ram_index_pred_ne s1.cpu.sp (by rw [hsp1]; exact h1) h2'
  have q1 := o2 _ hne
  rw [hsp1, r1] at q1
  have elo : s1.cpu.l = s.cpu.l := by rw [c1]
  rw [hsp1, elo] at r2
  have hpush : op_push_h s = some s2 := by
    simp only [op_push_h, bind, Option.bind, pure, w1, w2]
  refine ⟨s2, ?_⟩
  simp only [hpush, op_pop_h, bind, Option.bind, pure, p3, p4, true_and, Option.some.injEq,
    exists_eq_left']
  rw [c4]
  simp only [m3, hsp2, hsp3, hsp1, c3, c2, c1, u16i_pred_succ, q1, r2]

theorem push_psw_pop_psw (s : machine_t)
    (h1 : in_ram (u16i ((s.cpu.sp.val : Int) - 1)))
    (h2 : in_ram (u16i ((s.cpu.sp.val : Int) - 2))) :
    ∃ s1 s2, op_push_psw s = some s1 ∧ op_pop_psw s1 = some s2 ∧ s2.cpu = s.cpu := by
  obtain ⟨s1, w1, c1, r1, o1, -⟩ := write_dec_sp_ram s s.cpu.a h1
  have hsp1 : s1.cpu.sp = u16i ((s.cpu.sp.val : Int) - 1) := by rw [c1]
  have h2' : in_ram (u16i ((s1.cpu.sp.val : Int) - 1)) := by
    rw [hsp1, u16i_sub_two]; exact h2
  obtain ⟨s2, w2, c2, r2, o2, -⟩ := write_dec_sp_ram s1 s1.cpu.flag.f h2'
  have hsp2 : s2.cpu.sp = u16i ((s1.cpu.sp.val : Int) - 1) := by rw [c2]
  obtain ⟨s3, p3, c3, m3⟩ := read_sp_inc_ram s2 (by rw [hsp2]; exact h2')
  have hsp3 : s3.cpu.sp = s1.cpu.sp := by
    rw [c3]; show u16 (s2.cpu.sp.val + 1) = _; rw [hsp2]; exact u16i_pred_succ _
  obtain ⟨s4, p4, c4, m4⟩ := read_sp_inc_ram
    { s3 with cpu := { s3.cpu with flag := flag_t.of_f (s2.mem.ram (ram_index s2.cpu.sp)) } }
    (by show in_ram s3.cpu.sp; rw [hsp3, hsp1]; exact h1)
  have hne := ram_index_pred_ne s1.cpu.sp (by rw [hsp1]; exact h1) h2'
  have q1 := o2 _ hne
  rw [hsp1, r1] at q1
  have elo : s1.cpu.flag.f = s.cpu.flag.f := by rw [c1]
  rw [hsp1, elo] at r2
  have hpush : op_push_psw s = some s2 := by
    simp only [op_push_psw, bind, Option.bind, pure, w1, w2]
  refine ⟨s2, ?_⟩
  simp only [hpush, op_pop_psw, bind, Option.bind, pure, p3, p4, true_and, Option.some.injEq,
    exists_eq_left']
  rw [c4]
  simp only [m3, hsp2, hsp3, hsp1, c3, c2, c1, u16i_pred_succ, q1, r2, flag_of_f_f]

/-- C2. For every machine whose stack bytes `SP-1` and `SP-2` lie in RAM and every pair
`rp` of `BC`, `DE`, `HL`, `PSW`: `PUSH rp` followed by `POP rp` succeeds and restores `rp`
and `SP`; for `PSW` the accumulator and all eight bits of `F` are restored. (The whole
register file is as before the `PUSH`.) -/
theorem C2_push_then_pop_restores (s : machine_t)
    (h1 : in_ram (u16i ((s.cpu.sp.val : Int) - 1)))
    (h2 : in_ram (u16i ((s.cpu.sp.val : Int) - 2))) :
    (∃ s1 s2, op_push_b s = some s1 ∧ op_pop_b s1 = some s2 ∧
        s2.cpu.b = s.cpu.b ∧ s2.cpu.c = s.cpu.c ∧ s2.cpu.sp = s.cpu.sp) ∧
    (∃ s1 s2, op_push_d s = some s1 ∧ op_pop_d s1 = some s2 ∧
        s2.cpu.d = s.cpu.d ∧ s2.cpu.e = s.cpu.e ∧ s2.cpu.sp = s.cpu.sp) ∧
    (∃ s1 s2, op_push_h s = some s1 ∧ op_pop_h s1 = some s2 ∧
        s2.cpu.h = s.cpu.h ∧ s2.cpu.l = s.cpu.l ∧ s2.cpu.sp = s.cpu.sp) ∧
    (∃ s1 s2, op_push_psw s = some s1 ∧ op_pop_psw s1 = some s2 ∧
        s2.cpu.a = s.cpu.a ∧ s2.cpu.flag = s.cpu.flag ∧ s2.cpu.flag.f = s.cpu.flag.f ∧
        s2.cpu.sp = s.cpu.sp) := by
  obtain ⟨b1, b2, hb1, hb2, hb⟩ := push_b_pop_b s h1 h2
  obtain ⟨d1, d2, hd1, hd2, hd⟩ := push_d_pop_d s h1 h2
  obtain ⟨l1, l2, hl1, hl2, hl⟩ := push_h_pop_h s h1 h2
  obtain ⟨p1, p2, hp1, hp2, hp⟩ := push_psw_pop_psw s h1 h2
  exact ⟨⟨b1, b2, hb1, hb2, by rw [hb], by rw [hb], by rw [hb]⟩,
    ⟨d1, d2, hd1, hd2, by rw [hd], by rw [hd], by rw [hd]⟩,
    ⟨l1, l2, hl1, hl2, by rw [hl], by rw [hl], by rw [hl]⟩,
    ⟨p1, p2, hp1, hp2, by rw [hp], by rw [hp], by rw [hp], by rw [hp]⟩⟩

theorem C2_push_then_pop_restores_witness :
    in_ram (u16i ((machine_stack.cpu.sp.val : Int) - 1)) ∧
    in_ram (u16i ((machine_stack.cpu.sp.val : Int) - 2)) ∧
    ∃ s1 s2, op_push_psw machine_stack = some s1 ∧ op_pop_psw s1 = some s2 ∧
      s2.cpu.a = machine_stack.cpu.a ∧ s2.cpu.flag = machine_stack.cpu.flag ∧
      s2.cpu.flag.f = machine_stack.cpu.flag.f ∧ s2.cpu.sp = machine_stack.cpu.sp :=
  ⟨by decide, by decide, (C2_push_then_pop_restores machine_stack (by decide) (by decide)).2.2.2⟩

theorem C6_execute_halted_is_identity_witness :
    machine_halted.cpu.halt = true ∧ i8085_execute machine_halted = some machine_halted :=
  ⟨rfl, C6_execute_halted_is_identity machine_halted rfl⟩

/-! ### Cycle accounting -/

theorem op_ral_total (s : machine_t) :
    ∃ s', op_ral s = some s' ∧ s'.cpu.cycles = s.cpu.cycles := by
  unfold op_ral
  by_cases h : s.cpu.flag.cy = true
  · rw [if_pos h]; exact ⟨_, rfl, rfl⟩
  · rw [if_neg h]; exact ⟨_, rfl, rfl⟩

theorem op_rar_total (s : machine_t) :
    ∃ s', op_rar s = some s' ∧ s'.cpu.cycles = s.cpu.cycles := by
  unfold op_rar
  by_cases h : s.cpu.flag.cy = true
  · rw [if_pos h]; exact ⟨_, rfl, rfl⟩
  · rw [if_neg h]; exact ⟨_, rfl, rfl⟩

theorem op_rlc_total (s : machine_t) :
    ∃ s', op_rlc s = some s' ∧ s'.cpu.cycles = s.cpu.cycles := by
  unfold op_rlc
  simp only []
  split <;> exact ⟨_, rfl, rfl⟩

theorem op_rrc_total (s : machine_t) :
    ∃ s', op_rrc s = some s' ∧ s'.cpu.cycles = s.cpu.cycles := by
  unfold op_rrc
  simp only []
  split <;> exact ⟨_, rfl, rfl⟩

theorem op_daa_total (s : machine_t) :
    ∃ s', op_daa s = some s' ∧ s'.cpu.cycles = s.cpu.cycles := by
  unfold op_daa
  simp only []
  split <;> simp only [bind, Option.bind, pure] <;> split <;> exact ⟨_, rfl, rfl⟩

theorem op_sim_total (s : machine_t) :
    ∃ s', op_sim s = some s' ∧ s'.cpu.cycles = s.cpu.cycles := by
  unfold op_sim
  split <;> simp only [bind, Option.bind, pure] <;> split <;> exact ⟨_, rfl, rfl⟩

set_option maxRecDepth 8192 in
theorem no_memory_opcode_handler :
    ∀ op : uint8_t, op.val ∈ single_byte_no_memory_opcodes →
      (opcode_function_at op).no_memory = true := by
  decide

set_option maxRecDepth 8192 in
theorem no_memory_opcode_cycles_ne_zero :
    ∀ op : uint8_t, op.val ∈ single_byte_no_memory_opcodes → (opcode_cycles_at op).val ≠ 0 := by
  decide

set_option maxHeartbeats 4000000 in
theorem no_memory_handler_keeps_cycles (f : i8085_operation_func_t)
    (hf : f.no_memory = true) (s : machine_t) :
    ∃ s', f.call s = some s' ∧ s'.cpu.cycles = s.cpu.cycles := by
  cases f <;>
    first
    | exact Bool.noConfusion hf
    | exact ⟨_, rfl, rfl⟩
    | exact op_ral_total s
    | exact op_rar_total s
    | exact op_rlc_total s
    | exact op_rrc_total s
    | exact op_daa_total s
    | exact op_sim_total s

theorem u64_add_u64 (x y : Nat) : u64 ((u64 x).val + y) = u64 (x + y) := by
  apply Fin.ext
  simp only [u64_val]
  omega

/-- The fetch of `i8085_execute`: when the bus read at `pc` yields `op`, the step is the
handler of `op` run on the machine with `pc` advanced and the base state count added. -/
theorem i8085_execute_fetch (s : machine_t) (op : uint8_t) (m1 : mem_t)
    (hh : s.cpu.halt = false) (hf : mem_read s.mem s.cpu.pc = some (op, m1)) :
    i8085_execute s = (opcode_function_at op).call
      { s with
        mem := m1
        cpu := { s.cpu with
                 pc := u16 (s.cpu.pc.val + 1)
                 cycles := u64 (s.cpu.cycles.val + (opcode_cycles_at op).val) } } := by
  simp only [i8085_execute, hh, machine_t.read_pc_inc, machine_t.read, hf, bind, Option.bind]
  rfl

/-- C7. For every non-halted machine whose fetch yields a defined single-byte opcode that
does not access memory beyond its own fetch, one `i8085_execute` step succeeds and adds
exactly `opcode_cycles[opcode]` to `cycles` (in 64-bit arithmetic). -/
theorem C7_single_byte_step_adds_base_cycles (s : machine_t) (op : uint8_t) (m1 : mem_t)
    (hh : s.cpu.halt = false) (hf : mem_read s.mem s.cpu.pc = some (op, m1))
    (hop : op.val ∈ single_byte_no_memory_opcodes) :
    ∃ s', i8085_execute s = some s' ∧
      s'.cpu.cycles = u64 (s.cpu.cycles.val + (opcode_cycles_at op).val) ∧
      (opcode_cycles_at op).val ≠ 0 := by
  rw [i8085_execute_fetch s op m1 hh hf]
  obtain ⟨s', e, c⟩ := no_memory_handler_keeps_cycles (opcode_function_at op)
    (no_memory_opcode_handler op hop)
    { s with
      mem := m1
      cpu := { s.cpu with
               pc := u16 (s.cpu.pc.val + 1)
               cycles := u64 (s.cpu.cycles.val + (opcode_cycles_at op).val) } }
  exact ⟨s', e, c, no_memory_opcode_cycles_ne_zero op hop⟩

theorem C7_single_byte_step_adds_base_cycles_witness :
    machine_inr_a.cpu.halt = false ∧
    mem_read machine_inr_a.mem machine_inr_a.cpu.pc = some (0x3C, machine_inr_a.mem) ∧
    (0x3C : uint8_t).val ∈ single_byte_no_memory_opcodes ∧
    ∃ s', i8085_execute machine_inr_a = some s' ∧
      s'.cpu.cycles = u64 (machine_inr_a.cpu.cycles.val + (opcode_cycles_at 0x3C).val) ∧
      (opcode_cycles_at 0x3C).val ≠ 0 :=
  ⟨rfl, rfl, by decide,
    C7_single_byte_step_adds_base_cycles machine_inr_a 0x3C machine_inr_a.mem rfl rfl
      (by decide)⟩

/-! ### Undefined opcodes -/

theorem i8279_read_hook_again (dev : i8279_t) (a : uint16_t) :
    i8279_read_hook (i8279_read_hook dev a).2 a = i8279_read_hook dev a := by
  unfold i8279_read_hook
  by_cases h1 : a.val = MEM_I8279_KEYBOARD_FIFO
  · simp only [if_pos h1]
  · by_cases h2 : a.val = MEM_I8279_STATUS
    · simp only [if_neg h1, if_pos h2]
    · simp only [if_neg h1, if_neg h2]

/-- A second `mem_read` of the same address right after the first returns the same byte and
leaves the bus as the first read left it. -/
theorem mem_read_again (mem : mem_t) (a : uint16_t) (v : uint8_t) (m1 : mem_t)
    (h : mem_read mem a = some (v, m1)) : mem_read m1 a = some (v, m1) := by
  unfold mem_read at h ⊢
  by_cases h1 : a.val < 0x1000
  · simp only [h1, dite_true, Option.some.injEq, Prod.mk.injEq] at h
    obtain ⟨hv, hm⟩ := h
    subst hm
    simp only [h1, dite_true, hv]
  · simp only [h1, dite_false] at h ⊢
    by_cases h2 : a.val = MEM_I8279_KEYBOARD_FIFO ∨ a.val = MEM_I8279_STATUS
    · simp only [h2, if_true] at h ⊢
      cases hr : mem.i8279_read with
      | none =>
        simp only [hr, Option.some.injEq, Prod.mk.injEq] at h
        obtain ⟨hv, hm⟩ := h
        subst hm
        simp only [hr, hv]
      | some hook =>
        cases hd : mem.i8279 with
        | none =>
          simp only [hr, hd, Option.some.injEq, Prod.mk.injEq] at h
          obtain ⟨hv, hm⟩ := h
          subst hm
          simp only [hr, hd, hv]
        | some dev =>
          simp only [hr, hd, Option.some.injEq, Prod.mk.injEq] at h
          obtain ⟨hv, hm⟩ := h
          subst hm
          subst hv
          cases hook
          simp only [mem_read_hook_t.call, i8279_read_hook_again]
    · simp only [h2, if_false] at h ⊢
      by_cases h3 : a.val - 0x1000 < MEM_RAM_MAX
      · simp only [h3, dite_true, Option.some.injEq, Prod.mk.injEq] at h
        obtain ⟨hv, hm⟩ := h
        subst hm
        simp only [h3, dite_true, hv]
      · simp only [h3, dite_false] at h
        exact Option.noConfusion h

theorem u16i_succ_pred (x : uint16_t) : u16i (((u16 (x.val + 1)).val : Int) - 1) = x := by
  apply Fin.ext
  have := x.isLt
  simp only [u16, u16i]
  omega

theorem u64_add_zero (x : uint64_t) : u64 (x.val + 0) = x := by
  apply Fin.ext
  have := x.isLt
  simp only [u64_val]
  omega

set_option maxRecDepth 8192 in
theorem opcode_cycles_zero_iff_op_none :
    ∀ op : uint8_t,
      opcode_cycles_at op = 0 ↔ opcode_function_at op = i8085_operation_func_t.op_none := by
  decide

set_option maxRecDepth 8192 in
theorem op_none_iff_undefined :
    ∀ op : uint8_t,
      opcode_function_at op = i8085_operation_func_t.op_none ↔ op.val ∈ undefined_opcodes := by
  decide

set_option maxRecDepth 8192 in
theorem opcode_function_count :
    (opcode_function.filter (fun f => f = i8085_operation_func_t.op_none)).length = 10 ∧
    (opcode_function.filter (fun f => f ≠ i8085_operation_func_t.op_none)).length = 246 := by
  decide

/-- A step of a non-halted machine that fetches an opcode dispatched to `op_none`. -/
theorem undefined_opcode_step (s : machine_t) (op : uint8_t) (m1 : mem_t)
    (hh : s.cpu.halt = false) (hf : mem_read s.mem s.cpu.pc = some (op, m1))
    (hop : op.val ∈ undefined_opcodes) :
    ∃ s', i8085_execute s = some s' ∧ s'.debugger_break = true ∧ s'.panic_msg = some op ∧
      s'.cpu = { s.cpu with pc := u16 (s.cpu.pc.val + 1) } := by
  have hn := (op_none_iff_undefined op).mpr hop
  have hc := (opcode_cycles_zero_iff_op_none op).mpr hn
  have h2 := mem_read_again s.mem s.cpu.pc op m1 hf
  have e : i8085_execute s = some (panic
      { s with
        mem := m1
        cpu := { s.cpu with
                 pc := u16 (s.cpu.pc.val + 1)
                 cycles := u64 (s.cpu.cycles.val + (0 : uint8_t).val) } } op) := by
    rw [i8085_execute_fetch s op m1 hh hf, hn, hc]
    show op_none _ = _
    unfold op_none
    simp only [machine_t.read, u16i_succ_pred, h2, bind, Option.bind, pure]
  refine ⟨_, e, rfl, rfl, ?_⟩
  show { s.cpu with pc := u16 (s.cpu.pc.val + 1), cycles := u64 (s.cpu.cycles.val + 0) } = _
  rw [u64_add_zero]

/-- C9. For every opcode byte the base cycle entry is 0 exactly when the dispatch table
holds `op_none`; that is the case exactly for the ten opcodes `0x08, 0x10, 0x18, 0x28, 0x38,
0xCB, 0xD9, 0xDD, 0xED, 0xFD`, the other 246 entries being handlers of instructions; and a
step of a non-halted machine that fetches such an opcode raises the panic (`debugger_break`
set, the opcode in `panic_msg`) and changes no register other than `pc`. -/
theorem C9_undefined_opcodes_panic :
    (∀ op : uint8_t,
      opcode_cycles_at op = 0 ↔ opcode_function_at op = i8085_operation_func_t.op_none) ∧
    (∀ op : uint8_t,
      opcode_function_at op = i8085_operation_func_t.op_none ↔ op.val ∈ undefined_opcodes) ∧
    (opcode_function.filter (fun f => f = i8085_operation_func_t.op_none)).length = 10 ∧
    (opcode_function.filter (fun f => f ≠ i8085_operation_func_t.op_none)).length = 246 ∧
    (∀ (s : machine_t) (op : uint8_t) (m1 : mem_t), s.cpu.halt = false →
      mem_read s.mem s.cpu.pc = some (op, m1) → op.val ∈ undefined_opcodes →
      ∃ s', i8085_execute s = some s' ∧ s'.debugger_break = true ∧ s'.panic_msg = some op ∧
        s'.cpu = { s.cpu with pc := u16 (s.cpu.pc.val + 1) }) :=
  ⟨opcode_cycles_zero_iff_op_none, op_none_iff_undefined, opcode_function_count.1,
    opcode_function_count.2, undefined_opcode_step⟩

theorem C9_undefined_opcodes_panic_witness :
    machine_undefined.cpu.halt = false ∧
    mem_read machine_undefined.mem machine_undefined.cpu.pc
      = some (0x08, machine_undefined.mem) ∧
    (0x08 : uint8_t).val ∈ undefined_opcodes ∧
    ∃ s', i8085_execute machine_undefined = some s' ∧ s'.debugger_break = true ∧
      s'.panic_msg = some 0x08 ∧
      s'.cpu = { machine_undefined.cpu with pc := u16 (machine_undefined.cpu.pc.val + 1) } :=
  ⟨rfl, rfl, by decide,
    C9_undefined_opcodes_panic.2.2.2.2 machine_undefined 0x08 machine_undefined.mem rfl rfl
      (by decide)⟩

/-! ### Conditional control flow -/

theorem mem_read_low (mem : mem_t) (a : uint16_t) (h : in_rom_or_ram a) :
    ∃ v, mem_read mem a = some (v, mem) := by
  unfold in_rom_or_ram at h
  by_cases h1 : a.val < 0x1000
  · exact ⟨_, mem_read_rom mem a h1⟩
  · exact ⟨_, mem_read_ram mem a ⟨by omega, by omega⟩⟩

theorem mem_write_low (mem : mem_t) (a : uint16_t) (v : uint8_t) (h : in_rom_or_ram a) :
    ∃ m1, mem_write mem a v = some m1 ∧ m1.rom = mem.rom := by
  unfold in_rom_or_ram at h
  by_cases h1 : a.val < 0x1000
  · exact ⟨_, mem_write_rom mem a v h1, rfl⟩
  · exact ⟨_, mem_write_ram mem a v ⟨by omega, by omega⟩, rfl⟩

/-- A bus read changes neither ROM nor RAM, and changes nothing at all unless it is a read
of the keyboard FIFO. -/
theorem mem_read_frame (mem : mem_t) (a : uint16_t) (v : uint8_t) (m1 : mem_t)
    (h : mem_read mem a = some (v, m1)) :
    m1.rom = mem.rom ∧ m1.ram = mem.ram ∧ (a.val ≠ 0x1800 → m1 = mem) := by
  unfold mem_read at h
  by_cases h1 : a.val < 0x1000
  · simp only [h1, dite_true, Option.some.injEq, Prod.mk.injEq] at h
    obtain ⟨-, hm⟩ := h
    subst hm
    exact ⟨rfl, rfl, fun _ => rfl⟩
  · simp only [h1, dite_false] at h
    by_cases h2 : a.val = MEM_I8279_KEYBOARD_FIFO ∨ a.val = MEM_I8279_STATUS
    · simp only [h2, if_true] at h
      cases hr : mem.i8279_read with
      | none =>
        simp only [hr, Option.some.injEq, Prod.mk.injEq] at h
        obtain ⟨-, hm⟩ := h
        subst hm
        exact ⟨rfl, rfl, fun _ => rfl⟩
      | some hook =>
        cases hd : mem.i8279 with
        | none =>
          simp only [hr, hd, Option.some.injEq, Prod.mk.injEq] at h
          obtain ⟨-, hm⟩ := h
          subst hm
          exact ⟨rfl, rfl, fun _ => rfl⟩
        | some dev =>
          simp only [hr, hd, Option.some.injEq, Prod.mk.injEq] at h
          obtain ⟨-, hm⟩ := h
          subst hm
          refine ⟨rfl, rfl, fun hne => ?_⟩
          cases hook
          have h3 : ¬ a.val = MEM_I8279_KEYBOARD_FIFO := hne
          have h4 : a.val = MEM_I8279_STATUS := by
            rcases h2 with h2 | h2
            · exact absurd h2 h3
            · exact h2
          simp only [mem_read_hook_t.call, i8279_read_hook, if_neg h3, if_pos h4]
          rw [← hd, ← hr]
    · simp only [h2, if_false] at h
      by_cases h3 : a.val - 0x1000 < MEM_RAM_MAX
      · simp only [h3, dite_true, Option.some.injEq, Prod.mk.injEq] at h
        obtain ⟨-, hm⟩ := h
        subst hm
        exact ⟨rfl, rfl, fun _ => rfl⟩
      · simp only [h3, dite_false] at h
        exact Option.noConfusion h

theorem mem_write_low_eq (mem : mem_t) (a : uint16_t) (v : uint8_t) (h : in_rom_or_ram a) :
    mem_write mem a v = some
      (if a.val < 0x1000 then mem
       else { mem with ram := fun i => if i = ram_index a then v else mem.ram i }) := by
  unfold in_rom_or_ram at h
  by_cases h1 : a.val < 0x1000
  · rw [if_pos h1]; exact mem_write_rom mem a v h1
  · rw [if_neg h1]; exact mem_write_ram mem a v ⟨by omega, by omega⟩

/-! Each conditional handler, run on the machine after the opcode fetch. -/

theorem op_jnz_spec (t : machine_t) (h1 : in_rom_or_ram t.cpu.pc)
    (h2 : in_rom_or_ram (u16 (t.cpu.pc.val + 1))) :
    ((!t.cpu.flag.z) = true →
      ∃ t', op_jnz t = some t' ∧ t'.cpu.cycles = u64 (t.cpu.cycles.val + 3)) ∧
    ((!t.cpu.flag.z) = false →
      op_jnz t = some
        { t with cpu := { t.cpu with pc := u16 ((u16 (t.cpu.pc.val + 1)).val + 1) } }) := by
  obtain ⟨v1, r1⟩ := mem_read_low t.mem t.cpu.pc h1
  obtain ⟨v2, r2⟩ := mem_read_low t.mem (u16 (t.cpu.pc.val + 1)) h2
  unfold op_jnz
  simp only [machine_t.trace_read, machine_t.read_pc_inc, machine_t.read, r1, r2, bind,
    Option.bind, pure]
  cases hfl : t.cpu.flag.z
  · refine ⟨fun _ => ?_, fun h => Bool.noConfusion h⟩
    simp only [if_true]
    exact ⟨_, rfl, rfl⟩
  · refine ⟨fun h => Bool.noConfusion h, fun _ => ?_⟩
    simp only [Bool.true_eq_false, if_false]

theorem op_jz_spec (t : machine_t) (h1 : in_rom_or_ram t.cpu.pc)
    (h2 : in_rom_or_ram (u16 (t.cpu.pc.val + 1))) :
    (t.cpu.flag.z = true →
      ∃ t', op_jz t = some t' ∧ t'.cpu.cycles = u64 (t.cpu.cycles.val + 3)) ∧
    (t.cpu.flag.z = false →
      op_jz t = some
        { t with cpu := { t.cpu with pc := u16 ((u16 (t.cpu.pc.val + 1)).val + 1) } }) := by
  obtain ⟨v1, r1⟩ := mem_read_low t.mem t.cpu.pc h1
  obtain ⟨v2, r2⟩ := mem_read_low t.mem (u16 (t.cpu.pc.val + 1)) h2
  unfold op_jz
  simp only [machine_t.trace_read, machine_t.read_pc_inc, machine_t.read, r1, r2, bind,
    Option.bind, pure]
  cases hfl : t.cpu.flag.z
  · refine ⟨fun h => Bool.noConfusion h, fun _ => ?_⟩
    simp only [Bool.false_eq_true, if_false]
  · refine ⟨fun _ => ?_, fun h => Bool.noConfusion h⟩
    simp only [if_true]
    exact ⟨_, rfl, rfl⟩

theorem op_jnc_spec (t : machine_t) (h1 : in_rom_or_ram t.cpu.pc)
    (h2 : in_rom_or_ram (u16 (t.cpu.pc.val + 1))) :
    ((!t.cpu.flag.cy) = true →
      ∃ t', op_jnc t = some t' ∧ t'.cpu.cycles = u64 (t.cpu.cycles.val + 3)) ∧
    ((!t.cpu.flag.cy) = false →
      op_jnc t = some
        { t with cpu := { t.cpu with pc := u16 ((u16 (t.cpu.pc.val + 1)).val + 1) } }) := by
  obtain ⟨v1, r1⟩ := mem_read_low t.mem t.cpu.pc h1
  obtain ⟨v2, r2⟩ := mem_read_low t.mem (u16 (t.cpu.pc.val + 1)) h2
  unfold op_jnc
  simp only [machine_t.trace_read, machine_t.read_pc_inc, machine_t.read, r1, r2, bind,
    Option.bind, pure]
  cases hfl : t.cpu.flag.cy
  · refine ⟨fun _ => ?_, fun h => Bool.noConfusion h⟩
    simp only [if_true]
    exact ⟨_, rfl, rfl⟩
  · refine ⟨fun h => Bool.noConfusion h, fun _ => ?_⟩
    simp only [Bool.true_eq_false, if_false]

theorem op_jc_spec (t : machine_t) (h1 : in_rom_or_ram t.cpu.pc)
    (h2 : in_rom_or_ram (u16 (t.cpu.pc.val + 1))) :
    (t.cpu.flag.cy = true →
      ∃ t', op_jc t = some t' ∧ t'.cpu.cycles = u64 (t.cpu.cycles.val + 3)) ∧
    (t.cpu.flag.cy = false →
      op_jc t = some
        { t with cpu := { t.cpu with pc := u16 ((u16 (t.cpu.pc.val + 1)).val + 1) } }) := by
  obtain ⟨v1, r1⟩ := mem_read_low t.mem t.cpu.pc h1
  obtain ⟨v2, r2⟩ := mem_read_low t.mem (u16 (t.cpu.pc.val + 1)) h2
  unfold op_jc
  simp only [machine_t.trace_read, machine_t.read_pc_inc, machine_t.read, r1, r2, bind,
    Option.bind, pure]
  cases hfl : t.cpu.flag.cy
  · refine ⟨fun h => Bool.noConfusion h, fun _ => ?_⟩
    simp only [Bool.false_eq_true, if_false]
  · refine ⟨fun _ => ?_, fun h => Bool.noConfusion h⟩
    simp only [if_true]
    exact ⟨_, rfl, rfl⟩

theorem op_jpo_spec (t : machine_t) (h1 : in_rom_or_ram t.cpu.pc)
    (h2 : in_rom_or_ram (u16 (t.cpu.pc.val + 1))) :
    ((!t.cpu.flag.p) = true →
      ∃ t', op_jpo t = some t' ∧ t'.cpu.cycles = u64 (t.cpu.cycles.val + 3)) ∧
    ((!t.cpu.flag.p) = false →
      op_jpo t = some
        { t with cpu := { t.cpu with pc := u16 ((u16 (t.cpu.pc.val + 1)).val + 1) } }) := by
  obtain ⟨v1, r1⟩ := mem_read_low t.mem t.cpu.pc h1
  obtain ⟨v2, r2⟩ := mem_read_low t.mem (u16 (t.cpu.pc.val + 1)) h2
  unfold op_jpo
  simp only [machine_t.trace_read, machine_t.read_pc_inc, machine_t.read, r1, r2, bind,
    Option.bind, pure]
  cases hfl : t.cpu.flag.p
  · refine ⟨fun _ => ?_, fun h => Bool.noConfusion h⟩
    simp only [if_true]
    exact ⟨_, rfl, rfl⟩
  · refine ⟨fun h => Bool.noConfusion h, fun _ => ?_⟩
    simp only [Bool.true_eq_false, if_false]

theorem op_jpe_spec (t : machine_t) (h1 : in_rom_or_ram t.cpu.pc)
    (h2 : in_rom_or_ram (u16 (t.cpu.pc.val + 1))) :
    (t.cpu.flag.p = true →
      ∃ t', op_jpe t = some t' ∧ t'.cpu.cycles = u64 (t.cpu.cycles.val + 3)) ∧
    (t.cpu.flag.p = false →
      op_jpe t = some
        { t with cpu := { t.cpu with pc := u16 ((u16 (t.cpu.pc.val + 1)).val + 1) } }) := by
  obtain ⟨v1, r1⟩ := mem_read_low t.mem t.cpu.pc h1
  obtain ⟨v2, r2⟩ := mem_read_low t.mem (u16 (t.cpu.pc.val + 1)) h2
  unfold op_jpe
  simp only [machine_t.trace_read, machine_t.read_pc_inc, machine_t.read, r1, r2, bind,
    Option.bind, pure]
  cases hfl : t.cpu.flag.p
  · refine ⟨fun h => Bool.noConfusion h, fun _ => ?_⟩
    simp only [Bool.false_eq_true, if_false]
  · refine ⟨fun _ => ?_, fun h => Bool.noConfusion h⟩
    simp only [if_true]
    exact ⟨_, rfl, rfl⟩

theorem op_jp_spec (t : machine_t) (h1 : in_rom_or_ram t.cpu.pc)
    (h2 : in_rom_or_ram (u16 (t.cpu.pc.val + 1))) :
    ((!t.cpu.flag.s) = true →
      ∃ t', op_jp t = some t' ∧ t'.cpu.cycles = u64 (t.cpu.cycles.val + 3)) ∧
    ((!t.cpu.flag.s) = false →
      op_jp t = some
        { t with cpu := { t.cpu with pc := u16 ((u16 (t.cpu.pc.val + 1)).val + 1) } }) := by
  obtain ⟨v1, r1⟩ := mem_read_low t.mem t.cpu.pc h1
  obtain ⟨v2, r2⟩ := mem_read_low t.mem (u16 (t.cpu.pc.val + 1)) h2
  unfold op_jp
  simp only [machine_t.trace_read, machine_t.read_pc_inc, machine_t.read, r1, r2, bind,
    Option.bind, pure]
  cases hfl : t.cpu.flag.s
  · refine ⟨fun _ => ?_, fun h => Bool.noConfusion h⟩
    simp only [if_true]
    exact ⟨_, rfl, rfl⟩
  · refine ⟨fun h => Bool.noConfusion h, fun _ => ?_⟩
    simp only [Bool.true_eq_false, if_false]

theorem op_jm_spec (t : machine_t) (h1 : in_rom_or_ram t.cpu.pc)
    (h2 : in_rom_or_ram (u16 (t.cpu.pc.val + 1))) :
    (t.cpu.flag.s = true →
      ∃ t', op_jm t = some t' ∧ t'.cpu.cycles = u64 (t.cpu.cycles.val + 3)) ∧
    (t.cpu.flag.s = false →
      op_jm t = some
        { t with cpu := { t.cpu with pc := u16 ((u16 (t.cpu.pc.val + 1)).val + 1) } }) := by
  obtain ⟨v1, r1⟩ := mem_read_low t.mem t.cpu.pc h1
  obtain ⟨v2, r2⟩ := mem_read_low t.mem (u16 (t.cpu.pc.val + 1)) h2
  unfold op_jm
  simp only [machine_t.trace_read, machine_t.read_pc_inc, machine_t.read, r1, r2, bind,
    Option.bind, pure]
  cases hfl : t.cpu.flag.s
  · refine ⟨fun h => Bool.noConfusion h, fun _ => ?_⟩
    simp only [Bool.false_eq_true, if_false]
  · refine ⟨fun _ => ?_, fun h => Bool.noConfusion h⟩
    simp only [if_true]
    exact ⟨_, rfl, rfl⟩

theorem op_cnz_spec (t : machine_t) (h1 : in_rom_or_ram t.cpu.pc)
    (h2 : in_rom_or_ram (u16 (t.cpu.pc.val + 1))) :
    ((!t.cpu.flag.z) = true → in_rom_or_ram (u16i ((t.cpu.sp.val : Int) - 1)) →
      in_rom_or_ram (u16i ((t.cpu.sp.val : Int) - 2)) →
      ∃ t', op_cnz t = some t' ∧ t'.cpu.cycles = u64 (t.cpu.cycles.val + 9)) ∧
    ((!t.cpu.flag.z) = false →
      op_cnz t = some
        { t with cpu := { t.cpu with pc := u16 ((u16 (t.cpu.pc.val + 1)).val + 1) } }) := by
  obtain ⟨v1, r1⟩ := mem_read_low t.mem t.cpu.pc h1
  obtain ⟨v2, r2⟩ := mem_read_low t.mem (u16 (t.cpu.pc.val + 1)) h2
  unfold op_cnz
  simp only [machine_t.trace_read, machine_t.read_pc_inc, machine_t.read, r1, r2, bind,
    Option.bind, pure]
  cases hfl : t.cpu.flag.z
  · refine ⟨fun _ h3 h4 => ?_, fun h => Bool.noConfusion h⟩
    rw [← u16i_sub_two] at h4
    simp only [if_true, machine_t.write_dec_sp, machine_t.write, mem_write_low_eq _ _ _ h3,
      mem_write_low_eq _ _ _ h4]
    exact ⟨_, rfl, rfl⟩
  · refine ⟨fun h => Bool.noConfusion h, fun _ => ?_⟩
    simp only [Bool.true_eq_false, if_false]

theorem op_cz_spec (t : machine_t) (h1 : in_rom_or_ram t.cpu.pc)
    (h2 : in_rom_or_ram (u16 (t.cpu.pc.val + 1))) :
    (t.cpu.flag.z = true → in_rom_or_ram (u16i ((t.cpu.sp.val : Int) - 1)) →
      in_rom_or_ram (u16i ((t.cpu.sp.val : Int) - 2)) →
      ∃ t', op_cz t = some t' ∧ t'.cpu.cycles = u64 (t.cpu.cycles.val + 9)) ∧
    (t.cpu.flag.z = false →
      op_cz t = some
        { t with cpu := { t.cpu with pc := u16 ((u16 (t.cpu.pc.val + 1)).val + 1) } }) := by
  obtain ⟨v1, r1⟩ := mem_read_low t.mem t.cpu.pc h1
  obtain ⟨v2, r2⟩ := mem_read_low t.mem (u16 (t.cpu.pc.val + 1)) h2
  unfold op_cz
  simp only [machine_t.trace_read, machine_t.read_pc_inc, machine_t.read, r1, r2, bind,
    Option.bind, pure]
  cases hfl : t.cpu.flag.z
  · refine ⟨fun h => Bool.noConfusion h, fun _ => ?_⟩
    simp only [Bool.false_eq_true, if_false]
  · refine ⟨fun _ h3 h4 => ?_, fun h => Bool.noConfusion h⟩
    rw [← u16i_sub_two] at h4
    simp only [if_true, machine_t.write_dec_sp, machine_t.write, mem_write_low_eq _ _ _ h3,
      mem_write_low_eq _ _ _ h4]
    exact ⟨_, rfl, rfl⟩

theorem op_cnc_spec (t : machine_t) (h1 : in_rom_or_ram t.cpu.pc)
    (h2 : in_rom_or_ram (u16 (t.cpu.pc.val + 1))) :
    ((!t.cpu.flag.cy) = true → in_rom_or_ram (u16i ((t.cpu.sp.val : Int) - 1)) →
      in_rom_or_ram (u16i ((t.cpu.sp.val : Int) - 2)) →
      ∃ t', op_cnc t = some t' ∧ t'.cpu.cycles = u64 (t.cpu.cycles.val + 9)) ∧
    ((!t.cpu.flag.cy) = false →
      op_cnc t = some
        { t with cpu := { t.cpu with pc := u16 ((u16 (t.cpu.pc.val + 1)).val + 1) } }) := by
  obtain ⟨v1, r1⟩ := mem_read_low t.mem t.cpu.pc h1
  obtain ⟨v2, r2⟩ := mem_read_low t.mem (u16 (t.cpu.pc.val + 1)) h2
  unfold op_cnc
  simp only [machine_t.trace_read, machine_t.read_pc_inc, machine_t.read, r1, r2, bind,
    Option.bind, pure]
  cases hfl : t.cpu.flag.cy
  · refine ⟨fun _ h3 h4 => ?_, fun h => Bool.noConfusion h⟩
    rw [← u16i_sub_two] at h4
    simp only [if_true, machine_t.write_dec_sp, machine_t.write, mem_write_low_eq _ _ _ h3,
      mem_write_low_eq _ _ _ h4]
    exact ⟨_, rfl, rfl⟩
  · refine ⟨fun h => Bool.noConfusion h, fun _ => ?_⟩
    simp only [Bool.true_eq_false, if_false]

theorem op_cc_spec (t : machine_t) (h1 : in_rom_or_ram t.cpu.pc)
    (h2 : in_rom_or_ram (u16 (t.cpu.pc.val + 1))) :
    (t.cpu.flag.cy = true → in_rom_or_ram (u16i ((t.cpu.sp.val : Int) - 1)) →
      in_rom_or_ram (u16i ((t.cpu.sp.val : Int) - 2)) →
      ∃ t', op_cc t = some t' ∧ t'.cpu.cycles = u64 (t.cpu.cycles.val + 9)) ∧
    (t.cpu.flag.cy = false →
      op_cc t = some
        { t with cpu := { t.cpu with pc := u16 ((u16 (t.cpu.pc.val + 1)).val + 1) } }) := by
  obtain ⟨v1, r1⟩ := mem_read_low t.mem t.cpu.pc h1
  obtain ⟨v2, r2⟩ := mem_read_low t.mem (u16 (t.cpu.pc.val + 1)) h2
  unfold op_cc
  simp only [machine_t.trace_read, machine_t.read_pc_inc, machine_t.read, r1, r2, bind,
    Option.bind, pure]
  cases hfl : t.cpu.flag.cy
  · refine ⟨fun h => Bool.noConfusion h, fun _ => ?_⟩
    simp only [Bool.false_eq_true, if_false]
  · refine ⟨fun _ h3 h4 => ?_, fun h => Bool.noConfusion h⟩
    rw [← u16i_sub_two] at h4
    simp only [if_true, machine_t.write_dec_sp, machine_t.write, mem_write_low_eq _ _ _ h3,
      mem_write_low_eq _ _ _ h4]
    exact ⟨_, rfl, rfl⟩

theorem op_cpo_spec (t : machine_t) (h1 : in_rom_or_ram t.cpu.pc)
    (h2 : in_rom_or_ram (u16 (t.cpu.pc.val + 1))) :
    ((!t.cpu.flag.p) = true → in_rom_or_ram (u16i ((t.cpu.sp.val : Int) - 1)) →
      in_rom_or_ram (u16i ((t.cpu.sp.val : Int) - 2)) →
      ∃ t', op_cpo t = some t' ∧ t'.cpu.cycles = u64 (t.cpu.cycles.val + 9)) ∧
    ((!t.cpu.flag.p) = false →
      op_cpo t = some
        { t with cpu := { t.cpu with pc := u16 ((u16 (t.cpu.pc.val + 1)).val + 1) } }) := by
  obtain ⟨v1, r1⟩ := mem_read_low t.mem t.cpu.pc h1
  obtain ⟨v2, r2⟩ := mem_read_low t.mem (u16 (t.cpu.pc.val + 1)) h2
  unfold op_cpo
  simp only [machine_t.trace_read, machine_t.read_pc_inc, machine_t.read, r1, r2, bind,
    Option.bind, pure]
  cases hfl : t.cpu.flag.p
  · refine ⟨fun _ h3 h4 => ?_, fun h => Bool.noConfusion h⟩
    rw [← u16i_sub_two] at h4
    simp only [if_true, machine_t.write_dec_sp, machine_t.write, mem_write_low_eq _ _ _ h3,
      mem_write_low_eq _ _ _ h4]
    exact ⟨_, rfl, rfl⟩
  · refine ⟨fun h => Bool.noConfusion h, fun _ => ?_⟩
    simp only [Bool.true_eq_false, if_false]

theorem op_cpe_spec (t : machine_t) (h1 : in_rom_or_ram t.cpu.pc)
    (h2 : in_rom_or_ram (u16 (t.cpu.pc.val + 1))) :
    (t.cpu.flag.p = true → in_rom_or_ram (u16i ((t.cpu.sp.val : Int) - 1)) →
      in_rom_or_ram (u16i ((t.cpu.sp.val : Int) - 2)) →
      ∃ t', op_cpe t = some t' ∧ t'.cpu.cycles = u64 (t.cpu.cycles.val + 9)) ∧
    (t.cpu.flag.p = false →
      op_cpe t = some
        { t with cpu := { t.cpu with pc := u16 ((u16 (t.cpu.pc.val + 1)).val + 1) } }) := by
  obtain ⟨v1, r1⟩ := mem_read_low t.mem t.cpu.pc h1
  obtain ⟨v2, r2⟩ := mem_read_low t.mem (u16 (t.cpu.pc.val + 1)) h2
  unfold op_cpe
  simp only [machine_t.trace_read, machine_t.read_pc_inc, machine_t.read, r1, r2, bind,
    Option.bind, pure]
  cases hfl : t.cpu.flag.p
  · refine ⟨fun h => Bool.noConfusion h, fun _ => ?_⟩
    simp only [Bool.false_eq_true, if_false]
  · refine ⟨fun _ h3 h4 => ?_, fun h => Bool.noConfusion h⟩
    rw [← u16i_sub_two] at h4
    simp only [if_true, machine_t.write_dec_sp, machine_t.write, mem_write_low_eq _ _ _ h3,
      mem_write_low_eq _ _ _ h4]
    exact ⟨_, rfl, rfl⟩

theorem op_cp_spec (t : machine_t) (h1 : in_rom_or_ram t.cpu.pc)
    (h2 : in_rom_or_ram (u16 (t.cpu.pc.val + 1))) :
    ((!t.cpu.flag.s) = true → in_rom_or_ram (u16i ((t.cpu.sp.val : Int) - 1)) →
      in_rom_or_ram (u16i ((t.cpu.sp.val : Int) - 2)) →
      ∃ t', op_cp t = some t' ∧ t'.cpu.cycles = u64 (t.cpu.cycles.val + 9)) ∧
    ((!t.cpu.flag.s) = false →
      op_cp t = some
        { t with cpu := { t.cpu with pc := u16 ((u16 (t.cpu.pc.val + 1)).val + 1) } }) := by
  obtain ⟨v1, r1⟩ := mem_read_low t.mem t.cpu.pc h1
  obtain ⟨v2, r2⟩ := mem_read_low t.mem (u16 (t.cpu.pc.val + 1)) h2
  unfold op_cp
  simp only [machine_t.trace_read, machine_t.read_pc_inc, machine_t.read, r1, r2, bind,
    Option.bind, pure]
  cases hfl : t.cpu.flag.s
  · refine ⟨fun _ h3 h4 => ?_, fun h => Bool.noConfusion h⟩
    rw [← u16i_sub_two] at h4
    simp only [if_true, machine_t.write_dec_sp, machine_t.write, mem_write_low_eq _ _ _ h3,
      mem_write_low_eq _ _ _ h4]
    exact ⟨_, rfl, rfl⟩
  · refine ⟨fun h => Bool.noConfusion h, fun _ => ?_⟩
    simp only [Bool.true_eq_false, if_false]

theorem op_cm_spec (t : machine_t) (h1 : in_rom_or_ram t.cpu.pc)
    (h2 : in_rom_or_ram (u16 (t.cpu.pc.val + 1))) :
    (t.cpu.flag.s = true → in_rom_or_ram (u16i ((t.cpu.sp.val : Int) - 1)) →
      in_rom_or_ram (u16i ((t.cpu.sp.val : Int) - 2)) →
      ∃ t', op_cm t = some t' ∧ t'.cpu.cycles = u64 (t.cpu.cycles.val + 9)) ∧
    (t.cpu.flag.s = false →
      op_cm t = some
        { t with cpu := { t.cpu with pc := u16 ((u16 (t.cpu.pc.val + 1)).val + 1) } }) := by
  obtain ⟨v1, r1⟩ := mem_read_low t.mem t.cpu.pc h1
  obtain ⟨v2, r2⟩ := mem_read_low t.mem (u16 (t.cpu.pc.val + 1)) h2
  unfold op_cm
  simp only [machine_t.trace_read, machine_t.read_pc_inc, machine_t.read, r1, r2, bind,
    Option.bind, pure]
  cases hfl : t.cpu.flag.s
  · refine ⟨fun h => Bool.noConfusion h, fun _ => ?_⟩
    simp only [Bool.false_eq_true, if_false]
  · refine ⟨fun _ h3 h4 => ?_, fun h => Bool.noConfusion h⟩
    rw [← u16i_sub_two] at h4
    simp only [if_true, machine_t.write_dec_sp, machine_t.write, mem_write_low_eq _ _ _ h3,
      mem_write_low_eq _ _ _ h4]
    exact ⟨_, rfl, rfl⟩

theorem op_rnz_spec (t : machine_t) :
    ((!t.cpu.flag.z) = true → in_rom_or_ram t.cpu.sp →
      in_rom_or_ram (u16 (t.cpu.sp.val + 1)) →
      ∃ t', op_rnz t = some t' ∧ t'.cpu.cycles = u64 (t.cpu.cycles.val + 6)) ∧
    ((!t.cpu.flag.z) = false → op_rnz t = some t) := by
  unfold op_rnz
  cases hfl : t.cpu.flag.z
  · refine ⟨fun _ h3 h4 => ?_, fun h => Bool.noConfusion h⟩
    obtain ⟨v1, r1⟩ := mem_read_low t.mem t.cpu.sp h3
    obtain ⟨v2, r2⟩ := mem_read_low t.mem (u16 (t.cpu.sp.val + 1)) h4
    simp only [if_true, machine_t.read_sp_inc, machine_t.read, r1, r2, bind, Option.bind, pure]
    exact ⟨_, rfl, rfl⟩
  · refine ⟨fun h => Bool.noConfusion h, fun _ => ?_⟩
    simp only [Bool.true_eq_false, if_false, bind, Option.bind, pure]

theorem op_rz_spec (t : machine_t) :
    (t.cpu.flag.z = true → in_rom_or_ram t.cpu.sp →
      in_rom_or_ram (u16 (t.cpu.sp.val + 1)) →
      ∃ t', op_rz t = some t' ∧ t'.cpu.cycles = u64 (t.cpu.cycles.val + 6)) ∧
    (t.cpu.flag.z = false → op_rz t = some t) := by
  unfold op_rz
  cases hfl : t.cpu.flag.z
  · refine ⟨fun h => Bool.noConfusion h, fun _ => ?_⟩
    simp only [Bool.false_eq_true, if_false, bind, Option.bind, pure]
  · refine ⟨fun _ h3 h4 => ?_, fun h => Bool.noConfusion h⟩
    obtain ⟨v1, r1⟩ := mem_read_low t.mem t.cpu.sp h3
    obtain ⟨v2, r2⟩ := mem_read_low t.mem (u16 (t.cpu.sp.val + 1)) h4
    simp only [if_true, machine_t.read_sp_inc, machine_t.read, r1, r2, bind, Option.bind, pure]
    exact ⟨_, rfl, rfl⟩

theorem op_rnc_spec (t : machine_t) :
    ((!t.cpu.flag.cy) = true → in_rom_or_ram t.cpu.sp →
      in_rom_or_ram (u16 (t.cpu.sp.val + 1)) →
      ∃ t', op_rnc t = some t' ∧ t'.cpu.cycles = u64 (t.cpu.cycles.val + 6)) ∧
    ((!t.cpu.flag.cy) = false → op_rnc t = some t) := by
  unfold op_rnc
  cases hfl : t.cpu.flag.cy
  · refine ⟨fun _ h3 h4 => ?_, fun h => Bool.noConfusion h⟩
    obtain ⟨v1, r1⟩ := mem_read_low t.mem t.cpu.sp h3
    obtain ⟨v2, r2⟩ := mem_read_low t.mem (u16 (t.cpu.sp.val + 1)) h4
    simp only [if_true, machine_t.read_sp_inc, machine_t.read, r1, r2, bind, Option.bind, pure]
    exact ⟨_, rfl, rfl⟩
  · refine ⟨fun h => Bool.noConfusion h, fun _ => ?_⟩
    simp only [Bool.true_eq_false, if_false, bind, Option.bind, pure]

theorem op_rc_spec (t : machine_t) :
    (t.cpu.flag.cy = true → in_rom_or_ram t.cpu.sp →
      in_rom_or_ram (u16 (t.cpu.sp.val + 1)) →
      ∃ t', op_rc t = some t' ∧ t'.cpu.cycles = u64 (t.cpu.cycles.val + 6)) ∧
    (t.cpu.flag.cy = false → op_rc t = some t) := by
  unfold op_rc
  cases hfl : t.cpu.flag.cy
  · refine ⟨fun h => Bool.noConfusion h, fun _ => ?_⟩
    simp only [Bool.false_eq_true, if_false, bind, Option.bind, pure]
  · refine ⟨fun _ h3 h4 => ?_, fun h => Bool.noConfusion h⟩
    obtain ⟨v1, r1⟩ := mem_read_low t.mem t.cpu.sp h3
    obtain ⟨v2, r2⟩ := mem_read_low t.mem (u16 (t.cpu.sp.val + 1)) h4
    simp only [if_true, machine_t.read_sp_inc, machine_t.read, r1, r2, bind, Option.bind, pure]
    exact ⟨_, rfl, rfl⟩

theorem op_rpo_spec (t : machine_t) :
    ((!t.cpu.flag.p) = true → in_rom_or_ram t.cpu.sp →
      in_rom_or_ram (u16 (t.cpu.sp.val + 1)) →
      ∃ t', op_rpo t = some t' ∧ t'.cpu.cycles = u64 (t.cpu.cycles.val + 6)) ∧
    ((!t.cpu.flag.p) = false → op_rpo t = some t) := by
  unfold op_rpo
  cases hfl : t.cpu.flag.p
  · refine ⟨fun _ h3 h4 => ?_, fun h => Bool.noConfusion h⟩
    obtain ⟨v1, r1⟩ := mem_read_low t.mem t.cpu.sp h3
    obtain ⟨v2, r2⟩ := mem_read_low t.mem (u16 (t.cpu.sp.val + 1)) h4
    simp only [if_true, machine_t.read_sp_inc, machine_t.read, r1, r2, bind, Option.bind, pure]
    exact ⟨_, rfl, rfl⟩
  · refine ⟨fun h => Bool.noConfusion h, fun _ => ?_⟩
    simp only [Bool.true_eq_false, if_false, bind, Option.bind, pure]

theorem op_rpe_spec (t : machine_t) :
    (t.cpu.flag.p = true → in_rom_or_ram t.cpu.sp →
      in_rom_or_ram (u16 (t.cpu.sp.val + 1)) →
      ∃ t', op_rpe t = some t' ∧ t'.cpu.cycles = u64 (t.cpu.cycles.val + 6)) ∧
    (t.cpu.flag.p = false → op_rpe t = some t) := by
  unfold op_rpe
  cases hfl : t.cpu.flag.p
  · refine ⟨fun h => Bool.noConfusion h, fun _ => ?_⟩
    simp only [Bool.false_eq_true, if_false, bind, Option.bind, pure]
  · refine ⟨fun _ h3 h4 => ?_, fun h => Bool.noConfusion h⟩
    obtain ⟨v1, r1⟩ := mem_read_low t.mem t.cpu.sp h3
    obtain ⟨v2, r2⟩ := mem_read_low t.mem (u16 (t.cpu.sp.val + 1)) h4
    simp only [if_true, machine_t.read_sp_inc, machine_t.read, r1, r2, bind, Option.bind, pure]
    exact ⟨_, rfl, rfl⟩

theorem op_rp_spec (t : machine_t) :
    ((!t.cpu.flag.s) = true → in_rom_or_ram t.cpu.sp →
      in_rom_or_ram (u16 (t.cpu.sp.val + 1)) →
      ∃ t', op_rp t = some t' ∧ t'.cpu.cycles = u64 (t.cpu.cycles.val + 6)) ∧
    ((!t.cpu.flag.s) = false → op_rp t = some t) := by
  unfold op_rp
  cases hfl : t.cpu.flag.s
  · refine ⟨fun _ h3 h4 => ?_, fun h => Bool.noConfusion h⟩
    obtain ⟨v1, r1⟩ := mem_read_low t.mem t.cpu.sp h3
    obtain ⟨v2, r2⟩ := mem_read_low t.mem (u16 (t.cpu.sp.val + 1)) h4
    simp only [if_true, machine_t.read_sp_inc, machine_t.read, r1, r2, bind, Option.bind, pure]
    exact ⟨_, rfl, rfl⟩
  · refine ⟨fun h => Bool.noConfusion h, fun _ => ?_⟩
    simp only [Bool.true_eq_false, if_false, bind, Option.bind, pure]

theorem op_rm_spec (t : machine_t) :
    (t.cpu.flag.s = true → in_rom_or_ram t.cpu.sp →
      in_rom_or_ram (u16 (t.cpu.sp.val + 1)) →
      ∃ t', op_rm t = some t' ∧ t'.cpu.cycles = u64 (t.cpu.cycles.val + 6)) ∧
    (t.cpu.flag.s = false → op_rm t = some t) := by
  unfold op_rm
  cases hfl : t.cpu.flag.s
  · refine ⟨fun h => Bool.noConfusion h, fun _ => ?_⟩
    simp only [Bool.false_eq_true, if_false, bind, Option.bind, pure]
  · refine ⟨fun _ h3 h4 => ?_, fun h => Bool.noConfusion h⟩
    obtain ⟨v1, r1⟩ := mem_read_low t.mem t.cpu.sp h3
    obtain ⟨v2, r2⟩ := mem_read_low t.mem (u16 (t.cpu.sp.val + 1)) h4
    simp only [if_true, machine_t.read_sp_inc, machine_t.read, r1, r2, bind, Option.bind, pure]
    exact ⟨_, rfl, rfl⟩

theorem conditional_jmp_handler (op : uint8_t) (hop : op.val ∈ conditional_jmp_opcodes) (t : machine_t)
    (h1 : in_rom_or_ram t.cpu.pc) (h2 : in_rom_or_ram (u16 (t.cpu.pc.val + 1))) :
    (condition_holds op t.cpu.flag = true →
      ∃ t', (opcode_function_at op).call t = some t' ∧
        t'.cpu.cycles = u64 (t.cpu.cycles.val + 3)) ∧
    (condition_holds op t.cpu.flag = false →
      (opcode_function_at op).call t = some 
        { t with cpu := { t.cpu with pc := u16 ((u16 (t.cpu.pc.val + 1)).val + 1) } }) := by
  simp only [conditional_jmp_opcodes, List.mem_cons, List.mem_singleton, List.not_mem_nil, or_false] at hop
  rcases hop with h | h | h | h | h | h | h | h
  · obtain rfl : op = (0xC2 : uint8_t) := Fin.ext h
    exact op_jnz_spec t h1 h2
  · obtain rfl : op = (0xCA : uint8_t) := Fin.ext h
    exact op_jz_spec t h1 h2
  · obtain rfl : op = (0xD2 : uint8_t) := Fin.ext h
    exact op_jnc_spec t h1 h2
  · obtain rfl : op = (0xDA : uint8_t) := Fin.ext h
    exact op_jc_spec t h1 h2
  · obtain rfl : op = (0xE2 : uint8_t) := Fin.ext h
    exact op_jpo_spec t h1 h2
  · obtain rfl : op = (0xEA : uint8_t) := Fin.ext h
    exact op_jpe_spec t h1 h2
  · obtain rfl : op = (0xF2 : uint8_t) := Fin.ext h
    exact op_jp_spec t h1 h2
  · obtain rfl : op = (0xFA : uint8_t) := Fin.ext h
    exact op_jm_spec t h1 h2

theorem conditional_call_handler (op : uint8_t) (hop : op.val ∈ conditional_call_opcodes) (t : machine_t)
    (h1 : in_rom_or_ram t.cpu.pc) (h2 : in_rom_or_ram (u16 (t.cpu.pc.val + 1))) :
    (condition_holds op t.cpu.flag = true → in_rom_or_ram (u16i ((t.cpu.sp.val : Int) - 1)) →
      in_rom_or_ram (u16i ((t.cpu.sp.val : Int) - 2)) →
      ∃ t', (opcode_function_at op).call t = some t' ∧
        t'.cpu.cycles = u64 (t.cpu.cycles.val + 9)) ∧
    (condition_holds op t.cpu.flag = false →
      (opcode_function_at op).call t = some 
        { t with cpu := { t.cpu with pc := u16 ((u16 (t.cpu.pc.val + 1)).val + 1) } }) := by
  simp only [conditional_call_opcodes, List.mem_cons, List.mem_singleton, List.not_mem_nil, or_false] at hop
  rcases hop with h | h | h | h | h | h | h | h
  · obtain rfl : op = (0xC4 : uint8_t) := Fin.ext h
    exact op_cnz_spec t h1 h2
  · obtain rfl : op = (0xCC : uint8_t) := Fin.ext h
    exact op_cz_spec t h1 h2
  · obtain rfl : op = (0xD4 : uint8_t) := Fin.ext h
    exact op_cnc_spec t h1 h2
  · obtain rfl : op = (0xDC : uint8_t) := Fin.ext h
    exact op_cc_spec t h1 h2
  · obtain rfl : op = (0xE4 : uint8_t) := Fin.ext h
    exact op_cpo_spec t h1 h2
  · obtain rfl : op = (0xEC : uint8_t) := Fin.ext h
    exact op_cpe_spec t h1 h2
  · obtain rfl : op = (0xF4 : uint8_t) := Fin.ext h
    exact op_cp_spec t h1 h2
  · obtain rfl : op = (0xFC : uint8_t) := Fin.ext h
    exact op_cm_spec t h1 h2

theorem conditional_ret_handler (op : uint8_t) (hop : op.val ∈ conditional_ret_opcodes) (t : machine_t) :
    (condition_holds op t.cpu.flag = true → in_rom_or_ram t.cpu.sp →
      in_rom_or_ram (u16 (t.cpu.sp.val + 1)) →
      ∃ t', (opcode_function_at op).call t = some t' ∧
        t'.cpu.cycles = u64 (t.cpu.cycles.val + 6)) ∧
    (condition_holds op t.cpu.flag = false →
      (opcode_function_at op).call t = some t) := by
  simp only [conditional_ret_opcodes, List.mem_cons, List.mem_singleton, List.not_mem_nil, or_false] at hop
  rcases hop with h | h | h | h | h | h | h | h
  · obtain rfl : op = (0xC0 : uint8_t) := Fin.ext h
    exact op_rnz_spec t
  · obtain rfl : op = (0xC8 : uint8_t) := Fin.ext h
    exact op_rz_spec t
  · obtain rfl : op = (0xD0 : uint8_t) := Fin.ext h
    exact op_rnc_spec t
  · obtain rfl : op = (0xD8 : uint8_t) := Fin.ext h
    exact op_rc_spec t
  · obtain rfl : op = (0xE0 : uint8_t) := Fin.ext h
    exact op_rpo_spec t
  · obtain rfl : op = (0xE8 : uint8_t) := Fin.ext h
    exact op_rpe_spec t
  · obtain rfl : op = (0xF0 : uint8_t) := Fin.ext h
    exact op_rp_spec t
  · obtain rfl : op = (0xF8 : uint8_t) := Fin.ext h
    exact op_rm_spec t

theorem u16_succ_succ (x : Nat) : u16 ((u16 (x + 1)).val + 1) = u16 (x + 2) := by
  apply Fin.ext
  simp only [u16_val]
  omega

theorem u16_succ_succ_succ (x : Nat) : u16 ((u16 ((u16 (x + 1)).val + 1)).val + 1) = u16 (x + 3) := by
  apply Fin.ext
  simp only [u16_val]
  omega

set_option maxRecDepth 8192 in
theorem conditional_opcode_cycles :
    ∀ op : uint8_t,
      (op.val ∈ conditional_call_opcodes → (opcode_cycles_at op).val = 9) ∧
      (op.val ∈ conditional_jmp_opcodes → (opcode_cycles_at op).val = 7) ∧
      (op.val ∈ conditional_ret_opcodes → (opcode_cycles_at op).val = 6) := by
  decide

/-- The fetch of an instruction whose next byte lies in ROM or RAM leaves the bus as it
was. -/
theorem fetch_keeps_mem (s : machine_t) (op : uint8_t) (m1 : mem_t)
    (hf : mem_read s.mem s.cpu.pc = some (op, m1))
    (h1 : in_rom_or_ram (u16 (s.cpu.pc.val + 1))) : m1 = s.mem := by
  refine (mem_read_frame s.mem s.cpu.pc op m1 hf).2.2 ?_
  unfold in_rom_or_ram at h1
  rw [u16_val] at h1
  have := s.cpu.pc.isLt
  omega

/-- Two bus reads of consecutive addresses that both return lie in ROM or RAM. -/
theorem adjacent_reads_low (m1 m2 : mem_t) (a : uint16_t) (r1 r2 : uint8_t × mem_t)
    (h1 : mem_read m1 a = some r1) (h2 : mem_read m2 (u16 (a.val + 1)) = some r2) :
    in_rom_or_ram a ∧ in_rom_or_ram (u16 (a.val + 1)) := by
  have ha := a.isLt
  unfold in_rom_or_ram
  rw [u16_val]
  by_cases c1 : a.val < 0x1100
  · by_cases c2 : a.val + 1 < 0x1100
    · exact ⟨c1, by omega⟩
    · have := mem_read_unmapped m2 (u16 (a.val + 1)) (by rw [u16_val]; omega)
        (by rw [u16_val]; omega) (by rw [u16_val]; omega)
      rw [this] at h2
      exact Option.noConfusion h2
  · by_cases c3 : a.val = 0x1800 ∨ a.val = 0x1900
    · have := mem_read_unmapped m2 (u16 (a.val + 1)) (by rw [u16_val]; omega)
        (by rw [u16_val]; omega) (by rw [u16_val]; omega)
      rw [this] at h2
      exact Option.noConfusion h2
    · have := mem_read_unmapped m1 a (by omega) (by omega) (by omega)
      rw [this] at h1
      exact Option.noConfusion h1

/-- Two bus writes to `a` and to the address below it that both return lie in ROM or RAM. -/
theorem adjacent_writes_low (m1 m2 m1r m2r : mem_t) (a : uint16_t) (v1 v2 : uint8_t)
    (h1 : mem_write m1 a v1 = some m1r)
    (h2 : mem_write m2 (u16i ((a.val : Int) - 1)) v2 = some m2r) :
    in_rom_or_ram a ∧ in_rom_or_ram (u16i ((a.val : Int) - 1)) := by
  have ha := a.isLt
  have hv := u16i_val ((a.val : Int) - 1)
  unfold in_rom_or_ram
  by_cases c1 : a.val < 0x1100
  · by_cases c2 : a.val = 0
    · have := mem_write_unmapped m2 (u16i ((a.val : Int) - 1)) v2 (by omega) (by omega)
        (by omega)
      rw [this] at h2
      exact Option.noConfusion h2
    · exact ⟨c1, by omega⟩
  · by_cases c3 : a.val = 0x1800 ∨ a.val = 0x1900
    · have := mem_write_unmapped m2 (u16i ((a.val : Int) - 1)) v2 (by omega) (by omega)
        (by omega)
      rw [this] at h2
      exact Option.noConfusion h2
    · have := mem_write_unmapped m1 a v1 (by omega) (by omega) (by omega)
      rw [this] at h1
      exact Option.noConfusion h1

/-! A conditional handler that returns has read its operand bytes, and used its stack
bytes when the condition held, inside ROM or RAM. -/

theorem op_jnz_defined (t t' : machine_t) (h : op_jnz t = some t') :
    in_rom_or_ram t.cpu.pc ∧ in_rom_or_ram (u16 (t.cpu.pc.val + 1)) := by
  unfold op_jnz at h
  simp only [machine_t.trace_read, machine_t.read_pc_inc, machine_t.read, bind, Option.bind,
    pure] at h
  cases r1 : mem_read t.mem (u16 (t.cpu.pc.val + 1)) with
  | none =>
    simp only [r1] at h
    exact Option.noConfusion h
  | some p1 =>
    obtain ⟨v1, m1⟩ := p1
    simp only [r1] at h
    cases r2 : mem_read m1 t.cpu.pc with
    | none =>
      simp only [r2] at h
      exact Option.noConfusion h
    | some p2 => exact adjacent_reads_low _ _ _ _ _ r2 r1

theorem op_jz_defined (t t' : machine_t) (h : op_jz t = some t') :
    in_rom_or_ram t.cpu.pc ∧ in_rom_or_ram (u16 (t.cpu.pc.val + 1)) := by
  unfold op_jz at h
  simp only [machine_t.trace_read, machine_t.read_pc_inc, machine_t.read, bind, Option.bind,
    pure] at h
  cases r1 : mem_read t.mem (u16 (t.cpu.pc.val + 1)) with
  | none =>
    simp only [r1] at h
    exact Option.noConfusion h
  | some p1 =>
    obtain ⟨v1, m1⟩ := p1
    simp only [r1] at h
    cases r2 : mem_read m1 t.cpu.pc with
    | none =>
      simp only [r2] at h
      exact Option.noConfusion h
    | some p2 => exact adjacent_reads_low _ _ _ _ _ r2 r1

theorem op_jnc_defined (t t' : machine_t) (h : op_jnc t = some t') :
    in_rom_or_ram t.cpu.pc ∧ in_rom_or_ram (u16 (t.cpu.pc.val + 1)) := by
  unfold op_jnc at h
  simp only [machine_t.trace_read, machine_t.read_pc_inc, machine_t.read, bind, Option.bind,
    pure] at h
  cases r1 : mem_read t.mem (u16 (t.cpu.pc.val + 1)) with
  | none =>
    simp only [r1] at h
    exact Option.noConfusion h
  | some p1 =>
    obtain ⟨v1, m1⟩ := p1
    simp only [r1] at h
    cases r2 : mem_read m1 t.cpu.pc with
    | none =>
      simp only [r2] at h
      exact Option.noConfusion h
    | some p2 => exact adjacent_reads_low _ _ _ _ _ r2 r1

theorem op_jc_defined (t t' : machine_t) (h : op_jc t = some t') :
    in_rom_or_ram t.cpu.pc ∧ in_rom_or_ram (u16 (t.cpu.pc.val + 1)) := by
  unfold op_jc at h
  simp only [machine_t.trace_read, machine_t.read_pc_inc, machine_t.read, bind, Option.bind,
    pure] at h
  cases r1 : mem_read t.mem (u16 (t.cpu.pc.val + 1)) with
  | none =>
    simp only [r1] at h
    exact Option.noConfusion h
  | some p1 =>
    obtain ⟨v1, m1⟩ := p1
    simp only [r1] at h
    cases r2 : mem_read m1 t.cpu.pc with
    | none =>
      simp only [r2] at h
      exact Option.noConfusion h
    | some p2 => exact adjacent_reads_low _ _ _ _ _ r2 r1

theorem op_jpo_defined (t t' : machine_t) (h : op_jpo t = some t') :
    in_rom_or_ram t.cpu.pc ∧ in_rom_or_ram (u16 (t.cpu.pc.val + 1)) := by
  unfold op_jpo at h
  simp only [machine_t.trace_read, machine_t.read_pc_inc, machine_t.read, bind, Option.bind,
    pure] at h
  cases r1 : mem_read t.mem (u16 (t.cpu.pc.val + 1)) with
  | none =>
    simp only [r1] at h
    exact Option.noConfusion h
  | some p1 =>
    obtain ⟨v1, m1⟩ := p1
    simp only [r1] at h
    cases r2 : mem_read m1 t.cpu.pc with
    | none =>
      simp only [r2] at h
      exact Option.noConfusion h
    | some p2 => exact adjacent_reads_low _ _ _ _ _ r2 r1

theorem op_jpe_defined (t t' : machine_t) (h : op_jpe t = some t') :
    in_rom_or_ram t.cpu.pc ∧ in_rom_or_ram (u16 (t.cpu.pc.val + 1)) := by
  unfold op_jpe at h
  simp only [machine_t.trace_read, machine_t.read_pc_inc, machine_t.read, bind, Option.bind,
    pure] at h
  cases r1 : mem_read t.mem (u16 (t.cpu.pc.val + 1)) with
  | none =>
    simp only [r1] at h
    exact Option.noConfusion h
  | some p1 =>
    obtain ⟨v1, m1⟩ := p1
    simp only [r1] at h
    cases r2 : mem_read m1 t.cpu.pc with
    | none =>
      simp only [r2] at h
      exact Option.noConfusion h
    | some p2 => exact adjacent_reads_low _ _ _ _ _ r2 r1

theorem op_jp_defined (t t' : machine_t) (h : op_jp t = some t') :
    in_rom_or_ram t.cpu.pc ∧ in_rom_or_ram (u16 (t.cpu.pc.val + 1)) := by
  unfold op_jp at h
  simp only [machine_t.trace_read, machine_t.read_pc_inc, machine_t.read, bind, Option.bind,
    pure] at h
  cases r1 : mem_read t.mem (u16 (t.cpu.pc.val + 1)) with
  | none =>
    simp only [r1] at h
    exact Option.noConfusion h
  | some p1 =>
    obtain ⟨v1, m1⟩ := p1
    simp only [r1] at h
    cases r2 : mem_read m1 t.cpu.pc with
    | none =>
      simp only [r2] at h
      exact Option.noConfusion h
    | some p2 => exact adjacent_reads_low _ _ _ _ _ r2 r1

theorem op_jm_defined (t t' : machine_t) (h : op_jm t = some t') :
    in_rom_or_ram t.cpu.pc ∧ in_rom_or_ram (u16 (t.cpu.pc.val + 1)) := by
  unfold op_jm at h
  simp only [machine_t.trace_read, machine_t.read_pc_inc, machine_t.read, bind, Option.bind,
    pure] at h
  cases r1 : mem_read t.mem (u16 (t.cpu.pc.val + 1)) with
  | none =>
    simp only [r1] at h
    exact Option.noConfusion h
  | some p1 =>
    obtain ⟨v1, m1⟩ := p1
    simp only [r1] at h
    cases r2 : mem_read m1 t.cpu.pc with
    | none =>
      simp only [r2] at h
      exact Option.noConfusion h
    | some p2 => exact adjacent_reads_low _ _ _ _ _ r2 r1

theorem op_cnz_defined (t t' : machine_t) (h : op_cnz t = some t') :
    (in_rom_or_ram t.cpu.pc ∧ in_rom_or_ram (u16 (t.cpu.pc.val + 1))) ∧
    ((!t.cpu.flag.z) = true → in_rom_or_ram (u16i ((t.cpu.sp.val : Int) - 1)) ∧
      in_rom_or_ram (u16i ((t.cpu.sp.val : Int) - 2))) := by
  unfold op_cnz at h
  simp only [machine_t.trace_read, machine_t.read_pc_inc, machine_t.read, bind, Option.bind,
    pure] at h
  cases r1 : mem_read t.mem (u16 (t.cpu.pc.val + 1)) with
  | none =>
    simp only [r1] at h
    exact Option.noConfusion h
  | some p1 =>
    obtain ⟨v1, m1⟩ := p1
    simp only [r1] at h
    cases r2 : mem_read m1 t.cpu.pc with
    | none =>
      simp only [r2] at h
      exact Option.noConfusion h
    | some p2 =>
      obtain ⟨v2, m2⟩ := p2
      simp only [r2] at h
      refine ⟨adjacent_reads_low _ _ _ _ _ r2 r1, fun hc => ?_⟩
      simp only [Bool.not_eq_true'] at hc
      cases r3 : mem_read m2 t.cpu.pc with
      | none =>
        simp only [r3] at h
        exact Option.noConfusion h
      | some p3 =>
        obtain ⟨v3, m3⟩ := p3
        simp only [r3] at h
        cases r4 : mem_read m3 (u16 (t.cpu.pc.val + 1)) with
        | none =>
          simp only [r4] at h
          exact Option.noConfusion h
        | some p4 =>
          obtain ⟨v4, m4⟩ := p4
          simp only [r4, hc, if_true, machine_t.write_dec_sp, machine_t.write] at h
          cases w1 : mem_write m4 (u16i ((t.cpu.sp.val : Int) - 1))
              (u8 ((u16 ((u16 (t.cpu.pc.val + 1)).val + 1)).val / 0x100)) with
          | none =>
            simp only [w1] at h
            exact Option.noConfusion h
          | some m5 =>
            simp only [w1] at h
            cases w2 : mem_write m5 (u16i (((u16i ((t.cpu.sp.val : Int) - 1)).val : Int) - 1))
                (u8 ((u16 ((u16 (t.cpu.pc.val + 1)).val + 1)).val % 0x100)) with
            | none =>
              simp only [w2] at h
              exact Option.noConfusion h
            | some m6 =>
              have hw := adjacent_writes_low _ _ _ _ _ _ _ w1 w2
              rw [u16i_sub_two] at hw
              exact hw

theorem op_cz_defined (t t' : machine_t) (h : op_cz t = some t') :
    (in_rom_or_ram t.cpu.pc ∧ in_rom_or_ram (u16 (t.cpu.pc.val + 1))) ∧
    (t.cpu.flag.z = true → in_rom_or_ram (u16i ((t.cpu.sp.val : Int) - 1)) ∧
      in_rom_or_ram (u16i ((t.cpu.sp.val : Int) - 2))) := by
  unfold op_cz at h
  simp only [machine_t.trace_read, machine_t.read_pc_inc, machine_t.read, bind, Option.bind,
    pure] at h
  cases r1 : mem_read t.mem (u16 (t.cpu.pc.val + 1)) with
  | none =>
    simp only [r1] at h
    exact Option.noConfusion h
  | some p1 =>
    obtain ⟨v1, m1⟩ := p1
    simp only [r1] at h
    cases r2 : mem_read m1 t.cpu.pc with
    | none =>
      simp only [r2] at h
      exact Option.noConfusion h
    | some p2 =>
      obtain ⟨v2, m2⟩ := p2
      simp only [r2] at h
      refine ⟨adjacent_reads_low _ _ _ _ _ r2 r1, fun hc => ?_⟩
      cases r3 : mem_read m2 t.cpu.pc with
      | none =>
        simp only [r3] at h
        exact Option.noConfusion h
      | some p3 =>
        obtain ⟨v3, m3⟩ := p3
        simp only [r3] at h
        cases r4 : mem_read m3 (u16 (t.cpu.pc.val + 1)) with
        | none =>
          simp only [r4] at h
          exact Option.noConfusion h
        | some p4 =>
          obtain ⟨v4, m4⟩ := p4
          simp only [r4, hc, if_true, machine_t.write_dec_sp, machine_t.write] at h
          cases w1 : mem_write m4 (u16i ((t.cpu.sp.val : Int) - 1))
              (u8 ((u16 ((u16 (t.cpu.pc.val + 1)).val + 1)).val / 0x100)) with
          | none =>
            simp only [w1] at h
            exact Option.noConfusion h
          | some m5 =>
            simp only [w1] at h
            cases w2 : mem_write m5 (u16i (((u16i ((t.cpu.sp.val : Int) - 1)).val : Int) - 1))
                (u8 ((u16 ((u16 (t.cpu.pc.val + 1)).val + 1)).val % 0x100)) with
            | none =>
              simp only [w2] at h
              exact Option.noConfusion h
            | some m6 =>
              have hw := adjacent_writes_low _ _ _ _ _ _ _ w1 w2
              rw [u16i_sub_two] at hw
              exact hw

theorem op_cnc_defined (t t' : machine_t) (h : op_cnc t = some t') :
    (in_rom_or_ram t.cpu.pc ∧ in_rom_or_ram (u16 (t.cpu.pc.val + 1))) ∧
    ((!t.cpu.flag.cy) = true → in_rom_or_ram (u16i ((t.cpu.sp.val : Int) - 1)) ∧
      in_rom_or_ram (u16i ((t.cpu.sp.val : Int) - 2))) := by
  unfold op_cnc at h
  simp only [machine_t.trace_read, machine_t.read_pc_inc, machine_t.read, bind, Option.bind,
    pure] at h
  cases r1 : mem_read t.mem (u16 (t.cpu.pc.val + 1)) with
  | none =>
    simp only [r1] at h
    exact Option.noConfusion h
  | some p1 =>
    obtain ⟨v1, m1⟩ := p1
    simp only [r1] at h
    cases r2 : mem_read m1 t.cpu.pc with
    | none =>
      simp only [r2] at h
      exact Option.noConfusion h
    | some p2 =>
      obtain ⟨v2, m2⟩ := p2
      simp only [r2] at h
      refine ⟨adjacent_reads_low _ _ _ _ _ r2 r1, fun hc => ?_⟩
      simp only [Bool.not_eq_true'] at hc
      cases r3 : mem_read m2 t.cpu.pc with
      | none =>
        simp only [r3] at h
        exact Option.noConfusion h
      | some p3 =>
        obtain ⟨v3, m3⟩ := p3
        simp only [r3] at h
        cases r4 : mem_read m3 (u16 (t.cpu.pc.val + 1)) with
        | none =>
          simp only [r4] at h
          exact Option.noConfusion h
        | some p4 =>
          obtain ⟨v4, m4⟩ := p4
          simp only [r4, hc, if_true, machine_t.write_dec_sp, machine_t.write] at h
          cases w1 : mem_write m4 (u16i ((t.cpu.sp.val : Int) - 1))
              (u8 ((u16 ((u16 (t.cpu.pc.val + 1)).val + 1)).val / 0x100)) with
          | none =>
            simp only [w1] at h
            exact Option.noConfusion h
          | some m5 =>
            simp only [w1] at h
            cases w2 : mem_write m5 (u16i (((u16i ((t.cpu.sp.val : Int) - 1)).val : Int) - 1))
                (u8 ((u16 ((u16 (t.cpu.pc.val + 1)).val + 1)).val % 0x100)) with
            | none =>
              simp only [w2] at h
              exact Option.noConfusion h
            | some m6 =>
              have hw := adjacent_writes_low _ _ _ _ _ _ _ w1 w2
              rw [u16i_sub_two] at hw
              exact hw

theorem op_cc_defined (t t' : machine_t) (h : op_cc t = some t') :
    (in_rom_or_ram t.cpu.pc ∧ in_rom_or_ram (u16 (t.cpu.pc.val + 1))) ∧
    (t.cpu.flag.cy = true → in_rom_or_ram (u16i ((t.cpu.sp.val : Int) - 1)) ∧
      in_rom_or_ram (u16i ((t.cpu.sp.val : Int) - 2))) := by
  unfold op_cc at h
  simp only [machine_t.trace_read, machine_t.read_pc_inc, machine_t.read, bind, Option.bind,
    pure] at h
  cases r1 : mem_read t.mem (u16 (t.cpu.pc.val + 1)) with
  | none =>
    simp only [r1] at h
    exact Option.noConfusion h
  | some p1 =>
    obtain ⟨v1, m1⟩ := p1
    simp only [r1] at h
    cases r2 : mem_read m1 t.cpu.pc with
    | none =>
      simp only [r2] at h
      exact Option.noConfusion h
    | some p2 =>
      obtain ⟨v2, m2⟩ := p2
      simp only [r2] at h
      refine ⟨adjacent_reads_low _ _ _ _ _ r2 r1, fun hc => ?_⟩
      cases r3 : mem_read m2 t.cpu.pc with
      | none =>
        simp only [r3] at h
        exact Option.noConfusion h
      | some p3 =>
        obtain ⟨v3, m3⟩ := p3
        simp only [r3] at h
        cases r4 : mem_read m3 (u16 (t.cpu.pc.val + 1)) with
        | none =>
          simp only [r4] at h
          exact Option.noConfusion h
        | some p4 =>
          obtain ⟨v4, m4⟩ := p4
          simp only [r4, hc, if_true, machine_t.write_dec_sp, machine_t.write] at h
          cases w1 : mem_write m4 (u16i ((t.cpu.sp.val : Int) - 1))
              (u8 ((u16 ((u16 (t.cpu.pc.val + 1)).val + 1)).val / 0x100)) with
          | none =>
            simp only [w1] at h
            exact Option.noConfusion h
          | some m5 =>
            simp only [w1] at h
            cases w2 : mem_write m5 (u16i (((u16i ((t.cpu.sp.val : Int) - 1)).val : Int) - 1))
                (u8 ((u16 ((u16 (t.cpu.pc.val + 1)).val + 1)).val % 0x100)) with
            | none =>
              simp only [w2] at h
              exact Option.noConfusion h
            | some m6 =>
              have hw := adjacent_writes_low _ _ _ _ _ _ _ w1 w2
              rw [u16i_sub_two] at hw
              exact hw

theorem op_cpo_defined (t t' : machine_t) (h : op_cpo t = some t') :
    (in_rom_or_ram t.cpu.pc ∧ in_rom_or_ram (u16 (t.cpu.pc.val + 1))) ∧
    ((!t.cpu.flag.p) = true → in_rom_or_ram (u16i ((t.cpu.sp.val : Int) - 1)) ∧
      in_rom_or_ram (u16i ((t.cpu.sp.val : Int) - 2))) := by
  unfold op_cpo at h
  simp only [machine_t.trace_read, machine_t.read_pc_inc, machine_t.read, bind, Option.bind,
    pure] at h
  cases r1 : mem_read t.mem (u16 (t.cpu.pc.val + 1)) with
  | none =>
    simp only [r1] at h
    exact Option.noConfusion h
  | some p1 =>
    obtain ⟨v1, m1⟩ := p1
    simp only [r1] at h
    cases r2 : mem_read m1 t.cpu.pc with
    | none =>
      simp only [r2] at h
      exact Option.noConfusion h
    | some p2 =>
      obtain ⟨v2, m2⟩ := p2
      simp only [r2] at h
      refine ⟨adjacent_reads_low _ _ _ _ _ r2 r1, fun hc => ?_⟩
      simp only [Bool.not_eq_true'] at hc
      cases r3 : mem_read m2 t.cpu.pc with
      | none =>
        simp only [r3] at h
        exact Option.noConfusion h
      | some p3 =>
        obtain ⟨v3, m3⟩ := p3
        simp only [r3] at h
        cases r4 : mem_read m3 (u16 (t.cpu.pc.val + 1)) with
        | none =>
          simp only [r4] at h
          exact Option.noConfusion h
        | some p4 =>
          obtain ⟨v4, m4⟩ := p4
          simp only [r4, hc, if_true, machine_t.write_dec_sp, machine_t.write] at h
          cases w1 : mem_write m4 (u16i ((t.cpu.sp.val : Int) - 1))
              (u8 ((u16 ((u16 (t.cpu.pc.val + 1)).val + 1)).val / 0x100)) with
          | none =>
            simp only [w1] at h
            exact Option.noConfusion h
          | some m5 =>
            simp only [w1] at h
            cases w2 : mem_write m5 (u16i (((u16i ((t.cpu.sp.val : Int) - 1)).val : Int) - 1))
                (u8 ((u16 ((u16 (t.cpu.pc.val + 1)).val + 1)).val % 0x100)) with
            | none =>
              simp only [w2] at h
              exact Option.noConfusion h
            | some m6 =>
              have hw := adjacent_writes_low _ _ _ _ _ _ _ w1 w2
              rw [u16i_sub_two] at hw
              exact hw

theorem op_cpe_defined (t t' : machine_t) (h : op_cpe t = some t') :
    (in_rom_or_ram t.cpu.pc ∧ in_rom_or_ram (u16 (t.cpu.pc.val + 1))) ∧
    (t.cpu.flag.p = true → in_rom_or_ram (u16i ((t.cpu.sp.val : Int) - 1)) ∧
      in_rom_or_ram (u16i ((t.cpu.sp.val : Int) - 2))) := by
  unfold op_cpe at h
  simp only [machine_t.trace_read, machine_t.read_pc_inc, machine_t.read, bind, Option.bind,
    pure] at h
  cases r1 : mem_read t.mem (u16 (t.cpu.pc.val + 1)) with
  | none =>
    simp only [r1] at h
    exact Option.noConfusion h
  | some p1 =>
    obtain ⟨v1, m1⟩ := p1
    simp only [r1] at h
    cases r2 : mem_read m1 t.cpu.pc with
    | none =>
      simp only [r2] at h
      exact Option.noConfusion h
    | some p2 =>
      obtain ⟨v2, m2⟩ := p2
      simp only [r2] at h
      refine ⟨adjacent_reads_low _ _ _ _ _ r2 r1, fun hc => ?_⟩
      cases r3 : mem_read m2 t.cpu.pc with
      | none =>
        simp only [r3] at h
        exact Option.noConfusion h
      | some p3 =>
        obtain ⟨v3, m3⟩ := p3
        simp only [r3] at h
        cases r4 : mem_read m3 (u16 (t.cpu.pc.val + 1)) with
        | none =>
          simp only [r4] at h
          exact Option.noConfusion h
        | some p4 =>
          obtain ⟨v4, m4⟩ := p4
          simp only [r4, hc, if_true, machine_t.write_dec_sp, machine_t.write] at h
          cases w1 : mem_write m4 (u16i ((t.cpu.sp.val : Int) - 1))
              (u8 ((u16 ((u16 (t.cpu.pc.val + 1)).val + 1)).val / 0x100)) with
          | none =>
            simp only [w1] at h
            exact Option.noConfusion h
          | some m5 =>
            simp only [w1] at h
            cases w2 : mem_write m5 (u16i (((u16i ((t.cpu.sp.val : Int) - 1)).val : Int) - 1))
                (u8 ((u16 ((u16 (t.cpu.pc.val + 1)).val + 1)).val % 0x100)) with
            | none =>
              simp only [w2] at h
              exact Option.noConfusion h
            | some m6 =>
              have hw := adjacent_writes_low _ _ _ _ _ _ _ w1 w2
              rw [u16i_sub_two] at hw
              exact hw

theorem op_cp_defined (t t' : machine_t) (h : op_cp t = some t') :
    (in_rom_or_ram t.cpu.pc ∧ in_rom_or_ram (u16 (t.cpu.pc.val + 1))) ∧
    ((!t.cpu.flag.s) = true → in_rom_or_ram (u16i ((t.cpu.sp.val : Int) - 1)) ∧
      in_rom_or_ram (u16i ((t.cpu.sp.val : Int) - 2))) := by
  unfold op_cp at h
  simp only [machine_t.trace_read, machine_t.read_pc_inc, machine_t.read, bind, Option.bind,
    pure] at h
  cases r1 : mem_read t.mem (u16 (t.cpu.pc.val + 1)) with
  | none =>
    simp only [r1] at h
    exact Option.noConfusion h
  | some p1 =>
    obtain ⟨v1, m1⟩ := p1
    simp only [r1] at h
    cases r2 : mem_read m1 t.cpu.pc with
    | none =>
      simp only [r2] at h
      exact Option.noConfusion h
    | some p2 =>
      obtain ⟨v2, m2⟩ := p2
      simp only [r2] at h
      refine ⟨adjacent_reads_low _ _ _ _ _ r2 r1, fun hc => ?_⟩
      simp only [Bool.not_eq_true'] at hc
      cases r3 : mem_read m2 t.cpu.pc with
      | none =>
        simp only [r3] at h
        exact Option.noConfusion h
      | some p3 =>
        obtain ⟨v3, m3⟩ := p3
        simp only [r3] at h
        cases r4 : mem_read m3 (u16 (t.cpu.pc.val + 1)) with
        | none =>
          simp only [r4] at h
          exact Option.noConfusion h
        | some p4 =>
          obtain ⟨v4, m4⟩ := p4
          simp only [r4, hc, if_true, machine_t.write_dec_sp, machine_t.write] at h
          cases w1 : mem_write m4 (u16i ((t.cpu.sp.val : Int) - 1))
              (u8 ((u16 ((u16 (t.cpu.pc.val + 1)).val + 1)).val / 0x100)) with
          | none =>
            simp only [w1] at h
            exact Option.noConfusion h
          | some m5 =>
            simp only [w1] at h
            cases w2 : mem_write m5 (u16i (((u16i ((t.cpu.sp.val : Int) - 1)).val : Int) - 1))
                (u8 ((u16 ((u16 (t.cpu.pc.val + 1)).val + 1)).val % 0x100)) with
            | none =>
              simp only [w2] at h
              exact Option.noConfusion h
            | some m6 =>
              have hw := adjacent_writes_low _ _ _ _ _ _ _ w1 w2
              rw [u16i_sub_two] at hw
              exact hw

theorem op_cm_defined (t t' : machine_t) (h : op_cm t = some t') :
    (in_rom_or_ram t.cpu.pc ∧ in_rom_or_ram (u16 (t.cpu.pc.val + 1))) ∧
    (t.cpu.flag.s = true → in_rom_or_ram (u16i ((t.cpu.sp.val : Int) - 1)) ∧
      in_rom_or_ram (u16i ((t.cpu.sp.val : Int) - 2))) := by
  unfold op_cm at h
  simp only [machine_t.trace_read, machine_t.read_pc_inc, machine_t.read, bind, Option.bind,
    pure] at h
  cases r1 : mem_read t.mem (u16 (t.cpu.pc.val + 1)) with
  | none =>
    simp only [r1] at h
    exact Option.noConfusion h
  | some p1 =>
    obtain ⟨v1, m1⟩ := p1
    simp only [r1] at h
    cases r2 : mem_read m1 t.cpu.pc with
    | none =>
      simp only [r2] at h
      exact Option.noConfusion h
    | some p2 =>
      obtain ⟨v2, m2⟩ := p2
      simp only [r2] at h
      refine ⟨adjacent_reads_low _ _ _ _ _ r2 r1, fun hc => ?_⟩
      cases r3 : mem_read m2 t.cpu.pc with
      | none =>
        simp only [r3] at h
        exact Option.noConfusion h
      | some p3 =>
        obtain ⟨v3, m3⟩ := p3
        simp only [r3] at h
        cases r4 : mem_read m3 (u16 (t.cpu.pc.val + 1)) with
        | none =>
          simp only [r4] at h
          exact Option.noConfusion h
        | some p4 =>
          obtain ⟨v4, m4⟩ := p4
          simp only [r4, hc, if_true, machine_t.write_dec_sp, machine_t.write] at h
          cases w1 : mem_write m4 (u16i ((t.cpu.sp.val : Int) - 1))
              (u8 ((u16 ((u16 (t.cpu.pc.val + 1)).val + 1)).val / 0x100)) with
          | none =>
            simp only [w1] at h
            exact Option.noConfusion h
          | some m5 =>
            simp only [w1] at h
            cases w2 : mem_write m5 (u16i (((u16i ((t.cpu.sp.val : Int) - 1)).val : Int) - 1))
                (u8 ((u16 ((u16 (t.cpu.pc.val + 1)).val + 1)).val % 0x100)) with
            | none =>
              simp only [w2] at h
              exact Option.noConfusion h
            | some m6 =>
              have hw := adjacent_writes_low _ _ _ _ _ _ _ w1 w2
              rw [u16i_sub_two] at hw
              exact hw

theorem op_rnz_defined (t t' : machine_t) (h : op_rnz t = some t')
    (hc : (!t.cpu.flag.z) = true) :
    in_rom_or_ram t.cpu.sp ∧ in_rom_or_ram (u16 (t.cpu.sp.val + 1)) := by
  simp only [Bool.not_eq_true'] at hc
  unfold op_rnz at h
  simp only [hc, if_true, machine_t.read_sp_inc, machine_t.read, bind, Option.bind, pure] at h
  cases r1 : mem_read t.mem t.cpu.sp with
  | none =>
    simp only [r1] at h
    exact Option.noConfusion h
  | some p1 =>
    obtain ⟨v1, m1⟩ := p1
    simp only [r1] at h
    cases r2 : mem_read m1 (u16 (t.cpu.sp.val + 1)) with
    | none =>
      simp only [r2] at h
      exact Option.noConfusion h
    | some p2 => exact adjacent_reads_low _ _ _ _ _ r1 r2

theorem op_rz_defined (t t' : machine_t) (h : op_rz t = some t')
    (hc : t.cpu.flag.z = true) :
    in_rom_or_ram t.cpu.sp ∧ in_rom_or_ram (u16 (t.cpu.sp.val + 1)) := by
  unfold op_rz at h
  simp only [hc, if_true, machine_t.read_sp_inc, machine_t.read, bind, Option.bind, pure] at h
  cases r1 : mem_read t.mem t.cpu.sp with
  | none =>
    simp only [r1] at h
    exact Option.noConfusion h
  | some p1 =>
    obtain ⟨v1, m1⟩ := p1
    simp only [r1] at h
    cases r2 : mem_read m1 (u16 (t.cpu.sp.val + 1)) with
    | none =>
      simp only [r2] at h
      exact Option.noConfusion h
    | some p2 => exact adjacent_reads_low _ _ _ _ _ r1 r2

theorem op_rnc_defined (t t' : machine_t) (h : op_rnc t = some t')
    (hc : (!t.cpu.flag.cy) = true) :
    in_rom_or_ram t.cpu.sp ∧ in_rom_or_ram (u16 (t.cpu.sp.val + 1)) := by
  simp only [Bool.not_eq_true'] at hc
  unfold op_rnc at h
  simp only [hc, if_true, machine_t.read_sp_inc, machine_t.read, bind, Option.bind, pure] at h
  cases r1 : mem_read t.mem t.cpu.sp with
  | none =>
    simp only [r1] at h
    exact Option.noConfusion h
  | some p1 =>
    obtain ⟨v1, m1⟩ := p1
    simp only [r1] at h
    cases r2 : mem_read m1 (u16 (t.cpu.sp.val + 1)) with
    | none =>
      simp only [r2] at h
      exact Option.noConfusion h
    | some p2 => exact adjacent_reads_low _ _ _ _ _ r1 r2

theorem op_rc_defined (t t' : machine_t) (h : op_rc t = some t')
    (hc : t.cpu.flag.cy = true) :
    in_rom_or_ram t.cpu.sp ∧ in_rom_or_ram (u16 (t.cpu.sp.val + 1)) := by
  unfold op_rc at h
  simp only [hc, if_true, machine_t.read_sp_inc, machine_t.read, bind, Option.bind, pure] at h
  cases r1 : mem_read t.mem t.cpu.sp with
  | none =>
    simp only [r1] at h
    exact Option.noConfusion h
  | some p1 =>
    obtain ⟨v1, m1⟩ := p1
    simp only [r1] at h
    cases r2 : mem_read m1 (u16 (t.cpu.sp.val + 1)) with
    | none =>
      simp only [r2] at h
      exact Option.noConfusion h
    | some p2 => exact adjacent_reads_low _ _ _ _ _ r1 r2

theorem op_rpo_defined (t t' : machine_t) (h : op_rpo t = some t')
    (hc : (!t.cpu.flag.p) = true) :
    in_rom_or_ram t.cpu.sp ∧ in_rom_or_ram (u16 (t.cpu.sp.val + 1)) := by
  simp only [Bool.not_eq_true'] at hc
  unfold op_rpo at h
  simp only [hc, if_true, machine_t.read_sp_inc, machine_t.read, bind, Option.bind, pure] at h
  cases r1 : mem_read t.mem t.cpu.sp with
  | none =>
    simp only [r1] at h
    exact Option.noConfusion h
  | some p1 =>
    obtain ⟨v1, m1⟩ := p1
    simp only [r1] at h
    cases r2 : mem_read m1 (u16 (t.cpu.sp.val + 1)) with
    | none =>
      simp only [r2] at h
      exact Option.noConfusion h
    | some p2 => exact adjacent_reads_low _ _ _ _ _ r1 r2

theorem op_rpe_defined (t t' : machine_t) (h : op_rpe t = some t')
    (hc : t.cpu.flag.p = true) :
    in_rom_or_ram t.cpu.sp ∧ in_rom_or_ram (u16 (t.cpu.sp.val + 1)) := by
  unfold op_rpe at h
  simp only [hc, if_true, machine_t.read_sp_inc, machine_t.read, bind, Option.bind, pure] at h
  cases r1 : mem_read t.mem t.cpu.sp with
  | none =>
    simp only [r1] at h
    exact Option.noConfusion h
  | some p1 =>
    obtain ⟨v1, m1⟩ := p1
    simp only [r1] at h
    cases r2 : mem_read m1 (u16 (t.cpu.sp.val + 1)) with
    | none =>
      simp only [r2] at h
      exact Option.noConfusion h
    | some p2 => exact adjacent_reads_low _ _ _ _ _ r1 r2

theorem op_rp_defined (t t' : machine_t) (h : op_rp t = some t')
    (hc : (!t.cpu.flag.s) = true) :
    in_rom_or_ram t.cpu.sp ∧ in_rom_or_ram (u16 (t.cpu.sp.val + 1)) := by
  simp only [Bool.not_eq_true'] at hc
  unfold op_rp at h
  simp only [hc, if_true, machine_t.read_sp_inc, machine_t.read, bind, Option.bind, pure] at h
  cases r1 : mem_read t.mem t.cpu.sp with
  | none =>
    simp only [r1] at h
    exact Option.noConfusion h
  | some p1 =>
    obtain ⟨v1, m1⟩ := p1
    simp only [r1] at h
    cases r2 : mem_read m1 (u16 (t.cpu.sp.val + 1)) with
    | none =>
      simp only [r2] at h
      exact Option.noConfusion h
    | some p2 => exact adjacent_reads_low _ _ _ _ _ r1 r2

theorem op_rm_defined (t t' : machine_t) (h : op_rm t = some t')
    (hc : t.cpu.flag.s = true) :
    in_rom_or_ram t.cpu.sp ∧ in_rom_or_ram (u16 (t.cpu.sp.val + 1)) := by
  unfold op_rm at h
  simp only [hc, if_true, machine_t.read_sp_inc, machine_t.read, bind, Option.bind, pure] at h
  cases r1 : mem_read t.mem t.cpu.sp with
  | none =>
    simp only [r1] at h
    exact Option.noConfusion h
  | some p1 =>
    obtain ⟨v1, m1⟩ := p1
    simp only [r1] at h
    cases r2 : mem_read m1 (u16 (t.cpu.sp.val + 1)) with
    | none =>
      simp only [r2] at h
      exact Option.noConfusion h
    | some p2 => exact adjacent_reads_low _ _ _ _ _ r1 r2

theorem conditional_jmp_defined (op : uint8_t) (hop : op.val ∈ conditional_jmp_opcodes)
    (t t' : machine_t) (h : (opcode_function_at op).call t = some t') :
    in_rom_or_ram t.cpu.pc ∧ in_rom_or_ram (u16 (t.cpu.pc.val + 1)) := by
  simp only [conditional_jmp_opcodes, List.mem_cons, List.mem_singleton, List.not_mem_nil,
    or_false] at hop
  rcases hop with e | e | e | e | e | e | e | e
  · obtain rfl : op = (0xC2 : uint8_t) := Fin.ext e
    exact op_jnz_defined t t' h
  · obtain rfl : op = (0xCA : uint8_t) := Fin.ext e
    exact op_jz_defined t t' h
  · obtain rfl : op = (0xD2 : uint8_t) := Fin.ext e
    exact op_jnc_defined t t' h
  · obtain rfl : op = (0xDA : uint8_t) := Fin.ext e
    exact op_jc_defined t t' h
  · obtain rfl : op = (0xE2 : uint8_t) := Fin.ext e
    exact op_jpo_defined t t' h
  · obtain rfl : op = (0xEA : uint8_t) := Fin.ext e
    exact op_jpe_defined t t' h
  · obtain rfl : op = (0xF2 : uint8_t) := Fin.ext e
    exact op_jp_defined t t' h
  · obtain rfl : op = (0xFA : uint8_t) := Fin.ext e
    exact op_jm_defined t t' h

theorem conditional_call_defined (op : uint8_t) (hop : op.val ∈ conditional_call_opcodes)
    (t t' : machine_t) (h : (opcode_function_at op).call t = some t') :
    (in_rom_or_ram t.cpu.pc ∧ in_rom_or_ram (u16 (t.cpu.pc.val + 1))) ∧
    (condition_holds op t.cpu.flag = true → in_rom_or_ram (u16i ((t.cpu.sp.val : Int) - 1)) ∧
      in_rom_or_ram (u16i ((t.cpu.sp.val : Int) - 2))) := by
  simp only [conditional_call_opcodes, List.mem_cons, List.mem_singleton, List.not_mem_nil,
    or_false] at hop
  rcases hop with e | e | e | e | e | e | e | e
  · obtain rfl : op = (0xC4 : uint8_t) := Fin.ext e
    exact op_cnz_defined t t' h
  · obtain rfl : op = (0xCC : uint8_t) := Fin.ext e
    exact op_cz_defined t t' h
  · obtain rfl : op = (0xD4 : uint8_t) := Fin.ext e
    exact op_cnc_defined t t' h
  · obtain rfl : op = (0xDC : uint8_t) := Fin.ext e
    exact op_cc_defined t t' h
  · obtain rfl : op = (0xE4 : uint8_t) := Fin.ext e
    exact op_cpo_defined t t' h
  · obtain rfl : op = (0xEC : uint8_t) := Fin.ext e
    exact op_cpe_defined t t' h
  · obtain rfl : op = (0xF4 : uint8_t) := Fin.ext e
    exact op_cp_defined t t' h
  · obtain rfl : op = (0xFC : uint8_t) := Fin.ext e
    exact op_cm_defined t t' h

theorem conditional_ret_defined (op : uint8_t) (hop : op.val ∈ conditional_ret_opcodes)
    (t t' : machine_t) (h : (opcode_function_at op).call t = some t')
    (hc : condition_holds op t.cpu.flag = true) :
    in_rom_or_ram t.cpu.sp ∧ in_rom_or_ram (u16 (t.cpu.sp.val + 1)) := by
  simp only [conditional_ret_opcodes, List.mem_cons, List.mem_singleton, List.not_mem_nil,
    or_false] at hop
  rcases hop with e | e | e | e | e | e | e | e
  · obtain rfl : op = (0xC0 : uint8_t) := Fin.ext e
    exact op_rnz_defined t t' h hc
  · obtain rfl : op = (0xC8 : uint8_t) := Fin.ext e
    exact op_rz_defined t t' h hc
  · obtain rfl : op = (0xD0 : uint8_t) := Fin.ext e
    exact op_rnc_defined t t' h hc
  · obtain rfl : op = (0xD8 : uint8_t) := Fin.ext e
    exact op_rc_defined t t' h hc
  · obtain rfl : op = (0xE0 : uint8_t) := Fin.ext e
    exact op_rpo_defined t t' h hc
  · obtain rfl : op = (0xE8 : uint8_t) := Fin.ext e
    exact op_rpe_defined t t' h hc
  · obtain rfl : op = (0xF0 : uint8_t) := Fin.ext e
    exact op_rp_defined t t' h hc
  · obtain rfl : op = (0xF8 : uint8_t) := Fin.ext e
    exact op_rm_defined t t' h hc

/-- One step of a conditional `CALL`, `JMP` or `RET` whose instruction bytes, and whose
stack bytes when the condition holds, lie in ROM or RAM. -/
theorem conditional_step_low (s : machine_t) (op : uint8_t) (m1 : mem_t)
    (hh : s.cpu.halt = false) (hf : mem_read s.mem s.cpu.pc = some (op, m1)) :
    (op.val ∈ conditional_call_opcodes →
      in_rom_or_ram (u16 (s.cpu.pc.val + 1)) → in_rom_or_ram (u16 (s.cpu.pc.val + 2)) →
      (opcode_cycles_at op).val = 9 ∧
      (condition_holds op s.cpu.flag = true →
        in_rom_or_ram (u16i ((s.cpu.sp.val : Int) - 1)) →
        in_rom_or_ram (u16i ((s.cpu.sp.val : Int) - 2)) →
        ∃ s', i8085_execute s = some s' ∧ s'.cpu.cycles = u64 (s.cpu.cycles.val + 9 + 9)) ∧
      (condition_holds op s.cpu.flag = false →
        ∃ s', i8085_execute s = some s' ∧ s'.cpu.cycles = u64 (s.cpu.cycles.val + 9) ∧
          s'.cpu.pc = u16 (s.cpu.pc.val + 3) ∧ s'.cpu.sp = s.cpu.sp ∧ s'.mem = s.mem)) ∧
    (op.val ∈ conditional_jmp_opcodes →
      in_rom_or_ram (u16 (s.cpu.pc.val + 1)) → in_rom_or_ram (u16 (s.cpu.pc.val + 2)) →
      (opcode_cycles_at op).val = 7 ∧
      (condition_holds op s.cpu.flag = true →
        ∃ s', i8085_execute s = some s' ∧ s'.cpu.cycles = u64 (s.cpu.cycles.val + 7 + 3)) ∧
      (condition_holds op s.cpu.flag = false →
        ∃ s', i8085_execute s = some s' ∧ s'.cpu.cycles = u64 (s.cpu.cycles.val + 7) ∧
          s'.cpu.pc = u16 (s.cpu.pc.val + 3) ∧ s'.cpu.sp = s.cpu.sp ∧ s'.mem = s.mem)) ∧
    (op.val ∈ conditional_ret_opcodes →
      (opcode_cycles_at op).val = 6 ∧
      (condition_holds op s.cpu.flag = true →
        in_rom_or_ram s.cpu.sp → in_rom_or_ram (u16 (s.cpu.sp.val + 1)) →
        ∃ s', i8085_execute s = some s' ∧ s'.cpu.cycles = u64 (s.cpu.cycles.val + 6 + 6)) ∧
      (condition_holds op s.cpu.flag = false →
        ∃ s', i8085_execute s = some s' ∧ s'.cpu.cycles = u64 (s.cpu.cycles.val + 6) ∧
          s'.cpu.pc = u16 (s.cpu.pc.val + 1) ∧ s'.cpu.sp = s.cpu.sp ∧
          s'.mem.rom = s.mem.rom ∧ s'.mem.ram = s.mem.ram ∧
          (s.cpu.pc.val ≠ 0x1800 → s'.mem = s.mem))) := by
  have hex := i8085_execute_fetch s op m1 hh hf
  refine ⟨fun hop h1 h2 => ?_, fun hop h1 h2 => ?_, fun hop => ?_⟩
  · have hc := (conditional_opcode_cycles op).1 hop
    have hm := fetch_keeps_mem s op m1 hf h1
    rw [← u16_succ_succ] at h2
    obtain ⟨ht, hn⟩ := conditional_call_handler op hop
      { s with
        mem := m1
        cpu := { s.cpu with
                 pc := u16 (s.cpu.pc.val + 1)
                 cycles := u64 (s.cpu.cycles.val + (opcode_cycles_at op).val) } }
      h1 h2
    rw [← hex] at ht hn
    refine ⟨hc, fun hcond h3 h4 => ?_, fun hcond => ?_⟩
    · obtain ⟨t', e, c⟩ := ht hcond h3 h4
      refine ⟨t', e, ?_⟩
      rw [c]
      show u64 ((u64 (s.cpu.cycles.val + (opcode_cycles_at op).val)).val + 9) = _
      rw [u64_add_u64, hc]
    · refine ⟨_, hn hcond, ?_, ?_, rfl, hm⟩
      · show u64 (s.cpu.cycles.val + (opcode_cycles_at op).val) = _
        rw [hc]
      · exact u16_succ_succ_succ _
  · have hc := (conditional_opcode_cycles op).2.1 hop
    have hm := fetch_keeps_mem s op m1 hf h1
    rw [← u16_succ_succ] at h2
    obtain ⟨ht, hn⟩ := conditional_jmp_handler op hop
      { s with
        mem := m1
        cpu := { s.cpu with
                 pc := u16 (s.cpu.pc.val + 1)
                 cycles := u64 (s.cpu.cycles.val + (opcode_cycles_at op).val) } }
      h1 h2
    rw [← hex] at ht hn
    refine ⟨hc, fun hcond => ?_, fun hcond => ?_⟩
    · obtain ⟨t', e, c⟩ := ht hcond
      refine ⟨t', e, ?_⟩
      rw [c]
      show u64 ((u64 (s.cpu.cycles.val + (opcode_cycles_at op).val)).val + 3) = _
      rw [u64_add_u64, hc]
    · refine ⟨_, hn hcond, ?_, ?_, rfl, hm⟩
      · show u64 (s.cpu.cycles.val + (opcode_cycles_at op).val) = _
        rw [hc]
      · exact u16_succ_succ_succ _
  · have hc := (conditional_opcode_cycles op).2.2 hop
    have hfr := mem_read_frame s.mem s.cpu.pc op m1 hf
    obtain ⟨ht, hn⟩ := conditional_ret_handler op hop
      { s with
        mem := m1
        cpu := { s.cpu with
                 pc := u16 (s.cpu.pc.val + 1)
                 cycles := u64 (s.cpu.cycles.val + (opcode_cycles_at op).val) } }
    rw [← hex] at ht hn
    refine ⟨hc, fun hcond h3 h4 => ?_, fun hcond => ?_⟩
    · obtain ⟨t', e, c⟩ := ht hcond h3 h4
      refine ⟨t', e, ?_⟩
      rw [c]
      show u64 ((u64 (s.cpu.cycles.val + (opcode_cycles_at op).val)).val + 6) = _
      rw [u64_add_u64, hc]
    · refine ⟨_, hn hcond, ?_, rfl, rfl, hfr.1, hfr.2.1, hfr.2.2⟩
      show u64 (s.cpu.cycles.val + (opcode_cycles_at op).val) = _
      rw [hc]

/-- A step of a conditional `CALL`, `JMP` or `RET` that returns has kept its instruction
bytes, and its stack bytes when the condition held, in ROM or RAM. -/
theorem conditional_step_defined (s : machine_t) (op : uint8_t) (m1 : mem_t)
    (hh : s.cpu.halt = false) (hf : mem_read s.mem s.cpu.pc = some (op, m1))
    (s' : machine_t) (e : i8085_execute s = some s') :
    (op.val ∈ conditional_call_opcodes →
      in_rom_or_ram (u16 (s.cpu.pc.val + 1)) ∧ in_rom_or_ram (u16 (s.cpu.pc.val + 2)) ∧
      (condition_holds op s.cpu.flag = true →
        in_rom_or_ram (u16i ((s.cpu.sp.val : Int) - 1)) ∧
        in_rom_or_ram (u16i ((s.cpu.sp.val : Int) - 2)))) ∧
    (op.val ∈ conditional_jmp_opcodes →
      in_rom_or_ram (u16 (s.cpu.pc.val + 1)) ∧ in_rom_or_ram (u16 (s.cpu.pc.val + 2))) ∧
    (op.val ∈ conditional_ret_opcodes → condition_holds op s.cpu.flag = true →
      in_rom_or_ram s.cpu.sp ∧ in_rom_or_ram (u16 (s.cpu.sp.val + 1))) := by
  rw [i8085_execute_fetch s op m1 hh hf] at e
  refine ⟨fun hop => ?_, fun hop => ?_, fun hop hc => ?_⟩
  · obtain ⟨⟨a, b⟩, c⟩ := conditional_call_defined op hop _ s' e
    have b2 : in_rom_or_ram (u16 ((u16 (s.cpu.pc.val + 1)).val + 1)) := b
    rw [u16_succ_succ] at b2
    exact ⟨a, b2, c⟩
  · obtain ⟨a, b⟩ := conditional_jmp_defined op hop _ s' e
    have b2 : in_rom_or_ram (u16 ((u16 (s.cpu.pc.val + 1)).val + 1)) := b
    rw [u16_succ_succ] at b2
    exact ⟨a, b2⟩
  · have r := conditional_ret_defined op hop _ s' e hc
    exact r

/-- C8. For every non-halted machine that fetches a conditional `CALL`, `JMP` or `RET`: the
base count of the opcode is 9, 7 or 6; the step returns exactly when its bus accesses (the
two operand bytes of `CALL` and `JMP`, the two stack bytes of a taken `CALL` or `RET`) lie
in ROM or RAM; and whenever it returns it has added the base count plus 9, 3 or 6 when the
tested condition holds, and exactly the base count when it does not, in which case `pc` ends
just past the instruction and `sp` and memory are unchanged. -/
theorem C8_conditional_branch_cycles (s : machine_t) (op : uint8_t) (m1 : mem_t)
    (hh : s.cpu.halt = false) (hf : mem_read s.mem s.cpu.pc = some (op, m1)) :
    (op.val ∈ conditional_call_opcodes →
      (opcode_cycles_at op).val = 9 ∧
      ((∃ s', i8085_execute s = some s') ↔
        in_rom_or_ram (u16 (s.cpu.pc.val + 1)) ∧ in_rom_or_ram (u16 (s.cpu.pc.val + 2)) ∧
        (condition_holds op s.cpu.flag = true →
          in_rom_or_ram (u16i ((s.cpu.sp.val : Int) - 1)) ∧
          in_rom_or_ram (u16i ((s.cpu.sp.val : Int) - 2)))) ∧
      (∀ s', i8085_execute s = some s' →
        (condition_holds op s.cpu.flag = true →
          s'.cpu.cycles = u64 (s.cpu.cycles.val + 9 + 9)) ∧
        (condition_holds op s.cpu.flag = false →
          s'.cpu.cycles = u64 (s.cpu.cycles.val + 9) ∧ s'.cpu.pc = u16 (s.cpu.pc.val + 3) ∧
          s'.cpu.sp = s.cpu.sp ∧ s'.mem = s.mem))) ∧
    (op.val ∈ conditional_jmp_opcodes →
      (opcode_cycles_at op).val = 7 ∧
      ((∃ s', i8085_execute s = some s') ↔
        in_rom_or_ram (u16 (s.cpu.pc.val + 1)) ∧ in_rom_or_ram (u16 (s.cpu.pc.val + 2))) ∧
      (∀ s', i8085_execute s = some s' →
        (condition_holds op s.cpu.flag = true →
          s'.cpu.cycles = u64 (s.cpu.cycles.val + 7 + 3)) ∧
        (condition_holds op s.cpu.flag = false →
          s'.cpu.cycles = u64 (s.cpu.cycles.val + 7) ∧ s'.cpu.pc = u16 (s.cpu.pc.val + 3) ∧
          s'.cpu.sp = s.cpu.sp ∧ s'.mem = s.mem))) ∧
    (op.val ∈ conditional_ret_opcodes →
      (opcode_cycles_at op).val = 6 ∧
      ((∃ s', i8085_execute s = some s') ↔
        (condition_holds op s.cpu.flag = true →
          in_rom_or_ram s.cpu.sp ∧ in_rom_or_ram (u16 (s.cpu.sp.val + 1)))) ∧
      (∀ s', i8085_execute s = some s' →
        (condition_holds op s.cpu.flag = true →
          s'.cpu.cycles = u64 (s.cpu.cycles.val + 6 + 6)) ∧
        (condition_holds op s.cpu.flag = false →
          s'.cpu.cycles = u64 (s.cpu.cycles.val + 6) ∧ s'.cpu.pc = u16 (s.cpu.pc.val + 1) ∧
          s'.cpu.sp = s.cpu.sp ∧ s'.mem.rom = s.mem.rom ∧ s'.mem.ram = s.mem.ram ∧
          (s.cpu.pc.val ≠ 0x1800 → s'.mem = s.mem)))) := by
  refine ⟨fun hop => ?_, fun hop => ?_, fun hop => ?_⟩
  · have low := (conditional_step_low s op m1 hh hf).1 hop
    refine ⟨(conditional_opcode_cycles op).1 hop,
      ⟨fun ⟨s', e⟩ => (conditional_step_defined s op m1 hh hf s' e).1 hop,
        fun ⟨a, b, c⟩ => ?_⟩, fun s' e => ?_⟩
    · obtain ⟨-, ht, hn⟩ := low a b
      cases hcond : condition_holds op s.cpu.flag with
      | true =>
        obtain ⟨s', e, -⟩ := ht hcond (c hcond).1 (c hcond).2
        exact ⟨s', e⟩
      | false =>
        obtain ⟨s', e, -⟩ := hn hcond
        exact ⟨s', e⟩
    · obtain ⟨a, b, c⟩ := (conditional_step_defined s op m1 hh hf s' e).1 hop
      obtain ⟨-, ht, hn⟩ := low a b
      refine ⟨fun hcond => ?_, fun hcond => ?_⟩
      · obtain ⟨s2, e2, r⟩ := ht hcond (c hcond).1 (c hcond).2
        rw [e] at e2
        cases e2
        exact r
      · obtain ⟨s2, e2, r⟩ := hn hcond
        rw [e] at e2
        cases e2
        exact r
  · have low := (conditional_step_low s op m1 hh hf).2.1 hop
    refine ⟨(conditional_opcode_cycles op).2.1 hop,
      ⟨fun ⟨s', e⟩ => (conditional_step_defined s op m1 hh hf s' e).2.1 hop,
        fun ⟨a, b⟩ => ?_⟩, fun s' e => ?_⟩
    · obtain ⟨-, ht, hn⟩ := low a b
      cases hcond : condition_holds op s.cpu.flag with
      | true =>
        obtain ⟨s', e, -⟩ := ht hcond
        exact ⟨s', e⟩
      | false =>
        obtain ⟨s', e, -⟩ := hn hcond
        exact ⟨s', e⟩
    · obtain ⟨a, b⟩ := (conditional_step_defined s op m1 hh hf s' e).2.1 hop
      obtain ⟨-, ht, hn⟩ := low a b
      refine ⟨fun hcond => ?_, fun hcond => ?_⟩
      · obtain ⟨s2, e2, r⟩ := ht hcond
        rw [e] at e2
        cases e2
        exact r
      · obtain ⟨s2, e2, r⟩ := hn hcond
        rw [e] at e2
        cases e2
        exact r
  · obtain ⟨-, ht, hn⟩ := (conditional_step_low s op m1 hh hf).2.2 hop
    refine ⟨(conditional_opcode_cycles op).2.2 hop,
      ⟨fun ⟨s', e⟩ => (conditional_step_defined s op m1 hh hf s' e).2.2 hop,
        fun c => ?_⟩, fun s' e => ?_⟩
    · cases hcond : condition_holds op s.cpu.flag with
      | true =>
        obtain ⟨s', e, -⟩ := ht hcond (c hcond).1 (c hcond).2
        exact ⟨s', e⟩
      | false =>
        obtain ⟨s', e, -⟩ := hn hcond
        exact ⟨s', e⟩
    · have c := (conditional_step_defined s op m1 hh hf s' e).2.2 hop
      refine ⟨fun hcond => ?_, fun hcond => ?_⟩
      · obtain ⟨s2, e2, r⟩ := ht hcond (c hcond).1 (c hcond).2
        rw [e] at e2
        cases e2
        exact r
      · obtain ⟨s2, e2, r⟩ := hn hcond
        rw [e] at e2
        cases e2
        exact r

theorem C8_conditional_branch_cycles_witness :
    machine_jc.cpu.halt = false ∧
    mem_read machine_jc.mem machine_jc.cpu.pc = some (0xDA, machine_jc.mem) ∧
    (0xDA : uint8_t).val ∈ conditional_jmp_opcodes ∧
    (opcode_cycles_at 0xDA).val = 7 ∧
    ((∃ s', i8085_execute machine_jc = some s') ↔
      in_rom_or_ram (u16 (machine_jc.cpu.pc.val + 1)) ∧
      in_rom_or_ram (u16 (machine_jc.cpu.pc.val + 2))) ∧
    (∀ s', i8085_execute machine_jc = some s' →
      (condition_holds 0xDA machine_jc.cpu.flag = true →
        s'.cpu.cycles = u64 (machine_jc.cpu.cycles.val + 7 + 3)) ∧
      (condition_holds 0xDA machine_jc.cpu.flag = false →
        s'.cpu.cycles = u64 (machine_jc.cpu.cycles.val + 7) ∧
        s'.cpu.pc = u16 (machine_jc.cpu.pc.val + 3) ∧
        s'.cpu.sp = machine_jc.cpu.sp ∧ s'.mem = machine_jc.mem)) :=
  ⟨rfl, rfl, by decide,
    (C8_conditional_branch_cycles machine_jc 0xDA machine_jc.mem rfl rfl).2.1 (by decide)⟩

/-! ### TRAP -/

/-- The effect of `i8085_trap` written out on the bus: two `mem_write`s, then the register
updates. -/
theorem i8085_trap_eq (s : machine_t) :
    i8085_trap s =
      (mem_write s.mem (u16i ((s.cpu.sp.val : Int) - 1)) (u8 (s.cpu.pc.val / 0x100))).bind
        fun m1 =>
          (mem_write m1 (u16i ((s.cpu.sp.val : Int) - 2)) (u8 (s.cpu.pc.val % 0x100))).bind
            fun m2 =>
              some { s with
                     mem := m2
                     cpu := { s.cpu with
                              sp := u16i ((s.cpu.sp.val : Int) - 2)
                              pc := 0x0024
                              halt := false } } := by
  unfold i8085_trap
  simp only [machine_t.write_dec_sp, machine_t.write, bind, pure]
  cases h1 : mem_write s.mem (u16i ((s.cpu.sp.val : Int) - 1)) (u8 (s.cpu.pc.val / 0x100)) with
  | none => rfl
  | some m1 =>
    simp only [Option.bind, u16i_sub_two]
    cases h2 : mem_write m1 (u16i ((s.cpu.sp.val : Int) - 2)) (u8 (s.cpu.pc.val % 0x100)) with
    | none => rfl
    | some m2 => rfl

/-- A bus write never changes the ROM. -/
theorem mem_write_rom_frame (mem : mem_t) (a : uint16_t) (v : uint8_t) (m1 : mem_t)
    (h : mem_write mem a v = some m1) : m1.rom = mem.rom := by
  unfold mem_write at h
  by_cases h1 : a.val ≥ 0x1000
  · simp only [h1, if_true] at h
    by_cases h2 : a.val = MEM_I8279_DISPLAY_DATA ∨ a.val = MEM_I8279_COMMAND
    · simp only [h2, if_true] at h
      cases hw : mem.i8279_write with
      | none =>
        simp only [hw, Option.some.injEq] at h
        rw [← h]
      | some hook =>
        cases hd : mem.i8279 with
        | none =>
          simp only [hw, hd, Option.some.injEq] at h
          rw [← h]
        | some dev =>
          simp only [hw, hd, Option.map_eq_some'] at h
          obtain ⟨d, -, hm⟩ := h
          rw [← hm]
    · simp only [h2, if_false] at h
      by_cases h3 : a.val - 0x1000 < MEM_RAM_MAX
      · simp only [h3, dite_true, Option.some.injEq] at h
        rw [← h]
      · simp only [h3, dite_false] at h
        exact Option.noConfusion h
  · simp only [h1, if_false, Option.some.injEq] at h
    rw [← h]

/-- The entry `i8085_trap` with both stack bytes in ROM or RAM. -/
theorem i8085_trap_low (s : machine_t)
    (h1 : in_rom_or_ram (u16i ((s.cpu.sp.val : Int) - 1)))
    (h2 : in_rom_or_ram (u16i ((s.cpu.sp.val : Int) - 2))) :
    ∃ s', i8085_trap s = some s' ∧
      s'.cpu = { s.cpu with sp := u16i ((s.cpu.sp.val : Int) - 2), pc := 0x0024, halt := false } ∧
      (in_ram (u16i ((s.cpu.sp.val : Int) - 1)) →
        s'.mem.ram (ram_index (u16i ((s.cpu.sp.val : Int) - 1))) = u8 (s.cpu.pc.val / 0x100)) ∧
      (in_ram (u16i ((s.cpu.sp.val : Int) - 2)) →
        s'.mem.ram (ram_index (u16i ((s.cpu.sp.val : Int) - 2))) = u8 (s.cpu.pc.val % 0x100)) := by
  rw [i8085_trap_eq, mem_write_low_eq _ _ _ h1]
  simp only [Option.bind]
  rw [mem_write_low_eq _ _ _ h2]
  refine ⟨_, rfl, rfl, fun r1 => ?_, fun r2 => ?_⟩
  · have a1 : ¬ (u16i ((s.cpu.sp.val : Int) - 1)).val < 0x1000 := by
      unfold in_ram at r1; omega
    by_cases a2 : (u16i ((s.cpu.sp.val : Int) - 2)).val < 0x1000
    · simp only [a1, a2, if_true, if_false]
    · have r2 : in_ram (u16i ((s.cpu.sp.val : Int) - 2)) := by
        unfold in_rom_or_ram at h2; unfold in_ram; omega
      have hne := ram_index_pred_ne _ r1 (by rw [u16i_sub_two]; exact r2)
      rw [u16i_sub_two] at hne
      simp only [a1, a2, if_false, hne, if_true]
  · have a2 : ¬ (u16i ((s.cpu.sp.val : Int) - 2)).val < 0x1000 := by
      unfold in_ram at r2; omega
    simp only [a2, if_false, if_true]

/-- Whenever `i8085_trap` succeeds: the registers after it, and the ROM unchanged. -/
theorem i8085_trap_some (s s2 : machine_t) (ht : i8085_trap s = some s2) :
    s2.cpu = { s.cpu with sp := u16i ((s.cpu.sp.val : Int) - 2), pc := 0x0024, halt := false } ∧
    s2.mem.rom = s.mem.rom := by
  rw [i8085_trap_eq] at ht
  cases h1 : mem_write s.mem (u16i ((s.cpu.sp.val : Int) - 1)) (u8 (s.cpu.pc.val / 0x100)) with
  | none =>
    rw [h1] at ht
    exact Option.noConfusion ht
  | some m1 =>
    rw [h1] at ht
    simp only [Option.bind] at ht
    cases h2 : mem_write m1 (u16i ((s.cpu.sp.val : Int) - 2)) (u8 (s.cpu.pc.val % 0x100)) with
    | none =>
      rw [h2] at ht
      exact Option.noConfusion ht
    | some m2 =>
      rw [h2] at ht
      simp only [Option.some.injEq] at ht
      subst ht
      refine ⟨rfl, ?_⟩
      show m2.rom = s.mem.rom
      rw [mem_write_rom_frame _ _ _ _ h2, mem_write_rom_frame _ _ _ _ h1]

/-- A call of `i8085_trap` that returns has written both stack bytes inside ROM or RAM. -/
theorem i8085_trap_defined (s s2 : machine_t) (ht : i8085_trap s = some s2) :
    in_rom_or_ram (u16i ((s.cpu.sp.val : Int) - 1)) ∧
    in_rom_or_ram (u16i ((s.cpu.sp.val : Int) - 2)) := by
  rw [i8085_trap_eq] at ht
  cases h1 : mem_write s.mem (u16i ((s.cpu.sp.val : Int) - 1)) (u8 (s.cpu.pc.val / 0x100)) with
  | none =>
    rw [h1] at ht
    exact Option.noConfusion ht
  | some m1 =>
    rw [h1] at ht
    simp only [Option.bind] at ht
    cases h2 : mem_write m1 (u16i ((s.cpu.sp.val : Int) - 2)) (u8 (s.cpu.pc.val % 0x100)) with
    | none =>
      rw [h2] at ht
      exact Option.noConfusion ht
    | some m2 =>
      rw [← u16i_sub_two] at h2
      have hw := adjacent_writes_low _ _ _ _ _ _ _ h1 h2
      rw [u16i_sub_two] at hw
      exact hw

/-- The step that executes `HLT`: the machine after it is halted, keeps its stack pointer
and its ROM, and is left as it is by further steps. -/
theorem hlt_step (s : machine_t) (m1 : mem_t) (hh : s.cpu.halt = false)
    (hf : mem_read s.mem s.cpu.pc = some (0x76, m1)) :
    ∃ s1, i8085_execute s = some s1 ∧ s1.cpu.halt = true ∧ s1.cpu.sp = s.cpu.sp ∧
      s1.mem.rom = s.mem.rom ∧ i8085_execute s1 = some s1 := by
  have hex := i8085_execute_fetch s 0x76 m1 hh hf
  have hrom1 := (mem_read_frame s.mem s.cpu.pc 0x76 m1 hf).1
  refine ⟨_, hex, rfl, rfl, hrom1, ?_⟩
  simp only [i8085_execute]
  rfl

/-- C10. For every machine, whatever `IE` and the mask bits, `i8085_trap` is: write the
high byte of `PC` over the bus to `SP-1`, the low byte to `SP-2`, then `SP := SP-2`,
`PC := 0x0024`, `halt := false`, nothing else changing. The call returns exactly when both
stack bytes lie in ROM or RAM, and whenever it returns the registers are as said, the ROM is
unchanged and a stack byte in RAM holds the pushed byte (the bus drops a write to ROM).
Hence after `HLT` (which sets `halt`, so that `i8085_execute` no longer fetches) and a TRAP
entry, the machine is running again and the next `i8085_execute` step fetches its opcode
from ROM address `0x0024`. -/
theorem C10_trap_entry (s : machine_t) :
    (i8085_trap s =
      (mem_write s.mem (u16i ((s.cpu.sp.val : Int) - 1)) (u8 (s.cpu.pc.val / 0x100))).bind
        fun m1 =>
          (mem_write m1 (u16i ((s.cpu.sp.val : Int) - 2)) (u8 (s.cpu.pc.val % 0x100))).bind
            fun m2 =>
              some { s with
                     mem := m2
                     cpu := { s.cpu with
                              sp := u16i ((s.cpu.sp.val : Int) - 2)
                              pc := 0x0024
                              halt := false } }) ∧
    ((∃ s', i8085_trap s = some s') ↔
      in_rom_or_ram (u16i ((s.cpu.sp.val : Int) - 1)) ∧
      in_rom_or_ram (u16i ((s.cpu.sp.val : Int) - 2))) ∧
    (∀ s', i8085_trap s = some s' →
      s'.cpu = { s.cpu with
                 sp := u16i ((s.cpu.sp.val : Int) - 2), pc := 0x0024, halt := false } ∧
      s'.mem.rom = s.mem.rom ∧
      (in_ram (u16i ((s.cpu.sp.val : Int) - 1)) →
        s'.mem.ram (ram_index (u16i ((s.cpu.sp.val : Int) - 1)))
          = u8 (s.cpu.pc.val / 0x100)) ∧
      (in_ram (u16i ((s.cpu.sp.val : Int) - 2)) →
        s'.mem.ram (ram_index (u16i ((s.cpu.sp.val : Int) - 2)))
          = u8 (s.cpu.pc.val % 0x100))) ∧
    (∀ m1 : mem_t, s.cpu.halt = false → mem_read s.mem s.cpu.pc = some (0x76, m1) →
      ∃ s1, i8085_execute s = some s1 ∧ s1.cpu.halt = true ∧ i8085_execute s1 = some s1 ∧
        ((∃ s2, i8085_trap s1 = some s2) ↔
          in_rom_or_ram (u16i ((s.cpu.sp.val : Int) - 1)) ∧
          in_rom_or_ram (u16i ((s.cpu.sp.val : Int) - 2))) ∧
        ∀ s2, i8085_trap s1 = some s2 →
          s2.cpu.halt = false ∧ s2.cpu.pc = 0x0024 ∧
          s2.mem.rom = s.mem.rom ∧
          mem_read s2.mem s2.cpu.pc = some (s.mem.rom ⟨0x0024, by decide⟩, s2.mem) ∧
          i8085_execute s2 = (opcode_function_at (s.mem.rom ⟨0x0024, by decide⟩)).call
            { s2 with
              mem := s2.mem
              cpu := { s2.cpu with
                       pc := u16 (s2.cpu.pc.val + 1)
                       cycles := u64 (s2.cpu.cycles.val
                         + (opcode_cycles_at (s.mem.rom ⟨0x0024, by decide⟩)).val) } }) := by
  refine ⟨i8085_trap_eq s,
    ⟨fun ⟨s', e⟩ => i8085_trap_defined s s' e, fun ⟨a, b⟩ => ?_⟩, fun s' e => ?_,
    fun m1 hh hf => ?_⟩
  · obtain ⟨s', e, -⟩ := i8085_trap_low s a b
    exact ⟨s', e⟩
  · obtain ⟨a, b⟩ := i8085_trap_defined s s' e
    obtain ⟨s2, e2, r1, r2, r3⟩ := i8085_trap_low s a b
    rw [e] at e2
    cases e2
    exact ⟨r1, (i8085_trap_some s s' e).2, r2, r3⟩
  · obtain ⟨s1, e1, hhalt1, hsp, hrom1, eid⟩ := hlt_step s m1 hh hf
    refine ⟨s1, e1, hhalt1, eid,
      ⟨fun ⟨s2, e⟩ => ?_, fun ⟨a, b⟩ => ?_⟩, fun s2 ht => ?_⟩
    · have d := i8085_trap_defined s1 s2 e
      rw [hsp] at d
      exact d
    · rw [← hsp] at a b
      obtain ⟨s2, e, -⟩ := i8085_trap_low s1 a b
      exact ⟨s2, e⟩
    · obtain ⟨hcpu, hrom⟩ := i8085_trap_some s1 s2 ht
      have hrom2 : s2.mem.rom = s.mem.rom := by rw [hrom]; exact hrom1
      have hpc : s2.cpu.pc = 0x0024 := by rw [hcpu]
      have hhalt : s2.cpu.halt = false := by rw [hcpu]
      have hrd : mem_read s2.mem s2.cpu.pc = some (s.mem.rom ⟨0x0024, by decide⟩, s2.mem) := by
        rw [hpc, mem_read_rom s2.mem 0x0024 (by decide), hrom2]
        rfl
      exact ⟨hhalt, hpc, hrom2, hrd, i8085_execute_fetch s2 _ _ hhalt hrd⟩

theorem C10_trap_entry_witness :
    machine_hlt.cpu.halt = false ∧
    mem_read machine_hlt.mem machine_hlt.cpu.pc = some (0x76, machine_hlt.mem) ∧
    machine_hlt.cpu.mask.ie = true ∧ machine_hlt.cpu.mask.m75 = true ∧
    ∃ s1, i8085_execute machine_hlt = some s1 ∧ s1.cpu.halt = true ∧
      i8085_execute s1 = some s1 ∧
      ((∃ s2, i8085_trap s1 = some s2) ↔
        in_rom_or_ram (u16i ((machine_hlt.cpu.sp.val : Int) - 1)) ∧
        in_rom_or_ram (u16i ((machine_hlt.cpu.sp.val : Int) - 2))) ∧
      ∀ s2, i8085_trap s1 = some s2 →
        s2.cpu.halt = false ∧ s2.cpu.pc = 0x0024 ∧
        s2.mem.rom = machine_hlt.mem.rom ∧
        mem_read s2.mem s2.cpu.pc = some (machine_hlt.mem.rom ⟨0x0024, by decide⟩, s2.mem) ∧
        i8085_execute s2
          = (opcode_function_at (machine_hlt.mem.rom ⟨0x0024, by decide⟩)).call
              { s2 with
                mem := s2.mem
                cpu := { s2.cpu with
                         pc := u16 (s2.cpu.pc.val + 1)
                         cycles := u64 (s2.cpu.cycles.val
                           + (opcode_cycles_at
                               (machine_hlt.mem.rom ⟨0x0024, by decide⟩)).val) } } :=
  ⟨rfl, rfl, rfl, rfl, (C10_trap_entry machine_hlt).2.2.2 machine_hlt.mem rfl rfl⟩

/-! ### Maskable interrupt entries -/

theorem i8085_rst_55_accept (s : machine_t) (h1 : s.cpu.mask.ie = true)
    (h2 : s.cpu.mask.m55 = false) : i8085_rst_55 s = push_pc_jump s 0x002C := by
  unfold i8085_rst_55 push_pc_jump
  simp only [h1, h2, Bool.true_eq_false, Bool.false_eq_true, or_self, if_false,
    machine_t.write_dec_sp, machine_t.write, bind, pure]
  cases w1 : mem_write s.mem (u16i ((s.cpu.sp.val : Int) - 1)) (u8 (s.cpu.pc.val / 0x100)) with
  | none => rfl
  | some m1 =>
    simp only [Option.bind, u16i_sub_two]
    cases w2 : mem_write m1 (u16i ((s.cpu.sp.val : Int) - 2)) (u8 (s.cpu.pc.val % 0x100)) with
    | none => rfl
    | some m2 => rfl

theorem i8085_rst_65_accept (s : machine_t) (h1 : s.cpu.mask.ie = true)
    (h2 : s.cpu.mask.m65 = false) : i8085_rst_65 s = push_pc_jump s 0x0034 := by
  unfold i8085_rst_65 push_pc_jump
  simp only [h1, h2, Bool.true_eq_false, Bool.false_eq_true, or_self, if_false,
    machine_t.write_dec_sp, machine_t.write, bind, pure]
  cases w1 : mem_write s.mem (u16i ((s.cpu.sp.val : Int) - 1)) (u8 (s.cpu.pc.val / 0x100)) with
  | none => rfl
  | some m1 =>
    simp only [Option.bind, u16i_sub_two]
    cases w2 : mem_write m1 (u16i ((s.cpu.sp.val : Int) - 2)) (u8 (s.cpu.pc.val % 0x100)) with
    | none => rfl
    | some m2 => rfl

theorem i8085_rst_75_accept (s : machine_t) (h1 : s.cpu.mask.ie = true)
    (h2 : s.cpu.mask.m75 = false) : i8085_rst_75 s = push_pc_jump s 0x003C := by
  unfold i8085_rst_75 push_pc_jump
  simp only [h1, h2, Bool.true_eq_false, Bool.false_eq_true, or_self, if_false,
    machine_t.write_dec_sp, machine_t.write, bind, pure]
  cases w1 : mem_write s.mem (u16i ((s.cpu.sp.val : Int) - 1)) (u8 (s.cpu.pc.val / 0x100)) with
  | none => rfl
  | some m1 =>
    simp only [Option.bind, u16i_sub_two]
    cases w2 : mem_write m1 (u16i ((s.cpu.sp.val : Int) - 2)) (u8 (s.cpu.pc.val % 0x100)) with
    | none => rfl
    | some m2 => rfl

/-- An accepted maskable entry pushes `PC` and jumps to its vector. -/
theorem maskable_entry_accept (e : maskable_entry_t) (s : machine_t)
    (h1 : s.cpu.mask.ie = true) (h2 : e.mask_bit s.cpu.mask = false) :
    e.call s = push_pc_jump s e.vector := by
  cases e
  · exact i8085_rst_55_accept s h1 h2
  · exact i8085_rst_65_accept s h1 h2
  · exact i8085_rst_75_accept s h1 h2

/-- A maskable entry that is disabled or masked returns at once. -/
theorem maskable_entry_masked (e : maskable_entry_t) (s : machine_t)
    (h : s.cpu.mask.ie = false ∨ e.mask_bit s.cpu.mask = true) : e.call s = some s := by
  cases e
  · show i8085_rst_55 s = some s
    unfold i8085_rst_55
    exact if_pos h
  · show i8085_rst_65 s = some s
    unfold i8085_rst_65
    exact if_pos h
  · show i8085_rst_75 s = some s
    unfold i8085_rst_75
    exact if_pos h

/-- A push of `PC` that returns has written both stack bytes inside ROM or RAM. -/
theorem push_pc_jump_defined (s s2 : machine_t) (vector : uint16_t)
    (ht : push_pc_jump s vector = some s2) :
    in_rom_or_ram (u16i ((s.cpu.sp.val : Int) - 1)) ∧
    in_rom_or_ram (u16i ((s.cpu.sp.val : Int) - 2)) := by
  unfold push_pc_jump at ht
  cases h1 : mem_write s.mem (u16i ((s.cpu.sp.val : Int) - 1)) (u8 (s.cpu.pc.val / 0x100)) with
  | none =>
    rw [h1] at ht
    exact Option.noConfusion ht
  | some m1 =>
    rw [h1] at ht
    simp only [Option.bind] at ht
    cases h2 : mem_write m1 (u16i ((s.cpu.sp.val : Int) - 2)) (u8 (s.cpu.pc.val % 0x100)) with
    | none =>
      rw [h2] at ht
      exact Option.noConfusion ht
    | some m2 =>
      rw [← u16i_sub_two] at h2
      have hw := adjacent_writes_low _ _ _ _ _ _ _ h1 h2
      rw [u16i_sub_two] at hw
      exact hw

/-- A push of `PC` with both stack bytes in ROM or RAM returns: the registers after it, the
ROM unchanged, the pushed bytes in RAM. -/
theorem push_pc_jump_low (s : machine_t) (vector : uint16_t)
    (h1 : in_rom_or_ram (u16i ((s.cpu.sp.val : Int) - 1)))
    (h2 : in_rom_or_ram (u16i ((s.cpu.sp.val : Int) - 2))) :
    ∃ s', push_pc_jump s vector = some s' ∧
      s'.cpu = { s.cpu with sp := u16i ((s.cpu.sp.val : Int) - 2), pc := vector, halt := false } ∧
      s'.mem.rom = s.mem.rom ∧
      (in_ram (u16i ((s.cpu.sp.val : Int) - 1)) →
        s'.mem.ram (ram_index (u16i ((s.cpu.sp.val : Int) - 1))) = u8 (s.cpu.pc.val / 0x100)) ∧
      (in_ram (u16i ((s.cpu.sp.val : Int) - 2)) →
        s'.mem.ram (ram_index (u16i ((s.cpu.sp.val : Int) - 2))) = u8 (s.cpu.pc.val % 0x100)) := by
  unfold push_pc_jump
  rw [mem_write_low_eq _ _ _ h1]
  simp only [Option.bind]
  rw [mem_write_low_eq _ _ _ h2]
  refine ⟨_, rfl, rfl, ?_, fun r1 => ?_, fun r2 => ?_⟩
  · show (if (u16i ((s.cpu.sp.val : Int) - 2)).val < 0x1000 then _ else _ : mem_t).rom = _
    split <;> split <;> rfl
  · have a1 : ¬ (u16i ((s.cpu.sp.val : Int) - 1)).val < 0x1000 := by
      unfold in_ram at r1; omega
    by_cases a2 : (u16i ((s.cpu.sp.val : Int) - 2)).val < 0x1000
    · simp only [a1, a2, if_true, if_false]
    · have r2 : in_ram (u16i ((s.cpu.sp.val : Int) - 2)) := by
        unfold in_rom_or_ram at h2; unfold in_ram; omega
      have hne := ram_index_pred_ne _ r1 (by rw [u16i_sub_two]; exact r2)
      rw [u16i_sub_two] at hne
      simp only [a1, a2, if_false, hne, if_true]
  · have a2 : ¬ (u16i ((s.cpu.sp.val : Int) - 2)).val < 0x1000 := by
      unfold in_ram at r2; omega
    simp only [a2, if_false, if_true]

/-- C11. For each maskable entry (`i8085_rst_55`, `i8085_rst_65`, `i8085_rst_75`) and every
machine: with `IE` clear or the mask bit of the entry set, the call returns the machine
unchanged; otherwise the call is: write the high byte of `PC` over the bus to `SP-1`, the
low byte to `SP-2`, then `SP := SP-2`, `PC := 0x002C`, `0x0034` or `0x003C`,
`halt := false`, nothing else changing. An accepted call returns exactly when both stack
bytes lie in ROM or RAM, and whenever it returns the registers are as said, the ROM is
unchanged and a stack byte in RAM holds the pushed byte. -/
theorem C11_maskable_entries (e : maskable_entry_t) (s : machine_t) :
    ((s.cpu.mask.ie = false ∨ e.mask_bit s.cpu.mask = true) → e.call s = some s) ∧
    (s.cpu.mask.ie = true → e.mask_bit s.cpu.mask = false →
      (e.call s =
        (mem_write s.mem (u16i ((s.cpu.sp.val : Int) - 1)) (u8 (s.cpu.pc.val / 0x100))).bind
          fun m1 =>
            (mem_write m1 (u16i ((s.cpu.sp.val : Int) - 2)) (u8 (s.cpu.pc.val % 0x100))).bind
              fun m2 =>
                some { s with
                       mem := m2
                       cpu := { s.cpu with
                                sp := u16i ((s.cpu.sp.val : Int) - 2)
                                pc := e.vector
                                halt := false } }) ∧
      ((∃ s', e.call s = some s') ↔
        in_rom_or_ram (u16i ((s.cpu.sp.val : Int) - 1)) ∧
        in_rom_or_ram (u16i ((s.cpu.sp.val : Int) - 2))) ∧
      (∀ s', e.call s = some s' →
        s'.cpu = { s.cpu with
                   sp := u16i ((s.cpu.sp.val : Int) - 2), pc := e.vector, halt := false } ∧
        s'.mem.rom = s.mem.rom ∧
        (in_ram (u16i ((s.cpu.sp.val : Int) - 1)) →
          s'.mem.ram (ram_index (u16i ((s.cpu.sp.val : Int) - 1)))
            = u8 (s.cpu.pc.val / 0x100)) ∧
        (in_ram (u16i ((s.cpu.sp.val : Int) - 2)) →
          s'.mem.ram (ram_index (u16i ((s.cpu.sp.val : Int) - 2)))
            = u8 (s.cpu.pc.val % 0x100)))) ∧
    maskable_entry_t.rst_55.vector = 0x002C ∧ maskable_entry_t.rst_65.vector = 0x0034 ∧
    maskable_entry_t.rst_75.vector = 0x003C := by
  refine ⟨maskable_entry_masked e s, fun h1 h2 => ?_, rfl, rfl, rfl⟩
  have hacc := maskable_entry_accept e s h1 h2
  refine ⟨hacc, ⟨fun ⟨s', h⟩ => ?_, fun ⟨a, b⟩ => ?_⟩, fun s' h => ?_⟩
  · rw [hacc] at h
    exact push_pc_jump_defined s s' _ h
  · obtain ⟨s', h, -⟩ := push_pc_jump_low s e.vector a b
    exact ⟨s', by rw [hacc]; exact h⟩
  · rw [hacc] at h
    obtain ⟨a, b⟩ := push_pc_jump_defined s s' _ h
    obtain ⟨s2, h2, r⟩ := push_pc_jump_low s e.vector a b
    rw [h] at h2
    cases h2
    exact r

theorem C11_maskable_entries_witness :
    (machine_irq_off.cpu.mask.ie = false ∨
      maskable_entry_t.rst_65.mask_bit machine_irq_off.cpu.mask = true) ∧
    maskable_entry_t.rst_65.call machine_irq_off = some machine_irq_off ∧
    machine_irq.cpu.mask.ie = true ∧
    maskable_entry_t.rst_65.mask_bit machine_irq.cpu.mask = false ∧
    ((∃ s', maskable_entry_t.rst_65.call machine_irq = some s') ↔
      in_rom_or_ram (u16i ((machine_irq.cpu.sp.val : Int) - 1)) ∧
      in_rom_or_ram (u16i ((machine_irq.cpu.sp.val : Int) - 2))) :=
  ⟨Or.inl rfl, (C11_maskable_entries maskable_entry_t.rst_65 machine_irq_off).1 (Or.inl rfl),
    rfl, rfl, ((C11_maskable_entries maskable_entry_t.rst_65 machine_irq).2.1 rfl rfl).2.1⟩

/-- C12, the claim as stated fails: every maskable entry, accepted on a machine with `IE`
set and no mask bit set, returns a machine in which `IE` is still set. -/
theorem C12_counterexample :
    machine_irq.cpu.mask.ie = true ∧ machine_irq.cpu.mask.m55 = false ∧
    machine_irq.cpu.mask.m65 = false ∧ machine_irq.cpu.mask.m75 = false ∧
    (i8085_rst_55 machine_irq).map (fun s => (s.cpu.mask.ie, s.cpu.pc)) = some (true, 0x002C) ∧
    (i8085_rst_65 machine_irq).map (fun s => (s.cpu.mask.ie, s.cpu.pc)) = some (true, 0x0034) ∧
    (i8085_rst_75 machine_irq).map (fun s => (s.cpu.mask.ie, s.cpu.pc)) = some (true, 0x003C) := by
  refine ⟨rfl, rfl, rfl, rfl, ?_, ?_, ?_⟩
  · rw [i8085_rst_55_accept machine_irq rfl rfl]
    obtain ⟨s', h, c, -⟩ := push_pc_jump_low machine_irq 0x002C (by decide) (by decide)
    rw [h, Option.map_some', c]
    rfl
  · rw [i8085_rst_65_accept machine_irq rfl rfl]
    obtain ⟨s', h, c, -⟩ := push_pc_jump_low machine_irq 0x0034 (by decide) (by decide)
    rw [h, Option.map_some', c]
    rfl
  · rw [i8085_rst_75_accept machine_irq rfl rfl]
    obtain ⟨s', h, c, -⟩ := push_pc_jump_low machine_irq 0x003C (by decide) (by decide)
    rw [h, Option.map_some', c]
    rfl

/-- C12, amended. Whenever a maskable entry is accepted (called with `IE` set and its mask
bit clear), the call returns exactly when both stack bytes lie in ROM or RAM, and the
interrupt-mask register of the resulting machine is the one before the call: `IE` is still
set, so the handler starts with interrupts enabled. -/
theorem C12_accepted_entry_keeps_ie (e : maskable_entry_t) (s : machine_t)
    (h1 : s.cpu.mask.ie = true) (h2 : e.mask_bit s.cpu.mask = false) :
    ((∃ s', e.call s = some s') ↔
      in_rom_or_ram (u16i ((s.cpu.sp.val : Int) - 1)) ∧
      in_rom_or_ram (u16i ((s.cpu.sp.val : Int) - 2))) ∧
    (∀ s', e.call s = some s' →
      s'.cpu.mask = s.cpu.mask ∧ s'.cpu.mask.ie = true ∧ s'.cpu.pc = e.vector) := by
  have hacc := maskable_entry_accept e s h1 h2
  refine ⟨⟨fun ⟨s', h⟩ => ?_, fun ⟨a, b⟩ => ?_⟩, fun s' h => ?_⟩
  · rw [hacc] at h
    exact push_pc_jump_defined s s' _ h
  · obtain ⟨s', h, -⟩ := push_pc_jump_low s e.vector a b
    exact ⟨s', by rw [hacc]; exact h⟩
  · rw [hacc] at h
    obtain ⟨a, b⟩ := push_pc_jump_defined s s' _ h
    obtain ⟨s2, h2, c, -⟩ := push_pc_jump_low s e.vector a b
    rw [h] at h2
    cases h2
    rw [c]
    exact ⟨rfl, h1, rfl⟩

theorem C12_accepted_entry_keeps_ie_witness :
    machine_irq.cpu.mask.ie = true ∧
    maskable_entry_t.rst_55.mask_bit machine_irq.cpu.mask = false ∧
    in_rom_or_ram (u16i ((machine_irq.cpu.sp.val : Int) - 1)) ∧
    in_rom_or_ram (u16i ((machine_irq.cpu.sp.val : Int) - 2)) ∧
    ∃ s', maskable_entry_t.rst_55.call machine_irq = some s' :=
  ⟨rfl, rfl, by decide, by decide,
    (C12_accepted_entry_keeps_ie maskable_entry_t.rst_55 machine_irq rfl rfl).1.mpr
      ⟨by decide, by decide⟩⟩

/-! ### Reset -/

/-- C13. For every machine, `i8085_reset` yields `pc = 0x0000` and `sp = 0x20BE`, and it
changes neither the memory (ROM, RAM, expansion RAM, the 8279 behind the bus) nor the port
table nor the 8155. -/
theorem C13_reset_sets_pc_and_sp (s : machine_t) :
    (i8085_reset s.cpu).pc = 0x0000 ∧ (i8085_reset s.cpu).sp = 0x20BE ∧
    s.reset.cpu = i8085_reset s.cpu ∧
    s.reset.mem = s.mem ∧ s.reset.mem.rom = s.mem.rom ∧ s.reset.mem.ram = s.mem.ram ∧
    s.reset.io = s.io ∧ s.reset.i8155 = s.i8155 ∧
    s.reset.debugger_break = s.debugger_break ∧ s.reset.panic_msg = s.panic_msg :=
  ⟨rfl, rfl, rfl, rfl, rfl, rfl, rfl, rfl, rfl, rfl⟩

/-- C14, the claim as stated fails: after `i8085_reset` of a register file with `IE` set,
`IE` is still set, and two register files that differ in the interrupt-mask register still
differ in it after the reset. -/
theorem C14_counterexample :
    machine_irq.cpu.mask.ie = true ∧ (i8085_reset machine_irq.cpu).mask.ie = true ∧
    (i8085_reset machine_irq.cpu).mask.im = 0x08 ∧
    (i8085_reset machine_irq_off.cpu).mask.im = 0x00 := by
  decide

/-- C14, amended. `i8085_reset` does not touch the interrupt machinery: for every register
file the interrupt-mask register after the reset is the one before it, bit for bit and as
the byte `im` (a register file with `IE` set has `IE` set after the reset); the fixed values
after a reset are those of `pc` and `sp` only. -/
theorem C14_reset_keeps_interrupt_mask (cpu : i8085_t) :
    (i8085_reset cpu).mask = cpu.mask ∧ (i8085_reset cpu).mask.im = cpu.mask.im ∧
    ((i8085_reset cpu).mask.ie = true ↔ cpu.mask.ie = true) ∧
    (i8085_reset cpu).pc = 0x0000 ∧ (i8085_reset cpu).sp = 0x20BE :=
  ⟨rfl, rfl, Iff.rfl, rfl, rfl⟩

/-! ### Flags of the arithmetic and logic helpers -/

theorem and_0xF (x : Nat) : x &&& 0xF = x % 16 := Nat.and_pow_two_sub_one_eq_mod x 4

theorem and_0x80 (x : Nat) : x &&& 0x80 = 128 * (x / 128 % 2) := by
  have h := Nat.and_two_pow x 7
  rw [Nat.toNat_testBit] at h
  have e : (0x80 : Nat) = 2 ^ 7 := rfl
  rw [e, h]
  omega

/-- The step that executes `ADC A`. -/
theorem adc_a_step (s : machine_t) (m1 : mem_t) (hh : s.cpu.halt = false)
    (hf : mem_read s.mem s.cpu.pc = some (0x8F, m1)) :
    i8085_execute s = some
      { s with
        mem := m1
        cpu := i8085_adc
          { s.cpu with
            pc := u16 (s.cpu.pc.val + 1)
            cycles := u64 (s.cpu.cycles.val + 4) } s.cpu.a } := by
  rw [i8085_execute_fetch s 0x8F m1 hh hf]
  rfl

/-- C15. For every register file and operand `v`: `AC` after `ADD`/`ADC` is set exactly
when `(A & 0xF) + (v & 0xF)` (`+ CY` for `ADC`) exceeds 15, and `AC` after `SUB`/`SBB`/`CMP`
is set exactly when `(A & 0xF) - (v & 0xF)` (`- CY` for `SBB`) is negative. A non-halted
machine that fetches `ADC A` (`0x8F`) with `A = 0xFF` and `CY = 1` ends its step with
`A = 0xFF`, `CY = 1`, `S = 1`, `Z = 0`, `AC = 1` and 4 more cycles. -/
theorem C15_auxiliary_carry :
    (∀ (cpu : i8085_t) (v : uint8_t),
      ((i8085_add cpu v).flag.ac = true ↔ (cpu.a.val &&& 0xF) + (v.val &&& 0xF) > 15) ∧
      ((i8085_adc cpu v).flag.ac = true ↔
        (cpu.a.val &&& 0xF) + (v.val &&& 0xF) + b2n cpu.flag.cy > 15) ∧
      ((i8085_sub cpu v).flag.ac = true ↔
        ((cpu.a.val &&& 0xF : Nat) : Int) - ((v.val &&& 0xF : Nat) : Int) < 0) ∧
      ((i8085_sbb cpu v).flag.ac = true ↔
        ((cpu.a.val &&& 0xF : Nat) : Int) - ((v.val &&& 0xF : Nat) : Int)
          - (b2n cpu.flag.cy : Int) < 0) ∧
      ((i8085_cmp cpu v).flag.ac = true ↔
        ((cpu.a.val &&& 0xF : Nat) : Int) - ((v.val &&& 0xF : Nat) : Int) < 0)) ∧
    (opcode_function_at 0x8F = i8085_operation_func_t.op_adc_a ∧
      (opcode_cycles_at 0x8F).val = 4) ∧
    (∀ (s : machine_t) (m1 : mem_t), s.cpu.halt = false →
      mem_read s.mem s.cpu.pc = some (0x8F, m1) → s.cpu.a = 0xFF → s.cpu.flag.cy = true →
      ∃ s', i8085_execute s = some s' ∧ s'.cpu.a = 0xFF ∧ s'.cpu.flag.cy = true ∧
        s'.cpu.flag.s = true ∧ s'.cpu.flag.z = false ∧ s'.cpu.flag.ac = true ∧
        s'.cpu.cycles = u64 (s.cpu.cycles.val + 4)) := by
  refine ⟨fun cpu v => ?_, ⟨by decide, by decide⟩, fun s m1 hh hf ha hc => ?_⟩
  · have hb := b2n_le_one cpu.flag.cy
    simp only [i8085_add, i8085_adc, i8085_sub, i8085_sbb, i8085_cmp, bit1, and_0xF,
      Nat.shiftRight_eq_div_pow, decide_eq_true_eq]
    refine ⟨?_, ?_, ?_, ?_, ?_⟩ <;> omega
  · refine ⟨_, adc_a_step s m1 hh hf, ?_⟩
    simp only [i8085_adc, ha, hc]
    decide

theorem C15_auxiliary_carry_witness :
    machine_adc_a.cpu.halt = false ∧
    mem_read machine_adc_a.mem machine_adc_a.cpu.pc = some (0x8F, machine_adc_a.mem) ∧
    machine_adc_a.cpu.a = 0xFF ∧ machine_adc_a.cpu.flag.cy = true ∧
    ∃ s', i8085_execute machine_adc_a = some s' ∧ s'.cpu.a = 0xFF ∧ s'.cpu.flag.cy = true ∧
      s'.cpu.flag.s = true ∧ s'.cpu.flag.z = false ∧ s'.cpu.flag.ac = true ∧
      s'.cpu.cycles = u64 (machine_adc_a.cpu.cycles.val + 4) :=
  ⟨rfl, rfl, rfl, rfl, C15_auxiliary_carry.2.2 machine_adc_a machine_adc_a.mem rfl rfl rfl rfl⟩

theorem sign_bit_iff (x : uint8_t) : sign_bit x = true ↔ 128 ≤ x.val := by
  simp only [sign_bit, decide_eq_true_eq]

/-- C16, the claim as stated fails for the subtractions: with `A = 0x80` and `v = 0x01`
the operands differ in sign, yet `SUB`, `SBB` and `CMP` set `P`. -/
theorem C16_counterexample :
    sign_bit cpu_a80.a ≠ sign_bit 0x01 ∧
    (i8085_sub cpu_a80 0x01).flag.p = true ∧ (i8085_sbb cpu_a80 0x01).flag.p = true ∧
    (i8085_cmp cpu_a80 0x01).flag.p = true ∧
    ¬ ((i8085_sub cpu_a80 0x01).flag.p = true ↔
        (sign_bit cpu_a80.a = sign_bit 0x01 ∧
          sign_bit (i8085_sub cpu_a80 0x01).a ≠ sign_bit cpu_a80.a)) := by
  decide

/-- C16, amended. For every register file and operand `v`: after `ADD` and `ADC`, `P` is
set exactly when `A` and `v` have the same sign bit and the sign bit of the 8-bit result
differs from it; after `SUB`, `SBB` and `CMP`, `P` is set exactly when `A` and `v` have
different sign bits and the sign bit of the 8-bit result differs from that of `A`. -/
theorem C16_overflow_in_p (cpu : i8085_t) (v : uint8_t) :
    ((i8085_add cpu v).flag.p = true ↔
      (sign_bit cpu.a = sign_bit v ∧ sign_bit (i8085_add cpu v).a ≠ sign_bit cpu.a)) ∧
    ((i8085_adc cpu v).flag.p = true ↔
      (sign_bit cpu.a = sign_bit v ∧ sign_bit (i8085_adc cpu v).a ≠ sign_bit cpu.a)) ∧
    ((i8085_sub cpu v).flag.p = true ↔
      (sign_bit cpu.a ≠ sign_bit v ∧ sign_bit (i8085_sub cpu v).a ≠ sign_bit cpu.a)) ∧
    ((i8085_sbb cpu v).flag.p = true ↔
      (sign_bit cpu.a ≠ sign_bit v ∧ sign_bit (i8085_sbb cpu v).a ≠ sign_bit cpu.a)) ∧
    ((i8085_cmp cpu v).flag.p = true ↔
      (sign_bit cpu.a ≠ sign_bit v ∧
        sign_bit (u8i ((cpu.a.val : Int) - (v.val : Int))) ≠ sign_bit cpu.a)) := by
  have ha := cpu.a.isLt
  have hv := v.isLt
  have hb := b2n_le_one cpu.flag.cy
  simp only [i8085_add, i8085_adc, i8085_sub, i8085_sbb, i8085_cmp, u8, u8i, u16, u16i,
    and_0x80, sign_bit, Bool.and_eq_true, beq_iff_eq, bne_iff_ne, ne_eq, decide_eq_decide]
  refine ⟨?_, ?_, ?_, ?_, ?_⟩ <;> omega

set_option maxRecDepth 8192 in
/-- The function `parity_even` returns 1 exactly for a byte with an even number of 1 bits. -/
theorem parity_even_iff : ∀ x : uint8_t, parity_even x = true ↔ count_ones x % 2 = 0 := by
  decide

/-- C17. For every register file and operand `v`, after `ANA`, `ORA`, `XRA` the
accumulator is the bitwise AND, OR, XOR of `A` and `v`, `Z` is set iff the result is 0, `S`
is bit 7 of the result, `P` is set iff the result has an even number of 1 bits, `CY` is 0,
and `AC` is 1 after `ANA` and 0 after `ORA` and `XRA`. -/
theorem C17_logical_operations (cpu : i8085_t) (v : uint8_t) :
    ((i8085_ana cpu v).a.val = cpu.a.val &&& v.val ∧
      ((i8085_ana cpu v).flag.z = true ↔ (i8085_ana cpu v).a = 0) ∧
      (i8085_ana cpu v).flag.s = sign_bit (i8085_ana cpu v).a ∧
      ((i8085_ana cpu v).flag.p = true ↔ count_ones (i8085_ana cpu v).a % 2 = 0) ∧
      (i8085_ana cpu v).flag.cy = false ∧ (i8085_ana cpu v).flag.ac = true) ∧
    ((i8085_ora cpu v).a.val = cpu.a.val ||| v.val ∧
      ((i8085_ora cpu v).flag.z = true ↔ (i8085_ora cpu v).a = 0) ∧
      (i8085_ora cpu v).flag.s = sign_bit (i8085_ora cpu v).a ∧
      ((i8085_ora cpu v).flag.p = true ↔ count_ones (i8085_ora cpu v).a % 2 = 0) ∧
      (i8085_ora cpu v).flag.cy = false ∧ (i8085_ora cpu v).flag.ac = false) ∧
    ((i8085_xra cpu v).a.val = cpu.a.val ^^^ v.val ∧
      ((i8085_xra cpu v).flag.z = true ↔ (i8085_xra cpu v).a = 0) ∧
      (i8085_xra cpu v).flag.s = sign_bit (i8085_xra cpu v).a ∧
      ((i8085_xra cpu v).flag.p = true ↔ count_ones (i8085_xra cpu v).a % 2 = 0) ∧
      (i8085_xra cpu v).flag.cy = false ∧ (i8085_xra cpu v).flag.ac = false) := by
  have ha := cpu.a.isLt
  have hv := v.isLt
  have h1 : cpu.a.val &&& v.val < 256 := Nat.lt_of_le_of_lt Nat.and_le_left ha
  have h2 : cpu.a.val ||| v.val < 256 := Nat.or_lt_two_pow (n := 8) ha hv
  have h3 : cpu.a.val ^^^ v.val < 256 := Nat.xor_lt_two_pow (n := 8) ha hv
  have hs : ∀ x : uint8_t, bit1 ((x.val >>> 7 : Nat) : Int) = sign_bit x := by
    intro x
    have := x.isLt
    simp only [bit1, sign_bit, Nat.shiftRight_eq_div_pow, decide_eq_decide]
    omega
  have hz : ∀ x : uint8_t, (x.val == 0) = true ↔ x = 0 := by
    intro x
    rw [beq_iff_eq]
    exact ⟨fun h => Fin.ext h, fun h => by rw [h]; rfl⟩
  refine ⟨⟨?_, hz _, hs _, parity_even_iff _, rfl, rfl⟩, ⟨?_, hz _, hs _, parity_even_iff _, rfl, rfl⟩,
    ⟨?_, hz _, hs _, parity_even_iff _, rfl, rfl⟩⟩
  · show (cpu.a.val &&& v.val) % 256 = _
    exact Nat.mod_eq_of_lt h1
  · show (cpu.a.val ||| v.val) % 256 = _
    exact Nat.mod_eq_of_lt h2
  · show (cpu.a.val ^^^ v.val) % 256 = _
    exact Nat.mod_eq_of_lt h3

/-! ### `INR` and `DCR` -/

theorem u8i_val (z : Int) : ((u8i z).val : Int) = z % 256 := by
  simp only [u8i]
  omega

theorem hl_address (cpu : i8085_t) :
    u16 ((u16 cpu.l.val).val + cpu.h.val * 0x100) = cpu.hl := by
  have h1 := cpu.l.isLt
  have h2 := cpu.h.isLt
  apply Fin.ext
  simp only [u16, i8085_t.hl]
  omega

/-- The handler `op_inr_m` with `HL` in RAM: the byte at `HL` goes through `i8085_inr` and
the result is stored back. -/
theorem op_inr_m_ram (s : machine_t) (h : in_ram s.cpu.hl) :
    op_inr_m s = some
      { s with
        cpu := (i8085_inr s.cpu (s.mem.ram (ram_index s.cpu.hl))).2
        mem := { s.mem with
                 ram := fun i =>
                   if i = ram_index s.cpu.hl then
                     (i8085_inr s.cpu (s.mem.ram (ram_index s.cpu.hl))).1
                   else s.mem.ram i } } := by
  unfold op_inr_m
  simp only [hl_address, machine_t.read, machine_t.write, mem_read_ram _ _ h,
    mem_write_ram _ _ _ h, bind, Option.bind, pure]

/-- The handler `op_dcr_m` with `HL` in RAM: the byte at `HL` goes through `i8085_dcr` and
the result is stored back. -/
theorem op_dcr_m_ram (s : machine_t) (h : in_ram s.cpu.hl) :
    op_dcr_m s = some
      { s with
        cpu := (i8085_dcr s.cpu (s.mem.ram (ram_index s.cpu.hl))).2
        mem := { s.mem with
                 ram := fun i =>
                   if i = ram_index s.cpu.hl then
                     (i8085_dcr s.cpu (s.mem.ram (ram_index s.cpu.hl))).1
                   else s.mem.ram i } } := by
  unfold op_dcr_m
  simp only [hl_address, machine_t.read, machine_t.write, mem_read_ram _ _ h,
    mem_write_ram _ _ _ h, bind, Option.bind, pure]

/-- C18. For every register file and every prior value `x` of the target: `INR` yields
`(x+1) mod 256` and `DCR` yields `(x-1) mod 256`; `Z` and `S` are those of the result; `AC`
is set iff the low nibble carried (`INR`: `x & 0xF = 0xF`, `DCR`: `x & 0xF = 0`); `P` is set
iff `x = 0x7F` for `INR` and iff `x = 0x80` for `DCR`; `CY` and every register are left as
they were. Each `INR r`/`DCR r` handler stores that result in its register, and `INR M`/
`DCR M` with `HL` in RAM store it in the RAM byte at `HL`. -/
theorem C18_inr_dcr (s : machine_t) (x : uint8_t) :
    (((i8085_inr s.cpu x).1.val = (x.val + 1) % 256 ∧
      ((i8085_inr s.cpu x).2.flag.z = true ↔ (i8085_inr s.cpu x).1 = 0) ∧
      (i8085_inr s.cpu x).2.flag.s = sign_bit (i8085_inr s.cpu x).1 ∧
      ((i8085_inr s.cpu x).2.flag.ac = true ↔ x.val &&& 0xF = 0xF) ∧
      ((i8085_inr s.cpu x).2.flag.p = true ↔ x = 0x7F) ∧
      (i8085_inr s.cpu x).2.flag.cy = s.cpu.flag.cy ∧
      (i8085_inr s.cpu x).2 = { s.cpu with flag := (i8085_inr s.cpu x).2.flag }) ∧
     (((i8085_dcr s.cpu x).1.val : Int) = ((x.val : Int) - 1) % 256 ∧
      ((i8085_dcr s.cpu x).2.flag.z = true ↔ (i8085_dcr s.cpu x).1 = 0) ∧
      (i8085_dcr s.cpu x).2.flag.s = sign_bit (i8085_dcr s.cpu x).1 ∧
      ((i8085_dcr s.cpu x).2.flag.ac = true ↔ x.val &&& 0xF = 0) ∧
      ((i8085_dcr s.cpu x).2.flag.p = true ↔ x = 0x80) ∧
      (i8085_dcr s.cpu x).2.flag.cy = s.cpu.flag.cy ∧
      (i8085_dcr s.cpu x).2 = { s.cpu with flag := (i8085_dcr s.cpu x).2.flag })) ∧
    (op_inr_a s = some
       { s with cpu := { (i8085_inr s.cpu s.cpu.a).2 with a := (i8085_inr s.cpu s.cpu.a).1 } } ∧
     op_inr_b s = some
       { s with cpu := { (i8085_inr s.cpu s.cpu.b).2 with b := (i8085_inr s.cpu s.cpu.b).1 } } ∧
     op_inr_c s = some
       { s with cpu := { (i8085_inr s.cpu s.cpu.c).2 with c := (i8085_inr s.cpu s.cpu.c).1 } } ∧
     op_inr_d s = some
       { s with cpu := { (i8085_inr s.cpu s.cpu.d).2 with d := (i8085_inr s.cpu s.cpu.d).1 } } ∧
     op_inr_e s = some
       { s with cpu := { (i8085_inr s.cpu s.cpu.e).2 with e := (i8085_inr s.cpu s.cpu.e).1 } } ∧
     op_inr_h s = some
       { s with cpu := { (i8085_inr s.cpu s.cpu.h).2 with h := (i8085_inr s.cpu s.cpu.h).1 } } ∧
     op_inr_l s = some
       { s with cpu := { (i8085_inr s.cpu s.cpu.l).2 with l := (i8085_inr s.cpu s.cpu.l).1 } }) ∧
    (op_dcr_a s = some
       { s with cpu := { (i8085_dcr s.cpu s.cpu.a).2 with a := (i8085_dcr s.cpu s.cpu.a).1 } } ∧
     op_dcr_b s = some
       { s with cpu := { (i8085_dcr s.cpu s.cpu.b).2 with b := (i8085_dcr s.cpu s.cpu.b).1 } } ∧
     op_dcr_c s = some
       { s with cpu := { (i8085_dcr s.cpu s.cpu.c).2 with c := (i8085_dcr s.cpu s.cpu.c).1 } } ∧
     op_dcr_d s = some
       { s with cpu := { (i8085_dcr s.cpu s.cpu.d).2 with d := (i8085_dcr s.cpu s.cpu.d).1 } } ∧
     op_dcr_e s = some
       { s with cpu := { (i8085_dcr s.cpu s.cpu.e).2 with e := (i8085_dcr s.cpu s.cpu.e).1 } } ∧
     op_dcr_h s = some
       { s with cpu := { (i8085_dcr s.cpu s.cpu.h).2 with h := (i8085_dcr s.cpu s.cpu.h).1 } } ∧
     op_dcr_l s = some
       { s with cpu := { (i8085_dcr s.cpu s.cpu.l).2 with l := (i8085_dcr s.cpu s.cpu.l).1 } }) ∧
    (in_ram s.cpu.hl →
      op_inr_m s = some
        { s with
          cpu := (i8085_inr s.cpu (s.mem.ram (ram_index s.cpu.hl))).2
          mem := { s.mem with
                   ram := fun i =>
                     if i = ram_index s.cpu.hl then
                       (i8085_inr s.cpu (s.mem.ram (ram_index s.cpu.hl))).1
                     else s.mem.ram i } } ∧
      op_dcr_m s = some
        { s with
          cpu := (i8085_dcr s.cpu (s.mem.ram (ram_index s.cpu.hl))).2
          mem := { s.mem with
                   ram := fun i =>
                     if i = ram_index s.cpu.hl then
                       (i8085_dcr s.cpu (s.mem.ram (ram_index s.cpu.hl))).1
                     else s.mem.ram i } }) := by
  have hx := x.isLt
  have hs : ∀ y : uint8_t, bit1 ((y.val >>> 7 : Nat) : Int) = sign_bit y := by
    intro y
    have := y.isLt
    simp only [bit1, sign_bit, Nat.shiftRight_eq_div_pow, decide_eq_decide]
    omega
  have hz : ∀ y : uint8_t, (y.val == 0) = true ↔ y = 0 := by
    intro y
    rw [beq_iff_eq]
    exact ⟨fun h => Fin.ext h, fun h => by rw [h]; rfl⟩
  have h7F : x = 0x7F ↔ x.val = 0x7F := ⟨fun h => by rw [h]; rfl, fun h => Fin.ext h⟩
  have h80 : x = 0x80 ↔ x.val = 0x80 := ⟨fun h => by rw [h]; rfl, fun h => Fin.ext h⟩
  refine ⟨⟨⟨rfl, hz _, hs _, ?_, ?_, rfl, rfl⟩, ⟨?_, hz _, hs _, ?_, ?_, rfl, rfl⟩⟩,
    ⟨rfl, rfl, rfl, rfl, rfl, rfl, rfl⟩, ⟨rfl, rfl, rfl, rfl, rfl, rfl, rfl⟩,
    fun h => ⟨op_inr_m_ram s h, op_dcr_m_ram s h⟩⟩
  · simp only [i8085_inr, u8, and_0xF, beq_iff_eq]
    omega
  · rw [h7F]
    simp only [i8085_inr, u8, beq_iff_eq]
    omega
  · simp only [i8085_dcr]
    exact u8i_val _
  · simp only [i8085_dcr, u8i, and_0xF, beq_iff_eq]
    omega
  · rw [h80]
    simp only [i8085_dcr, u8i, beq_iff_eq]
    omega

theorem C18_inr_dcr_witness :
    in_ram machine_hl_ram.cpu.hl ∧
    op_inr_m machine_hl_ram = some
      { machine_hl_ram with
        cpu := (i8085_inr machine_hl_ram.cpu
          (machine_hl_ram.mem.ram (ram_index machine_hl_ram.cpu.hl))).2
        mem := { machine_hl_ram.mem with
                 ram := fun i =>
                   if i = ram_index machine_hl_ram.cpu.hl then
                     (i8085_inr machine_hl_ram.cpu
                       (machine_hl_ram.mem.ram (ram_index machine_hl_ram.cpu.hl))).1
                   else machine_hl_ram.mem.ram i } } :=
  ⟨by decide, ((C18_inr_dcr machine_hl_ram 0).2.2.2 (by decide)).1⟩

/-! ### Decimal adjust -/

theorem bit1_shift7 (x : uint8_t) : bit1 ((x.val >>> 7 : Nat) : Int) = sign_bit x := by
  have := x.isLt
  simp only [bit1, sign_bit, Nat.shiftRight_eq_div_pow, decide_eq_decide]
  omega

theorem parity_even_eq (x : uint8_t) : parity_even x = decide (count_ones x % 2 = 0) := by
  rw [Bool.eq_iff_iff, decide_eq_true_eq]
  exact parity_even_iff x

theorem val_beq_zero (x : uint8_t) : (x.val == 0) = decide (x = 0) := by
  rw [Bool.eq_iff_iff, decide_eq_true_eq, beq_iff_eq]
  exact ⟨fun h => Fin.ext h, fun h => by rw [h]; rfl⟩

/-- The handler `op_daa` computes the adjustment of the specification. -/
theorem op_daa_eq (s : machine_t) : op_daa s = some { s with cpu := daa_spec s.cpu } := by
  have ha := s.cpu.a.isLt
  have ht : (s.cpu.a.val >>> 4) &&& 0x0F = s.cpu.a.val >>> 4 := by
    rw [and_0xF, Nat.shiftRight_eq_div_pow]
    omega
  unfold op_daa daa_spec
  simp only [ht, bind, pure, bit1_shift7, parity_even_eq, val_beq_zero]
  by_cases c1 : (s.cpu.a.val &&& 0x0F) > 9 <;> cases c2 : s.cpu.flag.ac <;>
    by_cases c3 : (s.cpu.a.val >>> 4) > 9 <;> cases c4 : s.cpu.flag.cy <;>
    simp [c1, c2, c3, c4]

/-- C19. For every machine, `DAA` computes the adjustment of the specification: with
`t = A`, if `(A & 0xF) > 9` or `AC = 1` then `A := A + 0x06 mod 256` and `AC := 1`; then if
`(t >> 4) > 9` or `CY = 1` then `A := A + 0x60 mod 256` and `CY := 1`; `Z`, `S` and
even-parity `P` are those of the resulting `A`; `AC` and `CY` are never cleared; nothing
else changes. -/
theorem C19_daa (s : machine_t) :
    opcode_function_at 0x27 = i8085_operation_func_t.op_daa ∧
    op_daa s = some { s with cpu := daa_spec s.cpu } ∧
    ((daa_spec s.cpu).a.val =
      (s.cpu.a.val
        + (if (s.cpu.a.val &&& 0xF) > 9 ∨ s.cpu.flag.ac = true then 0x06 else 0)
        + (if (s.cpu.a.val >>> 4) > 9 ∨ s.cpu.flag.cy = true then 0x60 else 0)) % 256) ∧
    ((daa_spec s.cpu).flag.ac = true ↔ ((s.cpu.a.val &&& 0xF) > 9 ∨ s.cpu.flag.ac = true)) ∧
    ((daa_spec s.cpu).flag.cy = true ↔ ((s.cpu.a.val >>> 4) > 9 ∨ s.cpu.flag.cy = true)) ∧
    (s.cpu.flag.ac = true → (daa_spec s.cpu).flag.ac = true) ∧
    (s.cpu.flag.cy = true → (daa_spec s.cpu).flag.cy = true) ∧
    ((daa_spec s.cpu).flag.z = true ↔ (daa_spec s.cpu).a = 0) ∧
    (daa_spec s.cpu).flag.s = sign_bit (daa_spec s.cpu).a ∧
    ((daa_spec s.cpu).flag.p = true ↔ count_ones (daa_spec s.cpu).a % 2 = 0) ∧
    daa_spec s.cpu =
      { s.cpu with
        a := (daa_spec s.cpu).a
        flag := { s.cpu.flag with
                  ac := (daa_spec s.cpu).flag.ac, cy := (daa_spec s.cpu).flag.cy,
                  z := (daa_spec s.cpu).flag.z, s := (daa_spec s.cpu).flag.s,
                  p := (daa_spec s.cpu).flag.p } } := by
  have ha := s.cpu.a.isLt
  refine ⟨by decide, op_daa_eq s, ?_, ?_, ?_, ?_, ?_, ?_, rfl, ?_, rfl⟩
  · simp only [daa_spec, Bool.or_eq_true, decide_eq_true_eq]
    split_ifs <;> (try simp only [u8]) <;> omega
  · simp only [daa_spec, Bool.or_eq_true, decide_eq_true_eq]
    by_cases c1 : (s.cpu.a.val &&& 0xF) > 9 <;> cases c2 : s.cpu.flag.ac <;> simp [c1]
  · simp only [daa_spec, Bool.or_eq_true, decide_eq_true_eq]
    by_cases c1 : (s.cpu.a.val >>> 4) > 9 <;> cases c2 : s.cpu.flag.cy <;> simp [c1]
  · intro h
    simp only [daa_spec, h, Bool.or_true, if_true]
  · intro h
    simp only [daa_spec, h, Bool.or_true, if_true]
  · simp only [daa_spec, decide_eq_true_eq]
  · simp only [daa_spec, decide_eq_true_eq]

theorem C19_daa_witness :
    machine_daa_flags.cpu.flag.ac = true ∧ machine_daa_flags.cpu.flag.cy = true ∧
    (daa_spec machine_daa_flags.cpu).flag.ac = true ∧
    (daa_spec machine_daa_flags.cpu).flag.cy = true :=
  ⟨rfl, rfl, (C19_daa machine_daa_flags).2.2.2.2.2.1 rfl,
    (C19_daa machine_daa_flags).2.2.2.2.2.2.1 rfl⟩

/-- The step that executes `DAA`. -/
theorem daa_step (s : machine_t) (m1 : mem_t) (hh : s.cpu.halt = false)
    (hf : mem_read s.mem s.cpu.pc = some (0x27, m1)) :
    i8085_execute s = some
      { s with
        mem := m1
        cpu := daa_spec
          { s.cpu with
            pc := u16 (s.cpu.pc.val + 1)
            cycles := u64 (s.cpu.cycles.val + (opcode_cycles_at 0x27).val) } } := by
  rw [i8085_execute_fetch s 0x27 m1 hh hf]
  exact op_daa_eq _

/-- C20. What the code does at the input of the claim: a non-halted machine that fetches
`DAA` (`0x27`) with `A = 0x9B`, `CY = 0`, `AC = 0` ends its step with `A = 0xA1`, `CY = 0`,
`AC = 1`, `Z = 0`, `S = 1`; the claimed `A = 0x01`, `CY = 1`, `S = 0` are not reached. -/
theorem C20_daa_of_0x9B (s : machine_t) (m1 : mem_t) (hh : s.cpu.halt = false)
    (hf : mem_read s.mem s.cpu.pc = some (0x27, m1)) (ha : s.cpu.a = 0x9B)
    (hc : s.cpu.flag.cy = false) (hac : s.cpu.flag.ac = false) :
    ∃ s', i8085_execute s = some s' ∧ s'.cpu.a = 0xA1 ∧ s'.cpu.flag.cy = false ∧
      s'.cpu.flag.ac = true ∧ s'.cpu.flag.z = false ∧ s'.cpu.flag.s = true := by
  refine ⟨_, daa_step s m1 hh hf, ?_⟩
  simp only [daa_spec, ha, hc, hac]
  decide

theorem C20_daa_of_0x9B_witness :
    machine_daa.cpu.halt = false ∧
    mem_read machine_daa.mem machine_daa.cpu.pc = some (0x27, machine_daa.mem) ∧
    machine_daa.cpu.a = 0x9B ∧ machine_daa.cpu.flag.cy = false ∧
    machine_daa.cpu.flag.ac = false ∧
    ∃ s', i8085_execute machine_daa = some s' ∧ s'.cpu.a = 0xA1 ∧ s'.cpu.flag.cy = false ∧
      s'.cpu.flag.ac = true ∧ s'.cpu.flag.z = false ∧ s'.cpu.flag.s = true :=
  ⟨rfl, rfl, rfl, rfl, rfl, C20_daa_of_0x9B machine_daa machine_daa.mem rfl rfl rfl rfl rfl⟩

/-! ### Rotates -/

theorem or_one_lt (x : Nat) (h : x < 256) : x ||| 0x01 < 256 :=
  Nat.or_lt_two_pow (n := 8) h (by decide)

theorem or_0x80_lt (x : Nat) (h : x < 256) : x ||| 0x80 < 256 :=
  Nat.or_lt_two_pow (n := 8) h (by decide)

/-- C21. For every machine: `RLC` sets `CY` to bit 7 of `A` and `A` to
`((A<<1) mod 256) | new CY`; `RRC` sets `CY` to bit 0 of `A` and `A` to
`(A>>1) | (new CY<<7)`; `RAL` sets `A` to `((A<<1) mod 256) | old CY` and `CY` to the old
bit 7; `RAR` sets `A` to `(A>>1) | (old CY<<7)` and `CY` to the old bit 0; each of the
four changes `A` and `CY` only (`Z`, `S`, `P`, `AC` are as before). -/
theorem C21_rotates (s : machine_t) :
    (∃ s', op_rlc s = some s' ∧
      s'.cpu.flag.cy = sign_bit s.cpu.a ∧
      s'.cpu.a.val = ((s.cpu.a.val <<< 1) % 256) ||| b2n (sign_bit s.cpu.a) ∧
      s'.cpu.flag.z = s.cpu.flag.z ∧ s'.cpu.flag.s = s.cpu.flag.s ∧
      s'.cpu.flag.p = s.cpu.flag.p ∧ s'.cpu.flag.ac = s.cpu.flag.ac ∧
      s' = { s with cpu := { s.cpu with
                             a := s'.cpu.a
                             flag := { s.cpu.flag with cy := s'.cpu.flag.cy } } }) ∧
    (∃ s', op_rrc s = some s' ∧
      s'.cpu.flag.cy = decide (s.cpu.a.val % 2 = 1) ∧
      s'.cpu.a.val = (s.cpu.a.val >>> 1) ||| (b2n (decide (s.cpu.a.val % 2 = 1)) <<< 7) ∧
      s'.cpu.flag.z = s.cpu.flag.z ∧ s'.cpu.flag.s = s.cpu.flag.s ∧
      s'.cpu.flag.p = s.cpu.flag.p ∧ s'.cpu.flag.ac = s.cpu.flag.ac ∧
      s' = { s with cpu := { s.cpu with
                             a := s'.cpu.a
                             flag := { s.cpu.flag with cy := s'.cpu.flag.cy } } }) ∧
    (∃ s', op_ral s = some s' ∧
      s'.cpu.flag.cy = sign_bit s.cpu.a ∧
      s'.cpu.a.val = ((s.cpu.a.val <<< 1) % 256) ||| b2n s.cpu.flag.cy ∧
      s'.cpu.flag.z = s.cpu.flag.z ∧ s'.cpu.flag.s = s.cpu.flag.s ∧
      s'.cpu.flag.p = s.cpu.flag.p ∧ s'.cpu.flag.ac = s.cpu.flag.ac ∧
      s' = { s with cpu := { s.cpu with
                             a := s'.cpu.a
                             flag := { s.cpu.flag with cy := s'.cpu.flag.cy } } }) ∧
    (∃ s', op_rar s = some s' ∧
      s'.cpu.flag.cy = decide (s.cpu.a.val % 2 = 1) ∧
      s'.cpu.a.val = (s.cpu.a.val >>> 1) ||| (b2n s.cpu.flag.cy <<< 7) ∧
      s'.cpu.flag.z = s.cpu.flag.z ∧ s'.cpu.flag.s = s.cpu.flag.s ∧
      s'.cpu.flag.p = s.cpu.flag.p ∧ s'.cpu.flag.ac = s.cpu.flag.ac ∧
      s' = { s with cpu := { s.cpu with
                             a := s'.cpu.a
                             flag := { s.cpu.flag with cy := s'.cpu.flag.cy } } }) := by
  have ha := s.cpu.a.isLt
  have h1 : (s.cpu.a.val <<< 1) % 256 < 256 := Nat.mod_lt _ (by decide)
  have h2 : s.cpu.a.val >>> 1 < 256 := by
    rw [Nat.shiftRight_eq_div_pow]
    omega
  have hb0 : bit1 ((s.cpu.a.val &&& 1 : Nat) : Int) = decide (s.cpu.a.val % 2 = 1) := by
    have e : s.cpu.a.val &&& 1 = s.cpu.a.val % 2 := Nat.and_pow_two_sub_one_eq_mod _ 1
    simp only [bit1, e, decide_eq_decide]
    omega
  refine ⟨?_, ?_, ?_, ?_⟩
  · unfold op_rlc
    simp only [bit1_shift7, bind, pure]
    cases hc : sign_bit s.cpu.a
    · refine ⟨_, rfl, rfl, ?_, rfl, rfl, rfl, rfl, rfl⟩
      show (s.cpu.a.val <<< 1) % 256 = _
      simp only [hc, b2n, Bool.false_eq_true, if_false, Nat.or_zero]
    · refine ⟨_, rfl, rfl, ?_, rfl, rfl, rfl, rfl, rfl⟩
      show ((s.cpu.a.val <<< 1) % 256 ||| 0x01) % 256 = _
      simp only [hc, b2n, if_true]
      exact Nat.mod_eq_of_lt (or_one_lt _ h1)
  · unfold op_rrc
    simp only [hb0, bind, pure]
    cases hc : decide (s.cpu.a.val % 2 = 1)
    · refine ⟨_, rfl, rfl, ?_, rfl, rfl, rfl, rfl, rfl⟩
      show (s.cpu.a.val >>> 1) % 256 = _
      simp only [hc, b2n, Bool.false_eq_true, if_false, Nat.zero_shiftLeft, Nat.or_zero]
      exact Nat.mod_eq_of_lt h2
    · refine ⟨_, rfl, rfl, ?_, rfl, rfl, rfl, rfl, rfl⟩
      show ((s.cpu.a.val >>> 1) % 256 ||| 0x80) % 256 = _
      simp only [hc, b2n, if_true]
      rw [Nat.mod_eq_of_lt (or_0x80_lt _ (Nat.mod_lt _ (by decide))), Nat.mod_eq_of_lt h2]
      rfl
  · unfold op_ral
    simp only [bit1_shift7, bind, pure]
    cases hc : s.cpu.flag.cy
    · refine ⟨_, rfl, rfl, ?_, rfl, rfl, rfl, rfl, rfl⟩
      show (s.cpu.a.val <<< 1) % 256 = _
      simp only [hc, b2n, Bool.false_eq_true, if_false, Nat.or_zero]
    · refine ⟨_, rfl, rfl, ?_, rfl, rfl, rfl, rfl, rfl⟩
      show ((s.cpu.a.val <<< 1) % 256 ||| 0x01) % 256 = _
      simp only [hc, b2n, if_true]
      exact Nat.mod_eq_of_lt (or_one_lt _ h1)
  · unfold op_rar
    simp only [hb0, bind, pure]
    cases hc : s.cpu.flag.cy
    · refine ⟨_, rfl, rfl, ?_, rfl, rfl, rfl, rfl, rfl⟩
      show (s.cpu.a.val >>> 1) % 256 = _
      simp only [hc, b2n, Bool.false_eq_true, if_false, Nat.zero_shiftLeft, Nat.or_zero]
      exact Nat.mod_eq_of_lt h2
    · refine ⟨_, rfl, rfl, ?_, rfl, rfl, rfl, rfl, rfl⟩
      show ((s.cpu.a.val >>> 1) % 256 ||| 0x80) % 256 = _
      simp only [hc, b2n, if_true]
      rw [Nat.mod_eq_of_lt (or_0x80_lt _ (Nat.mod_lt _ (by decide))), Nat.mod_eq_of_lt h2]
      rfl

/-! ### `DAD` -/

theorem hl_set_hl (cpu : i8085_t) (v : uint16_t) : (cpu.set_hl v).hl = v := by
  have := v.isLt
  apply Fin.ext
  simp only [i8085_t.set_hl, i8085_t.hl, u8, u16]
  omega

theorem dad_carry (x y : uint16_t) :
    bit1 (((x.val + y.val) >>> 16 : Nat) : Int) = true ↔ x.val + y.val ≥ 65536 := by
  have := x.isLt
  have := y.isLt
  simp only [bit1, Nat.shiftRight_eq_div_pow, decide_eq_true_eq]
  omega

/-- C22. For every machine and every `rp` of `BC`, `DE`, `HL`, `SP`: after `DAD rp` the
pair `HL` is `(HL + rp) mod 2^16`, `CY` is set exactly when `HL + rp >= 2^16`, and `Z`, `S`,
`P`, `AC`, `A`, `BC`, `DE` and `SP` are as before (for `DAD H` the added value is the old
`HL`). -/
theorem C22_dad (s : machine_t) :
    (∃ s', op_dad_b s = some s' ∧
      s'.cpu.hl = u16 (s.cpu.hl.val + s.cpu.bc.val) ∧
      (s'.cpu.flag.cy = true ↔ s.cpu.hl.val + s.cpu.bc.val ≥ 65536) ∧
      s'.cpu.flag.z = s.cpu.flag.z ∧ s'.cpu.flag.s = s.cpu.flag.s ∧
      s'.cpu.flag.p = s.cpu.flag.p ∧ s'.cpu.flag.ac = s.cpu.flag.ac ∧
      s'.cpu.a = s.cpu.a ∧ s'.cpu.bc = s.cpu.bc ∧ s'.cpu.de = s.cpu.de ∧
      s'.cpu.sp = s.cpu.sp ∧ s'.cpu.pc = s.cpu.pc ∧ s'.mem = s.mem) ∧
    (∃ s', op_dad_d s = some s' ∧
      s'.cpu.hl = u16 (s.cpu.hl.val + s.cpu.de.val) ∧
      (s'.cpu.flag.cy = true ↔ s.cpu.hl.val + s.cpu.de.val ≥ 65536) ∧
      s'.cpu.flag.z = s.cpu.flag.z ∧ s'.cpu.flag.s = s.cpu.flag.s ∧
      s'.cpu.flag.p = s.cpu.flag.p ∧ s'.cpu.flag.ac = s.cpu.flag.ac ∧
      s'.cpu.a = s.cpu.a ∧ s'.cpu.bc = s.cpu.bc ∧ s'.cpu.de = s.cpu.de ∧
      s'.cpu.sp = s.cpu.sp ∧ s'.cpu.pc = s.cpu.pc ∧ s'.mem = s.mem) ∧
    (∃ s', op_dad_h s = some s' ∧
      s'.cpu.hl = u16 (s.cpu.hl.val + s.cpu.hl.val) ∧
      (s'.cpu.flag.cy = true ↔ s.cpu.hl.val + s.cpu.hl.val ≥ 65536) ∧
      s'.cpu.flag.z = s.cpu.flag.z ∧ s'.cpu.flag.s = s.cpu.flag.s ∧
      s'.cpu.flag.p = s.cpu.flag.p ∧ s'.cpu.flag.ac = s.cpu.flag.ac ∧
      s'.cpu.a = s.cpu.a ∧ s'.cpu.bc = s.cpu.bc ∧ s'.cpu.de = s.cpu.de ∧
      s'.cpu.sp = s.cpu.sp ∧ s'.cpu.pc = s.cpu.pc ∧ s'.mem = s.mem) ∧
    (∃ s', op_dad_sp s = some s' ∧
      s'.cpu.hl = u16 (s.cpu.hl.val + s.cpu.sp.val) ∧
      (s'.cpu.flag.cy = true ↔ s.cpu.hl.val + s.cpu.sp.val ≥ 65536) ∧
      s'.cpu.flag.z = s.cpu.flag.z ∧ s'.cpu.flag.s = s.cpu.flag.s ∧
      s'.cpu.flag.p = s.cpu.flag.p ∧ s'.cpu.flag.ac = s.cpu.flag.ac ∧
      s'.cpu.a = s.cpu.a ∧ s'.cpu.bc = s.cpu.bc ∧ s'.cpu.de = s.cpu.de ∧
      s'.cpu.sp = s.cpu.sp ∧ s'.cpu.pc = s.cpu.pc ∧ s'.mem = s.mem) :=
  ⟨⟨_, rfl, hl_set_hl _ _, dad_carry _ _, rfl, rfl, rfl, rfl, rfl, rfl, rfl, rfl, rfl, rfl⟩,
    ⟨_, rfl, hl_set_hl _ _, dad_carry _ _, rfl, rfl, rfl, rfl, rfl, rfl, rfl, rfl, rfl, rfl⟩,
    ⟨_, rfl, hl_set_hl _ _, dad_carry _ _, rfl, rfl, rfl, rfl, rfl, rfl, rfl, rfl, rfl, rfl⟩,
    ⟨_, rfl, hl_set_hl _ _, dad_carry _ _, rfl, rfl, rfl, rfl, rfl, rfl, rfl, rfl, rfl, rfl⟩⟩

/-! ### `PUSH PSW`, `POP PSW`, `SIM`, `RIM` -/

/-- The bit positions of the flags in the byte view `f`. -/
theorem flag_f_bits (x : flag_t) :
    x.f.val % 2 = b2n x.cy ∧ x.f.val / 2 % 2 = b2n x.x1 ∧ x.f.val / 4 % 2 = b2n x.p ∧
    x.f.val / 8 % 2 = b2n x.x2 ∧ x.f.val / 16 % 2 = b2n x.ac ∧ x.f.val / 32 % 2 = b2n x.x3 ∧
    x.f.val / 64 % 2 = b2n x.z ∧ x.f.val / 128 % 2 = b2n x.s := by
  rcases x with ⟨cy, x1, p, x2, ac, x3, z, s⟩
  cases cy <;> cases x1 <;> cases p <;> cases x2 <;> cases ac <;> cases x3 <;> cases z <;>
    cases s <;> decide

/-- The bit positions of the fields in the byte view `im`. -/
theorem mask_im_bits (x : mask_t) :
    x.im.val % 2 = b2n x.m55 ∧ x.im.val / 2 % 2 = b2n x.m65 ∧ x.im.val / 4 % 2 = b2n x.m75 ∧
    x.im.val / 8 % 2 = b2n x.ie ∧ x.im.val / 16 % 2 = b2n x.i55 ∧
    x.im.val / 32 % 2 = b2n x.i65 ∧ x.im.val / 64 % 2 = b2n x.i75 ∧
    x.im.val / 128 % 2 = b2n x.sid := by
  rcases x with ⟨m55, m65, m75, ie, i55, i65, i75, sid⟩
  cases m55 <;> cases m65 <;> cases m75 <;> cases ie <;> cases i55 <;> cases i65 <;>
    cases i75 <;> cases sid <;> decide

/-- The handler `op_push_psw` with both stack bytes in RAM. -/
theorem op_push_psw_ram (s : machine_t)
    (h1 : in_ram (u16i ((s.cpu.sp.val : Int) - 1)))
    (h2 : in_ram (u16i ((s.cpu.sp.val : Int) - 2))) :
    op_push_psw s = some
      { s with
        cpu := { s.cpu with sp := u16i ((s.cpu.sp.val : Int) - 2) }
        mem := { s.mem with
                 ram := fun i =>
                   if i = ram_index (u16i ((s.cpu.sp.val : Int) - 2)) then s.cpu.flag.f
                   else if i = ram_index (u16i ((s.cpu.sp.val : Int) - 1)) then s.cpu.a
                   else s.mem.ram i } } := by
  have h2' : in_ram (u16i (((u16i ((s.cpu.sp.val : Int) - 1)).val : Int) - 1)) := by
    rw [u16i_sub_two]; exact h2
  unfold op_push_psw
  simp only [bind, Option.bind, write_dec_sp_ram_eq s _ h1]
  have e2 := write_dec_sp_ram_eq
    { s with
      cpu := { s.cpu with sp := u16i ((s.cpu.sp.val : Int) - 1) }
      mem := { s.mem with
               ram := fun i =>
                 if i = ram_index (u16i ((s.cpu.sp.val : Int) - 1)) then s.cpu.a
                 else s.mem.ram i } }
    s.cpu.flag.f h2'
  rw [e2]
  simp only [u16i_sub_two, pure]

/-- The handler `op_pop_psw` with both stack bytes in RAM. -/
theorem op_pop_psw_ram (s : machine_t) (h1 : in_ram s.cpu.sp)
    (h2 : in_ram (u16 (s.cpu.sp.val + 1))) :
    op_pop_psw s = some
      { s with
        cpu := { s.cpu with
                 sp := u16 (s.cpu.sp.val + 2)
                 flag := flag_t.of_f (s.mem.ram (ram_index s.cpu.sp))
                 a := s.mem.ram (ram_index (u16 (s.cpu.sp.val + 1))) } } := by
  unfold op_pop_psw
  simp only [bind, Option.bind, read_sp_inc_ram_eq s h1]
  have e2 := read_sp_inc_ram_eq
    { s with
      cpu := { s.cpu with
               sp := u16 (s.cpu.sp.val + 1)
               flag := flag_t.of_f (s.mem.ram (ram_index s.cpu.sp)) } }
    h2
  rw [e2]
  simp only [u16_succ_succ, pure]

set_option maxRecDepth 8192 in
/-- Writing a byte into the flag union and reading the byte view back gives the byte. -/
theorem flag_f_of_f : ∀ v : uint8_t, (flag_t.of_f v).f = v := by
  decide

/-- C24. For every machine with `SP-1` and `SP-2` in RAM, `PUSH PSW` stores `A` at `SP-1`
and the flag byte `F` at `SP-2`, decreases `SP` by 2 and changes nothing else; the flag
byte has `CY` in bit 0, `P` in bit 2, `AC` in bit 4, `Z` in bit 6 and `S` in bit 7. For
every machine with `SP` and `SP+1` in RAM, `POP PSW` loads `F` from `SP` (the flags being
those bits of the byte) and `A` from `SP+1`, increases `SP` by 2 and leaves memory as it
is. -/
theorem C24_push_pop_psw (s : machine_t) :
    (in_ram (u16i ((s.cpu.sp.val : Int) - 1)) → in_ram (u16i ((s.cpu.sp.val : Int) - 2)) →
      ∃ s', op_push_psw s = some s' ∧
        s'.mem.ram (ram_index (u16i ((s.cpu.sp.val : Int) - 1))) = s.cpu.a ∧
        s'.mem.ram (ram_index (u16i ((s.cpu.sp.val : Int) - 2))) = s.cpu.flag.f ∧
        s'.cpu = { s.cpu with sp := u16i ((s.cpu.sp.val : Int) - 2) } ∧
        (∀ i, i ≠ ram_index (u16i ((s.cpu.sp.val : Int) - 1)) →
          i ≠ ram_index (u16i ((s.cpu.sp.val : Int) - 2)) → s'.mem.ram i = s.mem.ram i) ∧
        s'.mem.rom = s.mem.rom) ∧
    (s.cpu.flag.f.val % 2 = b2n s.cpu.flag.cy ∧ s.cpu.flag.f.val / 4 % 2 = b2n s.cpu.flag.p ∧
      s.cpu.flag.f.val / 16 % 2 = b2n s.cpu.flag.ac ∧
      s.cpu.flag.f.val / 64 % 2 = b2n s.cpu.flag.z ∧
      s.cpu.flag.f.val / 128 % 2 = b2n s.cpu.flag.s) ∧
    (in_ram s.cpu.sp → in_ram (u16 (s.cpu.sp.val + 1)) →
      ∃ s', op_pop_psw s = some s' ∧
        s'.cpu.a = s.mem.ram (ram_index (u16 (s.cpu.sp.val + 1))) ∧
        s'.cpu.flag.f = s.mem.ram (ram_index s.cpu.sp) ∧
        (s'.cpu.flag.cy = true ↔ (s.mem.ram (ram_index s.cpu.sp)).val % 2 = 1) ∧
        (s'.cpu.flag.p = true ↔ (s.mem.ram (ram_index s.cpu.sp)).val / 4 % 2 = 1) ∧
        (s'.cpu.flag.ac = true ↔ (s.mem.ram (ram_index s.cpu.sp)).val / 16 % 2 = 1) ∧
        (s'.cpu.flag.z = true ↔ (s.mem.ram (ram_index s.cpu.sp)).val / 64 % 2 = 1) ∧
        (s'.cpu.flag.s = true ↔ (s.mem.ram (ram_index s.cpu.sp)).val / 128 % 2 = 1) ∧
        s'.cpu.sp = u16 (s.cpu.sp.val + 2) ∧ s'.mem = s.mem) := by
  refine ⟨fun h1 h2 => ?_, ?_, fun h1 h2 => ?_⟩
  · have hne := ram_index_pred_ne _ h1 (by rw [u16i_sub_two]; exact h2)
    rw [u16i_sub_two] at hne
    refine ⟨_, op_push_psw_ram s h1 h2, ?_, ?_, rfl, fun i a b => ?_, rfl⟩
    · simp only [hne, if_false, if_true]
    · simp only [if_true]
    · simp only [a, b, if_false]
  · obtain ⟨a, -, b, -, c, -, d, e⟩ := flag_f_bits s.cpu.flag
    exact ⟨a, b, c, d, e⟩
  · refine ⟨_, op_pop_psw_ram s h1 h2, rfl, ?_, ?_, ?_, ?_, ?_, ?_, rfl, rfl⟩
    · exact flag_f_of_f _
    all_goals simp only [flag_t.of_f, decide_eq_true_eq]

theorem C24_push_pop_psw_witness :
    in_ram (u16i ((machine_stack.cpu.sp.val : Int) - 1)) ∧
    in_ram (u16i ((machine_stack.cpu.sp.val : Int) - 2)) ∧
    ∃ s', op_push_psw machine_stack = some s' ∧
      s'.mem.ram (ram_index (u16i ((machine_stack.cpu.sp.val : Int) - 1)))
        = machine_stack.cpu.a ∧
      s'.mem.ram (ram_index (u16i ((machine_stack.cpu.sp.val : Int) - 2)))
        = machine_stack.cpu.flag.f ∧
      s'.cpu = { machine_stack.cpu with
                 sp := u16i ((machine_stack.cpu.sp.val : Int) - 2) } ∧
      (∀ i, i ≠ ram_index (u16i ((machine_stack.cpu.sp.val : Int) - 1)) →
        i ≠ ram_index (u16i ((machine_stack.cpu.sp.val : Int) - 2)) →
        s'.mem.ram i = machine_stack.mem.ram i) ∧
      s'.mem.rom = machine_stack.mem.rom :=
  ⟨by decide, by decide, (C24_push_pop_psw machine_stack).1 (by decide) (by decide)⟩

/-- The handler `op_sim` written out. -/
theorem op_sim_eq (s : machine_t) :
    op_sim s = some
      { s with
        cpu := { s.cpu with
                 mask :=
                   if s.cpu.a.val / 8 % 2 = 1 then
                     { s.cpu.mask with
                       m55 := decide (s.cpu.a.val % 2 = 1)
                       m65 := decide (s.cpu.a.val / 2 % 2 = 1)
                       m75 := decide (s.cpu.a.val / 4 % 2 = 1) }
                   else s.cpu.mask
                 sod :=
                   if s.cpu.a.val / 64 % 2 = 1 then decide (s.cpu.a.val / 128 % 2 = 1)
                   else s.cpu.sod } } := by
  have e1 : ∀ x : Nat, x &&& 1 = x % 2 := fun x => Nat.and_pow_two_sub_one_eq_mod x 1
  have hb : ∀ n : Nat, bit1 ((n % 2 : Nat) : Int) = decide (n % 2 = 1) := by
    intro n
    simp only [bit1, decide_eq_decide]
    omega
  have hne : ∀ n : Nat, decide (n % 2 ≠ 0) = decide (n % 2 = 1) := by
    intro n
    simp only [ne_eq, decide_eq_decide]
    omega
  have p1 : (2 : Nat) ^ 1 = 2 := rfl
  have p2 : (2 : Nat) ^ 2 = 4 := rfl
  have p3 : (2 : Nat) ^ 3 = 8 := rfl
  have p6 : (2 : Nat) ^ 6 = 64 := rfl
  have p7 : (2 : Nat) ^ 7 = 128 := rfl
  unfold op_sim
  simp only [e1, Nat.shiftRight_eq_div_pow, p1, p2, p3, p6, p7, hb, hne, bind, pure]
  by_cases c3 : s.cpu.a.val / 8 % 2 = 1 <;> by_cases c6 : s.cpu.a.val / 64 % 2 = 1 <;>
    simp only [c3, c6, if_true, if_false, Option.bind]

/-- C25. For every machine, `SIM` copies bits 0, 1, 2 of `A` to `M5.5`, `M6.5`, `M7.5`
when bit 3 of `A` is 1 and leaves them as they are otherwise, copies bit 7 of `A` to `sod`
when bit 6 of `A` is 1 and leaves `sod` as it is otherwise, and changes neither `IE`, the
pending bits, `SID`, `A`, the flags nor anything else. -/
theorem C25_sim (s : machine_t) :
    ∃ s', op_sim s = some s' ∧
      (s.cpu.a.val / 8 % 2 = 1 →
        (s'.cpu.mask.m55 = true ↔ s.cpu.a.val % 2 = 1) ∧
        (s'.cpu.mask.m65 = true ↔ s.cpu.a.val / 2 % 2 = 1) ∧
        (s'.cpu.mask.m75 = true ↔ s.cpu.a.val / 4 % 2 = 1)) ∧
      (s.cpu.a.val / 8 % 2 = 0 →
        s'.cpu.mask.m55 = s.cpu.mask.m55 ∧ s'.cpu.mask.m65 = s.cpu.mask.m65 ∧
        s'.cpu.mask.m75 = s.cpu.mask.m75) ∧
      (s.cpu.a.val / 64 % 2 = 1 → (s'.cpu.sod = true ↔ s.cpu.a.val / 128 % 2 = 1)) ∧
      (s.cpu.a.val / 64 % 2 = 0 → s'.cpu.sod = s.cpu.sod) ∧
      s'.cpu.mask.ie = s.cpu.mask.ie ∧ s'.cpu.mask.i55 = s.cpu.mask.i55 ∧
      s'.cpu.mask.i65 = s.cpu.mask.i65 ∧ s'.cpu.mask.i75 = s.cpu.mask.i75 ∧
      s'.cpu.mask.sid = s.cpu.mask.sid ∧ s'.cpu.a = s.cpu.a ∧ s'.cpu.flag = s.cpu.flag ∧
      s' = { s with cpu := { s.cpu with
                             sod := s'.cpu.sod
                             mask := { s.cpu.mask with
                                       m55 := s'.cpu.mask.m55, m65 := s'.cpu.mask.m65,
                                       m75 := s'.cpu.mask.m75 } } } := by
  refine ⟨_, op_sim_eq s, fun h => ?_, fun h => ?_, fun h => ?_, fun h => ?_, ?_, ?_, ?_, ?_,
    ?_, rfl, rfl, ?_⟩
  · simp only [h, if_true, decide_eq_true_eq]
    exact ⟨trivial, trivial, trivial⟩
  · have h' : ¬ s.cpu.a.val / 8 % 2 = 1 := by omega
    simp only [h', if_false]
    exact ⟨trivial, trivial, trivial⟩
  · simp only [h, if_true, decide_eq_true_eq]
  · have h' : ¬ s.cpu.a.val / 64 % 2 = 1 := by omega
    simp only [h', if_false]
  all_goals by_cases c3 : s.cpu.a.val / 8 % 2 = 1 <;> simp only [c3, if_true, if_false]

theorem C25_sim_witness :
    machine_sim.cpu.a.val / 8 % 2 = 1 ∧ machine_sim.cpu.a.val / 64 % 2 = 1 ∧
    (op_sim machine_sim).map (fun s => (s.cpu.mask.m55, s.cpu.mask.m65, s.cpu.mask.m75,
      s.cpu.sod)) = some (false, false, false, false) := by
  obtain ⟨s', e, h3, -, h6, -⟩ := C25_sim machine_sim
  refine ⟨by decide, by decide, ?_⟩
  rw [e, Option.map_some']
  obtain ⟨a, b, c⟩ := h3 (by decide)
  have d := h6 (by decide)
  have a' : s'.cpu.mask.m55 = false := by
    cases h : s'.cpu.mask.m55
    · rfl
    · exact absurd (a.mp h) (by decide)
  have b' : s'.cpu.mask.m65 = false := by
    cases h : s'.cpu.mask.m65
    · rfl
    · exact absurd (b.mp h) (by decide)
  have c' : s'.cpu.mask.m75 = false := by
    cases h : s'.cpu.mask.m75
    · rfl
    · exact absurd (c.mp h) (by decide)
  have d' : s'.cpu.sod = false := by
    cases h : s'.cpu.sod
    · rfl
    · exact absurd (d.mp h) (by decide)
  rw [a', b', c', d']

/-- C26. For every machine, `RIM` sets `A` to the whole interrupt-mask byte (bits 0-2 the
masks, bit 3 `IE`, bits 4-6 the pending flags, bit 7 `SID`) and leaves the interrupt-mask
register, pending bits included, and everything else as it is. -/
theorem C26_rim (s : machine_t) :
    opcode_function_at 0x20 = i8085_operation_func_t.op_rim ∧
    (s.cpu.mask.im.val % 2 = b2n s.cpu.mask.m55 ∧
      s.cpu.mask.im.val / 2 % 2 = b2n s.cpu.mask.m65 ∧
      s.cpu.mask.im.val / 4 % 2 = b2n s.cpu.mask.m75 ∧
      s.cpu.mask.im.val / 8 % 2 = b2n s.cpu.mask.ie ∧
      s.cpu.mask.im.val / 16 % 2 = b2n s.cpu.mask.i55 ∧
      s.cpu.mask.im.val / 32 % 2 = b2n s.cpu.mask.i65 ∧
      s.cpu.mask.im.val / 64 % 2 = b2n s.cpu.mask.i75 ∧
      s.cpu.mask.im.val / 128 % 2 = b2n s.cpu.mask.sid) ∧
    ∃ s', op_rim s = some s' ∧
      s'.cpu.a = s.cpu.mask.im ∧ s'.cpu.mask = s.cpu.mask ∧
      s'.cpu.mask.i55 = s.cpu.mask.i55 ∧ s'.cpu.mask.i65 = s.cpu.mask.i65 ∧
      s'.cpu.mask.i75 = s.cpu.mask.i75 ∧
      s' = { s with cpu := { s.cpu with a := s.cpu.mask.im } } :=
  ⟨by decide, mask_im_bits s.cpu.mask, _, rfl, rfl, rfl, rfl, rfl, rfl, rfl⟩

/-! ### 8155 timer -/

/-- The mask of the timer-high write never lets a bit through: `(value << 8) & 0x3F` is 0. -/
theorem shift8_and_0x3F (v : Nat) : (v <<< 8) &&& 0x3F = 0 := by
  apply Nat.eq_of_testBit_eq
  intro i
  rw [Nat.testBit_and, Nat.testBit_shiftLeft, Nat.zero_testBit]
  by_cases hi : i < 8
  · have : ¬ (i ≥ 8) := by omega
    simp only [this, decide_False, Bool.false_and]
  · have h6 : Nat.testBit 0x3F i = false := by
      apply Nat.testBit_lt_two_pow
      calc (0x3F : Nat) < 2 ^ 8 := by decide
        _ ≤ 2 ^ i := Nat.pow_le_pow_right (by decide) (by omega)
    rw [h6, Bool.and_false]

/-- The write to the timer-high port written out. -/
theorem i8155_write_timer_high (i8155 : i8155_t) (v : uint8_t) :
    i8155_write i8155 0x25 v = { i8155 with timer := u16 (i8155.timer.val % 256) } := by
  have ht := i8155.timer.isLt
  have e1 : i8155.timer.val &&& 0x00FF = i8155.timer.val % 256 :=
    Nat.and_pow_two_sub_one_eq_mod _ 8
  unfold i8155_write
  rw [if_neg (by decide), if_neg (by decide), if_pos (by decide)]
  simp only [shift8_and_0x3F, e1, Nat.or_zero]
  congr 1
  apply Fin.ext
  simp only [u16]
  omega

/-- C28. What the code does on a write to the timer-high port `0x25`: the low 8 bits of
the timer are kept and bits 8-15 are cleared, whatever the byte written, because
`(value << 8) & 0x3F` is 0; a write of `0x01` to a timer of `0x0000` leaves `0x0000`, not
the claimed `((0x01 & 0x3F) << 8) | (0 & 0xFF) = 0x0100`. -/
theorem C28_timer_high_write (i8155 : i8155_t) (v : uint8_t) :
    (i8155_write i8155 0x25 v).timer.val = i8155.timer.val % 256 ∧
    (i8155_write i8155 0x25 v).timer.val / 256 = 0 ∧
    i8155_write i8155 0x25 v = { i8155 with timer := u16 (i8155.timer.val % 256) } ∧
    (i8155_write { i8155 with timer := 0 } 0x25 0x01).timer = 0 ∧
    ((0x01 &&& 0x3F) <<< 8) ||| ((0 : Nat) &&& 0xFF) = 0x0100 := by
  have ht := i8155.timer.isLt
  have hw : (i8155_write i8155 0x25 v).timer.val = i8155.timer.val % 256 := by
    rw [i8155_write_timer_high]
    show i8155.timer.val % 256 % 65536 = _
    omega
  refine ⟨hw, ?_, i8155_write_timer_high i8155 v, ?_, by decide⟩
  · rw [hw]; omega
  · rw [i8155_write_timer_high]
    rfl

/-- C29. For every timer state and byte `v`, a write of `v` to the command port `0x20`
stops the timer when the top two bits of `v` are `01`, starts it when they are `11`, and
leaves `timer_running` as it is when they are `00` or `10`; the counter, the trap latch and
`catchup_cycles` are unchanged in every case. -/
theorem C29_command_write (i8155 : i8155_t) (v : uint8_t) :
    (v.val / 64 = 1 → (i8155_write i8155 0x20 v).timer_running = false) ∧
    (v.val / 64 = 3 → (i8155_write i8155 0x20 v).timer_running = true) ∧
    ((v.val / 64 = 0 ∨ v.val / 64 = 2) →
      (i8155_write i8155 0x20 v).timer_running = i8155.timer_running) ∧
    (i8155_write i8155 0x20 v).timer = i8155.timer ∧
    (i8155_write i8155 0x20 v).trap = i8155.trap ∧
    (i8155_write i8155 0x20 v).catchup_cycles = i8155.catchup_cycles := by
  have p6 : (2 : Nat) ^ 6 = 64 := rfl
  have key : i8155_write i8155 0x20 v =
      if v.val / 64 = 1 then { i8155 with timer_running := false }
      else if v.val / 64 = 3 then { i8155 with timer_running := true }
      else i8155 := by
    unfold i8155_write
    rw [if_pos (by decide)]
    simp only [Nat.shiftRight_eq_div_pow, p6]
  rw [key]
  refine ⟨fun h => ?_, fun h => ?_, fun h => ?_, ?_, ?_, ?_⟩
  · rw [if_pos h]
  · rw [if_neg (by omega), if_pos h]
  · rw [if_neg (by omega), if_neg (by omega)]
  all_goals split_ifs <;> rfl

theorem C29_command_write_witness :
    (0x40 : uint8_t).val / 64 = 1 ∧ (0xC0 : uint8_t).val / 64 = 3 ∧
    (i8155_write i8155_expired 0x20 0x40).timer_running = false ∧
    (i8155_write (i8155_write i8155_expired 0x20 0x40) 0x20 0xC0).timer_running = true :=
  ⟨by decide, by decide, (C29_command_write i8155_expired 0x40).1 (by decide),
    (C29_command_write (i8155_write i8155_expired 0x20 0x40) 0xC0).2.1 (by decide)⟩

/-- More rounds than `cpu->cycles - catchup_cycles` change nothing: the loop of
`i8155_execute` has left by then. -/
theorem i8155_execute_loop_fuel (n : Nat) :
    ∀ (t : i8155_t) (cpu : i8085_t), cpu.cycles.val - t.catchup_cycles.val ≤ n →
      i8155_execute_loop n t cpu = i8155_execute t cpu := by
  induction n with
  | zero =>
    intro t cpu h
    have e : cpu.cycles.val - t.catchup_cycles.val = 0 := by omega
    simp only [i8155_execute, e]
  | succ n ih =>
    intro t cpu h
    have hlt := cpu.cycles.isLt
    by_cases hc : cpu.cycles.val > t.catchup_cycles.val
    · obtain ⟨d, hd⟩ : ∃ d, cpu.cycles.val - t.catchup_cycles.val = d + 1 :=
      ⟨cpu.cycles.val - t.catchup_cycles.val - 1, by omega⟩
      have hcu : (u64 (t.catchup_cycles.val + 1)).val = t.catchup_cycles.val + 1 := by
        rw [u64_val]
        omega
      have hd' : ∀ x : i8155_t, x.catchup_cycles = u64 (t.catchup_cycles.val + 1) →
          i8155_execute_loop n x cpu = i8155_execute_loop d x cpu := by
        intro x hx
        have e : cpu.cycles.val - x.catchup_cycles.val = d := by rw [hx, hcu]; omega
        rw [ih x cpu (by omega), i8155_execute, e]
      simp only [i8155_execute, hd, i8155_execute_loop, hc, if_true]
      split_ifs <;> first | rfl | exact hd' _ rfl
    · have e : cpu.cycles.val - t.catchup_cycles.val = 0 := by omega
      simp only [i8155_execute, e, i8155_execute_loop, hc, if_false]

/-- The loop of `i8155_execute` on a stopped timer with no trap latched returns false and
leaves the timer stopped, the latch clear and the counter as it is. -/
theorem i8155_execute_loop_idle (n : Nat) :
    ∀ (t : i8155_t) (cpu : i8085_t), t.timer_running = false → t.trap = false →
      (i8155_execute_loop n t cpu).1 = false ∧
      (i8155_execute_loop n t cpu).2.timer_running = false ∧
      (i8155_execute_loop n t cpu).2.trap = false ∧
      (i8155_execute_loop n t cpu).2.timer = t.timer := by
  induction n with
  | zero =>
    intro t cpu hr ht
    exact ⟨rfl, hr, ht, rfl⟩
  | succ n ih =>
    intro t cpu hr ht
    by_cases hc : cpu.cycles.val > t.catchup_cycles.val
    · simp only [i8155_execute_loop, hc, hr, ht, if_true, Bool.false_eq_true, if_false]
      exact ih _ cpu rfl rfl
    · simp only [i8155_execute_loop, hc, if_false]
      exact ⟨trivial, hr, ht, trivial⟩

/-- C27. For every timer state with `timer_running` set, `timer = 0`, no trap latched and
`cpu.cycles > catchup_cycles`, `i8155_execute` returns false, clears `timer_running` and
latches the trap; the following call (the cycle counter not having gone back, no register
of the timer written in between) returns true and clears the latch; the call after that
returns false with the timer stopped and the latch clear. -/
theorem C27_timer_underflow_fires_once (t : i8155_t) (cpu cpu2 cpu3 : i8085_t)
    (hr : t.timer_running = true) (h0 : t.timer = 0) (_ht : t.trap = false)
    (hc : cpu.cycles.val > t.catchup_cycles.val)
    (hc2 : cpu2.cycles.val ≥ cpu.cycles.val) :
    i8155_execute t cpu = (false, { t with timer_running := false, trap := true }) ∧
    i8155_execute (i8155_execute t cpu).2 cpu2
      = (true, { t with timer_running := false, trap := false }) ∧
    (i8155_execute (i8155_execute (i8155_execute t cpu).2 cpu2).2 cpu3).1 = false ∧
    (i8155_execute (i8155_execute (i8155_execute t cpu).2 cpu2).2 cpu3).2.trap = false ∧
    (i8155_execute (i8155_execute (i8155_execute t cpu).2 cpu2).2 cpu3).2.timer_running
      = false := by
  obtain ⟨d, hd⟩ : ∃ d, cpu.cycles.val - t.catchup_cycles.val = d + 1 :=
      ⟨cpu.cycles.val - t.catchup_cycles.val - 1, by omega⟩
  obtain ⟨d2, hd2⟩ : ∃ d, cpu2.cycles.val - t.catchup_cycles.val = d + 1 :=
    ⟨cpu2.cycles.val - t.catchup_cycles.val - 1, by omega⟩
  have hc2' : cpu2.cycles.val > t.catchup_cycles.val := by omega
  have h0' : ¬ t.timer.val > 0 := by rw [h0]; decide
  have e1 : i8155_execute t cpu = (false, { t with timer_running := false, trap := true }) := by
    simp only [i8155_execute, hd, i8155_execute_loop, hc, hr, h0', if_true, if_false]
  have e2 : i8155_execute { t with timer_running := false, trap := true } cpu2
      = (true, { t with timer_running := false, trap := false }) := by
    simp only [i8155_execute, hd2, i8155_execute_loop, hc2', if_true, Bool.false_eq_true,
      if_false]
  rw [e1, e2]
  have h3 := i8155_execute_loop_idle (cpu3.cycles.val - t.catchup_cycles.val)
    { t with timer_running := false, trap := false } cpu3 rfl rfl
  exact ⟨rfl, rfl, h3.1, h3.2.2.1, h3.2.1⟩

theorem C27_timer_underflow_fires_once_witness :
    i8155_expired.timer_running = true ∧ i8155_expired.timer = 0 ∧
    i8155_expired.trap = false ∧
    cpu_cycles_14.cycles.val > i8155_expired.catchup_cycles.val ∧
    i8155_execute i8155_expired cpu_cycles_14
      = (false, { i8155_expired with timer_running := false, trap := true }) ∧
    i8155_execute (i8155_execute i8155_expired cpu_cycles_14).2 cpu_cycles_14
      = (true, { i8155_expired with timer_running := false, trap := false }) ∧
    (i8155_execute (i8155_execute (i8155_execute i8155_expired cpu_cycles_14).2
      cpu_cycles_14).2 cpu_cycles_14).1 = false ∧
    (i8155_execute (i8155_execute (i8155_execute i8155_expired cpu_cycles_14).2
      cpu_cycles_14).2 cpu_cycles_14).2.trap = false ∧
    (i8155_execute (i8155_execute (i8155_execute i8155_expired cpu_cycles_14).2
      cpu_cycles_14).2 cpu_cycles_14).2.timer_running = false :=
  ⟨rfl, rfl, rfl, by decide,
    C27_timer_underflow_fires_once i8155_expired cpu_cycles_14 cpu_cycles_14 cpu_cycles_14
      rfl rfl rfl (by decide) (Nat.le_refl _)⟩

/-! ### `CALL` and `RET` -/

theorem mem_read_byte (mem : mem_t) (a : uint16_t) (h : in_rom_or_ram a) :
    mem_read mem a = some (mem_byte mem a, mem) := by
  unfold in_rom_or_ram at h
  unfold mem_byte
  by_cases h1 : a.val < 0x1000
  · rw [dif_pos h1]
    exact mem_read_rom mem a h1
  · rw [dif_neg h1]
    exact mem_read_ram mem a ⟨by omega, by omega⟩

theorem ram_index_inj (a b : uint16_t) (ha : in_ram a) (hb : in_ram b)
    (h : ram_index a = ram_index b) : a = b := by
  have h1 := congrArg Fin.val h
  rw [ram_index_val, ram_index_val] at h1
  unfold in_ram at ha hb
  apply Fin.ext
  omega

/-- A RAM write leaves the byte behind every other ROM or RAM address as it is. -/
theorem mem_byte_ram_update (mem : mem_t) (a b : uint16_t) (v : uint8_t)
    (ha : in_rom_or_ram a) (hb : in_ram b) (hne : a ≠ b) :
    mem_byte { mem with ram := fun i => if i = ram_index b then v else mem.ram i } a
      = mem_byte mem a := by
  unfold mem_byte
  by_cases h1 : a.val < 0x1000
  · rw [dif_pos h1, dif_pos h1]
  · rw [dif_neg h1, dif_neg h1]
    have har : in_ram a := by
      unfold in_rom_or_ram at ha
      exact ⟨by omega, by omega⟩
    have : ram_index a ≠ ram_index b := fun h => hne (ram_index_inj a b har hb h)
    simp only [this, if_false]

/-- The handler `op_call` with its operand bytes in ROM or RAM and both stack bytes in
RAM. -/
theorem op_call_low (t : machine_t) (h1 : in_rom_or_ram t.cpu.pc)
    (h2 : in_rom_or_ram (u16 (t.cpu.pc.val + 1)))
    (h3 : in_ram (u16i ((t.cpu.sp.val : Int) - 1)))
    (h4 : in_ram (u16i ((t.cpu.sp.val : Int) - 2))) :
    op_call t = some
      { t with
        cpu := { t.cpu with
                 pc := u16 ((u16 (mem_byte t.mem t.cpu.pc).val).val
                   + (mem_byte t.mem (u16 (t.cpu.pc.val + 1))).val * 0x100)
                 sp := u16i ((t.cpu.sp.val : Int) - 2) }
        mem := { t.mem with
                 ram := fun i =>
                   if i = ram_index (u16i ((t.cpu.sp.val : Int) - 2)) then
                     u8 ((u16 ((u16 (t.cpu.pc.val + 1)).val + 1)).val % 0x100)
                   else if i = ram_index (u16i ((t.cpu.sp.val : Int) - 1)) then
                     u8 ((u16 ((u16 (t.cpu.pc.val + 1)).val + 1)).val / 0x100)
                   else t.mem.ram i } } := by
  have h4' : in_ram (u16i (((u16i ((t.cpu.sp.val : Int) - 1)).val : Int) - 1)) := by
    rw [u16i_sub_two]; exact h4
  unfold op_call
  simp only [machine_t.trace_read, machine_t.read_pc_inc, machine_t.read,
    mem_read_byte _ _ h1, mem_read_byte _ _ h2, bind, Option.bind, pure,
    machine_t.write_dec_sp, machine_t.write, mem_write_ram _ _ _ h3]
  rw [mem_write_ram _ _ _ h4']
  simp only [u16i_sub_two]

/-- The handler `op_ret` with both stack bytes in RAM. -/
theorem op_ret_ram (t : machine_t) (h1 : in_ram t.cpu.sp)
    (h2 : in_ram (u16 (t.cpu.sp.val + 1))) :
    op_ret t = some
      { t with
        cpu := { t.cpu with
                 pc := u16 ((u16 (t.mem.ram (ram_index t.cpu.sp)).val).val
                   + (t.mem.ram (ram_index (u16 (t.cpu.sp.val + 1)))).val * 0x100)
                 sp := u16 (t.cpu.sp.val + 2) } } := by
  unfold op_ret
  simp only [machine_t.read_sp_inc, machine_t.read, mem_read_ram _ _ h1, mem_read_ram _ _ h2,
    bind, Option.bind, pure, u16_succ_succ]

/-- A returned machine, named, with its bus and its register file. -/
theorem some_mem_cpu {x : Option machine_t} {y : machine_t} (h : x = some y) :
    ∃ s1, x = some s1 ∧ s1.mem = y.mem ∧ s1.cpu = y.cpu :=
  ⟨y, h, rfl, rfl⟩

/-- The step that executes `CALL` with the instruction in ROM or RAM and the stack in
RAM. -/
theorem call_step (s : machine_t) (hh : s.cpu.halt = false)
    (hp0 : in_rom_or_ram s.cpu.pc) (hp1 : in_rom_or_ram (u16 (s.cpu.pc.val + 1)))
    (hp2 : in_rom_or_ram (u16 (s.cpu.pc.val + 2)))
    (hcall : mem_byte s.mem s.cpu.pc = 0xCD)
    (hs1 : in_ram (u16i ((s.cpu.sp.val : Int) - 1)))
    (hs2 : in_ram (u16i ((s.cpu.sp.val : Int) - 2))) :
    ∃ s1, i8085_execute s = some s1 ∧
      s1.cpu.pc = u16 ((mem_byte s.mem (u16 (s.cpu.pc.val + 1))).val
        + (mem_byte s.mem (u16 (s.cpu.pc.val + 2))).val * 0x100) ∧
      s1.cpu.sp = u16i ((s.cpu.sp.val : Int) - 2) ∧ s1.cpu.halt = false ∧
      s1.mem.ram (ram_index (u16i ((s.cpu.sp.val : Int) - 1)))
        = u8 ((u16 (s.cpu.pc.val + 3)).val / 0x100) ∧
      s1.mem.ram (ram_index (u16i ((s.cpu.sp.val : Int) - 2)))
        = u8 ((u16 (s.cpu.pc.val + 3)).val % 0x100) ∧
      (∀ a, in_rom_or_ram a → a ≠ u16i ((s.cpu.sp.val : Int) - 1) →
        a ≠ u16i ((s.cpu.sp.val : Int) - 2) → mem_byte s1.mem a = mem_byte s.mem a) := by
  have hf : mem_read s.mem s.cpu.pc = some (0xCD, s.mem) := by
    rw [mem_read_byte _ _ hp0, hcall]
  have hex := i8085_execute_fetch s 0xCD s.mem hh hf
  have hp2' : in_rom_or_ram (u16 ((u16 (s.cpu.pc.val + 1)).val + 1)) := by
    rw [u16_succ_succ]; exact hp2
  have hc := op_call_low
    { s with
      mem := s.mem
      cpu := { s.cpu with
               pc := u16 (s.cpu.pc.val + 1)
               cycles := u64 (s.cpu.cycles.val + (opcode_cycles_at 0xCD).val) } }
    hp1 hp2' hs1 hs2
  have hne := ram_index_pred_ne _ hs1 (by rw [u16i_sub_two]; exact hs2)
  rw [u16i_sub_two] at hne
  have hlo := (mem_byte s.mem (u16 (s.cpu.pc.val + 1))).isLt
  obtain ⟨s1, e1, hmem, hcpu⟩ := some_mem_cpu (hex.trans hc)
  dsimp only at hmem hcpu
  refine ⟨s1, e1, ?_, ?_, ?_, ?_, ?_, fun a ha n1 n2 => ?_⟩
  · rw [hcpu, u16_succ_succ]
    apply Fin.ext
    simp only [u16_val]
    omega
  · rw [hcpu]
  · rw [hcpu]
    exact hh
  · rw [hmem]
    simp only [hne, if_false, if_true, u16_succ_succ_succ]
  · rw [hmem]
    simp only [if_true, u16_succ_succ_succ]
  · rw [hmem]
    have e0 := mem_byte_ram_update s.mem a _
      (u8 ((u16 ((u16 ((u16 (s.cpu.pc.val + 1)).val + 1)).val + 1)).val / 0x100)) ha hs1 n1
    have e2 := mem_byte_ram_update
      { s.mem with
        ram := fun i =>
          if i = ram_index (u16i ((s.cpu.sp.val : Int) - 1)) then
            u8 ((u16 ((u16 ((u16 (s.cpu.pc.val + 1)).val + 1)).val + 1)).val / 0x100)
          else s.mem.ram i }
      a _ (u8 ((u16 ((u16 ((u16 (s.cpu.pc.val + 1)).val + 1)).val + 1)).val % 0x100))
      ha hs2 n2
    exact e2.trans e0

/-- The step that executes `RET` with the instruction in ROM or RAM and the stack in RAM. -/
theorem ret_step (s : machine_t) (hh : s.cpu.halt = false) (hp : in_rom_or_ram s.cpu.pc)
    (hret : mem_byte s.mem s.cpu.pc = 0xC9) (hs1 : in_ram s.cpu.sp)
    (hs2 : in_ram (u16 (s.cpu.sp.val + 1))) :
    ∃ s2, i8085_execute s = some s2 ∧
      s2.cpu.pc = u16 ((s.mem.ram (ram_index s.cpu.sp)).val
        + (s.mem.ram (ram_index (u16 (s.cpu.sp.val + 1)))).val * 0x100) ∧
      s2.cpu.sp = u16 (s.cpu.sp.val + 2) ∧ s2.cpu.halt = false ∧ s2.mem = s.mem := by
  have hf : mem_read s.mem s.cpu.pc = some (0xC9, s.mem) := by
    rw [mem_read_byte _ _ hp, hret]
  have hex := i8085_execute_fetch s 0xC9 s.mem hh hf
  have hr := op_ret_ram
    { s with
      mem := s.mem
      cpu := { s.cpu with
               pc := u16 (s.cpu.pc.val + 1)
               cycles := u64 (s.cpu.cycles.val + (opcode_cycles_at 0xC9).val) } }
    hs1 hs2
  have hlo := (s.mem.ram (ram_index s.cpu.sp)).isLt
  refine ⟨_, hex.trans hr, ?_, rfl, hh, rfl⟩
  show u16 ((u16 (s.mem.ram (ram_index s.cpu.sp)).val).val + _) = _
  apply Fin.ext
  simp only [u16_val]
  omega

/-- C23. For every non-halted machine whose stack bytes `SP-1` and `SP-2` lie in RAM, with
a `CALL addr` in ROM or RAM at `p = PC` and a `RET` in ROM or RAM at `addr` that the two
stack bytes do not overlap: the step of the `CALL` and then the step of the `RET` both
return, the first one arriving at `addr`, and they leave `PC = p+3` and `SP` as it was
before the `CALL`. With RAM `0x1020..0x1025 = CD 30 10 76 00 00`, RAM `0x1030 = C9`,
`PC = 0x1020` and `SP = 0x10FF`, the steps visit `0x1030` and `0x1023`, the third executes
the `HLT` at `0x1023`, and after four steps `halt` is set and `SP = 0x10FF`. -/
theorem C23_call_ret_round_trip :
    (∀ (s : machine_t) (addr : uint16_t), s.cpu.halt = false →
      in_rom_or_ram s.cpu.pc → in_rom_or_ram (u16 (s.cpu.pc.val + 1)) →
      in_rom_or_ram (u16 (s.cpu.pc.val + 2)) →
      mem_byte s.mem s.cpu.pc = 0xCD →
      addr = u16 ((mem_byte s.mem (u16 (s.cpu.pc.val + 1))).val
        + (mem_byte s.mem (u16 (s.cpu.pc.val + 2))).val * 0x100) →
      in_rom_or_ram addr → mem_byte s.mem addr = 0xC9 →
      in_ram (u16i ((s.cpu.sp.val : Int) - 1)) → in_ram (u16i ((s.cpu.sp.val : Int) - 2)) →
      addr ≠ u16i ((s.cpu.sp.val : Int) - 1) → addr ≠ u16i ((s.cpu.sp.val : Int) - 2) →
      ∃ s1 s2, i8085_execute s = some s1 ∧ s1.cpu.pc = addr ∧
        s1.cpu.sp = u16i ((s.cpu.sp.val : Int) - 2) ∧
        i8085_execute s1 = some s2 ∧ s2.cpu.pc = u16 (s.cpu.pc.val + 3) ∧
        s2.cpu.sp = s.cpu.sp ∧ i8085_execute_n 2 s = some s2) ∧
    (i8085_execute_n 1 machine_call_ret).map (fun s => (s.cpu.pc, s.cpu.sp, s.cpu.halt))
      = some (0x1030, 0x10FD, false) ∧
    (i8085_execute_n 2 machine_call_ret).map (fun s => (s.cpu.pc, s.cpu.sp, s.cpu.halt))
      = some (0x1023, 0x10FF, false) ∧
    (i8085_execute_n 3 machine_call_ret).map (fun s => (s.cpu.pc, s.cpu.sp, s.cpu.halt))
      = some (0x1024, 0x10FF, true) ∧
    (i8085_execute_n 4 machine_call_ret).map (fun s => (s.cpu.pc, s.cpu.sp, s.cpu.halt))
      = some (0x1024, 0x10FF, true) := by
  refine ⟨fun s addr hh hp0 hp1 hp2 hcall haddr ha hret hs1 hs2 n1 n2 => ?_, rfl, rfl, rfl, rfl⟩
  obtain ⟨s1, e1, hpc1, hsp1, hh1, r1, r2, hfr⟩ := call_step s hh hp0 hp1 hp2 hcall hs1 hs2
  have hpc1' : s1.cpu.pc = addr := by rw [hpc1, haddr]
  have hsp := s.cpu.sp.isLt
  have hv2 := u16i_val ((s.cpu.sp.val : Int) - 2)
  have hv1 := u16i_val ((s.cpu.sp.val : Int) - 1)
  have hsucc : u16 (s1.cpu.sp.val + 1) = u16i ((s.cpu.sp.val : Int) - 1) := by
    rw [hsp1]
    apply Fin.ext
    rw [u16_val]
    unfold in_ram at hs1 hs2
    omega
  have hback : u16 (s1.cpu.sp.val + 2) = s.cpu.sp := by
    rw [hsp1]
    apply Fin.ext
    rw [u16_val]
    unfold in_ram at hs1 hs2
    omega
  obtain ⟨s2, e2, hpc2, hsp2, -, -⟩ := ret_step s1 hh1 (by rw [hpc1']; exact ha)
    (by rw [hpc1', hfr addr ha n1 n2]; exact hret) (by rw [hsp1]; exact hs2)
    (by rw [hsucc]; exact hs1)
  refine ⟨s1, s2, e1, hpc1', hsp1, e2, ?_, by rw [hsp2, hback], ?_⟩
  · rw [hpc2, hsucc, hsp1, r1, r2]
    have := (u16 (s.cpu.pc.val + 3)).isLt
    apply Fin.ext
    simp only [u16_val, u8_val]
    omega
  · simp only [i8085_execute_n, e1, e2, Option.bind]

theorem C23_call_ret_round_trip_witness :
    machine_call_ret.cpu.halt = false ∧ mem_byte machine_call_ret.mem 0x1020 = 0xCD ∧
    mem_byte machine_call_ret.mem 0x1030 = 0xC9 ∧
    ∃ s1 s2, i8085_execute machine_call_ret = some s1 ∧ s1.cpu.pc = 0x1030 ∧
      s1.cpu.sp = u16i ((machine_call_ret.cpu.sp.val : Int) - 2) ∧
      i8085_execute s1 = some s2 ∧ s2.cpu.pc = u16 (machine_call_ret.cpu.pc.val + 3) ∧
      s2.cpu.sp = machine_call_ret.cpu.sp ∧ i8085_execute_n 2 machine_call_ret = some s2 :=
  ⟨rfl, rfl, rfl,
    C23_call_ret_round_trip.1 machine_call_ret 0x1030 rfl (by decide) (by decide) (by decide)
      rfl rfl (by decide) rfl (by decide) (by decide) (by decide) (by decide)⟩

/-! ### Serial output -/

theorem serial_execute_sampled (s : serial_t) (c : i8085_t)
    (h : ¬ c.cycles.val < s.catchup_cycles.val) :
    serial_execute s c =
      ((serial_execute_input (serial_execute_output
          { s with catchup_cycles := u64 (s.catchup_cycles.val + SERIAL_CYCLE_CATCHUP_SKIP) }
          c).1 c).1,
        (serial_execute_input (serial_execute_output
          { s with catchup_cycles := u64 (s.catchup_cycles.val + SERIAL_CYCLE_CATCHUP_SKIP) }
          c).1 c).2,
        (serial_execute_output
          { s with catchup_cycles := u64 (s.catchup_cycles.val + SERIAL_CYCLE_CATCHUP_SKIP) }
          c).2) := by
  unfold serial_execute
  rw [if_neg h]

/-- The input `switch` leaves the output fields as they are. -/
theorem serial_execute_input_output (s : serial_t) (c : i8085_t) :
    (serial_execute_input s c).1.output_state = s.output_state ∧
    (serial_execute_input s c).1.output_sample_no = s.output_sample_no ∧
    (serial_execute_input s c).1.output_samples = s.output_samples ∧
    (serial_execute_input s c).1.output_data_bit = s.output_data_bit ∧
    (serial_execute_input s c).1.output_byte = s.output_byte := by
  unfold serial_execute_input
  cases s.input_state
  · exact ⟨rfl, rfl, rfl, rfl, rfl⟩
  · dsimp only
    split_ifs <;> exact ⟨rfl, rfl, rfl, rfl, rfl⟩
  · dsimp only
    split_ifs <;> exact ⟨rfl, rfl, rfl, rfl, rfl⟩
  · dsimp only
    split_ifs <;> exact ⟨rfl, rfl, rfl, rfl, rfl⟩

/-- A sampled call of `serial_execute`, seen from the output side. -/
theorem serial_execute_fields (s : serial_t) (c : i8085_t)
    (h : ¬ c.cycles.val < s.catchup_cycles.val) :
    (serial_execute s c).2.2 =
      (serial_execute_output
        { s with catchup_cycles := u64 (s.catchup_cycles.val + SERIAL_CYCLE_CATCHUP_SKIP) }
        c).2 ∧
    (serial_execute s c).1.output_state =
      (serial_execute_output
        { s with catchup_cycles := u64 (s.catchup_cycles.val + SERIAL_CYCLE_CATCHUP_SKIP) }
        c).1.output_state ∧
    (serial_execute s c).1.output_sample_no =
      (serial_execute_output
        { s with catchup_cycles := u64 (s.catchup_cycles.val + SERIAL_CYCLE_CATCHUP_SKIP) }
        c).1.output_sample_no ∧
    (serial_execute s c).1.output_samples =
      (serial_execute_output
        { s with catchup_cycles := u64 (s.catchup_cycles.val + SERIAL_CYCLE_CATCHUP_SKIP) }
        c).1.output_samples ∧
    (serial_execute s c).1.output_data_bit =
      (serial_execute_output
        { s with catchup_cycles := u64 (s.catchup_cycles.val + SERIAL_CYCLE_CATCHUP_SKIP) }
        c).1.output_data_bit ∧
    (serial_execute s c).1.output_byte =
      (serial_execute_output
        { s with catchup_cycles := u64 (s.catchup_cycles.val + SERIAL_CYCLE_CATCHUP_SKIP) }
        c).1.output_byte := by
  rw [serial_execute_sampled s c h]
  obtain ⟨a, b, c1, d, e⟩ := serial_execute_input_output
    (serial_execute_output
      { s with catchup_cycles := u64 (s.catchup_cycles.val + SERIAL_CYCLE_CATCHUP_SKIP) }
      c).1 c
  exact ⟨rfl, a, b, c1, d, e⟩

/-- A sampled call in the idle state with `sod = 1`: the start bit begins. -/
theorem serial_execute_idle (s : serial_t) (c : i8085_t)
    (h : ¬ c.cycles.val < s.catchup_cycles.val)
    (hs : s.output_state = serial_state_t.SERIAL_STATE_IDLE) (hsod : c.sod = true) :
    (serial_execute s c).2.2 = none ∧
    (serial_execute s c).1.output_state = serial_state_t.SERIAL_STATE_START_BIT ∧
    (serial_execute s c).1.output_sample_no = 0 := by
  obtain ⟨a, b, c1, -⟩ := serial_execute_fields s c h
  rw [a, b, c1]
  unfold serial_execute_output
  simp only [hs, hsod, if_true]
  exact ⟨trivial, trivial, trivial⟩

/-- A sampled call during the start bit, not the last one. -/
theorem serial_execute_start_more (s : serial_t) (c : i8085_t)
    (h : ¬ c.cycles.val < s.catchup_cycles.val)
    (hs : s.output_state = serial_state_t.SERIAL_STATE_START_BIT)
    (hk : s.output_sample_no + 1 < 27) :
    (serial_execute s c).2.2 = none ∧
    (serial_execute s c).1.output_state = serial_state_t.SERIAL_STATE_START_BIT ∧
    (serial_execute s c).1.output_sample_no = s.output_sample_no + 1 := by
  obtain ⟨a, b, c1, -⟩ := serial_execute_fields s c h
  have hk' : ¬ s.output_sample_no + 1 ≥ 27 := by omega
  rw [a, b, c1]
  unfold serial_execute_output
  simp only [hs, SERIAL_SAMPLE_LIMIT, hk', if_false]
  exact ⟨trivial, trivial, trivial⟩

/-- The last sampled call of the start bit: the first data window begins. -/
theorem serial_execute_start_last (s : serial_t) (c : i8085_t)
    (h : ¬ c.cycles.val < s.catchup_cycles.val)
    (hs : s.output_state = serial_state_t.SERIAL_STATE_START_BIT)
    (hk : s.output_sample_no + 1 ≥ 27) :
    (serial_execute s c).2.2 = none ∧
    (serial_execute s c).1.output_state = serial_state_t.SERIAL_STATE_DATA_BIT ∧
    (serial_execute s c).1.output_sample_no = 0 ∧
    (serial_execute s c).1.output_samples = 0 ∧
    (serial_execute s c).1.output_data_bit = 0 ∧
    (serial_execute s c).1.output_byte = 0 := by
  obtain ⟨a, b, c1, d, e, f⟩ := serial_execute_fields s c h
  rw [a, b, c1, d, e, f]
  unfold serial_execute_output
  simp only [hs, SERIAL_SAMPLE_LIMIT, hk, if_true]
  exact ⟨trivial, trivial, trivial, trivial, trivial, trivial⟩

/-- A sampled call inside a data window, not the last one. -/
theorem serial_execute_data_more (s : serial_t) (c : i8085_t)
    (h : ¬ c.cycles.val < s.catchup_cycles.val)
    (hs : s.output_state = serial_state_t.SERIAL_STATE_DATA_BIT)
    (hk : s.output_sample_no + 1 < 27) :
    (serial_execute s c).2.2 = none ∧
    (serial_execute s c).1.output_state = serial_state_t.SERIAL_STATE_DATA_BIT ∧
    (serial_execute s c).1.output_sample_no = s.output_sample_no + 1 ∧
    (serial_execute s c).1.output_samples = s.output_samples + (b2n c.sod : Int) ∧
    (serial_execute s c).1.output_data_bit = s.output_data_bit ∧
    (serial_execute s c).1.output_byte = s.output_byte := by
  obtain ⟨a, b, c1, d, e, f⟩ := serial_execute_fields s c h
  have hk' : ¬ s.output_sample_no + 1 ≥ 27 := by omega
  rw [a, b, c1, d, e, f]
  unfold serial_execute_output
  simp only [hs, SERIAL_SAMPLE_LIMIT, hk', if_false]
  exact ⟨trivial, trivial, trivial, trivial, trivial, trivial⟩

/-- The last sampled call of a data window: the bit is decided. -/
theorem serial_execute_data_last (s : serial_t) (c : i8085_t)
    (h : ¬ c.cycles.val < s.catchup_cycles.val)
    (hs : s.output_state = serial_state_t.SERIAL_STATE_DATA_BIT)
    (hk : s.output_sample_no + 1 ≥ 27) :
    (serial_execute s c).2.2 = none ∧
    (serial_execute s c).1.output_state =
      (if s.output_data_bit + 1 ≥ 7 then serial_state_t.SERIAL_STATE_STOP_BIT
       else serial_state_t.SERIAL_STATE_DATA_BIT) ∧
    (serial_execute s c).1.output_sample_no = 0 ∧
    (serial_execute s c).1.output_samples = 0 ∧
    (serial_execute s c).1.output_data_bit = s.output_data_bit + 1 ∧
    (serial_execute s c).1.output_byte =
      (if s.output_samples + (b2n c.sod : Int) < 13 then
        u8i ((s.output_byte.val : Int) + 2 ^ s.output_data_bit.toNat)
       else s.output_byte) := by
  obtain ⟨a, b, c1, d, e, f⟩ := serial_execute_fields s c h
  have h13 : SERIAL_SAMPLE_LIMIT / 2 = 13 := by decide
  rw [a, b, c1, d, e, f]
  unfold serial_execute_output
  by_cases hm : s.output_samples + (b2n c.sod : Int) < 13 <;>
    by_cases hj : s.output_data_bit + 1 ≥ 7 <;>
    simp only [hs, h13, SERIAL_SAMPLE_LIMIT, SERIAL_DATA_BITS, hk, hm, hj, if_true, if_false] <;>
    exact ⟨trivial, trivial, trivial, trivial, trivial, trivial⟩

/-- A sampled call during the stop bit, not the last one. -/
theorem serial_execute_stop_more (s : serial_t) (c : i8085_t)
    (h : ¬ c.cycles.val < s.catchup_cycles.val)
    (hs : s.output_state = serial_state_t.SERIAL_STATE_STOP_BIT)
    (hk : s.output_sample_no + 1 < 27) :
    (serial_execute s c).2.2 = none ∧
    (serial_execute s c).1.output_state = serial_state_t.SERIAL_STATE_STOP_BIT ∧
    (serial_execute s c).1.output_sample_no = s.output_sample_no + 1 ∧
    (serial_execute s c).1.output_byte = s.output_byte := by
  obtain ⟨a, b, c1, -, -, f⟩ := serial_execute_fields s c h
  have hk' : ¬ s.output_sample_no + 1 ≥ 27 := by omega
  rw [a, b, c1, f]
  unfold serial_execute_output
  simp only [hs, SERIAL_SAMPLE_LIMIT, hk', if_false]
  exact ⟨trivial, trivial, trivial, trivial⟩

/-- The last sampled call of the stop bit: the byte is written and the line is idle. -/
theorem serial_execute_stop_last (s : serial_t) (c : i8085_t)
    (h : ¬ c.cycles.val < s.catchup_cycles.val)
    (hs : s.output_state = serial_state_t.SERIAL_STATE_STOP_BIT)
    (hk : s.output_sample_no + 1 ≥ 27) :
    (serial_execute s c).2.2 = some s.output_byte ∧
    (serial_execute s c).1.output_state = serial_state_t.SERIAL_STATE_IDLE := by
  obtain ⟨a, b, -⟩ := serial_execute_fields s c h
  rw [a, b]
  unfold serial_execute_output
  simp only [hs, SERIAL_SAMPLE_LIMIT, hk, if_true]
  exact ⟨trivial, trivial⟩

theorem serial_run_append (l1 l2 : List i8085_t) :
    ∀ s : serial_t,
      (serial_run s (l1 ++ l2)).1 = (serial_run (serial_run s l1).1 l2).1 ∧
      (serial_run s (l1 ++ l2)).2 = (serial_run s l1).2 ++ (serial_run (serial_run s l1).1 l2).2 := by
  induction l1 with
  | nil =>
    intro s
    exact ⟨rfl, rfl⟩
  | cons c cs ih =>
    intro s
    obtain ⟨a, b⟩ := ih (serial_execute s c).1
    refine ⟨a, ?_⟩
    show (serial_execute s c).2.2 :: (serial_run (serial_execute s c).1 (cs ++ l2)).2 = _
    rw [b]
    rfl

theorem serial_sampled_append (l1 l2 : List i8085_t) :
    ∀ s : serial_t,
      serial_sampled s (l1 ++ l2) →
        serial_sampled s l1 ∧ serial_sampled (serial_run s l1).1 l2 := by
  induction l1 with
  | nil =>
    intro s h
    exact ⟨trivial, h⟩
  | cons c cs ih =>
    intro s h
    obtain ⟨h1, h2⟩ := h
    obtain ⟨a, b⟩ := ih (serial_execute s c).1 h2
    exact ⟨⟨h1, a⟩, b⟩

theorem sod_ones_cons (c : i8085_t) (cs : List i8085_t) :
    sod_ones (c :: cs) = b2n c.sod + sod_ones cs := by
  unfold sod_ones
  cases hc : c.sod
  · simp only [List.filter_cons, hc, Bool.false_eq_true, if_false, b2n]
    omega
  · simp only [List.filter_cons, hc, if_true, List.length_cons, b2n]
    omega

/-- The start bit: 27 sampled calls write nothing and end at the first data window. -/
theorem serial_run_start (l : List i8085_t) :
    ∀ s : serial_t, s.output_state = serial_state_t.SERIAL_STATE_START_BIT →
      s.output_sample_no + l.length = 27 → l ≠ [] → serial_sampled s l →
      (serial_run s l).2 = List.replicate l.length none ∧
      (serial_run s l).1.output_state = serial_state_t.SERIAL_STATE_DATA_BIT ∧
      (serial_run s l).1.output_sample_no = 0 ∧
      (serial_run s l).1.output_samples = 0 ∧
      (serial_run s l).1.output_data_bit = 0 ∧
      (serial_run s l).1.output_byte = 0 := by
  induction l with
  | nil =>
    intro s _ _ hne _
    exact absurd rfl hne
  | cons c cs ih =>
    intro s hs hk _ hsm
    obtain ⟨hc, hrest⟩ := hsm
    cases cs with
    | nil =>
      have hk' : s.output_sample_no + 1 ≥ 27 := by
        simp only [List.length_cons, List.length_nil] at hk
        omega
      obtain ⟨a, b, c1, d, e, f⟩ := serial_execute_start_last s c hc hs hk'
      refine ⟨?_, b, c1, d, e, f⟩
      show [(serial_execute s c).2.2] = _
      rw [a]
      rfl
    | cons c2 cs2 =>
      have hk' : s.output_sample_no + 1 < 27 := by
        simp only [List.length_cons] at hk
        omega
      obtain ⟨a, b, c1⟩ := serial_execute_start_more s c hc hs hk'
      obtain ⟨r, rest⟩ := ih (serial_execute s c).1 b
        (by rw [c1]; simp only [List.length_cons] at hk ⊢; omega)
        (List.cons_ne_nil _ _) hrest
      refine ⟨?_, rest⟩
      show (serial_execute s c).2.2 :: (serial_run (serial_execute s c).1 (c2 :: cs2)).2 = _
      rw [a, r]
      rfl

/-- A data window: the sampled calls up to the end of the window write nothing; the bit
is set exactly when fewer than 13 of the samples of the window had `sod = 1`. -/
theorem serial_run_data (l : List i8085_t) :
    ∀ s : serial_t, s.output_state = serial_state_t.SERIAL_STATE_DATA_BIT →
      s.output_sample_no + l.length = 27 → l ≠ [] → serial_sampled s l →
      (serial_run s l).2 = List.replicate l.length none ∧
      (serial_run s l).1.output_state =
        (if s.output_data_bit + 1 ≥ 7 then serial_state_t.SERIAL_STATE_STOP_BIT
         else serial_state_t.SERIAL_STATE_DATA_BIT) ∧
      (serial_run s l).1.output_sample_no = 0 ∧
      (serial_run s l).1.output_samples = 0 ∧
      (serial_run s l).1.output_data_bit = s.output_data_bit + 1 ∧
      (serial_run s l).1.output_byte =
        (if s.output_samples + (sod_ones l : Int) < 13 then
          u8i ((s.output_byte.val : Int) + 2 ^ s.output_data_bit.toNat)
         else s.output_byte) := by
  induction l with
  | nil =>
    intro s _ _ hne _
    exact absurd rfl hne
  | cons c cs ih =>
    intro s hs hk _ hsm
    obtain ⟨hc, hrest⟩ := hsm
    cases cs with
    | nil =>
      have hk' : s.output_sample_no + 1 ≥ 27 := by
        simp only [List.length_cons, List.length_nil] at hk
        omega
      obtain ⟨a, b, c1, d, e, f⟩ := serial_execute_data_last s c hc hs hk'
      have ho : (sod_ones [c] : Int) = (b2n c.sod : Int) := by
        rw [sod_ones_cons]
        simp only [sod_ones, List.filter_nil, List.length_nil, Nat.add_zero]
      refine ⟨?_, b, c1, d, e, ?_⟩
      · show [(serial_execute s c).2.2] = _
        rw [a]
        rfl
      · rw [ho]
        exact f
    | cons c2 cs2 =>
      have hk' : s.output_sample_no + 1 < 27 := by
        simp only [List.length_cons] at hk
        omega
      obtain ⟨a, b, c1, d, e, f⟩ := serial_execute_data_more s c hc hs hk'
      obtain ⟨r, r1, r2, r3, r4, r5⟩ := ih (serial_execute s c).1 b
        (by rw [c1]; simp only [List.length_cons] at hk ⊢; omega)
        (List.cons_ne_nil _ _) hrest
      have ho : s.output_samples + (sod_ones (c :: c2 :: cs2) : Int)
          = s.output_samples + (b2n c.sod : Int) + (sod_ones (c2 :: cs2) : Int) := by
        rw [sod_ones_cons c]
        push_cast
        omega
      refine ⟨?_, ?_, r2, r3, ?_, ?_⟩
      · show (serial_execute s c).2.2 :: (serial_run (serial_execute s c).1 (c2 :: cs2)).2 = _
        rw [a, r]
        rfl
      · show (serial_run (serial_execute s c).1 (c2 :: cs2)).1.output_state = _
        rw [r1, e]
      · show (serial_run (serial_execute s c).1 (c2 :: cs2)).1.output_data_bit = _
        rw [r4, e]
      · show (serial_run (serial_execute s c).1 (c2 :: cs2)).1.output_byte = _
        rw [r5, d, e, f, ho]

/-- The stop bit: the byte is written by the last of the sampled calls and by no other,
and the line is idle again. -/
theorem serial_run_stop (l : List i8085_t) :
    ∀ s : serial_t, s.output_state = serial_state_t.SERIAL_STATE_STOP_BIT →
      s.output_sample_no + l.length = 27 → l ≠ [] → serial_sampled s l →
      (serial_run s l).2 = List.replicate (l.length - 1) none ++ [some s.output_byte] ∧
      (serial_run s l).1.output_state = serial_state_t.SERIAL_STATE_IDLE := by
  induction l with
  | nil =>
    intro s _ _ hne _
    exact absurd rfl hne
  | cons c cs ih =>
    intro s hs hk _ hsm
    obtain ⟨hc, hrest⟩ := hsm
    cases cs with
    | nil =>
      have hk' : s.output_sample_no + 1 ≥ 27 := by
        simp only [List.length_cons, List.length_nil] at hk
        omega
      obtain ⟨a, b⟩ := serial_execute_stop_last s c hc hs hk'
      refine ⟨?_, b⟩
      show [(serial_execute s c).2.2] = _
      rw [a]
      rfl
    | cons c2 cs2 =>
      have hk' : s.output_sample_no + 1 < 27 := by
        simp only [List.length_cons] at hk
        omega
      obtain ⟨a, b, c1, f⟩ := serial_execute_stop_more s c hc hs hk'
      obtain ⟨r, r1⟩ := ih (serial_execute s c).1 b
        (by rw [c1]; simp only [List.length_cons] at hk ⊢; omega)
        (List.cons_ne_nil _ _) hrest
      refine ⟨?_, r1⟩
      show (serial_execute s c).2.2 :: (serial_run (serial_execute s c).1 (c2 :: cs2)).2 = _
      rw [a, r, f]
      rfl

/-- A whole data window followed by further samples: what the window leaves behind. The
bit of weight `p = 2^j` is added to the byte exactly when fewer than 13 samples of the
window had `sod = 1`. -/
theorem serial_window (w rest : List i8085_t) (s : serial_t) (j v p : Nat)
    (hs : s.output_state = serial_state_t.SERIAL_STATE_DATA_BIT)
    (hno : s.output_sample_no = 0) (hsamples : s.output_samples = 0)
    (hj : s.output_data_bit = (j : Int)) (hj6 : j ≤ 6) (hp : p = 2 ^ j)
    (hv : s.output_byte.val = v) (hvlt : v < p) (hw : w.length = 27)
    (hsm : serial_sampled s (w ++ rest)) :
    ∃ s', (serial_run s (w ++ rest)).1 = (serial_run s' rest).1 ∧
      (serial_run s (w ++ rest)).2 = List.replicate 27 none ++ (serial_run s' rest).2 ∧
      serial_sampled s' rest ∧
      s'.output_state =
        (if j + 1 ≥ 7 then serial_state_t.SERIAL_STATE_STOP_BIT
         else serial_state_t.SERIAL_STATE_DATA_BIT) ∧
      s'.output_sample_no = 0 ∧ s'.output_samples = 0 ∧
      s'.output_data_bit = ((j + 1 : Nat) : Int) ∧
      s'.output_byte.val = v + (if sod_ones w < 13 then p else 0) ∧
      s'.output_byte.val < 2 * p := by
  obtain ⟨hs1, hs2⟩ := serial_sampled_append w rest s hsm
  obtain ⟨a1, a2⟩ := serial_run_append w rest s
  have hne : w ≠ [] := by
    intro h
    rw [h] at hw
    exact absurd hw (by decide)
  obtain ⟨r, r1, r2, r3, r4, r5⟩ := serial_run_data w s hs (by rw [hno, hw]; rfl) hne hs1
  have hp64 : p ≤ 64 := by
    rw [hp]
    exact Nat.pow_le_pow_right (by decide) hj6
  have hpow : ((2 : Int) ^ j) = ((p : Nat) : Int) := by
    rw [hp]
    push_cast
    rfl
  have hbyte : (serial_run s w).1.output_byte.val = v + (if sod_ones w < 13 then p else 0) := by
    rw [r5, hsamples, hj, Int.toNat_ofNat, hv, hpow]
    by_cases hc : sod_ones w < 13
    · have hc' : (0 : Int) + (sod_ones w : Int) < 13 := by omega
      rw [if_pos hc', if_pos hc]
      have hu := u8i_val ((v : Int) + (p : Int))
      omega
    · have hc' : ¬ (0 : Int) + (sod_ones w : Int) < 13 := by omega
      rw [if_neg hc', if_neg hc]
      omega
  refine ⟨(serial_run s w).1, a1, ?_, hs2, ?_, r2, r3, ?_, hbyte, ?_⟩
  · rw [a2, r, hw]
  · rw [r1, hj]
    by_cases hc : j + 1 ≥ 7
    · have hc' : (j : Int) + 1 ≥ 7 := by omega
      rw [if_pos hc, if_pos hc']
    · have hc' : ¬ (j : Int) + 1 ≥ 7 := by omega
      rw [if_neg hc, if_neg hc']
  · rw [r4, hj]
    push_cast
    rfl
  · rw [hbyte]
    split_ifs <;> omega

theorem ite_bit (P : Prop) [Decidable P] (p : Nat) :
    ∃ x : Nat, (if P then p else 0) = p * x ∧ (x = 1 ↔ P) ∧ x ≤ 1 := by
  by_cases h : P
  · exact ⟨1, by rw [if_pos h, Nat.mul_one], ⟨fun _ => h, fun _ => rfl⟩, Nat.le_refl _⟩
  · exact ⟨0, by rw [if_neg h, Nat.mul_zero], ⟨fun e => absurd e (by decide), fun e => absurd e h⟩,
      Nat.zero_le _⟩

/-- Register files whose cycle counter is at the largest value are always sampled. -/
theorem serial_sampled_of_max (l : List i8085_t) :
    ∀ s : serial_t, (∀ c ∈ l, c.cycles.val = 18446744073709551615) → serial_sampled s l := by
  induction l with
  | nil =>
    intro s _
    trivial
  | cons c cs ih =>
    intro s h
    have hc := h c (List.mem_cons_self _ _)
    have hlt := s.catchup_cycles.isLt
    exact ⟨by omega, ih _ (fun x hx => h x (List.mem_cons_of_mem _ hx))⟩

/-- A whole data window, its decision named `x`: 1 when fewer than 13 samples of the window
had `sod = 1`, else 0. -/
theorem serial_window_bit (w rest : List i8085_t) (s : serial_t) (j v p : Nat)
    (hs : s.output_state = serial_state_t.SERIAL_STATE_DATA_BIT)
    (hno : s.output_sample_no = 0) (hsamples : s.output_samples = 0)
    (hj : s.output_data_bit = (j : Int)) (hj6 : j ≤ 6) (hp : p = 2 ^ j)
    (hv : s.output_byte.val = v) (hvlt : v < p) (hw : w.length = 27)
    (hsm : serial_sampled s (w ++ rest)) :
    ∃ (s' : serial_t) (x : Nat), (serial_run s (w ++ rest)).1 = (serial_run s' rest).1 ∧
      (serial_run s (w ++ rest)).2 = List.replicate 27 none ++ (serial_run s' rest).2 ∧
      serial_sampled s' rest ∧
      s'.output_state =
        (if j + 1 ≥ 7 then serial_state_t.SERIAL_STATE_STOP_BIT
         else serial_state_t.SERIAL_STATE_DATA_BIT) ∧
      s'.output_sample_no = 0 ∧ s'.output_samples = 0 ∧
      s'.output_data_bit = ((j + 1 : Nat) : Int) ∧
      s'.output_byte.val = v + p * x ∧ s'.output_byte.val < 2 * p ∧
      (x = 1 ↔ sod_ones w < 13) ∧ x ≤ 1 := by
  obtain ⟨s', a, b, c, d, e, f, g, h, i⟩ :=
    serial_window w rest s j v p hs hno hsamples hj hj6 hp hv hvlt hw hsm
  obtain ⟨x, y, k, l⟩ := ite_bit (sod_ones w < 13) p
  rw [y] at h
  exact ⟨s', x, a, b, c, d, e, f, g, h, i, k, l⟩

/-- C30. Starting with the serial output state idle, for every run of sampled calls of
`serial_execute` made of one call with `sod = 1`, then 27 calls of the start bit, then
seven windows of 27 calls, then 27 calls of the stop bit: exactly one byte is written, by
the last call; bit `i` (0..6) of that byte is 1 exactly when fewer than 13 of the 27 samples
of window `i` had `sod = 1`, bit 7 is 0, and the output state is idle again. -/
theorem C30_serial_output_byte (serial : serial_t) (c0 : i8085_t)
    (start w0 w1 w2 w3 w4 w5 w6 stop : List i8085_t)
    (hidle : serial.output_state = serial_state_t.SERIAL_STATE_IDLE) (hsod : c0.sod = true)
    (hstart : start.length = 27) (h0 : w0.length = 27) (h1 : w1.length = 27)
    (h2 : w2.length = 27) (h3 : w3.length = 27) (h4 : w4.length = 27) (h5 : w5.length = 27)
    (h6 : w6.length = 27) (hstop : stop.length = 27)
    (hsm : serial_sampled serial
      (c0 :: (start ++ (w0 ++ (w1 ++ (w2 ++ (w3 ++ (w4 ++ (w5 ++ (w6 ++ stop)))))))))) :
    ∃ b : uint8_t,
      (serial_run serial
        (c0 :: (start ++ (w0 ++ (w1 ++ (w2 ++ (w3 ++ (w4 ++ (w5 ++ (w6 ++ stop)))))))))).2
        = List.replicate 243 none ++ [some b] ∧
      (b.val % 2 = 1 ↔ sod_ones w0 < 13) ∧ (b.val / 2 % 2 = 1 ↔ sod_ones w1 < 13) ∧
      (b.val / 4 % 2 = 1 ↔ sod_ones w2 < 13) ∧ (b.val / 8 % 2 = 1 ↔ sod_ones w3 < 13) ∧
      (b.val / 16 % 2 = 1 ↔ sod_ones w4 < 13) ∧ (b.val / 32 % 2 = 1 ↔ sod_ones w5 < 13) ∧
      (b.val / 64 % 2 = 1 ↔ sod_ones w6 < 13) ∧ b.val / 128 % 2 = 0 ∧
      (serial_run serial
        (c0 :: (start ++ (w0 ++ (w1 ++ (w2 ++ (w3 ++ (w4 ++ (w5 ++ (w6 ++ stop)))))))))).1.output_state
        = serial_state_t.SERIAL_STATE_IDLE := by
  obtain ⟨hc0, hrest⟩ := hsm
  obtain ⟨i1, i2, i3⟩ := serial_execute_idle serial c0 hc0 hidle hsod
  -- the start bit
  obtain ⟨hsA, hsB⟩ := serial_sampled_append start
    (w0 ++ (w1 ++ (w2 ++ (w3 ++ (w4 ++ (w5 ++ (w6 ++ stop))))))) (serial_execute serial c0).1 hrest
  obtain ⟨aA, aB⟩ := serial_run_append start
    (w0 ++ (w1 ++ (w2 ++ (w3 ++ (w4 ++ (w5 ++ (w6 ++ stop))))))) (serial_execute serial c0).1
  have hne : start ≠ [] := by
    intro h
    rw [h] at hstart
    exact absurd hstart (by decide)
  obtain ⟨q, q1, q2, q3, q4, q5⟩ := serial_run_start start (serial_execute serial c0).1 i2
    (by rw [i3, hstart]; rfl) hne hsA
  have q5' : (serial_run (serial_execute serial c0).1 start).1.output_byte.val = 0 := by
    rw [q5]; rfl
  -- the seven data windows
  obtain ⟨s0, x0, e0, o0, m0, t0, n0, p0, d0, b0, l0, j0, k0⟩ := serial_window_bit w0
    (w1 ++ (w2 ++ (w3 ++ (w4 ++ (w5 ++ (w6 ++ stop))))))
    (serial_run (serial_execute serial c0).1 start).1 0 0 1 q1 q2 q3 q4
    (by decide) rfl q5' (by decide) h0 hsB
  obtain ⟨s1, x1, e1, o1, m1, t1, n1, p1, d1, b1, l1, j1, k1⟩ := serial_window_bit w1
    (w2 ++ (w3 ++ (w4 ++ (w5 ++ (w6 ++ stop))))) s0 1 s0.output_byte.val 2
    t0 n0 p0 d0 (by decide) rfl rfl l0 h1 m0
  obtain ⟨s2, x2, e2, o2, m2, t2, n2, p2, d2, b2, l2, j2, k2⟩ := serial_window_bit w2
    (w3 ++ (w4 ++ (w5 ++ (w6 ++ stop)))) s1 2 s1.output_byte.val 4
    t1 n1 p1 d1 (by decide) rfl rfl l1 h2 m1
  obtain ⟨s3, x3, e3, o3, m3, t3, n3, p3, d3, b3, l3, j3, k3⟩ := serial_window_bit w3
    (w4 ++ (w5 ++ (w6 ++ stop))) s2 3 s2.output_byte.val 8
    t2 n2 p2 d2 (by decide) rfl rfl l2 h3 m2
  obtain ⟨s4, x4, e4, o4, m4, t4, n4, p4, d4, b4, l4, j4, k4⟩ := serial_window_bit w4
    (w5 ++ (w6 ++ stop)) s3 4 s3.output_byte.val 16
    t3 n3 p3 d3 (by decide) rfl rfl l3 h4 m3
  obtain ⟨s5, x5, e5, o5, m5, t5, n5, p5, d5, b5, l5, j5, k5⟩ := serial_window_bit w5
    (w6 ++ stop) s4 5 s4.output_byte.val 32
    t4 n4 p4 d4 (by decide) rfl rfl l4 h5 m4
  obtain ⟨s6, x6, e6, o6, m6, t6, n6, p6, d6, b6, l6, j6, k6⟩ := serial_window_bit w6
    stop s5 6 s5.output_byte.val 64
    t5 n5 p5 d5 (by decide) rfl rfl l5 h6 m5
  -- the stop bit
  have hne2 : stop ≠ [] := by
    intro h
    rw [h] at hstop
    exact absurd hstop (by decide)
  obtain ⟨z, z1⟩ := serial_run_stop stop s6 t6 (by rw [n6, hstop]; rfl) hne2 m6
  refine ⟨s6.output_byte, ?_, ?_, ?_, ?_, ?_, ?_, ?_, ?_, ?_, ?_⟩
  · show (serial_execute serial c0).2.2 :: (serial_run (serial_execute serial c0).1 _).2 = _
    rw [i1, aB, q, hstart, o0, o1, o2, o3, o4, o5, o6, z, hstop]
    rfl
  · rw [← j0]; omega
  · rw [← j1]; omega
  · rw [← j2]; omega
  · rw [← j3]; omega
  · rw [← j4]; omega
  · rw [← j5]; omega
  · rw [← j6]; omega
  · omega
  · show (serial_run (serial_execute serial c0).1 _).1.output_state = _
    rw [aA, e0, e1, e2, e3, e4, e5, e6, z1]

theorem serial_window_sampled (s : serial_t) :
    serial_sampled s
      (cpu_sod true :: (serial_window_low ++ (serial_window_low ++ (serial_window_high ++
        (serial_window_high ++ (serial_window_high ++ (serial_window_high ++
        (serial_window_high ++ (serial_window_low ++ serial_window_high))))))))) := by
  apply serial_sampled_of_max
  intro c hc
  simp only [List.mem_cons, List.mem_append, serial_window_low, serial_window_high,
    List.mem_replicate] at hc
  rcases hc with h | h | h | h | h | h | h | h | h | h
  all_goals first
    | (rw [h]; rfl)
    | (rw [h.2]; rfl)

theorem C30_serial_output_byte_witness :
    serial_init.output_state = serial_state_t.SERIAL_STATE_IDLE ∧ (cpu_sod true).sod = true ∧
    serial_window_low.length = 27 ∧ serial_window_high.length = 27 ∧
    ∃ b : uint8_t,
      (serial_run serial_init
        (cpu_sod true :: (serial_window_low ++ (serial_window_low ++ (serial_window_high ++
          (serial_window_high ++ (serial_window_high ++ (serial_window_high ++
          (serial_window_high ++ (serial_window_low ++ serial_window_high)))))))))).2
        = List.replicate 243 none ++ [some b] ∧
      (b.val % 2 = 1 ↔ sod_ones serial_window_low < 13) ∧
      (b.val / 2 % 2 = 1 ↔ sod_ones serial_window_high < 13) ∧
      (b.val / 4 % 2 = 1 ↔ sod_ones serial_window_high < 13) ∧
      (b.val / 8 % 2 = 1 ↔ sod_ones serial_window_high < 13) ∧
      (b.val / 16 % 2 = 1 ↔ sod_ones serial_window_high < 13) ∧
      (b.val / 32 % 2 = 1 ↔ sod_ones serial_window_high < 13) ∧
      (b.val / 64 % 2 = 1 ↔ sod_ones serial_window_low < 13) ∧
      b.val / 128 % 2 = 0 ∧
      (serial_run serial_init
        (cpu_sod true :: (serial_window_low ++ (serial_window_low ++ (serial_window_high ++
          (serial_window_high ++ (serial_window_high ++ (serial_window_high ++
          (serial_window_high ++ (serial_window_low ++ serial_window_high)))))))))).1.output_state
        = serial_state_t.SERIAL_STATE_IDLE :=
  ⟨rfl, rfl, rfl, rfl,
    C30_serial_output_byte serial_init (cpu_sod true) serial_window_low serial_window_low
      serial_window_high serial_window_high serial_window_high serial_window_high
      serial_window_high serial_window_low serial_window_high rfl rfl rfl rfl rfl rfl rfl rfl
      rfl rfl rfl (serial_window_sampled serial_init)⟩

/-! ### Parity, overflow, compare -/

set_option maxRecDepth 8192 in
theorem parity_even_reverse_bits :
    ∀ v : uint8_t, parity_even v = parity_even (reverse_bits v) := by
  decide

set_option maxRecDepth 8192 in
theorem reverse_bits_testBit :
    ∀ v : uint8_t, ∀ i : Fin 8, (reverse_bits v).val.testBit i.val = v.val.testBit (7 - i.val) := by
  decide

/-- C33. For every 8-bit value `v`, `parity_even v` is true exactly when `v` has an even
number of 1 bits, and `parity_even v = parity_even (reverse_bits v)`, where `reverse_bits`
mirrors the eight bits of `v` (bit `i` of the mirror is bit `7 - i` of `v`). -/
theorem C33_parity_even (v : uint8_t) :
    (parity_even v = true ↔ count_ones v % 2 = 0) ∧
    parity_even v = parity_even (reverse_bits v) ∧
    (∀ i : Fin 8, (reverse_bits v).val.testBit i.val = v.val.testBit (7 - i.val)) :=
  ⟨parity_even_iff v, parity_even_reverse_bits v, reverse_bits_testBit v⟩

theorem signed_eq (x : uint8_t) : signed x = (x.val : Int) - 256 * (x.val / 128 % 2 : Nat) := by
  have h := x.isLt
  unfold signed
  split_ifs <;> omega

/-- C36. For every register file and operand `v`, the `P` flag after `ADD`, `ADC`, `SUB`,
`SBB` and `CMP` is 1 exactly when the exact result on the signed interpretations
(`s(A)+s(v)`, `s(A)+s(v)+CY`, `s(A)-s(v)`, `s(A)-s(v)-CY`, `s(A)-s(v)`) lies outside
-128..127. -/
theorem C36_p_is_signed_overflow (cpu : i8085_t) (v : uint8_t) :
    ((i8085_add cpu v).flag.p = true ↔ ¬ in_signed_range (signed cpu.a + signed v)) ∧
    ((i8085_adc cpu v).flag.p = true ↔
      ¬ in_signed_range (signed cpu.a + signed v + (b2n cpu.flag.cy : Int))) ∧
    ((i8085_sub cpu v).flag.p = true ↔ ¬ in_signed_range (signed cpu.a - signed v)) ∧
    ((i8085_sbb cpu v).flag.p = true ↔
      ¬ in_signed_range (signed cpu.a - signed v - (b2n cpu.flag.cy : Int))) ∧
    ((i8085_cmp cpu v).flag.p = true ↔ ¬ in_signed_range (signed cpu.a - signed v)) := by
  have ha := cpu.a.isLt
  have hv := v.isLt
  have hb := b2n_le_one cpu.flag.cy
  simp only [i8085_add, i8085_adc, i8085_sub, i8085_sbb, i8085_cmp, u8, u8i, u16, u16i,
    and_0x80, signed_eq, in_signed_range, Bool.and_eq_true, beq_iff_eq, bne_iff_ne, ne_eq]
  refine ⟨?_, ?_, ?_, ?_, ?_⟩ <;> omega

/-- C37. For every register file and operand `v`, `CMP v` leaves `A` unchanged and
produces the flags of `SUB v`: the register file after `i8085_cmp` is the one after
`i8085_sub` with the old accumulator put back. -/
theorem C37_cmp_is_sub_keeping_a (cpu : i8085_t) (v : uint8_t) :
    i8085_cmp cpu v = { i8085_sub cpu v with a := cpu.a } ∧
    (i8085_cmp cpu v).a = cpu.a ∧
    (i8085_cmp cpu v).flag.cy = (i8085_sub cpu v).flag.cy ∧
    (i8085_cmp cpu v).flag.ac = (i8085_sub cpu v).flag.ac ∧
    (i8085_cmp cpu v).flag.p = (i8085_sub cpu v).flag.p ∧
    (i8085_cmp cpu v).flag.z = (i8085_sub cpu v).flag.z ∧
    (i8085_cmp cpu v).flag.s = (i8085_sub cpu v).flag.s := by
  have ha := cpu.a.isLt
  have hv := v.isLt
  have hs : bit1 ((u16i ((cpu.a.val : Int) - v.val)).val >>> 7 : Nat) =
      bit1 ((u8 (u16i ((cpu.a.val : Int) - v.val)).val).val >>> 7 : Nat) := by
    simp only [bit1, u8, u16i, Nat.shiftRight_eq_div_pow, decide_eq_decide]
    omega
  have hz : ((u16i ((cpu.a.val : Int) - v.val)).val == 0) =
      ((u8 (u16i ((cpu.a.val : Int) - v.val)).val).val == 0) := by
    rw [Bool.eq_iff_iff]
    simp only [u8, u16i, beq_iff_eq]
    omega
  have key : i8085_cmp cpu v = { i8085_sub cpu v with a := cpu.a } := by
    simp only [i8085_cmp, i8085_sub, hs, hz]
  refine ⟨key, ?_, ?_, ?_, ?_, ?_, ?_⟩ <;> rw [key]

/-! ### 8155 timer: one host tick -/

/-- On a running timer with no trap latched, `j` rounds of the loop of `i8155_execute`
count the timer down by `j` and advance `catchup_cycles` by `j`, as long as the timer
holds at least `j` and the cycle counter is at least `j` ahead. -/
theorem i8155_execute_loop_count (j : Nat) :
    ∀ (t : i8155_t) (cpu : i8085_t) (m : Nat), t.timer_running = true → t.trap = false →
      j ≤ t.timer.val → t.catchup_cycles.val + j ≤ cpu.cycles.val →
      i8155_execute_loop (j + m) t cpu =
        i8155_execute_loop m
          { t with timer := u16 (t.timer.val - j)
                   catchup_cycles := u64 (t.catchup_cycles.val + j) } cpu := by
  induction j with
  | zero =>
    intro t cpu m _ _ _ _
    have e1 : u16 (t.timer.val - 0) = t.timer := Fin.ext (by
      have := t.timer.isLt
      rw [u16_val]; omega)
    have e2 : u64 (t.catchup_cycles.val + 0) = t.catchup_cycles := Fin.ext (by
      have := t.catchup_cycles.isLt
      rw [u64_val]; omega)
    rw [e1, e2, Nat.zero_add]
  | succ j ih =>
    intro t cpu m hr ht hj hc
    have hlt := cpu.cycles.isLt
    have htl := t.timer.isLt
    have hc1 : cpu.cycles.val > t.catchup_cycles.val := by omega
    have h0 : t.timer.val > 0 := by omega
    have hcu : (u64 (t.catchup_cycles.val + 1)).val = t.catchup_cycles.val + 1 := by
      rw [u64_val]; omega
    have hti : (u16i ((t.timer.val : Int) - 1)).val = t.timer.val - 1 := by
      simp only [u16i]; omega
    have e : j + 1 + m = (j + m) + 1 := by omega
    rw [e]
    simp only [i8155_execute_loop, hc1, hr, ht, h0, if_true, Bool.false_eq_true, if_false]
    have e1 : u16 (t.timer.val - 1 - j) = u16 (t.timer.val - (j + 1)) := by
      congr 1; omega
    have e2 : u64 (t.catchup_cycles.val + 1 + j) = u64 (t.catchup_cycles.val + (j + 1)) := by
      congr 1; omega
    refine (ih { catchup_cycles := u64 (t.catchup_cycles.val + 1)
                 timer := u16i ((t.timer.val : Int) - 1)
                 timer_running := true, trap := false } cpu m rfl rfl
      (by simp only [hti]; omega) (by simp only [hcu]; omega)).trans ?_
    simp only [hti, hcu, e1, e2]

/-- On a stopped timer with no trap latched, `j` rounds of the loop only advance
`catchup_cycles` by `j`. -/
theorem i8155_execute_loop_skip (j : Nat) :
    ∀ (t : i8155_t) (cpu : i8085_t) (m : Nat), t.timer_running = false → t.trap = false →
      t.catchup_cycles.val + j ≤ cpu.cycles.val →
      i8155_execute_loop (j + m) t cpu =
        i8155_execute_loop m { t with catchup_cycles := u64 (t.catchup_cycles.val + j) } cpu := by
  induction j with
  | zero =>
    intro t cpu m _ _ _
    have e2 : u64 (t.catchup_cycles.val + 0) = t.catchup_cycles := Fin.ext (by
      have := t.catchup_cycles.isLt
      rw [u64_val]; omega)
    rw [e2, Nat.zero_add]
  | succ j ih =>
    intro t cpu m hr ht hc
    have hlt := cpu.cycles.isLt
    have hc1 : cpu.cycles.val > t.catchup_cycles.val := by omega
    have hcu : (u64 (t.catchup_cycles.val + 1)).val = t.catchup_cycles.val + 1 := by
      rw [u64_val]; omega
    have e : j + 1 + m = (j + m) + 1 := by omega
    rw [e]
    simp only [i8155_execute_loop, hc1, hr, ht, if_true, Bool.false_eq_true, if_false]
    have e2 : u64 (t.catchup_cycles.val + 1 + j) = u64 (t.catchup_cycles.val + (j + 1)) := by
      congr 1; omega
    refine (ih { catchup_cycles := u64 (t.catchup_cycles.val + 1)
                 timer := t.timer
                 timer_running := false, trap := false } cpu m rfl rfl
      (by simp only [hcu]; omega)).trans ?_
    simp only [hcu, e2]

/-- C35. For every timer state with no trap latched and `cpu.cycles - catchup_cycles = k`,
`k > 0`: on a running timer holding `n`, if `k ≤ n` then `i8155_execute` returns false
leaving `timer = n - k`, the timer running and `catchup_cycles = cpu.cycles`; if `k > n` it
returns false leaving `timer = 0`, the timer stopped, the trap latched and
`catchup_cycles` advanced by exactly `n`; on a stopped timer it returns false and sets
`catchup_cycles` to `cpu.cycles`, changing nothing else. -/
theorem C35_timer_tick (t : i8155_t) (cpu : i8085_t) (n k : Nat)
    (ht : t.trap = false) (hn : t.timer.val = n)
    (hk : t.catchup_cycles.val + k = cpu.cycles.val) (hpos : 0 < k) :
    (t.timer_running = true → k ≤ n →
      i8155_execute t cpu =
        (false, { t with timer := u16 (n - k), catchup_cycles := cpu.cycles })) ∧
    (t.timer_running = true → n < k →
      i8155_execute t cpu =
        (false, { t with timer := 0, timer_running := false, trap := true
                         catchup_cycles := u64 (t.catchup_cycles.val + n) }) ∧
      (u64 (t.catchup_cycles.val + n)).val = t.catchup_cycles.val + n) ∧
    (t.timer_running = false →
      i8155_execute t cpu = (false, { t with catchup_cycles := cpu.cycles })) := by
  have hlt := cpu.cycles.isLt
  have hfuel : cpu.cycles.val - t.catchup_cycles.val = k := by omega
  have hcy : u64 (t.catchup_cycles.val + k) = cpu.cycles := Fin.ext (by
    rw [u64_val]; omega)
  refine ⟨?_, ?_, ?_⟩
  · intro hr hle
    have h := i8155_execute_loop_count k t cpu 0 hr ht (by omega) (by omega)
    rw [i8155_execute, hfuel]
    rw [Nat.add_zero] at h
    rw [h, hcy, hn]
    rfl
  · intro hr hgt
    obtain ⟨d, hd⟩ : ∃ d, k = n + (d + 1) := ⟨k - n - 1, by omega⟩
    have h := i8155_execute_loop_count n t cpu (d + 1) hr ht (by omega) (by omega)
    have hv : (u64 (t.catchup_cycles.val + n)).val = t.catchup_cycles.val + n := by
      rw [u64_val]; omega
    refine ⟨?_, hv⟩
    rw [i8155_execute, hfuel, hd, h]
    have hc1 : cpu.cycles.val > (u64 (t.catchup_cycles.val + n)).val := by rw [hv]; omega
    have h0 : ¬ (u16 (t.timer.val - n)).val > 0 := by
      rw [u16_val, hn]; simp
    have e0 : u16 (t.timer.val - n) = 0 := Fin.ext (by rw [u16_val, hn]; simp)
    rw [e0] at h0
    simp only [i8155_execute_loop, hc1, hr, if_true, e0]
    rw [if_neg h0]
  · intro hr
    have h := i8155_execute_loop_skip k t cpu 0 hr ht (by omega)
    rw [i8155_execute, hfuel]
    rw [Nat.add_zero] at h
    rw [h, hcy]
    rfl

theorem C35_timer_tick_witness :
    (i8155_execute i8155_counting cpu_cycles_14 =
        (false, { i8155_counting with timer := u16 (5 - 4)
                                      catchup_cycles := cpu_cycles_14.cycles })) ∧
    (i8155_execute i8155_counting cpu_cycles_30 =
        (false, { i8155_counting with timer := 0, timer_running := false, trap := true
                                      catchup_cycles := u64 (10 + 5) })) ∧
    (i8155_execute i8155_stopped cpu_cycles_14 =
        (false, { i8155_stopped with catchup_cycles := cpu_cycles_14.cycles })) :=
  ⟨(C35_timer_tick i8155_counting cpu_cycles_14 5 4 rfl rfl rfl (by decide)).1 rfl
      (by decide),
    ((C35_timer_tick i8155_counting cpu_cycles_30 5 20 rfl rfl rfl (by decide)).2.1 rfl
      (by decide)).1,
    (C35_timer_tick i8155_stopped cpu_cycles_14 5 4 rfl rfl rfl (by decide)).2.2 rfl⟩

/-! ### 8279 over the bus -/

theorem mem_reads_status (n : Nat) (mem : mem_t) (v : uint8_t)
    (h : mem_read mem 0x1900 = some (v, mem)) :
    mem_reads mem (List.replicate n 0x1900) = some (List.replicate n v, mem) := by
  induction n with
  | zero => rfl
  | succ n ih => simp only [List.replicate_succ, mem_reads, h, ih]

/-- C32. With the 8279 read hook bound to a controller, a bus read of `0x1800` returns the
keyboard FIFO byte and sets the status word to 0, and a bus read of `0x1900` returns the
status word and leaves the bus state as it is. After the key `5` has been polled (FIFO
`0x05`, status `0x01`), a read of `0x1800` followed by any number of reads of `0x1900`
returns `0x05` and then `0x00` each time. -/
theorem C32_keyboard_fifo_over_the_bus (mem : mem_t) (hook : mem_read_hook_t) (dev : i8279_t)
    (hr : mem.i8279_read = some hook) (hd : mem.i8279 = some dev) :
    mem_read mem 0x1800
      = some (dev.keyboard_fifo, { mem with i8279 := some { dev with status_word := 0x00 } }) ∧
    mem_read mem 0x1900 = some (dev.status_word, mem) ∧
    (∀ me : MEVENT,
      (i8279_keyboard_poll dev (chr '5') me).1 = .I8279_KEY_FIFO ∧
      (i8279_keyboard_poll dev (chr '5') me).2.keyboard_fifo = 0x05 ∧
      (i8279_keyboard_poll dev (chr '5') me).2.status_word = 0x01 ∧
      ∀ n : Nat,
        mem_reads { mem with i8279 := some (i8279_keyboard_poll dev (chr '5') me).2 }
            (0x1800 :: List.replicate n 0x1900)
          = some (0x05 :: List.replicate n 0x00,
              { mem with i8279 := some { dev with keyboard_fifo := 0x05
                                                  status_word := 0x00 } })) := by
  have r1 : ∀ (m : mem_t) (d : i8279_t), m.i8279_read = some hook → m.i8279 = some d →
      mem_read m 0x1800
        = some (d.keyboard_fifo, { m with i8279 := some { d with status_word := 0x00 } }) := by
    intro m d h1 h2
    cases hook
    simp only [mem_read, h1, h2]
    rfl
  have r2 : ∀ (m : mem_t) (d : i8279_t), m.i8279_read = some hook → m.i8279 = some d →
      mem_read m 0x1900 = some (d.status_word, m) := by
    intro m d h1 h2
    cases hook
    cases m
    simp only at h1 h2
    subst h1 h2
    rfl
  refine ⟨r1 mem dev hr hd, r2 mem dev hr hd, ?_⟩
  intro me
  have hp : i8279_keyboard_poll dev (chr '5') me
      = (.I8279_KEY_FIFO, { dev with keyboard_fifo := 0x05, status_word := 0x01 }) := by
    rfl
  rw [hp]
  refine ⟨rfl, rfl, rfl, ?_⟩
  intro n
  have h1 : mem_read
      { mem with i8279 := some { dev with keyboard_fifo := 0x05, status_word := 0x01 } } 0x1800
      = some (0x05,
          { mem with i8279 := some { dev with keyboard_fifo := 0x05, status_word := 0x00 } }) :=
    r1 { mem with i8279 := some { dev with keyboard_fifo := 0x05, status_word := 0x01 } }
      { dev with keyboard_fifo := 0x05, status_word := 0x01 } hr rfl
  have h2 := mem_reads_status n
    { mem with i8279 := some { dev with keyboard_fifo := 0x05, status_word := 0x00 } } 0x00
    (r2 { mem with i8279 := some { dev with keyboard_fifo := 0x05, status_word := 0x00 } }
      { dev with keyboard_fifo := 0x05, status_word := 0x00 } hr rfl)
  simp only [mem_reads, h1, h2]

theorem C32_keyboard_fifo_over_the_bus_witness :
    mem_read mem_key_5 0x1800
      = some (0x05, { mem_key_5 with
                      i8279 := some { i8279_zero with keyboard_fifo := 0x05
                                                      status_word := 0x00 } }) :=
  (C32_keyboard_fifo_over_the_bus mem_key_5 .i8279_read_hook
    { i8279_zero with keyboard_fifo := 0x05, status_word := 0x01 } rfl rfl).1

/-! ### 8279 display RAM index -/

theorem i8279_command_word_write_bounds (dev : i8279_t) (v : uint8_t)
    (hi : dev.display_ram_index.val < 16) (hl : dev.display_ram_limit.val ≤ 16) :
    (i8279_command_word_write dev v).display_ram_index.val < 16 ∧
    (i8279_command_word_write dev v).display_ram_limit.val ≤ 16 := by
  have hv : v.val &&& 0b1111 < 16 := by
    have e := and_0xF v.val
    have e2 : (0b1111 : Nat) = 0xF := rfl
    rw [e2, e]
    exact Nat.mod_lt _ (by decide)
  unfold i8279_command_word_write
  split
  · split_ifs
    · exact ⟨hi, (by decide : (8 : c_uint).val ≤ 16)⟩
    · exact ⟨hi, (by decide : (16 : c_uint).val ≤ 16)⟩
  · refine ⟨?_, hl⟩
    show (u32 (v.val &&& 0b1111)).val < 16
    simp only [u32]
    omega
  · split_ifs
    · exact ⟨hi, hl⟩
    · exact ⟨hi, hl⟩
  · exact ⟨hi, hl⟩

/-- A display-data write on a controller whose index is below 16: the cell at the index
receives the value, and the index moves as the auto-increment flag says. -/
theorem i8279_display_data_write_eq (dev : i8279_t) (v : uint8_t)
    (hi : dev.display_ram_index.val < 16) :
    i8279_display_data_write dev v = some
      { dev with
        display_ram := fun i => if i = ⟨dev.display_ram_index.val, hi⟩ then v
                                else dev.display_ram i
        display_ram_index :=
          if dev.auto_increment = true then
            if dev.display_ram_index.val + 1 < dev.display_ram_limit.val then
              u32 (dev.display_ram_index.val + 1)
            else 0
          else dev.display_ram_index } := by
  have h1 : (u32 (dev.display_ram_index.val + 1)).val = dev.display_ram_index.val + 1 := by
    simp only [u32]
    omega
  unfold i8279_display_data_write
  rw [dif_pos hi]
  cases ha : dev.auto_increment
  · simp only [Bool.false_eq_true, if_false]
  · simp only [if_true, h1, ge_iff_le]
    by_cases hc : dev.display_ram_index.val + 1 < dev.display_ram_limit.val
    · rw [if_neg (by omega), if_pos hc]
    · rw [if_pos (by omega), if_neg hc]

theorem i8279_write_hook_bounds (dev : i8279_t) (a : uint16_t) (v : uint8_t)
    (hi : dev.display_ram_index.val < 16) (hl : dev.display_ram_limit.val ≤ 16) :
    ∃ dev', i8279_write_hook dev a v = some dev' ∧
      dev'.display_ram_index.val < 16 ∧ dev'.display_ram_limit.val ≤ 16 := by
  unfold i8279_write_hook
  split_ifs
  · refine ⟨_, i8279_display_data_write_eq dev v hi, ?_, hl⟩
    have h1 : (u32 (dev.display_ram_index.val + 1)).val = dev.display_ram_index.val + 1 := by
      simp only [u32]
      omega
    show (if dev.auto_increment = true then
            if dev.display_ram_index.val + 1 < dev.display_ram_limit.val then
              u32 (dev.display_ram_index.val + 1)
            else 0
          else dev.display_ram_index).val < 16
    split_ifs
    · rw [h1]; omega
    · decide
    · exact hi
  · exact ⟨_, rfl, i8279_command_word_write_bounds dev v hi hl⟩
  · exact ⟨_, rfl, hi, hl⟩

theorem i8279_writes_bounds (ws : List (uint16_t × uint8_t)) :
    ∀ dev : i8279_t, dev.display_ram_index.val < 16 → dev.display_ram_limit.val ≤ 16 →
      ∃ dev', i8279_writes dev ws = some dev' ∧
        dev'.display_ram_index.val < 16 ∧ dev'.display_ram_limit.val ≤ 16 := by
  induction ws with
  | nil => intro dev hi hl; exact ⟨dev, rfl, hi, hl⟩
  | cons w ws ih =>
    intro dev hi hl
    obtain ⟨d1, e1, hi1, hl1⟩ := i8279_write_hook_bounds dev w.1 w.2 hi hl
    obtain ⟨d2, e2, hi2, hl2⟩ := ih d1 hi1 hl1
    exact ⟨d2, by simp only [i8279_writes, e1, e2], hi2, hl2⟩

/-- C39. From the zero-initialised 8279 state, every sequence of writes through
`i8279_write_hook` (command words at `0x1900`, display data at `0x1800`) is defined and
ends in a state `dev` with the display RAM index below 16 and the limit at most 16; in
such a state a further display-data write stores the value into the cell at the index,
leaves the other fifteen cells, and with auto-increment on moves the index from `i` to `i + 1`
if `i + 1` is below the limit and to 0 otherwise (with auto-increment off the index
stays). -/
theorem C39_display_ram_index_in_range (ws : List (uint16_t × uint8_t)) :
    ∃ (dev : i8279_t) (hi : dev.display_ram_index.val < 16),
      i8279_writes i8279_zero ws = some dev ∧
      dev.display_ram_limit.val ≤ 16 ∧
      ∀ v : uint8_t, ∃ dev' : i8279_t,
        i8279_write_hook dev 0x1800 v = some dev' ∧
        (∀ j : Fin 16, dev'.display_ram j =
          if j = ⟨dev.display_ram_index.val, hi⟩ then v else dev.display_ram j) ∧
        dev'.display_ram_index.val =
          (if dev.auto_increment = true then
            if dev.display_ram_index.val + 1 < dev.display_ram_limit.val then
              dev.display_ram_index.val + 1
            else 0
          else dev.display_ram_index.val) ∧
        dev'.display_ram_limit = dev.display_ram_limit ∧
        dev'.auto_increment = dev.auto_increment := by
  obtain ⟨dev, e, hi, hl⟩ := i8279_writes_bounds ws i8279_zero (by decide) (by decide)
  refine ⟨dev, hi, e, hl, ?_⟩
  intro v
  have h1 : (u32 (dev.display_ram_index.val + 1)).val = dev.display_ram_index.val + 1 := by
    simp only [u32]
    omega
  have hw : i8279_write_hook dev 0x1800 v = i8279_display_data_write dev v := by
    unfold i8279_write_hook
    rw [if_pos (by decide)]
  refine ⟨_, hw.trans (i8279_display_data_write_eq dev v hi), fun _ => rfl, ?_, rfl, rfl⟩
  · show (if dev.auto_increment = true then
            if dev.display_ram_index.val + 1 < dev.display_ram_limit.val then
              u32 (dev.display_ram_index.val + 1)
            else 0
          else dev.display_ram_index).val = _
    split_ifs
    · exact h1
    · rfl
    · rfl

/-! ### Serial input -/

/-- The output `switch` leaves the input fields as they are. -/
theorem serial_execute_output_input (s : serial_t) (c : i8085_t) :
    (serial_execute_output s c).1.input_state = s.input_state ∧
    (serial_execute_output s c).1.input_sample_no = s.input_sample_no ∧
    (serial_execute_output s c).1.input_data_bit = s.input_data_bit ∧
    (serial_execute_output s c).1.input_byte = s.input_byte := by
  unfold serial_execute_output
  cases s.output_state
  · dsimp only
    split_ifs <;> exact ⟨rfl, rfl, rfl, rfl⟩
  · dsimp only
    split_ifs <;> exact ⟨rfl, rfl, rfl, rfl⟩
  · dsimp only
    split_ifs <;> exact ⟨rfl, rfl, rfl, rfl⟩
  · dsimp only
    split_ifs <;> exact ⟨rfl, rfl, rfl, rfl⟩

/-- The input `switch` during the start bit, not its last sample. -/
theorem serial_input_start_more (t : serial_t) (c : i8085_t)
    (hs : t.input_state = serial_state_t.SERIAL_STATE_START_BIT)
    (hk : t.input_sample_no + 1 < 27) :
    (serial_execute_input t c).1.input_state = serial_state_t.SERIAL_STATE_START_BIT ∧
    (serial_execute_input t c).1.input_sample_no = t.input_sample_no + 1 ∧
    (serial_execute_input t c).1.input_byte = t.input_byte ∧
    (serial_execute_input t c).2.mask.sid = false := by
  have hk' : ¬ t.input_sample_no + 1 ≥ 27 := by omega
  unfold serial_execute_input
  simp only [hs, SERIAL_SAMPLE_LIMIT, hk', if_false]
  simp only [and_self]

/-- The input `switch` at the last sample of the start bit. -/
theorem serial_input_start_last (t : serial_t) (c : i8085_t)
    (hs : t.input_state = serial_state_t.SERIAL_STATE_START_BIT)
    (hk : t.input_sample_no + 1 ≥ 27) :
    (serial_execute_input t c).1.input_state = serial_state_t.SERIAL_STATE_DATA_BIT ∧
    (serial_execute_input t c).1.input_sample_no = 0 ∧
    (serial_execute_input t c).1.input_data_bit = 0 ∧
    (serial_execute_input t c).1.input_byte = t.input_byte ∧
    (serial_execute_input t c).2.mask.sid = false := by
  unfold serial_execute_input
  simp only [hs, SERIAL_SAMPLE_LIMIT, hk, if_true]
  simp only [and_self]

/-- The input `switch` inside a data window, not its last sample. -/
theorem serial_input_data_more (t : serial_t) (c : i8085_t)
    (hs : t.input_state = serial_state_t.SERIAL_STATE_DATA_BIT)
    (hk : t.input_sample_no + 1 < 27) :
    (serial_execute_input t c).1.input_state = serial_state_t.SERIAL_STATE_DATA_BIT ∧
    (serial_execute_input t c).1.input_sample_no = t.input_sample_no + 1 ∧
    (serial_execute_input t c).1.input_data_bit = t.input_data_bit ∧
    (serial_execute_input t c).1.input_byte = t.input_byte ∧
    (serial_execute_input t c).2.mask.sid
      = decide ((t.input_byte.val >>> t.input_data_bit.toNat) % 2 = 1) := by
  have hk' : ¬ t.input_sample_no + 1 ≥ 27 := by omega
  unfold serial_execute_input
  simp only [hs, SERIAL_SAMPLE_LIMIT, hk', if_false]
  simp only [and_self]

/-- The input `switch` at the last sample of a data window that is not the seventh. -/
theorem serial_input_data_next (t : serial_t) (c : i8085_t)
    (hs : t.input_state = serial_state_t.SERIAL_STATE_DATA_BIT)
    (hk : t.input_sample_no + 1 ≥ 27) (hb : t.input_data_bit + 1 < 7) :
    (serial_execute_input t c).1.input_state = serial_state_t.SERIAL_STATE_DATA_BIT ∧
    (serial_execute_input t c).1.input_sample_no = 0 ∧
    (serial_execute_input t c).1.input_data_bit = t.input_data_bit + 1 ∧
    (serial_execute_input t c).1.input_byte = t.input_byte ∧
    (serial_execute_input t c).2.mask.sid
      = decide ((t.input_byte.val >>> t.input_data_bit.toNat) % 2 = 1) := by
  have hb' : ¬ t.input_data_bit + 1 ≥ 7 := by omega
  unfold serial_execute_input
  simp only [hs, SERIAL_SAMPLE_LIMIT, SERIAL_DATA_BITS, hk, hb', if_true, if_false]
  simp only [and_self]

/-- The input `switch` at the last sample of the seventh data window. -/
theorem serial_input_data_last (t : serial_t) (c : i8085_t)
    (hs : t.input_state = serial_state_t.SERIAL_STATE_DATA_BIT)
    (hk : t.input_sample_no + 1 ≥ 27) (hb : t.input_data_bit + 1 ≥ 7) :
    (serial_execute_input t c).1.input_state = serial_state_t.SERIAL_STATE_STOP_BIT ∧
    (serial_execute_input t c).1.input_sample_no = 0 ∧
    (serial_execute_input t c).1.input_byte = t.input_byte ∧
    (serial_execute_input t c).2.mask.sid
      = decide ((t.input_byte.val >>> t.input_data_bit.toNat) % 2 = 1) := by
  unfold serial_execute_input
  simp only [hs, SERIAL_SAMPLE_LIMIT, SERIAL_DATA_BITS, hk, hb, if_true]
  simp only [and_self]

/-- The input `switch` during the stop bit, not its last sample. -/
theorem serial_input_stop_more (t : serial_t) (c : i8085_t)
    (hs : t.input_state = serial_state_t.SERIAL_STATE_STOP_BIT)
    (hk : t.input_sample_no + 1 < 27) :
    (serial_execute_input t c).1.input_state = serial_state_t.SERIAL_STATE_STOP_BIT ∧
    (serial_execute_input t c).1.input_sample_no = t.input_sample_no + 1 ∧
    (serial_execute_input t c).1.input_byte = t.input_byte ∧
    (serial_execute_input t c).2.mask.sid = true := by
  have hk' : ¬ t.input_sample_no + 1 ≥ 27 := by omega
  unfold serial_execute_input
  simp only [hs, SERIAL_SAMPLE_LIMIT, hk', if_false]
  simp only [and_self]

/-- The input `switch` at the last sample of the stop bit. -/
theorem serial_input_stop_last (t : serial_t) (c : i8085_t)
    (hs : t.input_state = serial_state_t.SERIAL_STATE_STOP_BIT)
    (hk : t.input_sample_no + 1 ≥ 27) :
    (serial_execute_input t c).1.input_state = serial_state_t.SERIAL_STATE_IDLE ∧
    (serial_execute_input t c).1.input_byte = t.input_byte ∧
    (serial_execute_input t c).2.mask.sid = true := by
  unfold serial_execute_input
  simp only [hs, SERIAL_SAMPLE_LIMIT, hk, if_true]
  simp only [and_self]

theorem shift_bit (x i : Nat) : decide ((x >>> i) % 2 = 1) = x.testBit i := by
  rw [Nat.testBit_to_div_mod, Nat.shiftRight_eq_div_pow]

/-- One sampled call inside a frame: the input side moves from position `j` to `j + 1` and
the call drives `sid` to the level of sample `j + 1`. -/
theorem serial_frame_step (c : uint8_t) (j : Nat) (s : serial_t) (cpu : i8085_t)
    (hinv : input_frame_at c j s) (hj : j < 243)
    (h : ¬ cpu.cycles.val < s.catchup_cycles.val) :
    input_frame_at c (j + 1) (serial_execute s cpu).1 ∧
    (serial_execute s cpu).2.1.mask.sid = sid_frame c j ∧
    ((serial_execute s cpu).1.input_state = serial_state_t.SERIAL_STATE_IDLE ↔ j = 242) := by
  rw [serial_execute_sampled s cpu h]
  dsimp only
  obtain ⟨o1, o2, o3, o4⟩ := serial_execute_output_input
    { s with catchup_cycles := u64 (s.catchup_cycles.val + SERIAL_CYCLE_CATCHUP_SKIP) } cpu
  generalize (serial_execute_output
    { s with catchup_cycles := u64 (s.catchup_cycles.val + SERIAL_CYCLE_CATCHUP_SKIP) }
    cpu).1 = t at o1 o2 o3 o4
  dsimp only at o1 o2 o3 o4
  obtain ⟨hb, hph⟩ := hinv
  unfold input_frame_at sid_frame
  by_cases h1 : j < 27
  · rw [if_pos h1] at hph
    obtain ⟨hs, hn⟩ := hph
    rw [if_pos h1]
    by_cases h2 : j + 1 < 27
    · obtain ⟨a1, a2, a3, a4⟩ := serial_input_start_more t cpu (by rw [o1, hs])
        (by rw [o2, hn]; omega)
      rw [if_pos h2, a1, a2, a3, a4, o2, o4, hn, hb]
      refine ⟨⟨rfl, rfl, by push_cast; rfl⟩, rfl, ?_⟩
      constructor
      · intro e; cases e
      · intro e; omega
    · obtain ⟨a1, a2, a3, a4, a5⟩ := serial_input_start_last t cpu (by rw [o1, hs])
        (by rw [o2, hn]; omega)
      have e27 : j + 1 = 27 := by omega
      rw [if_neg h2, if_pos (by omega), a1, a2, a3, a4, a5, o4, hb, e27]
      refine ⟨⟨rfl, rfl, rfl, rfl⟩, rfl, ?_⟩
      constructor
      · intro e; cases e
      · intro e; omega
  · rw [if_neg h1] at hph
    rw [if_neg h1]
    by_cases h3 : j < 216
    · rw [if_pos h3] at hph
      obtain ⟨hs, hd, hn⟩ := hph
      rw [if_pos h3, if_neg (by omega : ¬ j + 1 < 27)]
      have hbit : decide ((t.input_byte.val >>> t.input_data_bit.toNat) % 2 = 1)
          = c.val.testBit (j / 27 - 1) := by
        rw [o3, o4, hd, hb, Int.toNat_ofNat, shift_bit]
      by_cases h4 : j % 27 + 1 < 27
      · obtain ⟨a1, a2, a3, a4, a5⟩ := serial_input_data_more t cpu (by rw [o1, hs])
          (by rw [o2, hn]; omega)
        rw [if_pos (by omega : j + 1 < 216), a1, a2, a3, a4, a5, hbit, o2, o3, o4, hn, hd, hb]
        refine ⟨⟨rfl, rfl, ?_, ?_⟩, rfl, ?_⟩
        · congr 1; omega
        · have e : (j + 1) % 27 = j % 27 + 1 := by omega
          rw [e]; push_cast; rfl
        · constructor
          · intro e; cases e
          · intro e; omega
      · by_cases h5 : j / 27 - 1 + 1 < 7
        · obtain ⟨a1, a2, a3, a4, a5⟩ := serial_input_data_next t cpu (by rw [o1, hs])
            (by rw [o2, hn]; omega) (by rw [o3, hd]; omega)
          rw [if_pos (by omega : j + 1 < 216), a1, a2, a3, a4, a5, hbit, o3, o4, hd, hb]
          refine ⟨⟨rfl, rfl, ?_, ?_⟩, rfl, ?_⟩
          · have e : (j + 1) / 27 - 1 = j / 27 - 1 + 1 := by omega
            rw [e]; push_cast; rfl
          · have e : (j + 1) % 27 = 0 := by omega
            rw [e]; rfl
          · constructor
            · intro e; cases e
            · intro e; omega
        · obtain ⟨a1, a2, a3, a4⟩ := serial_input_data_last t cpu (by rw [o1, hs])
            (by rw [o2, hn]; omega) (by rw [o3, hd]; omega)
          rw [if_neg (by omega : ¬ j + 1 < 216), if_pos (by omega : j + 1 < 243),
            a1, a2, a3, a4, hbit, o4, hb]
          refine ⟨⟨rfl, rfl, ?_⟩, rfl, ?_⟩
          · have e : (j + 1) % 27 = 0 := by omega
            rw [e]; rfl
          · constructor
            · intro e; cases e
            · intro e; omega
    · rw [if_neg h3, if_pos hj] at hph
      obtain ⟨hs, hn⟩ := hph
      rw [if_neg h3, if_neg (by omega : ¬ j + 1 < 27), if_neg (by omega : ¬ j + 1 < 216)]
      by_cases h4 : j + 1 < 243
      · obtain ⟨a1, a2, a3, a4⟩ := serial_input_stop_more t cpu (by rw [o1, hs])
          (by rw [o2, hn]; omega)
        rw [if_pos h4, a1, a2, a3, a4, o2, o4, hn, hb]
        refine ⟨⟨rfl, rfl, ?_⟩, rfl, ?_⟩
        · have e : (j + 1) % 27 = j % 27 + 1 := by omega
          rw [e]; push_cast; rfl
        · constructor
          · intro e; cases e
          · intro e; omega
      · obtain ⟨a1, a2, a3⟩ := serial_input_stop_last t cpu (by rw [o1, hs])
          (by rw [o2, hn]; omega)
        rw [if_neg h4, a1, a2, a3, o4, hb]
        refine ⟨⟨rfl, rfl⟩, rfl, ?_⟩
        constructor
        · intro _; omega
        · intro _; rfl

/-- Sampled calls inside a frame, from position `j` on: the levels driven on `sid` and
whether the input side is idle after each call. -/
theorem serial_frame_trace (c : uint8_t) (cpus : List i8085_t) :
    ∀ (j : Nat) (s : serial_t), input_frame_at c j s → j + cpus.length ≤ 243 →
      serial_sampled s cpus →
      (serial_trace s cpus).map (fun r => r.2.mask.sid)
        = (List.range' j cpus.length).map (sid_frame c) ∧
      (serial_trace s cpus).map
          (fun r => decide (r.1.input_state = serial_state_t.SERIAL_STATE_IDLE))
        = (List.range' j cpus.length).map (fun i => decide (i = 242)) := by
  induction cpus with
  | nil =>
    intro j s _ _ _
    exact ⟨rfl, rfl⟩
  | cons cpu cpus ih =>
    intro j s hinv hlen hs
    rw [List.length_cons] at hlen
    obtain ⟨h, hrest⟩ := hs
    obtain ⟨i1, i2, i3⟩ := serial_frame_step c j s cpu hinv (by omega) h
    obtain ⟨r1, r2⟩ := ih (j + 1) _ i1 (by omega) hrest
    simp only [serial_trace, List.map_cons, List.length_cons, List.range'_succ, r1, r2, i2,
      decide_eq_decide.mpr i3]
    exact ⟨trivial, trivial⟩

/-- C31. For every character `ch` other than `EOF` handed to `serial_input` while the
input state is idle, the byte `c` loaded is `ch` (carriage return for line feed), and the
next 243 sampled calls of `serial_execute` drive `sid` to 0 during samples 1..27, to bit
`i` of `c` during samples `27*(i+1)+1 .. 27*(i+2)` for `i = 0..6`, and to 1 during samples
217..243; the input state is idle after the 243rd call and after none of the 242 before. -/
theorem C31_serial_input_frame (serial : serial_t) (ch : Int) (cpus : List i8085_t)
    (hidle : serial.input_state = serial_state_t.SERIAL_STATE_IDLE) (heof : ch ≠ EOF)
    (hlen : cpus.length = 243)
    (hs : ∀ s0, serial_input serial ch = some s0 → serial_sampled s0 cpus) :
    ∃ s0 : serial_t, serial_input serial ch = some s0 ∧
      s0.input_byte = u8i (if ch = 0x0A then 0x0D else ch) ∧
      (serial_trace s0 cpus).map (fun r => r.2.mask.sid)
        = (List.range 243).map (sid_frame s0.input_byte) ∧
      (serial_trace s0 cpus).map
          (fun r => decide (r.1.input_state = serial_state_t.SERIAL_STATE_IDLE))
        = (List.range 243).map (fun j => decide (j = 242)) := by
  have e : serial_input serial ch = some
      { serial with input_byte := u8i (if ch = 0x0A then 0x0D else ch)
                    input_sample_no := 0
                    input_state := serial_state_t.SERIAL_STATE_START_BIT } := by
    unfold serial_input
    rw [if_neg heof]
    dsimp only
    rw [if_pos hidle]
  refine ⟨_, e, rfl, ?_⟩
  have hinv : input_frame_at (u8i (if ch = 0x0A then 0x0D else ch)) 0
      { serial with input_byte := u8i (if ch = 0x0A then 0x0D else ch)
                    input_sample_no := 0
                    input_state := serial_state_t.SERIAL_STATE_START_BIT } := by
    unfold input_frame_at
    rw [if_pos (by decide : (0 : Nat) < 27)]
    exact ⟨rfl, rfl, rfl⟩
  have h := serial_frame_trace _ cpus 0 _ hinv (by omega) (hs _ e)
  rw [hlen, ← List.range_eq_range'] at h
  exact h

theorem C31_serial_input_frame_witness :
    ∃ s0 : serial_t, serial_input serial_init 0x41 = some s0 ∧
      s0.input_byte = u8i (if (0x41 : Int) = 0x0A then 0x0D else 0x41) ∧
      (serial_trace s0 serial_frame_cpus).map (fun r => r.2.mask.sid)
        = (List.range 243).map (sid_frame s0.input_byte) ∧
      (serial_trace s0 serial_frame_cpus).map
          (fun r => decide (r.1.input_state = serial_state_t.SERIAL_STATE_IDLE))
        = (List.range 243).map (fun j => decide (j = 242)) :=
  C31_serial_input_frame serial_init 0x41 serial_frame_cpus rfl (by decide) rfl
    (fun s0 _ => serial_sampled_of_max serial_frame_cpus s0
      (fun c hc => by rw [List.eq_of_mem_replicate hc]; rfl))

/-! ### Table dispatch and bitfield decoding -/

theorem shl8_or (a b : Nat) (h : b < 256) : (a <<< 8) ||| b = a * 256 + b := by
  have e := Nat.mul_add_lt_is_or (show b < 2 ^ 8 from h) a
  rw [Nat.shiftLeft_eq, Nat.mul_comm a (2 ^ 8), ← e]

theorem decoded_m_address_eq (cpu : i8085_t) :
    decoded_m_address cpu = u16 ((u16 cpu.l.val).val + cpu.h.val * 0x100) := by
  have h1 := cpu.l.isLt
  have h2 := cpu.h.isLt
  unfold decoded_m_address
  rw [shl8_or _ _ h1]
  apply Fin.ext
  simp only [u16]
  omega

theorem bind_pure_eq (x y : Option machine_t) (h : y = x.bind (fun s => pure s)) : y = x := by
  cases x <;> exact h

set_option maxRecDepth 8192 in
/-- The handlers of `0x70..0x77` other than `HLT` are the decoded `MOV M,r`. -/
theorem mov_m_table_decoded (n : Nat) (h1 : 0x70 ≤ n) (h2 : n ≤ 0x77)
    (h3 : n ≠ 0x76) (s : machine_t) :
    (opcode_function_at (u8 n)).call s = decoded_mov (u8 n) s := by
  interval_cases n
  case «118» => exact absurd rfl h3
  all_goals
    simp only [decoded_mov, decoded_source, decoded_store, decoded_m_address_eq]
    refine bind_pure_eq _ _ ?_
    rfl

set_option maxHeartbeats 4000000 in
set_option maxRecDepth 8192 in
/-- The handlers of `0x40..0x6F` and `0x78..0x7F` are the decoded `MOV r,r` and `MOV r,M`. -/
theorem mov_r_table_decoded (n : Nat) (h1 : 0x40 ≤ n) (h2 : n ≤ 0x7F)
    (h3 : ¬ (0x70 ≤ n ∧ n ≤ 0x77)) (s : machine_t) :
    (opcode_function_at (u8 n)).call s = decoded_mov (u8 n) s := by
  have h4 : n ≤ 0x6F ∨ 0x78 ≤ n := by omega
  rcases h4 with h4 | h4
  · interval_cases n <;>
      (simp only [decoded_mov, decoded_source, decoded_store, decoded_m_address_eq]; rfl)
  · interval_cases n <;>
      (simp only [decoded_mov, decoded_source, decoded_store, decoded_m_address_eq]; rfl)

set_option maxHeartbeats 4000000 in
set_option maxRecDepth 8192 in
/-- The handlers of `0x80..0xBF` are the decoded arithmetic and logic instructions. -/
theorem alu_table_decoded (n : Nat) (h1 : 0x80 ≤ n) (h2 : n ≤ 0xBF) (s : machine_t) :
    (opcode_function_at (u8 n)).call s = decoded_alu (u8 n) s := by
  interval_cases n <;>
    (simp only [decoded_alu, decoded_source, decoded_operation, decoded_m_address_eq]; rfl)

theorem u8_of_val (op : uint8_t) : u8 op.val = op :=
  Fin.ext (Nat.mod_eq_of_lt op.isLt)

/-- The handlers of `0x40..0x7F` other than `HLT` are the decoded `MOV`. -/
theorem mov_table_decoded (op : uint8_t) (h1 : 0x40 ≤ op.val) (h2 : op.val ≤ 0x7F)
    (h3 : op.val ≠ 0x76) (s : machine_t) :
    (opcode_function_at op).call s = decoded_mov op s := by
  have e := u8_of_val op
  by_cases hm : 0x70 ≤ op.val ∧ op.val ≤ 0x77
  · have h := mov_m_table_decoded op.val hm.1 hm.2 h3 s
    rwa [e] at h
  · have h := mov_r_table_decoded op.val h1 h2 hm s
    rwa [e] at h

theorem machine_read_cpu (s s1 : machine_t) (a : uint16_t) (v : uint8_t)
    (h : s.read a = some (v, s1)) : s1.cpu = s.cpu := by
  unfold machine_t.read at h
  cases hm : mem_read s.mem a with
  | none => rw [hm] at h; cases h
  | some r =>
    obtain ⟨v1, m⟩ := r
    rw [hm] at h
    simp only [Option.some.injEq, Prod.mk.injEq] at h
    rw [← h.2]

theorem machine_write_cpu (s s1 : machine_t) (a : uint16_t) (v : uint8_t)
    (h : s.write a v = some s1) : s1.cpu = s.cpu := by
  unfold machine_t.write at h
  cases hm : mem_write s.mem a v with
  | none => rw [hm] at h; cases h
  | some m =>
    rw [hm] at h
    simp only [Option.some.injEq] at h
    rw [← h]

theorem decoded_source_cpu (r : Nat) (s s1 : machine_t) (v : uint8_t)
    (h : decoded_source r s = some (v, s1)) : s1.cpu = s.cpu := by
  unfold decoded_source at h
  split at h
  · exact machine_read_cpu _ _ _ _ h
  · simp only [Option.some.injEq, Prod.mk.injEq] at h
    rw [← h.2]

/-- A store into the destination `d` leaves the flags, `sp`, `pc`, the interrupt mask and
every register other than `d` as they are. -/
theorem decoded_store_frame (d : Nat) (hd8 : d < 8) (s s1 : machine_t) (v : uint8_t)
    (h : decoded_store d s v = some s1) :
    s1.cpu.flag = s.cpu.flag ∧ s1.cpu.sp = s.cpu.sp ∧ s1.cpu.pc = s.cpu.pc ∧
    s1.cpu.mask = s.cpu.mask ∧ s1.cpu.sod = s.cpu.sod ∧ s1.cpu.halt = s.cpu.halt ∧
    s1.cpu.cycles = s.cpu.cycles ∧
    (d ≠ 0 → s1.cpu.b = s.cpu.b) ∧ (d ≠ 1 → s1.cpu.c = s.cpu.c) ∧
    (d ≠ 2 → s1.cpu.d = s.cpu.d) ∧ (d ≠ 3 → s1.cpu.e = s.cpu.e) ∧
    (d ≠ 4 → s1.cpu.h = s.cpu.h) ∧ (d ≠ 5 → s1.cpu.l = s.cpu.l) ∧
    (d ≠ 7 → s1.cpu.a = s.cpu.a) := by
  by_cases h6 : d = 6
  · subst h6
    have e := machine_write_cpu _ _ _ _ h
    rw [e]
    exact ⟨rfl, rfl, rfl, rfl, rfl, rfl, rfl, fun _ => rfl, fun _ => rfl, fun _ => rfl,
      fun _ => rfl, fun _ => rfl, fun _ => rfl, fun _ => rfl⟩
  · interval_cases d <;>
      first
      | exact absurd rfl h6
      | (simp only [decoded_store, Option.some.injEq] at h
         rw [← h]
         refine ⟨rfl, rfl, rfl, rfl, rfl, rfl, rfl, ?_, ?_, ?_, ?_, ?_, ?_, ?_⟩ <;> intro hd <;>
           first | rfl | exact absurd rfl hd)

theorem and_7_lt (x : Nat) : x &&& 7 < 8 := by
  have e := Nat.and_pow_two_sub_one_eq_mod x 3
  have e2 : (2 ^ 3 - 1 : Nat) = 7 := rfl
  rw [e2] at e
  rw [e]
  exact Nat.mod_lt _ (by decide)

/-- A decoded `MOV` that returns has changed no flag and no register other than its
destination. -/
theorem decoded_mov_frame (op : uint8_t) (s s1 : machine_t) (h : decoded_mov op s = some s1) :
    s1.cpu.flag = s.cpu.flag ∧ s1.cpu.sp = s.cpu.sp ∧ s1.cpu.pc = s.cpu.pc ∧
    s1.cpu.mask = s.cpu.mask ∧ s1.cpu.sod = s.cpu.sod ∧ s1.cpu.halt = s.cpu.halt ∧
    s1.cpu.cycles = s.cpu.cycles ∧
    ((op.val >>> 3) &&& 7 ≠ 0 → s1.cpu.b = s.cpu.b) ∧
    ((op.val >>> 3) &&& 7 ≠ 1 → s1.cpu.c = s.cpu.c) ∧
    ((op.val >>> 3) &&& 7 ≠ 2 → s1.cpu.d = s.cpu.d) ∧
    ((op.val >>> 3) &&& 7 ≠ 3 → s1.cpu.e = s.cpu.e) ∧
    ((op.val >>> 3) &&& 7 ≠ 4 → s1.cpu.h = s.cpu.h) ∧
    ((op.val >>> 3) &&& 7 ≠ 5 → s1.cpu.l = s.cpu.l) ∧
    ((op.val >>> 3) &&& 7 ≠ 7 → s1.cpu.a = s.cpu.a) := by
  unfold decoded_mov at h
  cases hs : decoded_source (op.val &&& 7) s with
  | none => rw [hs] at h; cases h
  | some r =>
    obtain ⟨v, t⟩ := r
    rw [hs] at h
    have e := decoded_source_cpu _ _ _ _ hs
    have f := decoded_store_frame _ (and_7_lt _) t s1 v h
    rw [e] at f
    exact f

/-- C34. The table dispatch agrees with the bitfield decoding of the opcode. On a
non-halted machine whose fetch yields `op`: for `op` in `0x40..0x7F` other than `0x76`
the step is the decoded `MOV` (the source selected by bits 2..0, order B, C, D, E, H, L,
M, A with `M` the bus byte at `(H<<8)|L`, copied into the destination selected by bits
5..3) run after the fetch, and a step that returns leaves the flags, `sp`, the interrupt
mask and every register other than the destination as they were; for `op` in `0x80..0xBF`
the step is the decoded arithmetic or logic instruction (the operation selected by bits
5..3, order ADD, ADC, SUB, SBB, ANA, XRA, ORA, CMP, applied to `A` and the source selected
by bits 2..0). -/
theorem C34_table_dispatch_is_bitfield_decoding (s : machine_t) (op : uint8_t) (m1 : mem_t)
    (hh : s.cpu.halt = false) (hf : mem_read s.mem s.cpu.pc = some (op, m1)) :
    (0x40 ≤ op.val → op.val ≤ 0x7F → op.val ≠ 0x76 →
      i8085_execute s = decoded_mov op (fetched s op m1) ∧
      ∀ s1, i8085_execute s = some s1 →
        s1.cpu.flag = s.cpu.flag ∧ s1.cpu.sp = s.cpu.sp ∧ s1.cpu.mask = s.cpu.mask ∧
        s1.cpu.sod = s.cpu.sod ∧ s1.cpu.halt = s.cpu.halt ∧
        s1.cpu.pc = u16 (s.cpu.pc.val + 1) ∧
        ((op.val >>> 3) &&& 7 ≠ 0 → s1.cpu.b = s.cpu.b) ∧
        ((op.val >>> 3) &&& 7 ≠ 1 → s1.cpu.c = s.cpu.c) ∧
        ((op.val >>> 3) &&& 7 ≠ 2 → s1.cpu.d = s.cpu.d) ∧
        ((op.val >>> 3) &&& 7 ≠ 3 → s1.cpu.e = s.cpu.e) ∧
        ((op.val >>> 3) &&& 7 ≠ 4 → s1.cpu.h = s.cpu.h) ∧
        ((op.val >>> 3) &&& 7 ≠ 5 → s1.cpu.l = s.cpu.l) ∧
        ((op.val >>> 3) &&& 7 ≠ 7 → s1.cpu.a = s.cpu.a)) ∧
    (0x80 ≤ op.val → op.val ≤ 0xBF →
      i8085_execute s = decoded_alu op (fetched s op m1)) := by
  have hx := i8085_execute_fetch s op m1 hh hf
  refine ⟨?_, ?_⟩
  · intro h1 h2 h3
    have e : i8085_execute s = decoded_mov op (fetched s op m1) :=
      hx.trans (mov_table_decoded op h1 h2 h3 _)
    refine ⟨e, ?_⟩
    intro s1 hs1
    rw [e] at hs1
    obtain ⟨f1, f2, f3, f4, f5, f6, -, g0, g1, g2, g3, g4, g5, g7⟩ :=
      decoded_mov_frame op _ s1 hs1
    exact ⟨f1, f2, f4, f5, f6, f3, g0, g1, g2, g3, g4, g5, g7⟩
  · intro h1 h2
    have e := u8_of_val op
    have h := alu_table_decoded op.val h1 h2 (fetched s op m1)
    rw [e] at h
    exact hx.trans h

theorem C34_table_dispatch_is_bitfield_decoding_witness :
    i8085_execute machine_mov_b_c
      = decoded_mov 0x41 (fetched machine_mov_b_c 0x41 machine_mov_b_c.mem) ∧
    i8085_execute machine_add_c
      = decoded_alu 0x81 (fetched machine_add_c 0x81 machine_add_c.mem) :=
  ⟨((C34_table_dispatch_is_bitfield_decoding machine_mov_b_c 0x41 machine_mov_b_c.mem rfl
      rfl).1 (by decide) (by decide) (by decide)).1,
    (C34_table_dispatch_is_bitfield_decoding machine_add_c 0x81 machine_add_c.mem rfl
      rfl).2 (by decide) (by decide)⟩

/-! ### Reserved flag bits -/

theorem keeps_pure (r : Bool × Bool × Bool) (x : machine_t) (h : has_reserved r x) :
    keeps_reserved r (pure x) := by
  intro s1 e
  cases e
  exact h

theorem keeps_read (r : Bool × Bool × Bool) (s : machine_t) (a : uint16_t)
    (f : uint8_t × machine_t → Option machine_t) (hk : has_reserved r s)
    (hf : ∀ v s1, has_reserved r s1 → keeps_reserved r (f (v, s1))) :
    keeps_reserved r (s.read a >>= f) := by
  intro s2 e
  cases hx : s.read a with
  | none => rw [hx] at e; cases e
  | some p =>
    obtain ⟨v, s1⟩ := p
    rw [hx] at e
    have hc := machine_read_cpu s s1 a v hx
    exact hf v s1 (by unfold has_reserved; rw [hc]; exact hk) s2 e

theorem keeps_write (r : Bool × Bool × Bool) (s : machine_t) (a : uint16_t) (v : uint8_t)
    (f : machine_t → Option machine_t) (hk : has_reserved r s)
    (hf : ∀ s1, has_reserved r s1 → keeps_reserved r (f s1)) :
    keeps_reserved r (s.write a v >>= f) := by
  intro s2 e
  cases hx : s.write a v with
  | none => rw [hx] at e; cases e
  | some s1 =>
    rw [hx] at e
    have hc := machine_write_cpu s s1 a v hx
    exact hf s1 (by unfold has_reserved; rw [hc]; exact hk) s2 e

theorem keeps_trace_read (r : Bool × Bool × Bool) (s : machine_t) (a : uint16_t)
    (f : machine_t → Option machine_t) (hk : has_reserved r s)
    (hf : ∀ s1, has_reserved r s1 → keeps_reserved r (f s1)) :
    keeps_reserved r (s.trace_read a >>= f) := by
  intro s2 e
  cases hx : s.read a with
  | none =>
    have e0 : s.trace_read a = none := by unfold machine_t.trace_read; rw [hx]
    rw [e0] at e; cases e
  | some p =>
    obtain ⟨v, s1⟩ := p
    have e0 : s.trace_read a = some s1 := by unfold machine_t.trace_read; rw [hx]
    rw [e0] at e
    have hc := machine_read_cpu s s1 a v hx
    exact hf s1 (by unfold has_reserved; rw [hc]; exact hk) s2 e

theorem keeps_read_pc_inc (r : Bool × Bool × Bool) (s : machine_t)
    (f : uint8_t × machine_t → Option machine_t) (hk : has_reserved r s)
    (hf : ∀ v s1, has_reserved r s1 → keeps_reserved r (f (v, s1))) :
    keeps_reserved r (s.read_pc_inc >>= f) := by
  intro s2 e
  cases hx : s.read s.cpu.pc with
  | none =>
    have e0 : s.read_pc_inc = none := by unfold machine_t.read_pc_inc; rw [hx]
    rw [e0] at e; cases e
  | some p =>
    obtain ⟨v, s1⟩ := p
    have e0 : s.read_pc_inc
        = some (v, { s1 with cpu := { s1.cpu with pc := u16 (s1.cpu.pc.val + 1) } }) := by
      unfold machine_t.read_pc_inc; rw [hx]
    rw [e0] at e
    have hc := machine_read_cpu s s1 _ v hx
    exact hf v _ (by unfold has_reserved reserved_bits; dsimp only; rw [hc]; exact hk) s2 e

theorem keeps_read_sp_inc (r : Bool × Bool × Bool) (s : machine_t)
    (f : uint8_t × machine_t → Option machine_t) (hk : has_reserved r s)
    (hf : ∀ v s1, has_reserved r s1 → keeps_reserved r (f (v, s1))) :
    keeps_reserved r (s.read_sp_inc >>= f) := by
  intro s2 e
  cases hx : s.read s.cpu.sp with
  | none =>
    have e0 : s.read_sp_inc = none := by unfold machine_t.read_sp_inc; rw [hx]
    rw [e0] at e; cases e
  | some p =>
    obtain ⟨v, s1⟩ := p
    have e0 : s.read_sp_inc
        = some (v, { s1 with cpu := { s1.cpu with sp := u16 (s1.cpu.sp.val + 1) } }) := by
      unfold machine_t.read_sp_inc; rw [hx]
    rw [e0] at e
    have hc := machine_read_cpu s s1 _ v hx
    exact hf v _ (by unfold has_reserved reserved_bits; dsimp only; rw [hc]; exact hk) s2 e

theorem keeps_write_dec_sp (r : Bool × Bool × Bool) (s : machine_t) (v : uint8_t)
    (f : machine_t → Option machine_t) (hk : has_reserved r s)
    (hf : ∀ s1, has_reserved r s1 → keeps_reserved r (f s1)) :
    keeps_reserved r (s.write_dec_sp v >>= f) := by
  unfold machine_t.write_dec_sp
  exact keeps_write r _ _ v f hk hf

theorem keeps_ite (r : Bool × Bool × Bool) (c : Prop) [Decidable c] (a b : Option machine_t)
    (ha : keeps_reserved r a) (hb : keeps_reserved r b) :
    keeps_reserved r (if c then a else b) := by
  split_ifs
  · exact ha
  · exact hb

theorem keeps_io_write (r : Bool × Bool × Bool) (s : machine_t) (p v : uint8_t)
    (hk : has_reserved r s) : has_reserved r (io_write s p v) := by
  unfold io_write
  split
  · exact hk
  · exact hk

theorem keeps_io_read (r : Bool × Bool × Bool) (s : machine_t) (p : uint8_t)
    (hk : has_reserved r s) : has_reserved r (io_read s p).2 := by
  unfold io_read
  split
  · exact hk
  · rename_i f _
    exact nomatch f

set_option maxHeartbeats 4000000 in
set_option maxRecDepth 8192 in
/-- Every handler other than `op_pop_psw` leaves the reserved flag bits as they are. -/
theorem handler_keeps_reserved (f : i8085_operation_func_t)
    (hf : f ≠ i8085_operation_func_t.op_pop_psw) (r : Bool × Bool × Bool) (s : machine_t)
    (hk : has_reserved r s) : keeps_reserved r (f.call s) := by
  cases f <;>
    first
    | exact absurd rfl hf
    | exact keeps_pure r _ hk
    | (repeat' first
        | exact keeps_pure r _ (by assumption)
        | exact keeps_pure r _ (keeps_io_write r _ _ _ (by assumption))
        | exact keeps_pure r _ (keeps_io_read r _ _ (by assumption))
        | (refine keeps_trace_read r _ _ _ (by assumption) ?_; intro _ _)
        | (refine keeps_read_pc_inc r _ _ (by assumption) ?_; intro _ _ _)
        | (refine keeps_read_sp_inc r _ _ (by assumption) ?_; intro _ _ _)
        | (refine keeps_read r _ _ _ (by assumption) ?_; intro _ _ _)
        | (refine keeps_write_dec_sp r _ _ _ (by assumption) ?_; intro _ _)
        | (refine keeps_write r _ _ _ _ (by assumption) ?_; intro _ _)
        | (refine keeps_ite r _ _ _ ?_ ?_))

set_option maxRecDepth 8192 in
theorem pop_psw_opcode :
    ∀ op : uint8_t, op.val ≠ 0xF1 →
      opcode_function_at op ≠ i8085_operation_func_t.op_pop_psw := by
  decide

/-- A step that does not fetch `POP PSW` leaves the reserved flag bits as they are. -/
theorem step_keeps_reserved (s s1 : machine_t) (h : fetched_opcode s ≠ some 0xF1)
    (hs : i8085_execute s = some s1) : reserved_bits s1.cpu = reserved_bits s.cpu := by
  cases hh : s.cpu.halt with
  | true =>
    simp only [i8085_execute, hh, if_true, Option.some.injEq] at hs
    rw [← hs]
  | false =>
    cases hf : mem_read s.mem s.cpu.pc with
    | none =>
      simp only [i8085_execute, hh, machine_t.read_pc_inc, machine_t.read, hf, bind,
        Option.bind] at hs
      cases hs
    | some p =>
      obtain ⟨op, m1⟩ := p
      have hop : op.val ≠ 0xF1 := by
        intro e
        apply h
        have e2 : op = 0xF1 := Fin.ext e
        rw [fetched_opcode, hh, hf, e2]
        rfl
      rw [i8085_execute_fetch s op m1 hh hf] at hs
      refine handler_keeps_reserved _ (pop_psw_opcode op hop) (reserved_bits s.cpu) _ ?_ s1 hs
      rfl

/-- C38. For every non-halted machine whose fetch yields an opcode other than `POP PSW`
(`0xF1`), an `i8085_execute` step that returns leaves bits 1, 3 and 5 of `F` as they
were. Consequently, from a machine whose reserved bits are 0 (as after `i8085_init`), any
number of steps none of which fetches `POP PSW` ends with the reserved bits still 0. -/
theorem C38_reserved_flag_bits (s s1 : machine_t) (op : uint8_t) (m1 : mem_t)
    (hh : s.cpu.halt = false) (hf : mem_read s.mem s.cpu.pc = some (op, m1))
    (hop : op ≠ 0xF1) (hs : i8085_execute s = some s1) :
    (s1.cpu.flag.f.val / 2 % 2 = s.cpu.flag.f.val / 2 % 2 ∧
      s1.cpu.flag.f.val / 8 % 2 = s.cpu.flag.f.val / 8 % 2 ∧
      s1.cpu.flag.f.val / 32 % 2 = s.cpu.flag.f.val / 32 % 2) ∧
    reserved_bits i8085_init = (false, false, false) ∧
    (∀ (n : Nat) (t t1 : machine_t), reserved_bits t.cpu = (false, false, false) →
      run_avoids 0xF1 n t → i8085_execute_n n t = some t1 →
      reserved_bits t1.cpu = (false, false, false) ∧
      t1.cpu.flag.f.val / 2 % 2 = 0 ∧ t1.cpu.flag.f.val / 8 % 2 = 0 ∧
      t1.cpu.flag.f.val / 32 % 2 = 0) := by
  have hfo : fetched_opcode s ≠ some 0xF1 := by
    rw [fetched_opcode, hh, hf]
    intro e
    exact hop (Option.some.inj e)
  have hr := step_keeps_reserved s s1 hfo hs
  have b1 := flag_f_bits s1.cpu.flag
  have b0 := flag_f_bits s.cpu.flag
  simp only [reserved_bits, Prod.mk.injEq] at hr
  refine ⟨⟨?_, ?_, ?_⟩, rfl, ?_⟩
  · rw [b1.2.1, b0.2.1, hr.1]
  · rw [b1.2.2.2.1, b0.2.2.2.1, hr.2.1]
  · rw [b1.2.2.2.2.2.1, b0.2.2.2.2.2.1, hr.2.2]
  · intro n
    induction n with
    | zero =>
      intro t t1 h0 _ ht
      simp only [i8085_execute_n, Option.some.injEq] at ht
      rw [← ht]
      have b := flag_f_bits t.cpu.flag
      have h0c := h0
      simp only [reserved_bits, Prod.mk.injEq] at h0c
      refine ⟨h0, ?_, ?_, ?_⟩
      · rw [b.2.1, h0c.1]; rfl
      · rw [b.2.2.2.1, h0c.2.1]; rfl
      · rw [b.2.2.2.2.2.1, h0c.2.2]; rfl
    | succ n ih =>
      intro t t1 h0 hav ht
      obtain ⟨ha, hrest⟩ := hav
      cases hx : i8085_execute t with
      | none =>
        simp only [i8085_execute_n, hx, Option.bind] at ht
        cases ht
      | some t2 =>
        simp only [i8085_execute_n, hx, Option.bind] at ht
        have h2 := step_keeps_reserved t t2 ha hx
        exact ih t2 t1 (h2.trans h0) (hrest t2 hx) ht

theorem C38_reserved_flag_bits_witness :
    machine_inr_a.cpu.halt = false ∧
    (∃ s1, i8085_execute machine_inr_a = some s1 ∧
      s1.cpu.flag.f.val / 2 % 2 = machine_inr_a.cpu.flag.f.val / 2 % 2 ∧
      s1.cpu.flag.f.val / 8 % 2 = machine_inr_a.cpu.flag.f.val / 8 % 2 ∧
      s1.cpu.flag.f.val / 32 % 2 = machine_inr_a.cpu.flag.f.val / 32 % 2) :=
  ⟨rfl, _, rfl,
    (C38_reserved_flag_bits machine_inr_a _ 0x3C machine_inr_a.mem rfl rfl (by decide)
      rfl).1⟩

/-! ### HEX loader: the byte loop -/

/-- A round of the loop at a target address outside the ROM: only `data` and `n` move. -/
theorem hex_loop_body_skip (scan : Int → Option uint8_t) (st : hex_loop_t)
    (h1 : 0 ≤ st.n ∧ st.n < HEX_LINE_MAX) (h2 : st.address.val ≥ MEM_ROM_MAX) :
    hex_loop_body scan st
      = some { st with data := (scan st.n).getD st.data, n := st.n + 2 } := by
  unfold hex_loop_body
  rw [if_neg (by omega)]
  dsimp only
  rw [dif_pos h2]

/-- A round of the loop at a target address inside the ROM: the byte is stored, `address`
goes up and `byte_count` down. -/
theorem hex_loop_body_store (scan : Int → Option uint8_t) (st : hex_loop_t)
    (h1 : 0 ≤ st.n ∧ st.n < HEX_LINE_MAX) (h2 : st.address.val < MEM_ROM_MAX) :
    hex_loop_body scan st
      = some { st with
               data := (scan st.n).getD st.data
               n := st.n + 2
               mem := { st.mem with
                        rom := fun i =>
                          if i = ⟨st.address.val, h2⟩ then (scan st.n).getD st.data
                          else st.mem.rom i }
               address := u16 (st.address.val + 1)
               byte_count := u8i ((st.byte_count.val : Int) - 1) } := by
  unfold hex_loop_body
  rw [if_neg (by omega)]
  dsimp only
  rw [dif_neg (by omega)]

/-- A round of the loop with `n` outside the buffer is undefined. -/
theorem hex_loop_body_outside (scan : Int → Option uint8_t) (st : hex_loop_t)
    (h1 : st.n < 0 ∨ st.n ≥ HEX_LINE_MAX) : hex_loop_body scan st = none := by
  unfold hex_loop_body
  rw [if_pos h1]

/-- Once a target address at or above `MEM_ROM_MAX` lies ahead, no bounded run of the loop
finishes: the `continue` skips `byte_count--`. -/
theorem hex_loop_never_finishes (scan : Int → Option uint8_t) (fuel : Nat) :
    ∀ st : hex_loop_t, st.byte_count.val > 0 →
      st.address.val + st.byte_count.val > MEM_ROM_MAX →
      ∀ st1, hex_loop scan fuel st ≠ hex_loop_result_t.finished st1 := by
  induction fuel with
  | zero =>
    intro st hc _ st1
    unfold hex_loop
    rw [if_pos hc]
    intro e
    cases e
  | succ fuel ih =>
    intro st hc ha st1
    have hb := st.byte_count.isLt
    have hal := st.address.isLt
    unfold hex_loop
    rw [if_pos hc]
    dsimp only
    by_cases h1 : st.n < 0 ∨ st.n ≥ HEX_LINE_MAX
    · rw [hex_loop_body_outside scan st h1]
      intro e
      cases e
    · have h1' : 0 ≤ st.n ∧ st.n < HEX_LINE_MAX := by omega
      by_cases h2 : st.address.val ≥ MEM_ROM_MAX
      · rw [hex_loop_body_skip scan st h1' h2]
        exact ih { st with data := (scan st.n).getD st.data, n := st.n + 2 } hc ha st1
      · have h3 : st.address.val < MEM_ROM_MAX := Nat.lt_of_not_le h2
        rw [hex_loop_body_store scan st h1' h3]
        dsimp only
        refine ih _ ?_ ?_ st1
        · show (u8i ((st.byte_count.val : Int) - 1)).val > 0
          simp only [u8i, MEM_ROM_MAX] at *
          omega
        · show (u16 (st.address.val + 1)).val + (u8i ((st.byte_count.val : Int) - 1)).val
            > MEM_ROM_MAX
          simp only [u8i, u16, MEM_ROM_MAX] at *
          omega

/-- A record whose target addresses all lie in the ROM and whose bytes all lie in the
buffer: with enough rounds the loop finishes after `c` rounds, having stored the `c`
bytes at consecutive addresses and nothing else. -/
theorem hex_loop_in_rom (scan : Int → Option uint8_t) (c : Nat) :
    ∀ (fuel : Nat) (st : hex_loop_t), st.byte_count.val = c →
      st.address.val + c ≤ MEM_ROM_MAX → 0 ≤ st.n → st.n + 2 * (c : Int) ≤ 129 → c ≤ fuel →
      ∃ st1, hex_loop scan fuel st = hex_loop_result_t.finished st1 ∧
        st1.byte_count.val = 0 ∧ st1.address.val = st.address.val + c ∧
        st1.n = st.n + 2 * (c : Int) ∧
        (∀ i : Fin MEM_ROM_MAX, (i.val < st.address.val ∨ st.address.val + c ≤ i.val) →
          st1.mem.rom i = st.mem.rom i) ∧
        (∀ d : Nat → uint8_t, (∀ k, k < c → scan (st.n + 2 * (k : Int)) = some (d k)) →
          ∀ (k : Nat) (i : Fin MEM_ROM_MAX), k < c → i.val = st.address.val + k →
            st1.mem.rom i = d k) := by
  induction c with
  | zero =>
    intro fuel st hc _ _ _ _
    refine ⟨st, ?_, hc, rfl, by simp, fun _ _ => rfl, ?_⟩
    · unfold hex_loop
      rw [if_neg (by omega)]
    · intro d _ k i hk
      exact absurd hk (Nat.not_lt_zero k)
  | succ c ih =>
    intro fuel st hc ha hn0 hn hf
    have hb := st.byte_count.isLt
    obtain ⟨f, rfl⟩ : ∃ f, fuel = f + 1 := ⟨fuel - 1, by omega⟩
    have ha2 : st.address.val < MEM_ROM_MAX := by omega
    have h1 : 0 ≤ st.n ∧ st.n < HEX_LINE_MAX := by
      simp only [HEX_LINE_MAX]
      omega
    have e1 : hex_loop scan (f + 1) st = hex_loop scan f
        { st with
          data := (scan st.n).getD st.data
          n := st.n + 2
          mem := { st.mem with
                   rom := fun i =>
                     if i = ⟨st.address.val, ha2⟩ then (scan st.n).getD st.data
                     else st.mem.rom i }
          address := u16 (st.address.val + 1)
          byte_count := u8i ((st.byte_count.val : Int) - 1) } := by
      rw [hex_loop, if_pos (by omega)]
      dsimp only
      rw [hex_loop_body_store scan st h1 ha2]
    have eb : (u8i ((st.byte_count.val : Int) - 1)).val = c := by
      simp only [u8i]
      omega
    have ea : (u16 (st.address.val + 1)).val = st.address.val + 1 := by
      simp only [u16, MEM_ROM_MAX] at *
      omega
    generalize hst2 : ({ st with
          data := (scan st.n).getD st.data
          n := st.n + 2
          mem := { st.mem with
                   rom := fun i =>
                     if i = ⟨st.address.val, ha2⟩ then (scan st.n).getD st.data
                     else st.mem.rom i }
          address := u16 (st.address.val + 1)
          byte_count := u8i ((st.byte_count.val : Int) - 1) } : hex_loop_t) = st2 at e1
    have q1 : st2.byte_count.val = c := by rw [← hst2]; exact eb
    have q2 : st2.address.val = st.address.val + 1 := by rw [← hst2]; exact ea
    have q3 : st2.n = st.n + 2 := by rw [← hst2]
    have q4 : ∀ i, st2.mem.rom i
        = if i = ⟨st.address.val, ha2⟩ then (scan st.n).getD st.data else st.mem.rom i := by
      intro i
      rw [← hst2]
    obtain ⟨st1, r1, r2, r3, r4, r5, r6⟩ := ih f st2 q1 (by rw [q2]; omega) (by rw [q3]; omega)
      (by rw [q3]; push_cast at hn; omega) (by omega)
    rw [q2] at r3 r5 r6
    rw [q3] at r4 r6
    refine ⟨st1, e1.trans r1, r2, by rw [r3]; omega, by rw [r4]; push_cast; omega, ?_, ?_⟩
    · intro i hi
      rw [r5 i (by omega), q4 i]
      have hne : i ≠ ⟨st.address.val, ha2⟩ := by
        intro e
        rw [e] at hi
        simp only at hi
        omega
      rw [if_neg hne]
    · intro d hd k i hk hi
      cases k with
      | zero =>
        have ei : i = ⟨st.address.val, ha2⟩ := Fin.ext (by rw [hi]; rfl)
        have h0 := hd 0 (by omega)
        simp only [Nat.cast_zero, mul_zero, add_zero] at h0
        rw [r5 i (by omega), q4 i, if_pos ei, h0]
        rfl
      | succ k =>
        refine r6 (fun j => d (j + 1)) ?_ k i (by omega) (by omega)
        intro j hj
        have h := hd (j + 1) (by omega)
        have e : st.n + 2 + 2 * (j : Int) = st.n + 2 * ((j + 1 : Nat) : Int) := by
          push_cast
          omega
        rw [e]
        exact h

/-- Once a target address at or above `MEM_ROM_MAX` lies ahead, the rounds go on until
`n` has left the buffer `line`. -/
theorem hex_loop_leaves_buffer (scan : Int → Option uint8_t) (fuel : Nat) :
    ∀ st : hex_loop_t, st.byte_count.val > 0 →
      st.address.val + st.byte_count.val > MEM_ROM_MAX → 0 ≤ st.n → st.n ≤ 129 →
      st.n + 2 * (fuel : Int) ≥ 130 →
      hex_loop scan fuel st = hex_loop_result_t.undefined := by
  induction fuel with
  | zero =>
    intro st _ _ _ hu hn
    push_cast at hn
    omega
  | succ fuel ih =>
    intro st hc ha h0 hu hn
    have hb := st.byte_count.isLt
    have hal := st.address.isLt
    unfold hex_loop
    rw [if_pos hc]
    dsimp only
    by_cases h1 : st.n < 0 ∨ st.n ≥ HEX_LINE_MAX
    · rw [hex_loop_body_outside scan st h1]
    · have h1' : 0 ≤ st.n ∧ st.n < HEX_LINE_MAX := by omega
      by_cases h2 : st.address.val ≥ MEM_ROM_MAX
      · rw [hex_loop_body_skip scan st h1' h2]
        exact ih { st with data := (scan st.n).getD st.data, n := st.n + 2 } hc ha
          (by show 0 ≤ st.n + 2; omega)
          (by show st.n + 2 ≤ 129; simp only [HEX_LINE_MAX] at h1'; omega)
          (by show st.n + 2 + 2 * (fuel : Int) ≥ 130; push_cast at hn; omega)
      · have h3 : st.address.val < MEM_ROM_MAX := Nat.lt_of_not_le h2
        rw [hex_loop_body_store scan st h1' h3]
        dsimp only
        refine ih _ ?_ ?_ ?_ ?_ ?_
        · show (u8i ((st.byte_count.val : Int) - 1)).val > 0
          simp only [u8i, MEM_ROM_MAX] at *
          omega
        · show (u16 (st.address.val + 1)).val + (u8i ((st.byte_count.val : Int) - 1)).val
            > MEM_ROM_MAX
          simp only [u8i, u16, MEM_ROM_MAX] at *
          omega
        · show 0 ≤ st.n + 2
          omega
        · show st.n + 2 ≤ 129
          simp only [HEX_LINE_MAX] at h1'
          omega
        · show st.n + 2 + 2 * (fuel : Int) ≥ 130
          push_cast at hn
          omega

/-- C40. In the byte loop of a data record, the `continue` taken for a target address at
or above `MEM_ROM_MAX` skips `byte_count--`: for every record with a byte count above 0
that has such an address among its targets (`address + byte_count > 0x1000`), no number
of rounds finishes the loop, and a run of 61 rounds or more has left the buffer `line`.
For a record whose targets all lie in the ROM and whose byte count is at most 60, the
loop finishes after exactly `byte_count` rounds, having stored the scanned bytes at
consecutive addresses and left every other ROM byte as it was. -/
theorem C40_record_byte_loop (scan : Int → Option uint8_t) (st : hex_loop_t)
    (hn : st.n = 9) :
    (st.byte_count.val > 0 → st.address.val + st.byte_count.val > MEM_ROM_MAX →
      (∀ fuel st1, hex_loop scan fuel st ≠ hex_loop_result_t.finished st1) ∧
      (∀ fuel, 61 ≤ fuel → hex_loop scan fuel st = hex_loop_result_t.undefined)) ∧
    (st.address.val + st.byte_count.val ≤ MEM_ROM_MAX → st.byte_count.val ≤ 60 →
      ∀ fuel, st.byte_count.val ≤ fuel →
        ∃ st1, hex_loop scan fuel st = hex_loop_result_t.finished st1 ∧
          st1.byte_count.val = 0 ∧
          st1.address.val = st.address.val + st.byte_count.val ∧
          st1.n = 9 + 2 * (st.byte_count.val : Int) ∧
          (∀ i : Fin MEM_ROM_MAX,
            (i.val < st.address.val ∨ st.address.val + st.byte_count.val ≤ i.val) →
            st1.mem.rom i = st.mem.rom i) ∧
          (∀ d : Nat → uint8_t,
            (∀ k, k < st.byte_count.val → scan (9 + 2 * (k : Int)) = some (d k)) →
            ∀ (k : Nat) (i : Fin MEM_ROM_MAX), k < st.byte_count.val →
              i.val = st.address.val + k → st1.mem.rom i = d k)) := by
  refine ⟨?_, ?_⟩
  · intro hc ha
    refine ⟨fun fuel st1 => hex_loop_never_finishes scan fuel st hc ha st1, ?_⟩
    intro fuel hf
    exact hex_loop_leaves_buffer scan fuel st hc ha (by omega) (by omega) (by rw [hn]; omega)
  · intro ha hc fuel hf
    have h := hex_loop_in_rom scan st.byte_count.val fuel st rfl ha (by omega) (by omega) hf
    rw [hn] at h
    exact h

theorem C40_record_byte_loop_witness :
    (∀ fuel st1, hex_loop scan_AA fuel hex_record_at_0x1000 ≠ hex_loop_result_t.finished st1) ∧
    (∀ fuel st1, hex_loop scan_AA fuel hex_record_at_0x0FFF ≠ hex_loop_result_t.finished st1) ∧
    (∃ st1, hex_loop scan_AA 2 hex_record_at_0 = hex_loop_result_t.finished st1 ∧
      st1.byte_count.val = 0) :=
  ⟨((C40_record_byte_loop scan_AA hex_record_at_0x1000 rfl).1 (by decide) (by decide)).1,
    ((C40_record_byte_loop scan_AA hex_record_at_0x0FFF rfl).1 (by decide) (by decide)).1,
    ((C40_record_byte_loop scan_AA hex_record_at_0 rfl).2 (by decide) (by decide) 2
      (by decide)).imp (fun _ h => ⟨h.1, h.2.1⟩)⟩

end SDK85
